import Mathlib

/-!
# FIRRTL to LNAST lowering (`inou/firrtl/fir_tolnast.cpp`)

A shallow embedding of the lowering pass and proofs about it.

Conventions of the embedding.

* `std::string` / `std::string_view` are Lean `String`s; the string primitives
  used by the pass (`find`, `rfind`, `substr`, `at`, `operator[]`,
  `std::replace`) are defined below on the character list.
* `absl::flat_hash_map` / `flat_hash_set` are association lists / lists without
  duplicates kept in insertion order; the pass never relies on iteration order.
* The LNAST under construction is an arena: `add_child` appends an entry that
  records its parent index, so the children of a node are the later entries
  naming it as parent, in insertion order.  The source location triple
  (file, line, column) carried by nodes is not modelled.
* `I(cond)` (a contract assertion), `Pass::error` and the exception of a
  checked access (`at`, `substr`) end the translation of the unit:
  the functions return `Except String _`.  A result `.ok _` therefore also
  describes the build in which `I` compiles to nothing.
* Machine integers are `Nat`; the 16-bit vector-size tables truncate on
  insertion (`% 65536`).
-/

set_option autoImplicit false

/-! ## Strings -/

namespace Str

/-- The text `std::to_string(n)` / `absl::StrCat(n)` of a non-negative integer. -/
def of_nat (n : Nat) : String := toString n

/-- Replaces every dot by an underscore: `std::replace(s.begin(), s.end(), '.', '_')`. -/
def replace_dots (s : String) : String :=
  ⟨s.data.map (fun c => if c = '.' then '_' else c)⟩

/-- Index of the first `c` in a character list, counted from `i`. -/
def find_char_from (c : Char) : List Char → Nat → Option Nat
  | [], _ => none
  | x :: xs, i => if x = c then some i else find_char_from c xs (i + 1)

/-- Position of the first `c`: `s.find(c)` / `s.find_first_of(c)`; `none` is `npos`. -/
def find_char (s : String) (c : Char) : Option Nat := find_char_from c s.data 0

/-- Whether the string holds the character: `absl::StrContains(s, c)`. -/
def contains_char (s : String) (c : Char) : Bool := (find_char s c).isSome

/-- Index of the last `c` in a character list, counted from `i`. -/
def rfind_char_from (c : Char) : List Char → Nat → Option Nat → Option Nat
  | [], _, acc => acc
  | x :: xs, i, acc => rfind_char_from c xs (i + 1) (if x = c then some i else acc)

/-- Position of the last `c`: `s.rfind(c)`. -/
def rfind_char (s : String) (c : Char) : Option Nat := rfind_char_from c s.data 0 none

/-- Index of the first occurrence of the pattern in a character list, counted from `i`. -/
def find_sub_from (p : List Char) : List Char → Nat → Option Nat
  | [], i => if p.isEmpty then some i else none
  | x :: xs, i => if p.isPrefixOf (x :: xs) then some i else find_sub_from p xs (i + 1)

/-- Position of the first occurrence of `p` in `s`: `s.find(p)`. -/
def find_sub (s p : String) : Option Nat := find_sub_from p.data s.data 0

/-- The unchecked tail `s.substr(pos)` for `pos <= s.size()`. -/
def drop (s : String) (pos : Nat) : String := ⟨s.data.drop pos⟩

/-- The piece `s.substr(pos, n)` for `pos <= s.size()`. -/
def substr (s : String) (pos n : Nat) : String := ⟨(s.data.drop pos).take n⟩

/-- The checked tail `s.substr(pos)`: raises `std::out_of_range` when `pos > s.size()`. -/
def substr_from (s : String) (pos : Nat) : Except String String :=
  if pos ≤ s.data.length then .ok (drop s pos) else .error "std::out_of_range"

/-- The checked access `s.at(i)`. -/
def char_at (s : String) (i : Nat) : Except String Char :=
  match s.data.get? i with
  | some c => .ok c
  | none => .error "std::out_of_range"

/-- The unchecked access `s[i]`; reading at the end yields the terminating null character. -/
def index (s : String) (i : Nat) : Char := s.data.getD i (Char.ofNat 0)

/-- The test `isdigit(c) || c == '-' || c == '+'` used to tell constants from references. -/
def starts_numeric (s : String) : Bool :=
  let c := index s 0
  c.isDigit || c = '-' || c = '+'

/-- The part of a hierarchical name before its first dot (the whole name when it has none). -/
def head (s : String) : String :=
  match find_char s '.' with
  | some p => substr s 0 p
  | none => s

end Str

/-! ## Containers -/

/-- Insertion into a `flat_hash_set`. -/
def set_insert {α : Type} [DecidableEq α] (s : List α) (x : α) : List α :=
  if x ∈ s then s else s ++ [x]

/-- A `flat_hash_map` with string keys. -/
abbrev Table (β : Type) := List (String × β)

namespace Table

variable {β : Type}

/-- Lookup `m.find(k)`. -/
def find (m : Table β) (k : String) : Option β := List.lookup k m

/-- Membership test `m.count(k)` / `m.contains(k)`. -/
def has (m : Table β) (k : String) : Bool := (List.lookup k m).isSome

/-- The update `m.insert_or_assign(k, v)`. -/
def insert_or_assign : Table β → String → β → Table β
  | [], k, v => [(k, v)]
  | (k', v') :: rest, k, v =>
    if k' = k then (k, v) :: rest else (k', v') :: insert_or_assign rest k v

/-- The non-overwriting `m.insert({k, v})`. -/
def insert (m : Table β) (k : String) (v : β) : Table β :=
  if has m k then m else m ++ [(k, v)]

/-- The value read by `m[k]`, the default when the key is absent. -/
def get (m : Table β) (k : String) (dflt : β) : β := (List.lookup k m).getD dflt

/-- The table after evaluating `m[k]`: an absent key is entered with the default value. -/
def touch (m : Table β) (k : String) (dflt : β) : Table β :=
  if has m k then m else m ++ [(k, dflt)]

end Table

/-! ## Input: the FIRRTL protobuf tree -/

/-- The message `firrtl::FirrtlPB_Type`; a Bundle field is `(id, is_flipped, type)`. -/
inductive FirrtlPB_Type where
  | kUintType (width : Nat)
  | kSintType (width : Nat)
  | kClockType
  | kBundleType (field : List (String × Bool × FirrtlPB_Type))
  | kVectorType (type : FirrtlPB_Type) (size : Nat)
  | kFixedType
  | kAnalogType (width : Nat)
  | kAsyncResetType
  | kResetType
  | TYPE_NOT_SET

namespace FirrtlPB_Type

/-- The accessor `type.uint_type().width().value()`: 0 unless the type is a UInt. -/
def uint_width : FirrtlPB_Type → Nat
  | kUintType w => w
  | _ => 0

/-- The accessor `type.sint_type().width().value()`: 0 unless the type is an SInt. -/
def sint_width : FirrtlPB_Type → Nat
  | kSintType w => w
  | _ => 0

/-- The accessor `type.analog_type().width().value()`. -/
def analog_width : FirrtlPB_Type → Nat
  | kAnalogType w => w
  | _ => 0

/-- The accessor `type.vector_type().size()`: 0 unless the type is a Vector. -/
def vector_size : FirrtlPB_Type → Nat
  | kVectorType _ n => n
  | _ => 0

end FirrtlPB_Type

/-! ## Output: the LNAST arena -/

/-- Node kinds of the output tree that the pass creates. -/
inductive Lnast_ntype where
  | invalid | top | stmts | assign | ref | const | func_call
  | tuple_add | tuple_get | attr_get | if_
  deriving DecidableEq, Repr

/-- An output node: its kind and its token text. -/
structure Lnast_node where
  type : Lnast_ntype
  text : String
  deriving DecidableEq, Repr

namespace Lnast_node

def create_top : Lnast_node := ⟨.top, ""⟩
def create_stmts : Lnast_node := ⟨.stmts, ""⟩
def create_assign : Lnast_node := ⟨.assign, ""⟩
def create_func_call : Lnast_node := ⟨.func_call, ""⟩
def create_tuple_add : Lnast_node := ⟨.tuple_add, ""⟩
def create_tuple_get : Lnast_node := ⟨.tuple_get, ""⟩
def create_attr_get : Lnast_node := ⟨.attr_get, ""⟩
def create_if : Lnast_node := ⟨.if_, ""⟩
def create_ref (s : String) : Lnast_node := ⟨.ref, s⟩
def create_const (s : String) : Lnast_node := ⟨.const, s⟩
/-- The overload `create_const(int)`. -/
def create_const_nat (n : Nat) : Lnast_node := ⟨.const, Str.of_nat n⟩
/-- A default-constructed node, for which `is_invalid()` holds. -/
def invalid : Lnast_node := ⟨.invalid, ""⟩
def is_invalid (n : Lnast_node) : Bool := n.type = .invalid

end Lnast_node

/-- An arena entry: the node and the index of its parent (`none` for the root). -/
structure Lnast_entry where
  node : Lnast_node
  parent : Option Nat
  deriving DecidableEq, Repr

/-- The tree under construction for one module. -/
structure Lnast where
  top_module_name : String
  nodes : List Lnast_entry
  deriving DecidableEq, Repr

namespace Lnast

/-- The call `lnast.set_root(node)` on a fresh tree. -/
def set_root (name : String) (n : Lnast_node) : Lnast := ⟨name, [⟨n, none⟩]⟩

/-- The call `lnast.add_child(parent, node)`: the node becomes the last child of `parent`;
the result is the new tree and the index of the new node. -/
def add_child (ln : Lnast) (parent : Nat) (n : Lnast_node) : Lnast × Nat :=
  (⟨ln.top_module_name, ln.nodes ++ [⟨n, some parent⟩]⟩, ln.nodes.length)

/-- Indices of the children of node `i`, in order. -/
def children_idx (ln : Lnast) (i : Nat) : List Nat :=
  (List.range ln.nodes.length).filter (fun j =>
    match ln.nodes.get? j with
    | some e => e.parent = some i
    | none => false)

/-- The children of node `i`, in order. -/
def children (ln : Lnast) (i : Nat) : List Lnast_node :=
  (ln.nodes.filter (fun e => e.parent = some i)).map (·.node)

/-- The node stored at index `i`. -/
def node_at (ln : Lnast) (i : Nat) : Option Lnast_node := (ln.nodes.get? i).map (·.node)

end Lnast

/-! ## State of the pass -/

/-- A flip-table set: `flat_hash_set<pair<string, bool>>` of (hierarchical name, accumulated flip). -/
abbrev Flip_set := List (String × Bool)

/-- The process-wide tables `Inou_firrtl::glob_info`. -/
structure Global_info where
  module2inputs : Table (List String) := []
  module2outputs : Table (Table (Nat × Bool)) := []
  var2flip : Table (Table Flip_set) := []
  module_var2vec_size : Table (Table Nat) := []
  ext_module2param : Table (Table String) := []
  deriving DecidableEq, Repr

/-- The module-local members of `Inou_firrtl_module`. -/
structure Inou_firrtl_module where
  tmp_var_cnt : Nat := 0
  dummy_expr_node_cnt : Nat := 0
  input_names : List String := []
  output_names : List String := []
  reg2qpin : Table String := []
  var2vec_size : Table Nat := []
  var2flip : Table Flip_set := []
  wire_names : List String := []
  node_names : List String := []
  memory_names : List String := []
  is_invalid_table : List String := []
  inst2module : Table String := []
  var2last_value : Table String := []
  mport2mem : Table String := []
  mem2port_cnt : Table Int := []
  mem2din_fields : Table (List String) := []
  mem2initial_idx : Table Nat := []
  mem2rd_mports : Table (List (String × Nat)) := []
  mem2one_wr_mport : Table Int := []
  mport_usage_visited : List String := []
  mport2mask_bitvec : Table Nat := []
  mport2mask_cnt : Table Nat := []
  deriving DecidableEq, Repr

/-- Everything one translation unit reads and writes: its tree, its module-local
tables, the global tables, and the warnings logged so far. -/
structure Env where
  lnast : Lnast
  firmod : Inou_firrtl_module := {}
  glob_info : Global_info := {}
  warnings : List String := []
  deriving DecidableEq, Repr

namespace Env

/-- The call `Pass::warn(msg)`. -/
def warn (s : Env) (msg : String) : Env := { s with warnings := s.warnings ++ [msg] }

/-- The call `lnast.add_child(parent, node)` on the unit's tree. -/
def add_child (s : Env) (parent : Nat) (n : Lnast_node) : Env × Nat :=
  ({ s with lnast := (s.lnast.add_child parent n).1 }, s.lnast.nodes.length)

/-- As `add_child`, when the index of the new node is not used. -/
def add_leaf (s : Env) (parent : Nat) (n : Lnast_node) : Env :=
  (s.add_child parent n).1

/-- The statement `wire_names.insert(name)`. -/
def insert_wire_name (s : Env) (name : String) : Env :=
  { s with firmod := { s.firmod with wire_names := set_insert s.firmod.wire_names name } }

end Env

/-- The contract assertion `I(cond)`. -/
def I (cond : Bool) (what : String) : Except String Unit :=
  if cond then .ok () else .error ("assertion failed: " ++ what)

namespace Inou_firrtl_module

/-- Source: `Inou_firrtl_module::create_tmp_var`; returns the name and the updated unit. -/
def create_tmp_var (s : Env) : String × Env :=
  ("___F" ++ Str.of_nat (s.firmod.tmp_var_cnt + 1),
   { s with firmod := { s.firmod with tmp_var_cnt := s.firmod.tmp_var_cnt + 1 } })

/-- Source: `Inou_firrtl_module::name_prefix_modifier_flattener`. -/
def name_prefix_modifier_flattener (s : Env) (name : String) (is_rhs : Bool) :
    Except String String :=
  let flattened_name := Str.replace_dots name
  if name ∈ s.firmod.output_names then .ok ("%" ++ flattened_name)
  else if name ∈ s.firmod.input_names then .ok ("$" ++ flattened_name)
  else match s.firmod.reg2qpin.find flattened_name with
    | some qpin => do
      I (Str.substr qpin 0 3 = "_#_") "reg2qpin[flattened_name].substr(0, 3) == \"_#_\""
      if is_rhs then .ok qpin else .ok flattened_name
    | none => .ok flattened_name

/-- Source: `Inou_firrtl_module::get_vector_size`.  Evaluating `io_var2vec_size[vec_name]`
enters an absent name into the global table with the value 0. -/
def get_vector_size (s : Env) (vec_name : String) : Nat × Env :=
  match s.firmod.var2vec_size.find vec_name with
  | some n => (n, s)
  | none =>
    let module_name := s.lnast.top_module_name
    let s := s.warn "the \"if\" statement below is to enable RocketTile LG generation"
    match s.glob_info.module_var2vec_size.find module_name with
    | none => (1, s)
    | some io_var2vec_size =>
      (io_var2vec_size.get vec_name 0,
       { s with glob_info := { s.glob_info with
           module_var2vec_size :=
             s.glob_info.module_var2vec_size.insert_or_assign module_name
               (io_var2vec_size.touch vec_name 0) } })

/-- Source: `Inou_firrtl_module::add_local_flip_info`. -/
def add_local_flip_info (s : Env) (flipped_in : Bool) (id : String) : Except String Env :=
  match Str.find_char id '.' with
  | none => do
    I (!s.firmod.var2flip.has id) "var2flip.find(id) == var2flip.end()"
    .ok { s with firmod := { s.firmod with
            var2flip := s.firmod.var2flip.insert_or_assign id [(id, flipped_in)] } }
  | some found =>
    let lnast_tupname := Str.substr id 0 found
    match s.firmod.var2flip.find lnast_tupname with
    | none =>
      .ok { s with firmod := { s.firmod with
              var2flip := s.firmod.var2flip.insert_or_assign lnast_tupname [(id, flipped_in)] } }
    | some set =>
      .ok { s with firmod := { s.firmod with
              var2flip := s.firmod.var2flip.insert_or_assign lnast_tupname
                (set_insert set (id, flipped_in)) } }

/-- Source: `Inou_firrtl_module::create_default_value_for_scalar_var` (both overloads). -/
def create_default_value_for_scalar_var (s : Env) (parent_node : Nat) (sv : String)
    (value_node : Lnast_node) : Env :=
  let (s, idx_asg) := s.add_child parent_node Lnast_node.create_assign
  let s := s.add_leaf idx_asg (Lnast_node.create_ref sv)
  let s := s.add_leaf idx_asg value_node
  s.insert_wire_name sv

/-- Source: `Inou_firrtl_module::wire_init_flip_handling`. -/
def wire_init_flip_handling : FirrtlPB_Type → String → Bool → Nat → Env → Except String Env
  | .kBundleType field, id, flipped_in, parent_node, s =>
    fields field id flipped_in parent_node s
  | .kVectorType type size, id, _, parent_node, s =>
    let s := { s with firmod := { s.firmod with
                 var2vec_size := s.firmod.var2vec_size.insert_or_assign id (size % 65536) } }
    (List.range size).foldlM
      (fun s i => wire_init_flip_handling type (id ++ "." ++ Str.of_nat i) false parent_node s) s
  | .kFixedType, _, _, _, _ => .error "assertion failed: false (fixed point)"
  | .kAsyncResetType, id, flipped_in, parent_node, s => do
    let s ← add_local_flip_info s flipped_in id
    .ok (create_default_value_for_scalar_var s parent_node (Str.replace_dots id)
          (Lnast_node.create_const_nat 0))
  | .kSintType _, id, flipped_in, parent_node, s => do
    let s ← add_local_flip_info s flipped_in id
    .ok (create_default_value_for_scalar_var s parent_node (Str.replace_dots id)
          (Lnast_node.create_const_nat 0))
  | .kUintType _, id, flipped_in, parent_node, s => do
    let s ← add_local_flip_info s flipped_in id
    .ok (create_default_value_for_scalar_var s parent_node (Str.replace_dots id)
          (Lnast_node.create_const_nat 0))
  | _, id, flipped_in, _, s => add_local_flip_info s flipped_in id
where
  /-- The loop over the fields of a Bundle. -/
  fields : List (String × Bool × FirrtlPB_Type) → String → Bool → Nat → Env → Except String Env
  | [], _, _, _, s => .ok s
  | (fid, is_flipped, ftype) :: rest, id, flipped_in, parent_node, s => do
    let s ← wire_init_flip_handling ftype (id ++ "." ++ fid)
              (if is_flipped then !flipped_in else flipped_in) parent_node s
    fields rest id flipped_in parent_node s

end Inou_firrtl_module

namespace Inou_firrtl

/-- Source: `Inou_firrtl::add_global_io_flipness`. -/
def add_global_io_flipness (s : Env) (mod_id : String) (flipped_in : Bool) (port_id : String) :
    Env :=
  let tbl := s.glob_info.var2flip.get mod_id []
  let key := Str.head port_id
  let tbl :=
    match Str.find_char port_id '.' with
    | none => tbl.insert_or_assign port_id [(port_id, flipped_in)]
    | some _ =>
      match tbl.find key with
      | none => tbl.insert_or_assign key [(port_id, flipped_in)]
      | some set => tbl.insert_or_assign key (set_insert set (port_id, flipped_in))
  { s with glob_info := { s.glob_info with
      var2flip := s.glob_info.var2flip.insert_or_assign mod_id tbl } }

/-- The statement `glob_info.module2inputs[mod_id].insert(port_id)`. -/
def record_module_input (s : Env) (mod_id port_id : String) : Env :=
  { s with glob_info := { s.glob_info with
      module2inputs := s.glob_info.module2inputs.insert_or_assign mod_id
        (set_insert (s.glob_info.module2inputs.get mod_id []) port_id) } }

/-- The statement `glob_info.module2outputs[mod_id].insert({port_id, {bits, sign}})`;
the stored width is a `uint16_t`. -/
def record_module_output (s : Env) (mod_id port_id : String) (bits : Nat) (sign : Bool) : Env :=
  { s with glob_info := { s.glob_info with
      module2outputs := s.glob_info.module2outputs.insert_or_assign mod_id
        ((s.glob_info.module2outputs.get mod_id []).insert port_id (bits % 65536, sign)) } }

/-- The direction bookkeeping shared by the scalar cases of `add_port_to_map`:
an input is entered into `module2inputs`, an output into `module2outputs`. -/
def record_port_dir (s : Env) (mod_id port_id : String) (dir bits : Nat) (sign : Bool) : Env :=
  if dir = 1 then record_module_input s mod_id port_id
  else if dir = 2 then record_module_output s mod_id port_id bits sign
  else s

/-- Source: `Inou_firrtl::add_port_to_map`.  The registration of pins with the external
graph library (`add_port_sub`) is not modelled.  `dir` is 1 for an input, 2 for an output. -/
def add_port_to_map (mod_id : String) :
    FirrtlPB_Type → Nat → Bool → String → Env → Except String Env
  | .kBundleType field, dir, flipped_in, port_id, s => fields mod_id field dir flipped_in port_id s
  | .kVectorType type size, dir, flipped_in, port_id, s =>
    let s := { s with glob_info := { s.glob_info with
                 module_var2vec_size :=
                   s.glob_info.module_var2vec_size.insert_or_assign mod_id
                     [(port_id, size % 65536)] } }
    (List.range size).foldlM
      (fun s i => add_port_to_map mod_id type dir flipped_in (port_id ++ "." ++ Str.of_nat i) s) s
  | .kUintType w, dir, flipped_in, port_id, s =>
    let s := record_port_dir s mod_id port_id dir w false
    if w ≠ 0 then .ok (add_global_io_flipness s mod_id flipped_in port_id) else .ok s
  | .kSintType w, dir, flipped_in, port_id, s =>
    let s := record_port_dir s mod_id port_id dir (FirrtlPB_Type.kSintType w).uint_width true
    if w ≠ 0 then .ok (add_global_io_flipness s mod_id flipped_in port_id) else .ok s
  | .kResetType, dir, flipped_in, port_id, s =>
    let s := record_port_dir s mod_id port_id dir FirrtlPB_Type.kResetType.uint_width false
    .ok (add_global_io_flipness s mod_id flipped_in port_id)
  | .kAsyncResetType, dir, flipped_in, port_id, s =>
    let s := record_port_dir s mod_id port_id dir FirrtlPB_Type.kAsyncResetType.uint_width false
    .ok (add_global_io_flipness s mod_id flipped_in port_id)
  | .kClockType, dir, flipped_in, port_id, s =>
    let s := record_port_dir s mod_id port_id dir FirrtlPB_Type.kClockType.uint_width false
    .ok (add_global_io_flipness s mod_id flipped_in port_id)
  | .kFixedType, _, _, _, _ => .error "assertion failed: false (fixed type)"
  | .kAnalogType _, _, _, _, _ => .error "assertion failed: false (analog type)"
  | .TYPE_NOT_SET, _, _, _, _ => .error "Unknown port type."
where
  /-- The loop over the fields of a Bundle. -/
  fields (mod_id : String) :
      List (String × Bool × FirrtlPB_Type) → Nat → Bool → String → Env → Except String Env
  | [], _, _, _, s => .ok s
  | (fid, is_flipped, ftype) :: rest, dir, flipped_in, port_id, s => do
    let concat_port_id := port_id ++ "." ++ fid
    let s ←
      if is_flipped then do
        let new_dir := if dir = 1 then 2 else if dir = 2 then 1 else 0
        I (new_dir != 0) "new_dir != 0"
        add_port_to_map mod_id ftype new_dir (!flipped_in) concat_port_id s
      else
        add_port_to_map mod_id ftype dir flipped_in concat_port_id s
    fields mod_id rest dir flipped_in port_id s

end Inou_firrtl

/-! ## Specification-side notions -/

/-- The leaves of a type reached through Bundle fields: for every leaf, the
`(field id, is_flipped)` markers on the path from the root to the leaf, and the leaf type.
A Vector is not descended into. -/
def leaf_paths : FirrtlPB_Type → List (List (String × Bool) × FirrtlPB_Type)
  | .kBundleType field => fields field
  | .kVectorType _ _ => []
  | t => [([], t)]
where
  /-- The leaves below the fields of a Bundle, in declaration order. -/
  fields : List (String × Bool × FirrtlPB_Type) → List (List (String × Bool) × FirrtlPB_Type)
  | [] => []
  | (fid, is_flipped, ftype) :: rest =>
    (leaf_paths ftype).map (fun p => ((fid, is_flipped) :: p.1, p.2)) ++ fields rest

/-- The dotted name of the leaf reached from `base` along a path. -/
def path_name (base : String) : List (String × Bool) → String
  | [] => base
  | (fid, _) :: rest => path_name (base ++ "." ++ fid) rest

/-- The XOR of the `is_flipped` markers on a path. -/
def xor_flips : List (String × Bool) → Bool
  | [] => false
  | (_, is_flipped) :: rest => xor is_flipped (xor_flips rest)

/-- A type built only from Bundles (over non-aggregate leaves). -/
def bundles_only : FirrtlPB_Type → Bool
  | .kBundleType field => fields field
  | .kVectorType _ _ => false
  | _ => true
where
  /-- All field types are built only from Bundles. -/
  fields : List (String × Bool × FirrtlPB_Type) → Bool
  | [] => true
  | (_, _, ftype) :: rest => bundles_only ftype && fields rest

/-- A leaf type that `wire_init_flip_handling` accepts: anything but fixed point. -/
def wire_leaf_ok : FirrtlPB_Type → Bool
  | .kFixedType => false
  | _ => true

/-- A leaf type that `add_port_to_map` accepts. -/
def port_leaf_ok : FirrtlPB_Type → Bool
  | .kFixedType => false
  | .kAnalogType _ => false
  | .TYPE_NOT_SET => false
  | _ => true

/-- A port leaf that `add_port_to_map` enters into the flip table: a UInt or SInt of
non-zero width, a Clock, a Reset or an AsyncReset. -/
def port_leaf_recorded : FirrtlPB_Type → Bool
  | .kUintType w => w != 0
  | .kSintType w => w != 0
  | .kClockType => true
  | .kResetType => true
  | .kAsyncResetType => true
  | _ => false

/-- The set stored under `key` in the module-local flip table (empty when absent). -/
def flip_get (s : Env) (key : String) : Flip_set := s.firmod.var2flip.get key []

/-- The set stored under `key` in the global flip table of module `mod_id`. -/
def glob_flip_get (s : Env) (mod_id key : String) : Flip_set :=
  (s.glob_info.var2flip.get mod_id []).get key []

/-- Every leaf of the type is one that `wire_init_flip_handling` accepts. -/
def wire_leaves_ok (t : FirrtlPB_Type) : Bool := (leaf_paths t).all (fun p => wire_leaf_ok p.2)

/-- Every leaf of the type is one that `add_port_to_map` accepts. -/
def port_leaves_ok (t : FirrtlPB_Type) : Bool := (leaf_paths t).all (fun p => port_leaf_ok p.2)

/-- The state of a unit whose tree holds only the root and the top statement list
(index 1), as `user_module_to_lnast` sets it up, for the module `name`. -/
def Env.fresh (name : String) : Env :=
  { lnast := ((Lnast.set_root name Lnast_node.create_top).add_child 0 Lnast_node.create_stmts).1 }

/-- The example of the flip rule: `Bundle{a: flipped Bundle{b: UInt<8>}}`. -/
def flip_example_inner : FirrtlPB_Type :=
  .kBundleType [("a", true, .kBundleType [("b", false, .kUintType 8)])]

/-- The same bundle placed under one more flipped field `x`. -/
def flip_example_outer : FirrtlPB_Type :=
  .kBundleType [("x", true, flip_example_inner)]

/-! ## Expressions -/

/-- The enumeration `firrtl::FirrtlPB_Expression_PrimOp_Op`. -/
inductive PrimOp_Op where
  | OP_UNKNOWN | OP_ADD | OP_SUB | OP_TAIL | OP_HEAD | OP_TIMES | OP_DIVIDE | OP_REM
  | OP_SHIFT_LEFT | OP_SHIFT_RIGHT | OP_DYNAMIC_SHIFT_LEFT | OP_DYNAMIC_SHIFT_RIGHT
  | OP_BIT_AND | OP_BIT_OR | OP_BIT_XOR | OP_BIT_NOT | OP_CONCAT | OP_LESS | OP_LESS_EQ
  | OP_GREATER | OP_GREATER_EQ | OP_EQUAL | OP_PAD | OP_NOT_EQUAL | OP_NEG | OP_XOR_REDUCE
  | OP_CONVERT | OP_AS_UINT | OP_AS_SINT | OP_EXTRACT_BITS | OP_AS_CLOCK | OP_AS_FIXED_POINT
  | OP_AND_REDUCE | OP_OR_REDUCE | OP_INCREASE_PRECISION | OP_DECREASE_PRECISION
  | OP_SET_PRECISION | OP_AS_ASYNC_RESET | OP_WRAP | OP_CLIP | OP_SQUEEZE | OP_AS_INTERVAL
  deriving DecidableEq, Repr

/-- The message `firrtl::FirrtlPB_Expression`.  A literal carries the text of its
`IntegerLiteral` value and its width; a sub-index carries the text of its index. -/
inductive FirrtlPB_Expression where
  | kReference (id : String)
  | kUintLiteral (value : String) (width : Nat)
  | kSintLiteral (value : String) (width : Nat)
  | kFixedLiteral
  | kValidIf (condition value : FirrtlPB_Expression)
  | kMux (condition t_value f_value : FirrtlPB_Expression)
  | kSubField (expression : FirrtlPB_Expression) (field : String)
  | kSubIndex (expression : FirrtlPB_Expression) (index : String)
  | kSubAccess (expression index : FirrtlPB_Expression)
  | kPrimOp (op : PrimOp_Op) (arg : List FirrtlPB_Expression) (const_ : List String)
  | EXPRESSION_NOT_SET

namespace FirrtlPB_Expression

/-- The accessor `expr.uint_literal().value().value()`: empty unless the expression is a
UInt literal. -/
def uint_literal_value : FirrtlPB_Expression → String
  | kUintLiteral v _ => v
  | _ => ""

/-- The accessor `expr.uint_literal().width().value()`. -/
def uint_literal_width : FirrtlPB_Expression → Nat
  | kUintLiteral _ w => w
  | _ => 0

/-- The accessor `expr.reference().id()`. -/
def reference_id : FirrtlPB_Expression → String
  | kReference id => id
  | _ => ""

end FirrtlPB_Expression

/-- The enumeration `Inou_firrtl_module::Leaf_type`. -/
inductive Leaf_type where
  | Ref | Const_num | Const_str
  deriving DecidableEq, Repr

namespace Inou_firrtl_module

/-- Source: `Inou_firrtl_module::get_expr_hier_name(expr, is_runtime_idx)`; the flag is
passed in and returned. -/
def get_expr_hier_name_rt : FirrtlPB_Expression → Bool → String × Bool
  | .kSubField e field, rt =>
    let r := get_expr_hier_name_rt e rt
    (r.1 ++ "." ++ field, r.2)
  | .kSubAccess e index, rt =>
    let idx_str := index.uint_literal_value
    let rt := if !(Str.index idx_str 0).isDigit then true else rt
    let r := get_expr_hier_name_rt e rt
    (r.1 ++ "." ++ idx_str, r.2)
  | .kSubIndex e index, rt =>
    let r := get_expr_hier_name_rt e rt
    (r.1 ++ "." ++ index, r.2)
  | .kReference id, rt => (id, rt)
  | .kUintLiteral v _, rt => (v, rt)
  | .kSintLiteral v _, rt => (v, rt)
  | _, rt => ("", rt)

/-- Source: `Inou_firrtl_module::get_runtime_idx_field_name`. -/
def get_runtime_idx_field_name : FirrtlPB_Expression → Except String String
  | .kSubField e _ => get_runtime_idx_field_name e
  | .kSubAccess _ index => .ok (get_expr_hier_name_rt index false).1
  | .kSubIndex e _ => get_runtime_idx_field_name e
  | _ => .error "assertion failed: false (no sub-access in a runtime-index expression)"

/-- Source: `Inou_firrtl_module::add_lnast_assign`. -/
def add_lnast_assign (s : Env) (parent_node : Nat) (lhs rhs : String) : Env :=
  let (s, idx_asg) := s.add_child parent_node Lnast_node.create_assign
  let s := s.add_leaf idx_asg (Lnast_node.create_ref lhs)
  let s :=
    if Str.starts_numeric rhs then s.add_leaf idx_asg (Lnast_node.create_const rhs)
    else s.add_leaf idx_asg (Lnast_node.create_ref rhs)
  s.insert_wire_name lhs

/-- Source: `Inou_firrtl_module::attach_expr_str2node`. -/
def attach_expr_str2node (s : Env) (access_str : String) (parent_node : Nat) :
    Except String Env := do
  I ((s.lnast.node_at parent_node).map (·.type) != some .stmts)
    "!lnast.get_data(parent_node).type.is_stmts()"
  if Str.starts_numeric access_str then
    .ok (s.add_leaf parent_node (Lnast_node.create_const access_str))
  else
    .ok (s.add_leaf parent_node (Lnast_node.create_ref access_str))

/-- The maximal dot-free runs of a character list, each with the index at which it starts;
`i` is the index of the first character. -/
def dot_segments : List Char → Nat → List (Nat × List Char)
  | [], i => [(i, [])]
  | c :: cs, i =>
    if c = '.' then (i, []) :: dot_segments cs (i + 1)
    else
      match dot_segments cs (i + 1) with
      | (_, seg) :: rest => (i, c :: seg) :: rest
      | [] => [(i, [c])]

/-- The step `if (subname.back() == ']') subname = subname.substr(0, size - 1)`. -/
def strip_bracket (seg : List Char) : List Char :=
  if seg.getLast? = some ']' then seg.dropLast else seg

/-- The non-empty segments that both `split_hier_name` overloads visit, with the start
index `prev` of each. -/
def hier_segments (full_name : String) : List (Nat × String) :=
  ((dot_segments full_name.data 0).filter (fun p => !p.2.isEmpty)).map
    (fun p => (p.1, String.mk (strip_bracket p.2)))

/-- Source: `Inou_firrtl_module::split_hier_name` (the overload filling a vector of names). -/
def split_hier_name (full_name : String) : List String :=
  (hier_segments full_name).map (·.2)

/-- Source: `Inou_firrtl_module::set_leaf_type`; the result is what is appended. -/
def set_leaf_type (subname full_name : String) (prev : Nat) : List (String × Leaf_type) :=
  if prev = 0 then [(subname, .Ref)]
  else if Str.index full_name (prev - 1) = '.' then
    if Str.starts_numeric subname then [(subname, .Const_num)] else [(subname, .Const_str)]
  else if Str.index full_name (prev - 1) = '[' then
    if Str.starts_numeric subname then [(subname, .Const_num)] else [(subname, .Ref)]
  else []

/-- Source: `Inou_firrtl_module::split_hier_name` (the overload that also types the
segments). -/
def split_hier_name_typed (full_name : String) : List (String × Leaf_type) :=
  (hier_segments full_name).flatMap (fun p => set_leaf_type p.2 full_name p.1)

/-- The loop of `create_tuple_add_from_str` over the typed segments.  The index `i` of the
source is never advanced, so every `Ref` segment is entered into `wire_names`. -/
def tuple_add_fields (selc_node : Nat) : List (String × Leaf_type) → Env → Env
  | [], s => s
  | (name, ty) :: rest, s =>
    let field_name := if s.firmod.inst2module.has name then "itup_" ++ name else name
    let s :=
      match ty with
      | .Ref => (s.add_leaf selc_node (Lnast_node.create_ref field_name)).insert_wire_name field_name
      | _ => s.add_leaf selc_node (Lnast_node.create_const field_name)
    tuple_add_fields selc_node rest s

/-- Source: `Inou_firrtl_module::create_tuple_add_from_str` (both overloads). -/
def create_tuple_add_from_str (s : Env) (parent_node : Nat) (full_name : String)
    (value_node : Lnast_node) : Except String Env := do
  I (Str.contains_char full_name '.') "absl::StrContains(full_name, '.')"
  let hier_subnames := split_hier_name_typed full_name
  let (s, selc_node) := s.add_child parent_node Lnast_node.create_tuple_add
  let s := tuple_add_fields selc_node hier_subnames s
  .ok (s.add_leaf selc_node value_node)

/-- The loop of `create_tuple_get_from_str` over the typed segments. -/
def tuple_get_fields (selc_node : Nat) : List (String × Leaf_type) → Env → Env
  | [], s => s
  | (name, ty) :: rest, s =>
    let field_name := if s.firmod.inst2module.has name then "otup_" ++ name else name
    let s :=
      match ty with
      | .Ref => s.add_leaf selc_node (Lnast_node.create_ref field_name)
      | _ => s.add_leaf selc_node (Lnast_node.create_const field_name)
    tuple_get_fields selc_node rest s

/-- Source: `Inou_firrtl_module::create_tuple_get_from_str`. -/
def create_tuple_get_from_str (s : Env) (parent_node : Nat) (full_name : String)
    (target_node : Lnast_node) : Except String Env := do
  I (Str.contains_char full_name '.') "absl::StrContains(full_name, '.')"
  let hier_subnames := split_hier_name_typed full_name
  let (s, selc_node) := s.add_child parent_node Lnast_node.create_tuple_get
  let s := s.add_leaf selc_node target_node
  .ok (tuple_get_fields selc_node hier_subnames s)

/-- Source: `Inou_firrtl_module::setup_scalar_bits`. -/
def setup_scalar_bits (s : Env) (id : String) (bits : Nat) (parent_node : Nat)
    (is_signed : Bool) : Except String Env :=
  if bits > 0 then
    let extension := if is_signed then ".__sbits" else ".__ubits"
    create_tuple_add_from_str s parent_node (id ++ extension) (Lnast_node.create_const_nat bits)
  else .ok s

/-- Source: `Inou_firrtl_module::get_bit_count`. -/
def get_bit_count : FirrtlPB_Type → Except String Nat
  | .kUintType w => .ok w
  | .kSintType w => .ok w
  | .kClockType => .ok 1
  | .kBundleType _ => .error "assertion failed: false (get_bit_count on a Bundle)"
  | .kVectorType _ _ => .error "assertion failed: false (get_bit_count on a Vector)"
  | .kFixedType => .error "assertion failed: false (fixed type)"
  | .kAnalogType w => .ok w
  | .kAsyncResetType => .ok 1
  | .kResetType => .ok 1
  | .TYPE_NOT_SET => .error "Unknown port type."

end Inou_firrtl_module

namespace Inou_firrtl_module

/-- Source: `Inou_firrtl_module::setup_register_q_pin`. -/
def setup_register_q_pin (s : Env) (parent_node : Nat) (reg_name : String) : Env :=
  let flop_qpin_var := "_#_" ++ reg_name ++ "_q"
  let (s, idx_asg2) := s.add_child parent_node Lnast_node.create_assign
  let s := s.add_leaf idx_asg2 (Lnast_node.create_ref flop_qpin_var)
  let s := s.add_leaf idx_asg2 (Lnast_node.create_ref reg_name)
  let s := { s with firmod := { s.firmod with
               reg2qpin := s.firmod.reg2qpin.insert_or_assign reg_name flop_qpin_var } }
  s.insert_wire_name flop_qpin_var

/-- Source: `Inou_firrtl_module::declare_register`. -/
def declare_register (s : Env) (parent_node : Nat) (reg_name : String) : Env :=
  let (s, idx_attget) := s.add_child parent_node Lnast_node.create_attr_get
  let full_register_name := reg_name
  let (tmp_var_str, s) := create_tmp_var s
  let s := s.add_leaf idx_attget (Lnast_node.create_ref tmp_var_str)
  let s := s.add_leaf idx_attget (Lnast_node.create_ref full_register_name)
  let s := s.add_leaf idx_attget (Lnast_node.create_const "__create_flop")
  let (s, idx_asg) := s.add_child parent_node Lnast_node.create_assign
  let s := s.add_leaf idx_asg (Lnast_node.create_ref full_register_name)
  let s := s.add_leaf idx_asg (Lnast_node.create_ref tmp_var_str)
  s.insert_wire_name full_register_name

/-- The first half of `setup_register_reset_init`: the node for the reset value and
whether the reset is tied to the literal 0. -/
def reset_value_node (s : Env) : FirrtlPB_Expression → Except String (Lnast_node × Bool)
  | .kUintLiteral v w =>
    let str_val := (FirrtlPB_Expression.kUintLiteral v w).uint_literal_value
    .ok (Lnast_node.create_const str_val, str_val = "0")
  | .kSintLiteral v w =>
    let str_val := (FirrtlPB_Expression.kSintLiteral v w).uint_literal_value
    .ok (Lnast_node.create_const str_val, str_val = "0")
  | .kReference id => do
    let ref_str ← name_prefix_modifier_flattener s id true
    .ok (Lnast_node.create_ref ref_str, false)
  | _ => .ok (Lnast_node.invalid, false)

/-- Source: `Inou_firrtl_module::setup_register_reset_init`. -/
def setup_register_reset_init (s : Env) (parent_node : Nat) (reg_raw_name : String)
    (resete inite : FirrtlPB_Expression) (head_chopped_hier_name : String)
    (bits_set_done : Bool) : Except String Env := do
  let (value_node, tied0_reset) ← reset_value_node s resete
  let s ←
    if !value_node.is_invalid then
      create_tuple_add_from_str s parent_node (reg_raw_name ++ ".__reset_pin") value_node
    else .ok s
  if tied0_reset then
    .ok s
  else do
    let (initial_node, s) ←
      match inite with
      | .kUintLiteral v w => do
        let s ←
          if !bits_set_done then setup_scalar_bits s reg_raw_name w parent_node false
          else .ok s
        .ok (Lnast_node.create_const v, s)
      | .kSintLiteral v w => do
        let lit := FirrtlPB_Expression.kSintLiteral v w
        let s ←
          if !bits_set_done then
            setup_scalar_bits s reg_raw_name lit.uint_literal_width parent_node true
          else .ok s
        .ok (Lnast_node.create_const lit.uint_literal_value, s)
      | .kReference ref_str_pre => do
        let ref_str ←
          if head_chopped_hier_name ≠ "" then
            name_prefix_modifier_flattener s (ref_str_pre ++ "." ++ head_chopped_hier_name) true
          else .ok ref_str_pre
        .ok (Lnast_node.create_ref ref_str, s)
      | _ => .ok (Lnast_node.invalid, s)
    if !initial_node.is_invalid then
      create_tuple_add_from_str s parent_node (reg_raw_name ++ ".__initial") initial_node
    else .ok s

/-- The scalar case of `handle_register` (`kSintType` / `kUintType`). -/
def handle_register_scalar (s : Env) (type : FirrtlPB_Type) (id : String) (parent_node : Nat)
    (resete inite : FirrtlPB_Expression) : Except String Env := do
  let s ← add_local_flip_info s false id
  let head_chopped_hier_name :=
    match Str.find_char id '.' with
    | some p => Str.drop id (p + 1)
    | none => ""
  let id := Str.replace_dots id
  let reg_bits ← get_bit_count type
  let bits_set_done := decide (reg_bits > 0)
  let diff_type :=
    match type with
    | .kUintType _ => false
    | _ => true
  let s ← setup_scalar_bits s id reg_bits parent_node diff_type
  let s ← setup_register_reset_init s parent_node id resete inite head_chopped_hier_name
            bits_set_done
  let s := declare_register s parent_node id
  .ok (setup_register_q_pin s parent_node id)

/-- Source: `Inou_firrtl_module::handle_register`; `resete` and `inite` are the reset and
init expressions of the register statement. -/
def handle_register (resete inite : FirrtlPB_Expression) :
    FirrtlPB_Type → String → Nat → Env → Except String Env
  | .kBundleType field, id, parent_node, s => fields resete inite field id parent_node s
  | .kVectorType type size, id, parent_node, s =>
    let s := { s with firmod := { s.firmod with
                 var2vec_size := s.firmod.var2vec_size.insert_or_assign id (size % 65536) } }
    (List.range size).foldlM
      (fun s i => handle_register resete inite type (id ++ "." ++ Str.of_nat i) parent_node s) s
  | .kSintType w, id, parent_node, s =>
    handle_register_scalar s (.kSintType w) id parent_node resete inite
  | .kUintType w, id, parent_node, s =>
    handle_register_scalar s (.kUintType w) id parent_node resete inite
  | _, _, _, _ => .error "assertion failed: false (register type)"
where
  /-- The loop over the fields of a Bundle. -/
  fields (resete inite : FirrtlPB_Expression) :
      List (String × Bool × FirrtlPB_Type) → String → Nat → Env → Except String Env
  | [], _, _, s => .ok s
  | (fid, _, ftype) :: rest, id, parent_node, s => do
    let s ← handle_register resete inite ftype (id ++ "." ++ fid) parent_node s
    fields resete inite rest id parent_node s

/-- The loop shared by `record_all_input_hierarchy` and `record_all_output_hierarchy`:
`pos` is the current prefix length; the fuel bounds the number of iterations. -/
def record_hierarchy_loop (port_name : String) : Nat → Nat → List String → List String
  | 0, _, names => names
  | fuel + 1, pos, names =>
    let tmp := Str.substr port_name 0 pos
    let names := set_insert names tmp
    match Str.rfind_char tmp '.' with
    | none => names
    | some p => record_hierarchy_loop port_name fuel p names

/-- Source: `Inou_firrtl_module::record_all_input_hierarchy`. -/
def record_all_input_hierarchy (s : Env) (port_name : String) : Env :=
  { s with firmod := { s.firmod with
      input_names := record_hierarchy_loop port_name (port_name.data.length + 1)
        port_name.data.length s.firmod.input_names } }

/-- Source: `Inou_firrtl_module::record_all_output_hierarchy`. -/
def record_all_output_hierarchy (s : Env) (port_name : String) : Env :=
  { s with firmod := { s.firmod with
      output_names := record_hierarchy_loop port_name (port_name.data.length + 1)
        port_name.data.length s.firmod.output_names } }

end Inou_firrtl_module

namespace Inou_firrtl

/-- An entry of the port list: name, direction, bits, sign. -/
abbrev Port_entry := String × Nat × Nat × Bool

/-- Source: `Inou_firrtl::create_io_list`; the result is the list of entries appended to
`vec`. -/
def create_io_list : FirrtlPB_Type → Nat → String → Except String (List Port_entry)
  | .kUintType w, dir, port_id => .ok [(port_id, dir, w, false)]
  | .kSintType w, dir, port_id => .ok [(port_id, dir, w, true)]
  | .kClockType, dir, port_id => .ok [(port_id, dir, 1, true)]
  | .kBundleType field, dir, port_id => fields field dir port_id
  | .kVectorType type size, dir, port_id =>
    (List.range size).foldlM
      (fun vec i => do
        let sub ← create_io_list type dir (port_id ++ "." ++ Str.of_nat i)
        .ok (vec ++ [(port_id, dir, 0, false)] ++ sub)) []
  | .kFixedType, _, _ => .error "assertion failed: false (fixed type)"
  | .kAnalogType _, _, _ => .error "assertion failed: false (analog type)"
  | .kAsyncResetType, dir, port_id => .ok [(port_id, dir, 1, false)]
  | .kResetType, dir, port_id => .ok [(port_id, dir, 1, false)]
  | .TYPE_NOT_SET, _, _ => .error "Unknown port type."
where
  /-- The loop over the fields of a Bundle. -/
  fields : List (String × Bool × FirrtlPB_Type) → Nat → String → Except String (List Port_entry)
  | [], _, _ => .ok []
  | (fid, is_flipped, ftype) :: rest, dir, port_id => do
    let sub ←
      if is_flipped then do
        let new_dir := if dir = 1 then 2 else if dir = 2 then 1 else 0
        I (new_dir != 0) "new_dir != 0"
        create_io_list ftype new_dir (port_id ++ "." ++ fid)
      else
        create_io_list ftype dir (port_id ++ "." ++ fid)
    let more ← fields rest dir port_id
    .ok (sub ++ more)

end Inou_firrtl

/-- The message `firrtl::FirrtlPB_Port`; `direction` is 1 for an input and 2 for an output. -/
structure FirrtlPB_Port where
  id : String
  direction : Nat
  type : FirrtlPB_Type

namespace Inou_firrtl_module

/-- The body of the loop of `list_port_info` for one entry of the port list. -/
def list_port_entry (s : Env) (parent_node : Nat) (val : Inou_firrtl.Port_entry) :
    Except String Env := do
  let (port_name, port_dir, port_bits, port_sign) := val
  let (s, full_port_name) ←
    if port_dir = 1 then
      .ok (record_all_input_hierarchy s port_name, "$" ++ port_name)
    else if port_dir = 2 then
      .ok (record_all_output_hierarchy s port_name, "%" ++ port_name)
    else
      (.error "Found IO port specified with unknown direction in Protobuf message." :
        Except String (Env × String))
  let full_port_name := Str.replace_dots full_port_name
  if port_bits > 0 then
    let s :=
      if Str.substr full_port_name 0 1 = "%" then
        create_default_value_for_scalar_var s parent_node full_port_name
          (Lnast_node.create_const_nat 0)
      else s
    let extension := if port_sign then ".__sbits" else ".__ubits"
    create_tuple_add_from_str s parent_node (full_port_name ++ extension)
      (Lnast_node.create_const_nat port_bits)
  else .ok s

/-- Source: `Inou_firrtl_module::list_port_info`. -/
def list_port_info (s : Env) (port : FirrtlPB_Port) (parent_node : Nat) : Except String Env := do
  let port_list ← Inou_firrtl.create_io_list port.type port.direction port.id
  port_list.foldlM (fun s val => list_port_entry s parent_node val) s

end Inou_firrtl_module

namespace Inou_firrtl_module

/-- The test `wire_names.find(rhs) == wire_names.end() && !std::isdigit(rhs.at(0))` of
`tuple_flattened_connections`: the source leaf is unknown, so the pair is skipped. -/
def no_rhs_counterpart (s : Env) (rhs_full_name : String) : Except String Bool :=
  if rhs_full_name ∈ s.firmod.wire_names then .ok false
  else do
    let c0 ← Str.char_at rhs_full_name 0
    .ok (!c0.isDigit)

/-- Source: `Inou_firrtl_module::tuple_flattened_connections`. -/
def tuple_flattened_connections (s : Env) (parent_node : Nat)
    (hier_name_l_ori hier_name_r_ori flattened_element : String) (is_flipped : Bool) :
    Except String Env := do
  -- 0. swap lhs/rhs if needed
  let (hier_name_l_ori, hier_name_r_ori) :=
    if is_flipped then (hier_name_r_ori, hier_name_l_ori) else (hier_name_l_ori, hier_name_r_ori)
  -- 1. decorate io prefix
  let hier_name_r ←
    if hier_name_r_ori ∈ s.firmod.input_names then .ok ("$" ++ hier_name_r_ori)
    else if s.firmod.reg2qpin.has hier_name_r_ori then
      name_prefix_modifier_flattener s hier_name_r_ori true
    else .ok hier_name_r_ori
  let hier_name_l ←
    if hier_name_l_ori ∈ s.firmod.output_names then .ok ("%" ++ hier_name_l_ori)
    else if s.firmod.reg2qpin.has hier_name_l_ori then
      name_prefix_modifier_flattener s hier_name_l_ori false
    else .ok hier_name_l_ori
  let chop_head_flattened_element ←
    if is_flipped then Str.substr_from flattened_element hier_name_r_ori.data.length
    else Str.substr_from flattened_element hier_name_l_ori.data.length
  let lhs_full_name := hier_name_l ++ chop_head_flattened_element
  let rhs_full_name := hier_name_r ++ chop_head_flattened_element
  let rhs_wire_name :=
    match Str.find_char rhs_full_name '.' with
    | some pos => Str.substr rhs_full_name 0 pos
    | none => ""
  let lhs_full_name ← name_prefix_modifier_flattener s lhs_full_name false
  let rhs_full_name ← name_prefix_modifier_flattener s rhs_full_name true
  -- swap again if lhs is a module input
  let c ← Str.char_at lhs_full_name 0
  let (lhs_full_name, rhs_full_name) :=
    if c = '$' then (rhs_full_name, lhs_full_name) else (lhs_full_name, rhs_full_name)
  let rhs_is_wire_var := decide (rhs_wire_name ∈ s.firmod.wire_names)
  if rhs_is_wire_var then
    let (temp_var_name, s) := create_tmp_var s
    let (s, attr_get_node) := s.add_child parent_node Lnast_node.create_attr_get
    let s := s.add_leaf attr_get_node (Lnast_node.create_ref temp_var_name)
    let s := s.add_leaf attr_get_node (Lnast_node.create_ref rhs_full_name)
    let s := s.add_leaf attr_get_node (Lnast_node.create_const "__last_value")
    let s := s.insert_wire_name temp_var_name
    let (s, idx_asg) := s.add_child parent_node Lnast_node.create_assign
    let s := s.add_leaf idx_asg (Lnast_node.create_ref lhs_full_name)
    let s := s.add_leaf idx_asg (Lnast_node.create_ref temp_var_name)
    .ok (s.insert_wire_name lhs_full_name)
  else if lhs_full_name ∈ s.firmod.node_names then do
    if ← no_rhs_counterpart s rhs_full_name then
      .ok s
    else
      let (s, idx_asg) := s.add_child parent_node Lnast_node.create_assign
      let s := s.add_leaf idx_asg (Lnast_node.create_ref lhs_full_name)
      let s := s.add_leaf idx_asg (Lnast_node.create_ref rhs_full_name)
      .ok (s.insert_wire_name lhs_full_name)
  else do
    if ← no_rhs_counterpart s rhs_full_name then
      .ok s
    else do
      let (s, idx_asg) := s.add_child parent_node Lnast_node.create_assign
      let s := s.add_leaf idx_asg (Lnast_node.create_ref lhs_full_name)
      let s ← attach_expr_str2node s rhs_full_name idx_asg
      .ok (s.insert_wire_name lhs_full_name)

/-- The test made on one flip-table entry in `handle_normal_cases_wire_connections`:
whether the entry is connected (`it.first == hier_name_l || hit`); the position assertion
`I(pos == 0)` can fail. -/
def wire_connection_hit (entry_name hier_name_l : String) : Except String Bool := do
  let hit ←
    match Str.find_sub entry_name hier_name_l with
    | some pos => do
      I (pos == 0) "pos == 0"
      let pos2 := hier_name_l.data.length
      if entry_name.data.length > pos2 then do
        let c ← Str.char_at entry_name pos2
        .ok (c == '.')
      else .ok false
    | none => .ok false
  .ok (entry_name == hier_name_l || hit)

/-- The flip-table set that `handle_normal_cases_wire_connections` scans, and the unit
after the `operator[]` lookups that fetch it (an absent key is entered with an empty set). -/
def wire_connection_sets (s : Env) (tup_head_l : String) : Flip_set × Env :=
  let is_input := decide (tup_head_l ∈ s.firmod.input_names)
  let is_output := decide (tup_head_l ∈ s.firmod.output_names)
  if !is_input && !is_output then
    (s.firmod.var2flip.get tup_head_l [],
     { s with firmod := { s.firmod with var2flip := s.firmod.var2flip.touch tup_head_l [] } })
  else
    let top := s.lnast.top_module_name
    let tbl := s.glob_info.var2flip.get top []
    (tbl.get tup_head_l [],
     { s with glob_info := { s.glob_info with
         var2flip := s.glob_info.var2flip.insert_or_assign top (tbl.touch tup_head_l []) } })

/-- Source: `Inou_firrtl_module::handle_normal_cases_wire_connections`. -/
def handle_normal_cases_wire_connections (s : Env) (parent_node : Nat)
    (tup_head_l hier_name_l hier_name_r : String) : Except String Env :=
  let (tup_l_sets, s) := wire_connection_sets s tup_head_l
  tup_l_sets.foldlM
    (fun s it => do
      let connect ← wire_connection_hit it.1 hier_name_l
      if connect then
        tuple_flattened_connections s parent_node hier_name_l hier_name_r it.1 it.2
      else .ok s) s

/-- The vector name and leaf field that the runtime-index handlers derive from a
hierarchical name: `(vec_name, is_2d_vector, leaf_field_name)`. -/
def runtime_idx_vec_name (hier_name : String) : String × Bool × String :=
  let r : String × Bool × String :=
    match Str.find_sub hier_name ".." with
    | some pos => (Str.substr hier_name 0 pos, true, Str.drop hier_name (pos + 2))
    | none => ("", false, "")
  match Str.rfind_char hier_name '.' with
  | some pos2 => if !r.2.1 then (Str.substr hier_name 0 pos2, r.2.1, r.2.2) else r
  | none => r

/-- The first loop of the runtime-index handlers: one `__fir_eq` call per index
`i, i+1, ...` (`k` of them); returns the condition names in order. -/
def runtime_idx_eq_loop (parent_node : Nat) (rtidx_str : String) :
    Nat → Nat → Env → List String → Env × List String
  | 0, _, s, cond_strs => (s, cond_strs)
  | k + 1, i, s, cond_strs =>
    let (s, idx_eq) := s.add_child parent_node Lnast_node.create_func_call
    let (cond_str, s) := create_tmp_var s
    let s := s.add_leaf idx_eq (Lnast_node.create_ref cond_str)
    let s := s.add_leaf idx_eq (Lnast_node.create_const "__fir_eq")
    let s := s.add_leaf idx_eq (Lnast_node.create_ref rtidx_str)
    let s := s.add_leaf idx_eq (Lnast_node.create_const_nat i)
    runtime_idx_eq_loop parent_node rtidx_str k (i + 1) s (cond_strs ++ [cond_str])

/-- The element name `vec.i` or `vec.i.leaf` built in the second loop. -/
def runtime_idx_elem (vec_name : String) (is_2d_vector : Bool) (leaf_field_name : String)
    (i : Nat) : String :=
  if is_2d_vector then vec_name ++ "." ++ Str.of_nat i ++ "." ++ leaf_field_name
  else vec_name ++ "." ++ Str.of_nat i

/-- The second loop of `handle_rhs_runtime_idx`: `k` more branches starting at index `i`;
branch `i` of the if node is guarded by `cond_strs[i]` and reads element `i`. -/
def rhs_runtime_idx_branches (idx_mux : Nat) (lhs_flattened_name vec_name : String)
    (is_2d_vector : Bool) (leaf_field_name : String) (cond_strs : List String) :
    Nat → Nat → Env → Except String Env
  | 0, _, s => .ok s
  | k + 1, i, s => do
    let s := s.add_leaf idx_mux (Lnast_node.create_ref (cond_strs.getD i ""))
    let (s, idx_stmt_t) := s.add_child idx_mux Lnast_node.create_stmts
    let rhs_flattened_name ← name_prefix_modifier_flattener s
      (runtime_idx_elem vec_name is_2d_vector leaf_field_name i) true
    let s := add_lnast_assign s idx_stmt_t lhs_flattened_name rhs_flattened_name
    rhs_runtime_idx_branches idx_mux lhs_flattened_name vec_name is_2d_vector leaf_field_name
      cond_strs k (i + 1) s

/-- Source: `Inou_firrtl_module::handle_rhs_runtime_idx`. -/
def handle_rhs_runtime_idx (s : Env) (parent_node : Nat)
    (hier_name_l_ori hier_name_r_ori : String) (rhs_expr : FirrtlPB_Expression) :
    Except String Env := do
  let lhs_flattened_name ← name_prefix_modifier_flattener s hier_name_l_ori false
  let rtidx_str ← get_runtime_idx_field_name rhs_expr
  let rtidx_str ← name_prefix_modifier_flattener s rtidx_str true
  let (vec_name, is_2d_vector, leaf_field_name) := runtime_idx_vec_name hier_name_r_ori
  let (rt_vec_size, s) := get_vector_size s vec_name
  let vec_name ← name_prefix_modifier_flattener s vec_name true
  let (s, cond_strs) := runtime_idx_eq_loop parent_node rtidx_str rt_vec_size 0 s []
  let (s, idx_mux) := s.add_child parent_node Lnast_node.create_if
  rhs_runtime_idx_branches idx_mux lhs_flattened_name vec_name is_2d_vector leaf_field_name
    cond_strs rt_vec_size 0 s

/-- The second loop of `handle_lhs_runtime_idx`: `k` more branches starting at index `i`;
branch `i` of the if node is guarded by `cond_strs[i]` and writes element `i`. -/
def lhs_runtime_idx_branches (idx_mux : Nat) (rhs_flattened_name vec_name : String)
    (is_2d_vector : Bool) (leaf_field_name : String) (cond_strs : List String) :
    Nat → Nat → Env → Except String Env
  | 0, _, s => .ok s
  | k + 1, i, s => do
    let s := s.add_leaf idx_mux (Lnast_node.create_ref (cond_strs.getD i ""))
    let (s, idx_stmt_t) := s.add_child idx_mux Lnast_node.create_stmts
    let lhs_flattened_name ← name_prefix_modifier_flattener s
      (runtime_idx_elem vec_name is_2d_vector leaf_field_name i) false
    let s := add_lnast_assign s idx_stmt_t lhs_flattened_name rhs_flattened_name
    lhs_runtime_idx_branches idx_mux rhs_flattened_name vec_name is_2d_vector leaf_field_name
      cond_strs k (i + 1) s

/-- Source: `Inou_firrtl_module::handle_lhs_runtime_idx`. -/
def handle_lhs_runtime_idx (s : Env) (parent_node : Nat)
    (hier_name_l_ori hier_name_r_ori : String) (lhs_expr : FirrtlPB_Expression) :
    Except String Env := do
  let rhs_flattened_name ← name_prefix_modifier_flattener s hier_name_r_ori true
  let rtidx_str ← get_runtime_idx_field_name lhs_expr
  let rtidx_str ← name_prefix_modifier_flattener s rtidx_str true
  let (vec_name, is_2d_vector, leaf_field_name) := runtime_idx_vec_name hier_name_l_ori
  let (rt_vec_size, s) := get_vector_size s vec_name
  let vec_name ← name_prefix_modifier_flattener s vec_name true
  let (s, cond_strs) := runtime_idx_eq_loop parent_node rtidx_str rt_vec_size 0 s []
  let (s, idx_mux) := s.add_child parent_node Lnast_node.create_if
  lhs_runtime_idx_branches idx_mux rhs_flattened_name vec_name is_2d_vector leaf_field_name
    cond_strs rt_vec_size 0 s

end Inou_firrtl_module

namespace Inou_firrtl_module

/-- One field of the interface tuple built by `final_mem_interface_assign`: an assign node
under the tuple-add whose children are the constant `field` and the reference
`mem_name ++ suffix`. -/
def mem_interface_field (s : Env) (idx_ta_margs : Nat) (mem_name field suffix : String) : Env :=
  let (s, idx_asg) := s.add_child idx_ta_margs Lnast_node.create_assign
  let s := s.add_leaf idx_asg (Lnast_node.create_const field)
  s.add_leaf idx_asg (Lnast_node.create_ref (mem_name ++ suffix))

/-- The inner loop of `final_mem_interface_assign` over the read mports recorded for a
memory: each gets a tuple-get from `<mem>_res[port]` and an assign to the mport
identifier, both under the deferred-initialization statement list.  A memory without a
recorded statement list has an invalid node index. -/
def final_mem_rd_mports (mem_name : String) (idx_initialize_stmts : Option Nat) :
    List (String × Nat) → Env → Except String Env
  | [], s => .ok s
  | (mport_name, cnt_of_rd_mport) :: rest, s =>
    match idx_initialize_stmts with
    | none => .error "add_child on an invalid Lnast_nid"
    | some idx => 
      let (s, idx_tg2) := s.add_child idx Lnast_node.create_tuple_get
      let (temp_var_name2, s) := create_tmp_var s
      let s := s.add_leaf idx_tg2 (Lnast_node.create_ref temp_var_name2)
      let s := s.add_leaf idx_tg2 (Lnast_node.create_ref (mem_name ++ "_res"))
      let s := s.add_leaf idx_tg2 (Lnast_node.create_const_nat cnt_of_rd_mport)
      let (s, idx_asg2) := s.add_child idx Lnast_node.create_assign
      let s := s.add_leaf idx_asg2 (Lnast_node.create_ref mport_name)
      let s := s.add_leaf idx_asg2 (Lnast_node.create_ref temp_var_name2)
      final_mem_rd_mports mem_name idx_initialize_stmts rest s

/-- The body of the loop of `final_mem_interface_assign` for one memory.  The default
entries that `operator[]` enters into the module-local memory tables are not modelled:
nothing reads these tables afterwards. -/
def final_mem_interface_assign_mem (parent_node : Nat) (s : Env) (mem_name : String) :
    Except String Env := do
  let idx_initialize_stmts := s.firmod.mem2initial_idx.find mem_name
  let s ← final_mem_rd_mports mem_name idx_initialize_stmts
            (s.firmod.mem2rd_mports.get mem_name []) s
  let (s, idx_ta_margs) := s.add_child parent_node Lnast_node.create_tuple_add
  let (temp_var_str, s) := create_tmp_var s
  let s := s.add_leaf idx_ta_margs (Lnast_node.create_ref temp_var_str)
  let s := mem_interface_field s idx_ta_margs mem_name "addr" "_addr"
  let s := mem_interface_field s idx_ta_margs mem_name "clock" "_clock"
  let s := mem_interface_field s idx_ta_margs mem_name "din" "_din"
  let s := mem_interface_field s idx_ta_margs mem_name "enable" "_enable"
  let s := mem_interface_field s idx_ta_margs mem_name "fwd" "_fwd"
  let s := mem_interface_field s idx_ta_margs mem_name "type" "_type"
  let s := mem_interface_field s idx_ta_margs mem_name "wensize" "_wensize"
  let s := mem_interface_field s idx_ta_margs mem_name "size" "_size"
  let s := mem_interface_field s idx_ta_margs mem_name "rdport" "_rdport"
  let (s, idx_asg_margs) := s.add_child parent_node Lnast_node.create_assign
  let s := s.add_leaf idx_asg_margs (Lnast_node.create_ref (mem_name ++ "_interface_args"))
  .ok (s.add_leaf idx_asg_margs (Lnast_node.create_ref temp_var_str))

/-- Source: `Inou_firrtl_module::final_mem_interface_assign`. -/
def final_mem_interface_assign (s : Env) (parent_node : Nat) : Except String Env :=
  s.firmod.memory_names.foldlM (final_mem_interface_assign_mem parent_node) s

end Inou_firrtl_module

/-! ## Notions used to state properties of the output tree -/

namespace Lnast

/-- Every parent index recorded in the arena names an existing node. -/
def closed (ln : Lnast) : Bool :=
  ln.nodes.all (fun e =>
    match e.parent with
    | some p => decide (p < ln.nodes.length)
    | none => true)

/-- Indices of the nodes of kind `ty`, in order of creation. -/
def idx_of_type (ln : Lnast) (ty : Lnast_ntype) : List Nat :=
  (List.range ln.nodes.length).filter (fun i => (ln.node_at i).map (·.type) = some ty)

/-- The children lists of the nodes of kind `ty`, in order of creation. -/
def stmts_of (ln : Lnast) (ty : Lnast_ntype) : List (List Lnast_node) :=
  (ln.idx_of_type ty).map (fun i => ln.children i)

/-- Whether some tuple-add node writes field `fld` of variable `var`: its children start
with the reference `var` and the constant `fld`. -/
def writes_field (ln : Lnast) (var fld : String) : Bool :=
  (ln.stmts_of .tuple_add).any (fun ch =>
    ch.take 2 = [Lnast_node.create_ref var, Lnast_node.create_const fld])

/-- The number of assign nodes whose left side (first child) is the reference `lhs`. -/
def assigns_to (ln : Lnast) (lhs : String) : Nat :=
  ((ln.stmts_of .assign).filter (fun ch => ch.head? = some (Lnast_node.create_ref lhs))).length

end Lnast

/-- The unit of the vector-size counterexample: module `M` with the two vector ports
`a : UInt<8>[2]` and `b : UInt<8>[3]`, after both have been entered by `add_port_to_map`. -/
def two_vector_ports_env : Except String Env := do
  let s ← Inou_firrtl.add_port_to_map "M" (.kVectorType (.kUintType 8) 2) 1 false "a"
            (Env.fresh "M")
  Inou_firrtl.add_port_to_map "M" (.kVectorType (.kUintType 8) 3) 1 false "b" s

/-- The fields of the interface tuple assembled by `final_mem_interface_assign`, in order:
the field name and the suffix of the reference bound to it. -/
def mem_interface_fields : List (String × String) :=
  [("addr", "_addr"), ("clock", "_clock"), ("din", "_din"), ("enable", "_enable"),
   ("fwd", "_fwd"), ("type", "_type"), ("wensize", "_wensize"), ("size", "_size"),
   ("rdport", "_rdport")]

/-! ## Primitive operations -/

/-- The handlers that the switch of `list_prime_op_info` dispatches to. -/
inductive Prim_handler where
  | binary | tail | head | static_shift | unary | concat | pad | negate | conv
  | extract_bits | as_usint | type_conv | xor_reduce | and_reduce | or_reduce
  | float_unsupported | interval_unsupported | unknown
  deriving DecidableEq, Repr

/-- The switch of `list_prime_op_info`: the handler called for each opcode. -/
def prim_op_handler : PrimOp_Op → Prim_handler
  | .OP_ADD | .OP_SUB | .OP_TIMES | .OP_DIVIDE | .OP_REM | .OP_DYNAMIC_SHIFT_LEFT
  | .OP_DYNAMIC_SHIFT_RIGHT | .OP_BIT_AND | .OP_BIT_OR | .OP_BIT_XOR | .OP_LESS | .OP_LESS_EQ
  | .OP_GREATER | .OP_GREATER_EQ | .OP_EQUAL | .OP_NOT_EQUAL => .binary
  | .OP_TAIL => .tail
  | .OP_HEAD => .head
  | .OP_SHIFT_LEFT | .OP_SHIFT_RIGHT => .static_shift
  | .OP_BIT_NOT => .unary
  | .OP_CONCAT => .concat
  | .OP_PAD => .pad
  | .OP_NEG => .negate
  | .OP_CONVERT => .conv
  | .OP_EXTRACT_BITS => .extract_bits
  | .OP_AS_UINT | .OP_AS_SINT => .as_usint
  | .OP_AS_CLOCK | .OP_AS_FIXED_POINT | .OP_AS_ASYNC_RESET => .type_conv
  | .OP_XOR_REDUCE => .xor_reduce
  | .OP_AND_REDUCE => .and_reduce
  | .OP_OR_REDUCE => .or_reduce
  | .OP_INCREASE_PRECISION | .OP_DECREASE_PRECISION | .OP_SET_PRECISION => .float_unsupported
  | .OP_WRAP | .OP_CLIP | .OP_SQUEEZE | .OP_AS_INTERVAL => .interval_unsupported
  | .OP_UNKNOWN => .unknown

namespace Prim_handler

/-- The number of operands `op.arg(i)` a handler lowers (0 for the cases that only
report an error). -/
def operands : Prim_handler → Nat
  | binary | concat => 2
  | float_unsupported | interval_unsupported | unknown => 0
  | _ => 1

/-- The contract assertions at the head of each handler; `parent_is_stmts` is
`lnast.get_data(parent_node).type.is_stmts()`. -/
def check (h : Prim_handler) (arg_size const_size : Nat) (parent_is_stmts : Bool) :
    Except String Unit :=
  match h with
  | unary | and_reduce | or_reduce | xor_reduce | negate | conv => do
    I parent_is_stmts "parent is stmts"
    I (arg_size == 1) "op.arg_size() == 1"
  | extract_bits => do
    I parent_is_stmts "parent is stmts"
    I (arg_size == 1 && const_size == 2) "op.arg_size() == 1 && op.const__size() == 2"
  | head | tail | pad => do
    I parent_is_stmts "parent is stmts"
    I (arg_size == 1 && const_size == 1) "op.arg_size() == 1 && op.const__size() == 1"
  | concat | binary => do
    I parent_is_stmts "parent is stmts"
    I (arg_size == 2) "op.arg_size() == 2"
  | static_shift => do
    I parent_is_stmts "parent is stmts"
    I (arg_size == 1 || const_size == 1) "op.arg_size() == 1 || op.const__size() == 1"
  | as_usint | type_conv =>
    I (arg_size == 1 && const_size == 0) "op.arg_size() == 1 && op.const__size() == 0"
  | float_unsupported => .error "PrimOp not yet supported (related to FloatingPoint type)"
  | interval_unsupported => .error "PrimOp not yet supported (related to Intervals)"
  | unknown => .error "Unknown PrimaryOp"

end Prim_handler

namespace Inou_firrtl_module

/-- The accessor `op.const_(i).value()`; reading past the end of the repeated field is a
fatal error. -/
def prim_op_const (const_ : List String) (i : Nat) : Except String String :=
  match const_.get? i with
  | some c => .ok c
  | none => .error "op.const_(i): index out of range"

/-- The lookup `Inou_firrtl::op2firsub.find(op.op())` with its assertion. -/
def op2firsub_find (table : List (PrimOp_Op × String)) (op : PrimOp_Op) : Except String String :=
  match List.lookup op table with
  | some name => .ok name
  | none => .error "assertion failed: sub_it != Inou_firrtl::op2firsub.end()"

/-- A function-call node with the destination `lhs` and the callee constant `callee`;
the common head of every primitive-op handler.  Returns the unit and the node index. -/
def prim_func_call (s : Env) (parent_node : Nat) (lhs callee : String) : Env × Nat :=
  let (s, idx) := s.add_child parent_node Lnast_node.create_func_call
  let s := s.add_leaf idx (Lnast_node.create_ref lhs)
  (s.add_leaf idx (Lnast_node.create_const callee), idx)

/-- Source: the part of each primitive-op handler that follows the lowering of its
operands to the strings `e1_str` (and `e2_str`): `handle_unary_op`,
`handle_and_reduce_op`, `handle_or_reduce_op`, `handle_xor_reduce_op`, `handle_negate_op`,
`handle_conv_op`, `handle_extract_bits_op`, `handle_head_op`, `handle_tail_op`,
`handle_concat_op`, `handle_pad_op`, `handle_binary_op`, `handle_static_shift_op`,
`handle_as_usint_op`, `handle_type_conv_op`.  `op2firsub` is the static opcode table of
`Inou_firrtl`, declared outside this file. -/
def prim_op_emit (op2firsub : List (PrimOp_Op × String)) (h : Prim_handler) (s : Env)
    (op : PrimOp_Op) (const_ : List String) (parent_node : Nat) (lhs e1_str e2_str : String) :
    Except String Env :=
  match h with
  | .unary =>
    let (s, idx_not) := prim_func_call s parent_node lhs "__fir_not"
    attach_expr_str2node s e1_str idx_not
  | .and_reduce =>
    let (s, idx_andr) := prim_func_call s parent_node lhs "__fir_andr"
    attach_expr_str2node s e1_str idx_andr
  | .or_reduce =>
    let (s, idx_orr) := prim_func_call s parent_node lhs "__fir_orr"
    .ok (s.add_leaf idx_orr (Lnast_node.create_ref e1_str))
  | .xor_reduce =>
    let (s, idx_xorr) := prim_func_call s parent_node lhs "__fir_xorr"
    .ok (s.add_leaf idx_xorr (Lnast_node.create_ref e1_str))
  | .negate =>
    let (s, idx_neg) := prim_func_call s parent_node lhs "__fir_neg"
    .ok (s.add_leaf idx_neg (Lnast_node.create_ref e1_str))
  | .conv =>
    let (s, idx_cvt) := prim_func_call s parent_node lhs "__fir_cvt"
    .ok (s.add_leaf idx_cvt (Lnast_node.create_ref e1_str))
  | .extract_bits => do
    let (s, idx) := prim_func_call s parent_node lhs "__fir_bits"
    let s := s.add_leaf idx (Lnast_node.create_ref e1_str)
    let s := s.add_leaf idx (Lnast_node.create_const (← prim_op_const const_ 0))
    .ok (s.add_leaf idx (Lnast_node.create_const (← prim_op_const const_ 1)))
  | .head => do
    let (s, idx) := prim_func_call s parent_node lhs "__fir_head"
    let s := s.add_leaf idx (Lnast_node.create_ref e1_str)
    .ok (s.add_leaf idx (Lnast_node.create_const (← prim_op_const const_ 0)))
  | .tail => do
    let (s, idx) := prim_func_call s parent_node lhs "__fir_tail"
    let s := s.add_leaf idx (Lnast_node.create_ref e1_str)
    .ok (s.add_leaf idx (Lnast_node.create_const (← prim_op_const const_ 0)))
  | .concat => do
    let (s, idx) := prim_func_call s parent_node lhs "__fir_cat"
    let s ← attach_expr_str2node s e1_str idx
    attach_expr_str2node s e2_str idx
  | .pad => do
    let (s, idx) := prim_func_call s parent_node lhs "__fir_pad"
    let s := s.add_leaf idx (Lnast_node.create_ref e1_str)
    .ok (s.add_leaf idx (Lnast_node.create_const (← prim_op_const const_ 0)))
  | .binary => do
    let callee ← op2firsub_find op2firsub op
    let (s, idx) := prim_func_call s parent_node lhs callee
    let s ← attach_expr_str2node s e1_str idx
    attach_expr_str2node s e2_str idx
  | .static_shift => do
    let callee ← op2firsub_find op2firsub op
    let (s, idx) := prim_func_call s parent_node lhs callee
    let s ← attach_expr_str2node s e1_str idx
    .ok (s.add_leaf idx (Lnast_node.create_const (← prim_op_const const_ 0)))
  | .as_usint => do
    let callee ← op2firsub_find op2firsub op
    let (s, idx) := prim_func_call s parent_node lhs callee
    attach_expr_str2node s e1_str idx
  | .type_conv => do
    let callee ← op2firsub_find op2firsub op
    let (s, idx) := prim_func_call s parent_node lhs callee
    if Str.starts_numeric e1_str then .ok (s.add_leaf idx (Lnast_node.create_const e1_str))
    else .ok (s.add_leaf idx (Lnast_node.create_ref e1_str))
  | _ => .error "unsupported primitive operation"

/-- The lookup `var2last_value` made at the end of `expr_str_flattened_or_tg`. -/
def last_value_of (s : Env) (expr_str : String) : String :=
  match s.firmod.var2last_value.find expr_str with
  | some v => v
  | none => expr_str

mutual

/-- Source: `Inou_firrtl_module::get_expr_hier_name(lnast, parent_node, expr, stmt)`. -/
def get_expr_hier_name (op2firsub : List (PrimOp_Op × String)) :
    FirrtlPB_Expression → Nat → Env → Except String (String × Env)
  | .kSubField e field, parent_node, s => do
    let (name, s) ← get_expr_hier_name op2firsub e parent_node s
    .ok (name ++ "." ++ field, s)
  | .kSubAccess e index, parent_node, s => do
    let (idx_str, s) ← get_expr_hier_name op2firsub index parent_node s
    let (name, s) ← get_expr_hier_name op2firsub e parent_node s
    .ok (name ++ "." ++ idx_str, s)
  | .kSubIndex e index, parent_node, s => do
    let (name, s) ← get_expr_hier_name op2firsub e parent_node s
    .ok (name ++ "." ++ index, s)
  | .kReference id, _, s => .ok (id, s)
  | .kPrimOp op arg const_, parent_node, s => do
    let (expr_string, s) := create_tmp_var s
    let s ← list_prime_op_info op2firsub op arg const_ parent_node expr_string s
    .ok (expr_string, s)
  | .kUintLiteral value width, _, s => .ok (value ++ "ubits" ++ Str.of_nat width, s)
  | _, _, s => .ok ("", s)

/-- Source: `Inou_firrtl_module::expr_str_flattened_or_tg`.  For a primitive-op operand the
call of `get_expr_hier_name` on the operand is unfolded to its primitive-op case. -/
def expr_str_flattened_or_tg (op2firsub : List (PrimOp_Op × String)) :
    FirrtlPB_Expression → Nat → Env → Except String (String × Env)
  | .kPrimOp op arg const_, parent_node, s =>
    let r := get_expr_hier_name_rt (.kPrimOp op arg const_) false
    if r.2 then do
      let (tmp_var, s) := create_tmp_var s
      let s ← handle_rhs_runtime_idx s parent_node tmp_var r.1 (.kPrimOp op arg const_)
      .ok (tmp_var, s)
    else do
      let (expr_string, s) := create_tmp_var s
      let s ← list_prime_op_info op2firsub op arg const_ parent_node expr_string s
      .ok (last_value_of s expr_string, s)
  | operand_expr, parent_node, s =>
    let r := get_expr_hier_name_rt operand_expr false
    if r.2 then do
      let (tmp_var, s) := create_tmp_var s
      let s ← handle_rhs_runtime_idx s parent_node tmp_var r.1 operand_expr
      .ok (tmp_var, s)
    else do
      let expr_str ←
        match operand_expr with
        | .kUintLiteral value width => .ok (value ++ "ubits" ++ Str.of_nat width)
        | _ => name_prefix_modifier_flattener s r.1 true
      .ok (last_value_of s expr_str, s)

/-- Source: `Inou_firrtl_module::list_prime_op_info` together with the head of the handler
it dispatches to: the handler's assertions, then the lowering of its operands
`op.arg(0)` (and `op.arg(1)`), then the emission `prim_op_emit`. -/
def list_prime_op_info (op2firsub : List (PrimOp_Op × String)) (op : PrimOp_Op) :
    List FirrtlPB_Expression → List String → Nat → String → Env → Except String Env
  | arg, const_, parent_node, lhs, s => do
    let h := prim_op_handler op
    h.check arg.length const_.length ((s.lnast.node_at parent_node).map (·.type) == some .stmts)
    match arg with
    | [] => .error "op.arg(0): index out of range"
    | a0 :: rest => do
      let (e1_str, s) ← expr_str_flattened_or_tg op2firsub a0 parent_node s
      if h.operands = 2 then
        match rest with
        | [] => .error "op.arg(1): index out of range"
        | a1 :: _ => do
          let (e2_str, s) ← expr_str_flattened_or_tg op2firsub a1 parent_node s
          prim_op_emit op2firsub h s op const_ parent_node lhs e1_str e2_str
      else
        prim_op_emit op2firsub h s op const_ parent_node lhs e1_str ""

end

end Inou_firrtl_module

namespace Inou_firrtl_module

/-- The test `lnast.get_data(parent_node).type.is_stmts()`. -/
def parent_is_stmts (s : Env) (parent_node : Nat) : Bool :=
  (s.lnast.node_at parent_node).map (·.type) == some .stmts

/-- The operand string of a mux value: a temporary filled by `handle_rhs_runtime_idx` when
the value has a runtime index, its hierarchical name otherwise. -/
def mux_value_str (op2firsub : List (PrimOp_Op × String)) (s : Env) (parent_node : Nat)
    (e : FirrtlPB_Expression) : Except String (String × Env) :=
  let r := get_expr_hier_name_rt e false
  if r.2 then do
    let (tmp_var, s) := create_tmp_var s
    let s ← handle_rhs_runtime_idx s parent_node tmp_var r.1 e
    .ok (tmp_var, s)
  else get_expr_hier_name op2firsub e parent_node s

/-- The scan of one flip-table set in `handle_mux_assign`: the head-chopped names of the
entries that lie strictly below `t_str`.  The checked access `hier_name.at(t_str.size())`
can raise. -/
def mux_head_chopped (t_str : String) : Flip_set → Except String (List String)
  | [] => .ok []
  | (hier_name, _) :: rest => do
    let take ←
      if (Str.find_sub hier_name t_str).isSome && hier_name != t_str then do
        let c ← Str.char_at hier_name t_str.data.length
        .ok (c == '.')
      else .ok false
    let more ← mux_head_chopped t_str rest
    .ok (if take then Str.drop hier_name (t_str.data.length + 1) :: more else more)

/-- The assign of the unconstrained constant, the if node with its condition and the two
statement lists that `handle_mux_assign` creates for one destination; returns the indices
of the two statement lists. -/
def mux_if_skeleton (op2firsub : List (PrimOp_Op × String)) (s : Env) (parent_node : Nat)
    (lhs : String) (condition : FirrtlPB_Expression) : Except String (Env × Nat × Nat) := do
  let (s, idx_pre_asg) := s.add_child parent_node Lnast_node.create_assign
  let s := s.add_leaf idx_pre_asg (Lnast_node.create_ref lhs)
  let s := s.add_leaf idx_pre_asg (Lnast_node.create_const "0b?")
  let s := s.insert_wire_name lhs
  let (cond_str, s) ← expr_str_flattened_or_tg op2firsub condition parent_node s
  let (s, idx_mux_if) := s.add_child parent_node Lnast_node.create_if
  let s ← attach_expr_str2node s cond_str idx_mux_if
  let (s, idx_stmt_t) := s.add_child idx_mux_if Lnast_node.create_stmts
  let (s, idx_stmt_f) := s.add_child idx_mux_if Lnast_node.create_stmts
  .ok (s, idx_stmt_t, idx_stmt_f)

/-- The loop of the aggregate ("rare") case of `handle_mux_assign` over the head-chopped
leaf names. -/
def mux_rare_cases (op2firsub : List (PrimOp_Op × String)) (parent_node : Nat)
    (lhs t_str f_str : String) (is_instance : Bool) (instance_name : String)
    (condition : FirrtlPB_Expression) : List String → Env → Except String Env
  | [], s => .ok s
  | head_chopped_hier_name :: rest, s => do
    let new_lhs ← name_prefix_modifier_flattener s (lhs ++ "." ++ head_chopped_hier_name) false
    let (s, idx_stmt_t, idx_stmt_f) ← mux_if_skeleton op2firsub s parent_node new_lhs condition
    let new_t_str :=
      if is_instance then instance_name ++ "." ++ t_str ++ "." ++ head_chopped_hier_name
      else t_str ++ "." ++ head_chopped_hier_name
    let new_f_str := f_str ++ "." ++ head_chopped_hier_name
    let new_t_str ← name_prefix_modifier_flattener s new_t_str true
    let new_f_str ← name_prefix_modifier_flattener s new_f_str true
    let s := add_lnast_assign s idx_stmt_t new_lhs new_t_str
    let s := add_lnast_assign s idx_stmt_f new_lhs new_f_str
    mux_rare_cases op2firsub parent_node lhs t_str f_str is_instance instance_name condition
      rest s

/-- Source: `Inou_firrtl_module::handle_mux_assign`, for the mux with the given condition
and values. -/
def handle_mux_assign (op2firsub : List (PrimOp_Op × String)) (s : Env)
    (condition t_value f_value : FirrtlPB_Expression) (parent_node : Nat) (lhs : String) :
    Except String Env := do
  I (parent_is_stmts s parent_node) "lnast.get_data(parent_node).type.is_stmts()"
  let (t_str, s) ← mux_value_str op2firsub s parent_node t_value
  let (f_str, s) ← mux_value_str op2firsub s parent_node f_value
  -- preparation: the head of the tuple name selects the flip-table entry
  let (t_str, tup_head_t, is_instance, instance_name, module_name) :=
    match Str.find_char t_str '.' with
    | some p =>
      let tup_head_t := Str.substr t_str 0 p
      let tup_rest_t := Str.drop t_str (p + 1)
      match s.firmod.inst2module.find tup_head_t with
      | some m => (tup_rest_t, Str.head tup_rest_t, true, tup_head_t, m)
      | none => (t_str, tup_head_t, false, "", s.lnast.top_module_name)
    | none => (t_str, t_str, false, "", s.lnast.top_module_name)
  let module_var2flip := s.glob_info.var2flip.get module_name []
  let s := { s with glob_info := { s.glob_info with
               var2flip := s.glob_info.var2flip.touch module_name [] } }
  let head_chopped_hier_names ←
    match module_var2flip.find tup_head_t with
    | some set => mux_head_chopped t_str set
    | none =>
      match s.firmod.var2flip.find tup_head_t with
      | some set => mux_head_chopped t_str set
      | none => .ok []
  if head_chopped_hier_names.length = 0 then do
    -- most cases
    let (s, idx_stmt_t, idx_stmt_f) ← mux_if_skeleton op2firsub s parent_node lhs condition
    let t_str ← name_prefix_modifier_flattener s t_str true
    let f_str ← name_prefix_modifier_flattener s f_str true
    let t_str := last_value_of s t_str
    let f_str := last_value_of s f_str
    let t_str := if is_instance then instance_name ++ "_" ++ t_str else t_str
    let s := add_lnast_assign s idx_stmt_t lhs t_str
    .ok (add_lnast_assign s idx_stmt_f lhs f_str)
  else do
    -- rare cases
    let s ← mux_rare_cases op2firsub parent_node lhs t_str f_str is_instance instance_name
              condition head_chopped_hier_names s
    if !is_instance then
      let tup_set := s.firmod.var2flip.get lhs []
      let tup_set := head_chopped_hier_names.foldl
        (fun set n => set_insert set (lhs ++ "." ++ n, false)) tup_set
      .ok { s with firmod := { s.firmod with
              var2flip := s.firmod.var2flip.insert_or_assign lhs tup_set } }
    else .ok s

/-- Source: `Inou_firrtl_module::init_expr_add`.  The valid-if case is the body of
`handle_valid_if_assign` (see below). -/
def init_expr_add (op2firsub : List (PrimOp_Op × String)) :
    FirrtlPB_Expression → Nat → String → Env → Except String Env
  | rhs_expr, parent_node, lhs_noprefixes, s => do
    I (parent_is_stmts s parent_node) "lnast.get_data(parent_node).type.is_stmts()"
    let lhs_str ← name_prefix_modifier_flattener s lhs_noprefixes false
    let s := s.insert_wire_name lhs_str
    match rhs_expr with
    | .kReference tmp_rhs_str => do
      let (rhs_str, s) ←
        if tmp_rhs_str ∈ s.firmod.is_invalid_table then
          let (s, idx_attr_get) := s.add_child parent_node Lnast_node.create_attr_get
          let (temp_var_str, s) := create_tmp_var s
          let s := s.add_leaf idx_attr_get (Lnast_node.create_ref temp_var_str)
          let s := s.add_leaf idx_attr_get (Lnast_node.create_ref tmp_rhs_str)
          let s := s.add_leaf idx_attr_get (Lnast_node.create_const "__last_value")
          (.ok (temp_var_str, s.insert_wire_name temp_var_str) : Except String (String × Env))
        else do
          let r ← name_prefix_modifier_flattener s tmp_rhs_str true
          .ok (r, s)
      if lhs_str ∈ s.firmod.is_invalid_table then
        let (s, idx_asg) := s.add_child parent_node ⟨.assign, "assign"⟩
        let s := s.add_leaf idx_asg (Lnast_node.create_ref lhs_str)
        let s := s.add_leaf idx_asg (Lnast_node.create_ref rhs_str)
        .ok { s with firmod := { s.firmod with
                is_invalid_table := s.firmod.is_invalid_table.erase lhs_str } }
      else if lhs_str ∈ s.firmod.node_names then
        let (s, idx_asg) := s.add_child parent_node ⟨.assign, "assign"⟩
        let s := s.add_leaf idx_asg (Lnast_node.create_ref lhs_str)
        .ok (s.add_leaf idx_asg (Lnast_node.create_ref rhs_str))
      else .ok s
    | .kUintLiteral str_val _ =>
      let (s, idx_asg) := s.add_child parent_node ⟨.assign, "assign"⟩
      let s := s.add_leaf idx_asg (Lnast_node.create_ref lhs_str)
      .ok (s.add_leaf idx_asg (Lnast_node.create_const str_val))
    | .kSintLiteral str_val _ =>
      let (s, idx_conv) := s.add_child parent_node Lnast_node.create_func_call
      let (temp_var_str, s) := create_tmp_var s
      let s := s.add_leaf idx_conv (Lnast_node.create_ref temp_var_str)
      let s := s.add_leaf idx_conv (Lnast_node.create_const "__fir_as_sint")
      let s := s.add_leaf idx_conv (Lnast_node.create_const str_val)
      let (s, idx_asg) := s.add_child parent_node ⟨.assign, "assign"⟩
      let s := s.add_leaf idx_asg (Lnast_node.create_ref lhs_str)
      .ok (s.add_leaf idx_asg (Lnast_node.create_ref temp_var_str))
    | .kValidIf condition value => do
      I (parent_is_stmts s parent_node) "lnast.get_data(parent_node).type.is_stmts()"
      let s ← init_expr_add op2firsub value parent_node lhs_str s
      let (cond_str, s) ← expr_str_flattened_or_tg op2firsub condition parent_node s
      let (s, idx_v_if) := s.add_child parent_node Lnast_node.create_if
      let s := s.add_leaf idx_v_if (Lnast_node.create_ref cond_str)
      let (s, idx_stmt_t) := s.add_child idx_v_if Lnast_node.create_stmts
      init_expr_add op2firsub value idx_stmt_t lhs_str s
    | .kMux condition t_value f_value =>
      handle_mux_assign op2firsub s condition t_value f_value parent_node lhs_str
    | .kPrimOp op arg const_ =>
      list_prime_op_info op2firsub op arg const_ parent_node lhs_str s
    | .kSubField _ _ => .error "assertion failed: false (sub-field in init_expr_add)"
    | .kSubIndex _ _ => .error "assertion failed: false (sub-index in init_expr_add)"
    | .kSubAccess _ _ => .error "assertion failed: false (sub-access in init_expr_add)"
    | .kFixedLiteral => .error "assertion failed: false (fixed literal)"
    | .EXPRESSION_NOT_SET => .error "In init_expr_add, found unknown expression type"

/-- Source: `Inou_firrtl_module::handle_valid_if_assign`, for the valid-if with the given
condition and value. -/
def handle_valid_if_assign (op2firsub : List (PrimOp_Op × String)) (s : Env)
    (condition value : FirrtlPB_Expression) (parent_node : Nat) (lhs : String) :
    Except String Env := do
  I (parent_is_stmts s parent_node) "lnast.get_data(parent_node).type.is_stmts()"
  let s ← init_expr_add op2firsub value parent_node lhs s
  let (cond_str, s) ← expr_str_flattened_or_tg op2firsub condition parent_node s
  let (s, idx_v_if) := s.add_child parent_node Lnast_node.create_if
  let s := s.add_leaf idx_v_if (Lnast_node.create_ref cond_str)
  let (s, idx_stmt_t) := s.add_child idx_v_if Lnast_node.create_stmts
  init_expr_add op2firsub value idx_stmt_t lhs s

end Inou_firrtl_module

/-! ## Memories -/

/-- The message `firrtl::FirrtlPB_Statement_CMemory`: `type_and_depth` is the data type and
the bytes of the depth when the oneof holds `kTypeAndDepth`; `read_under_write_new` tells
whether the read-under-write policy is `NEW`. -/
structure FirrtlPB_Statement_CMemory where
  id : String
  type_and_depth : Option (FirrtlPB_Type × List Nat)
  read_under_write_new : Bool
  sync_read : Bool

/-- The enumeration `FirrtlPB_Statement_MemoryPort_Direction`. -/
inductive MemoryPort_Direction where
  | UNKNOWN | INFER | READ | WRITE | READ_WRITE
  deriving DecidableEq, Repr

/-- The message `firrtl::FirrtlPB_Statement_MemoryPort`. -/
structure FirrtlPB_Statement_MemoryPort where
  id : String
  memory_id : String
  memory_index : FirrtlPB_Expression
  expression : FirrtlPB_Expression
  direction : MemoryPort_Direction

namespace Inou_firrtl

/-- The inner loop of `convert_bigint_to_str` on one `char` (signed, shifted
arithmetically): `j` more bits are prepended to `bit_str`. -/
def bigint_char_bits : Nat → Int → String → String
  | 0, _, bit_str => bit_str
  | j + 1, bigint_char, bit_str =>
    bigint_char_bits j (Int.fdiv bigint_char 2)
      (if bigint_char % 2 ≠ 0 then "1" ++ bit_str else "0" ++ bit_str)

/-- Source: `Inou_firrtl::convert_bigint_to_str`; the bytes are given as values 0..255. -/
def convert_bigint_to_str (value : List Nat) : String :=
  if value.length = 0 then "0b0"
  else value.foldl
    (fun bigint_val b =>
      bigint_val ++ bigint_char_bits 8 (if b < 128 then (b : Int) else (b : Int) - 256) "")
    "0b"

end Inou_firrtl

namespace Lnast_node

/-- The overload `create_const(int)` for a possibly negative integer. -/
def create_const_int (n : Int) : Lnast_node := ⟨.const, toString n⟩

end Lnast_node

namespace Inou_firrtl_module

/-- Source: `Inou_firrtl_module::collect_memory_data_struct_hierarchy`; the result is the
list of entries appended to `mem2din_fields[mem_name]`. -/
def collect_memory_data_struct_hierarchy : FirrtlPB_Type → String → Except String (List String)
  | .kBundleType field, hier_fields_concats => fields field hier_fields_concats
  | .kVectorType type size, hier_fields_concats =>
    (List.range size).foldlM
      (fun acc i => do
        let new_hier_fields_concats :=
          if hier_fields_concats = "" then Str.of_nat i
          else hier_fields_concats ++ "." ++ Str.of_nat i
        let sub ←
          match type with
          | .kBundleType f =>
            collect_memory_data_struct_hierarchy (.kBundleType f) new_hier_fields_concats
          | .kVectorType t n =>
            collect_memory_data_struct_hierarchy (.kVectorType t n) new_hier_fields_concats
          | leaf => do
            let bits ← get_bit_count leaf
            .ok [new_hier_fields_concats ++ "." ++ Str.of_nat bits]
        .ok (acc ++ sub)) []
  | _, _ => .ok []
where
  /-- The loop over the fields of a Bundle. -/
  fields : List (String × Bool × FirrtlPB_Type) → String → Except String (List String)
  | [], _ => .ok []
  | (fid, _, ftype) :: rest, hier_fields_concats => do
    let new_hier_fields_concats :=
      if hier_fields_concats = "" then fid else hier_fields_concats ++ "." ++ fid
    let sub ←
      match ftype with
      | .kBundleType f =>
        collect_memory_data_struct_hierarchy (.kBundleType f) new_hier_fields_concats
      | .kVectorType t n =>
        collect_memory_data_struct_hierarchy (.kVectorType t n) new_hier_fields_concats
      | leaf => do
        let bits ← get_bit_count leaf
        .ok [new_hier_fields_concats ++ "." ++ Str.of_nat bits]
    let more ← fields rest hier_fields_concats
    .ok (sub ++ more)

/-- A tuple-add node holding only the reference `name`: the bare initialization of a memory
interface in `init_cmemory`. -/
def bare_tuple_add (s : Env) (parent_node : Nat) (name : String) : Env :=
  let (s, idx) := s.add_child parent_node Lnast_node.create_tuple_add
  s.add_leaf idx (Lnast_node.create_ref name)

/-- An assign node with the given reference and value node. -/
def assign_node (s : Env) (parent_node : Nat) (name : String) (value : Lnast_node) : Env :=
  let (s, idx) := s.add_child parent_node Lnast_node.create_assign
  let s := s.add_leaf idx (Lnast_node.create_ref name)
  s.add_leaf idx value

/-- A tuple-add node with the children reference `name`, constant port index and `value`. -/
def port_tuple_add (s : Env) (parent_node : Nat) (name : String) (port : Int)
    (value : Lnast_node) : Env :=
  let (s, idx) := s.add_child parent_node Lnast_node.create_tuple_add
  let s := s.add_leaf idx (Lnast_node.create_ref name)
  let s := s.add_leaf idx (Lnast_node.create_const_int port)
  s.add_leaf idx value

/-- Source: `Inou_firrtl_module::init_cmemory`.  The entry of `mem2din_fields` comes into
being with the first recorded field; `create_const(fwd)` of the boolean is taken to be the
integer overload (`Lnast_node` is declared outside this file). -/
def init_cmemory (s : Env) (parent_node : Nat) (cmem : FirrtlPB_Statement_CMemory) :
    Except String Env := do
  let (din_type, depth) ←
    match cmem.type_and_depth with
    | some td => (.ok td : Except String (FirrtlPB_Type × List Nat))
    | none => .error "assertion failed: happened somewhere in boom!"
  let depth_str := Inou_firrtl.convert_bigint_to_str depth
  let (fields, wensize_init) ←
    match din_type with
    | .kBundleType _ | .kVectorType _ _ => do
      let fs ← collect_memory_data_struct_hierarchy din_type ""
      (.ok (fs, din_type.vector_size % 256) : Except String (List String × Nat))
    | .kUintType _ => do
      let bits ← get_bit_count din_type
      .ok (["." ++ Str.of_nat bits], 1)
    | _ => .error "assertion failed: false (memory data type)"
  let s :=
    if fields.isEmpty then s
    else { s with firmod := { s.firmod with
             mem2din_fields := s.firmod.mem2din_fields.insert_or_assign cmem.id
               (s.firmod.mem2din_fields.get cmem.id [] ++ fields) } }
  let fwd := cmem.read_under_write_new
  -- foo_mem_res = __memory(foo_mem_interface_args.__last_value)
  let (s, idx_attr_get) := s.add_child parent_node Lnast_node.create_attr_get
  let (temp_var_name, s) := create_tmp_var s
  let s := s.add_leaf idx_attr_get (Lnast_node.create_ref temp_var_name)
  let s := s.add_leaf idx_attr_get (Lnast_node.create_ref (cmem.id ++ "_interface_args"))
  let s := s.add_leaf idx_attr_get (Lnast_node.create_const "__last_value")
  let s := s.insert_wire_name temp_var_name
  let (s, idx_fncall) := s.add_child parent_node Lnast_node.create_func_call
  let s := s.add_leaf idx_fncall (Lnast_node.create_ref (cmem.id ++ "_res"))
  let s := s.add_leaf idx_fncall (Lnast_node.create_ref "__memory")
  let s := s.add_leaf idx_fncall (Lnast_node.create_ref temp_var_name)
  -- bare initialization of memory interfaces
  let s := bare_tuple_add s parent_node (cmem.id ++ "_addr")
  let s := bare_tuple_add s parent_node (cmem.id ++ "_din")
  let s := bare_tuple_add s parent_node (cmem.id ++ "_enable")
  let s := assign_node s parent_node (cmem.id ++ "_fwd")
    (Lnast_node.create_const_nat (if fwd then 1 else 0))
  let s := assign_node s parent_node (cmem.id ++ "_type")
    (Lnast_node.create_const_nat (if cmem.sync_read then 1 else 0))
  let s := assign_node s parent_node (cmem.id ++ "_wensize")
    (Lnast_node.create_const_nat wensize_init)
  let s := assign_node s parent_node (cmem.id ++ "_size") (Lnast_node.create_const depth_str)
  let s := bare_tuple_add s parent_node (cmem.id ++ "_rdport")
  -- the permanently-true if whose statement list receives the deferred initialization
  let (s, idx_if) := s.add_child parent_node Lnast_node.create_if
  let s := s.add_leaf idx_if (Lnast_node.create_ref "true")
  let (s, idx_stmts) := s.add_child idx_if Lnast_node.create_stmts
  .ok { s with firmod := { s.firmod with
          mem2initial_idx := s.firmod.mem2initial_idx.insert_or_assign cmem.id idx_stmts,
          mem2port_cnt := s.firmod.mem2port_cnt.insert_or_assign cmem.id (-1) } }

/-- The children added for one din-field name in the non-scalar branch of `init_mem_res`:
the constant `__ubits` is placed before the last segment (`idx` is a `uint8_t`). -/
def mem_res_fields (idx_ta : Nat) (size : Nat) : List String → Nat → Env → Env
  | [], _, s => s
  | sub_name :: rest, idx, s =>
    let s :=
      if idx % 256 = size - 1 then s.add_leaf idx_ta (Lnast_node.create_const "__ubits") else s
    let s := s.add_leaf idx_ta (Lnast_node.create_const sub_name)
    mem_res_fields idx_ta size rest (idx + 1) s

/-- The deferred-initialization statement list of a memory, asserted to exist. -/
def mem_initial_idx (s : Env) (mem_name : String) : Except String Nat :=
  match s.firmod.mem2initial_idx.find mem_name with
  | some idx => .ok idx
  | none => .error "assertion failed: mem2initial_idx.find(mem_name) != mem2initial_idx.end()"

/-- The recorded din-field names of a memory, asserted to exist. -/
def mem_din_fields (s : Env) (mem_name : String) : Except String (List String) :=
  match s.firmod.mem2din_fields.find mem_name with
  | some fs => .ok fs
  | none => .error "assertion failed: it != mem2din_fields.end()"

/-- Source: `Inou_firrtl_module::init_mem_res`. -/
def init_mem_res (s : Env) (mem_name port_cnt_str : String) : Except String Env := do
  let idx_initialize_stmts ← mem_initial_idx s mem_name
  let hier_full_names ← mem_din_fields s mem_name
  let mem_res_str := mem_name ++ "_res"
  .ok (hier_full_names.foldl
    (fun s hier_full_name =>
      let hier_sub_names := split_hier_name hier_full_name
      let (s, idx_ta) := s.add_child idx_initialize_stmts Lnast_node.create_tuple_add
      let s := s.add_leaf idx_ta (Lnast_node.create_ref mem_res_str)
      let s := s.add_leaf idx_ta (Lnast_node.create_const port_cnt_str)
      if hier_sub_names.length = 1 then
        let s := s.add_leaf idx_ta (Lnast_node.create_const "__ubits")
        s.add_leaf idx_ta (Lnast_node.create_const (hier_sub_names.getD 0 ""))
      else
        mem_res_fields idx_ta hier_sub_names.length hier_sub_names 0 s) s)

/-- Source: `Inou_firrtl_module::init_mem_din`.  The test `it->second.at(0) == "."`
compares the whole first din-field name with the one-character string. -/
def init_mem_din (s : Env) (mem_name port_cnt_str : String) : Except String Env := do
  let idx_initialize_stmts ← mem_initial_idx s mem_name
  let hier_full_names ← mem_din_fields s mem_name
  let first ←
    match hier_full_names with
    | f :: _ => (.ok f : Except String String)
    | [] => .error "std::out_of_range"
  if first = "." then
    let (s, idx) := s.add_child idx_initialize_stmts Lnast_node.create_tuple_add
    let s := s.add_leaf idx (Lnast_node.create_ref (mem_name ++ "_din"))
    let s := s.add_leaf idx (Lnast_node.create_const port_cnt_str)
    .ok (s.add_leaf idx (Lnast_node.create_const_nat 0))
  else
    .ok (hier_full_names.foldl
      (fun s hier_full_name =>
        let chopped :=
          match Str.rfind_char hier_full_name '.' with
          | some found => Str.substr hier_full_name 0 found
          | none => hier_full_name
        let hier_sub_names := split_hier_name chopped
        let (s, idx) := s.add_child idx_initialize_stmts Lnast_node.create_tuple_add
        let s := s.add_leaf idx (Lnast_node.create_ref (mem_name ++ "_din"))
        let s := s.add_leaf idx (Lnast_node.create_const port_cnt_str)
        let s := hier_sub_names.foldl
          (fun s sub_name => s.add_leaf idx (Lnast_node.create_const sub_name)) s
        s.add_leaf idx (Lnast_node.create_const_nat 0)) s)

/-- Source: `Inou_firrtl_module::handle_mport_declaration`. -/
def handle_mport_declaration (op2firsub : List (PrimOp_Op × String)) (s : Env)
    (parent_node : Nat) (mport : FirrtlPB_Statement_MemoryPort) : Except String Env := do
  let mem_name := mport.memory_id
  let s := { s with firmod := { s.firmod with
               mport2mem := s.firmod.mport2mem.insert_or_assign mport.id mem_name,
               mem2port_cnt := s.firmod.mem2port_cnt.insert_or_assign mem_name
                 (s.firmod.mem2port_cnt.get mem_name 0 + 1) } }
  let (clk_str, s) ← get_expr_hier_name op2firsub mport.expression parent_node s
  let (adr_str, s) ← get_expr_hier_name op2firsub mport.memory_index parent_node s
  let clk_str ← name_prefix_modifier_flattener s clk_str true
  let adr_str ← name_prefix_modifier_flattener s adr_str true
  let port_cnt_str := s.firmod.mem2port_cnt.get mem_name 0
  -- address / enable in the current scope
  let s := port_tuple_add s parent_node (mem_name ++ "_addr") port_cnt_str
    (Lnast_node.create_ref adr_str)
  let s := port_tuple_add s parent_node (mem_name ++ "_enable") port_cnt_str
    (Lnast_node.create_const_nat 1)
  -- initialized port interfaces at the top scope
  let idx_initialize_stmts ← mem_initial_idx s mem_name
  let s := assign_node s idx_initialize_stmts (mem_name ++ "_clock")
    (Lnast_node.create_ref clk_str)
  let s := port_tuple_add s idx_initialize_stmts (mem_name ++ "_addr") port_cnt_str
    (Lnast_node.create_const_nat 0)
  let s := port_tuple_add s idx_initialize_stmts (mem_name ++ "_enable") port_cnt_str
    (Lnast_node.create_const_nat 0)
  let s := port_tuple_add s idx_initialize_stmts (mem_name ++ "_rdport") port_cnt_str
    (Lnast_node.create_const "true")
  match mport.direction with
  | .READ => init_mem_res s mem_name (toString port_cnt_str)
  | .WRITE => do
    let s ← init_mem_din s mem_name (toString port_cnt_str)
    I (!s.firmod.mport2mask_bitvec.has mport.id)
      "mport2mask_bitvec.find(mport.id()) == mport2mask_bitvec.end()"
    I (!s.firmod.mport2mask_cnt.has mport.id)
      "mport2mask_cnt.find(mport.id()) == mport2mask_cnt.end()"
    .ok { s with firmod := { s.firmod with
            mport2mask_bitvec := s.firmod.mport2mask_bitvec.insert_or_assign mport.id 1,
            mport2mask_cnt := s.firmod.mport2mask_cnt.insert_or_assign mport.id 0 } }
  | _ => do
    let s ← init_mem_res s mem_name (toString port_cnt_str)
    init_mem_din s mem_name (toString port_cnt_str)

/-- Source: `Inou_firrtl_module::initialize_rd_mport_from_usage`.  The port index used is
the current port counter of the memory; the recorded index is a `uint8_t`. -/
def initialize_rd_mport_from_usage (s : Env) (parent_node : Nat) (mport_name : String) : Env :=
  let mem_name := s.firmod.mport2mem.get mport_name ""
  let mem_port_str := s.firmod.mem2port_cnt.get mem_name 0
  let s := { s with firmod := { s.firmod with
               mport2mem := s.firmod.mport2mem.touch mport_name "",
               mem2port_cnt := s.firmod.mem2port_cnt.touch mem_name 0 } }
  if mport_name ∈ s.firmod.mport_usage_visited then s
  else
    let s := { s with firmod := { s.firmod with
                 mport_usage_visited := set_insert s.firmod.mport_usage_visited mport_name } }
    let s := port_tuple_add s parent_node (mem_name ++ "_rdport") mem_port_str
      (Lnast_node.create_const "true")
    { s with firmod := { s.firmod with
        mem2rd_mports := s.firmod.mem2rd_mports.insert_or_assign mem_name
          (s.firmod.mem2rd_mports.get mem_name [] ++ [(mport_name, (mem_port_str % 256).toNat)]) } }

/-- Source: `Inou_firrtl_module::initialize_wr_mport_from_usage`. -/
def initialize_wr_mport_from_usage (s : Env) (mport_name : String) : Except String Env :=
  let mem_name := s.firmod.mport2mem.get mport_name ""
  let port_cnt := s.firmod.mem2port_cnt.get mem_name 0
  let s := { s with firmod := { s.firmod with
               mport2mem := s.firmod.mport2mem.touch mport_name "",
               mem2port_cnt := s.firmod.mem2port_cnt.touch mem_name 0 } }
  if mport_name ∈ s.firmod.mport_usage_visited then .ok s
  else
    match s.firmod.mem2initial_idx.find mem_name with
    | none => .error "add_child on an invalid Lnast_nid"
    | some idx_initialize_stmts =>
      let s := { s with firmod := { s.firmod with
                   mem2one_wr_mport := s.firmod.mem2one_wr_mport.insert_or_assign mem_name port_cnt,
                   mport_usage_visited := set_insert s.firmod.mport_usage_visited mport_name } }
      let s := port_tuple_add s idx_initialize_stmts (mem_name ++ "_rdport") port_cnt
        (Lnast_node.create_const "false")
      let (s, idx_attr_get) := s.add_child idx_initialize_stmts Lnast_node.create_attr_get
      let (mport_last_value, s) := create_tmp_var s
      let s := s.add_leaf idx_attr_get (Lnast_node.create_ref mport_last_value)
      let s := s.add_leaf idx_attr_get (Lnast_node.create_ref mport_name)
      let s := s.add_leaf idx_attr_get (Lnast_node.create_const "__last_value")
      let s := s.insert_wire_name mport_last_value
      .ok (port_tuple_add s idx_initialize_stmts (mem_name ++ "_din") port_cnt
        (Lnast_node.create_ref mport_last_value))

end Inou_firrtl_module

/-! ## Module instances -/

namespace Inou_firrtl_module

/-- The head and the flattened rest of a dotted name, as the instance helpers compute them:
`name.substr(0, pos)` and `name.substr(pos + 1)` with its dots replaced, for
`pos = name.find('.')`. -/
def tup_head_and_fields (name : String) : String × String :=
  match Str.find_char name '.' with
  | some pos => (Str.substr name 0 pos, Str.replace_dots (Str.drop name (pos + 1)))
  | none => (name, Str.replace_dots name)

/-- Source: `Inou_firrtl_module::create_tuple_add_for_instance_itup`. -/
def create_tuple_add_for_instance_itup (s : Env) (parent_node : Nat)
    (lhs_hier_name rhs_flattened_name : String) : Except String Env := do
  let (s, attr_get_node) := s.add_child parent_node Lnast_node.create_attr_get
  let (temp_var_str, s) := create_tmp_var s
  let s := s.add_leaf attr_get_node (Lnast_node.create_ref temp_var_str)
  let s := s.add_leaf attr_get_node (Lnast_node.create_ref rhs_flattened_name)
  let s := s.add_leaf attr_get_node (Lnast_node.create_const "__last_value")
  let s := { s with firmod := { s.firmod with
               var2last_value :=
                 s.firmod.var2last_value.insert_or_assign rhs_flattened_name temp_var_str } }
  let s := s.insert_wire_name temp_var_str
  let s := add_lnast_assign s parent_node rhs_flattened_name "0"
  I (Str.contains_char lhs_hier_name '.') "absl::StrContains(lhs_hier_name, '.')"
  let (s, selc_node) := s.add_child parent_node Lnast_node.create_tuple_add
  let (tup_head, tup_merged_fields) := tup_head_and_fields lhs_hier_name
  let s := s.add_leaf selc_node (Lnast_node.create_ref ("itup_" ++ tup_head))
  let s := s.add_leaf selc_node (Lnast_node.create_const tup_merged_fields)
  .ok (s.add_leaf selc_node (Lnast_node.create_ref temp_var_str))

/-- Source: `Inou_firrtl_module::create_tuple_get_for_instance_otup`. -/
def create_tuple_get_for_instance_otup (s : Env) (parent_node : Nat)
    (rhs_full_name lhs_full_name : String) : Except String Env := do
  I (Str.contains_char rhs_full_name '.') "absl::StrContains(rhs_full_name, '.')"
  let (s, selc_node) := s.add_child parent_node Lnast_node.create_tuple_get
  let s := s.add_leaf selc_node (Lnast_node.create_ref (Str.replace_dots lhs_full_name))
  let (tup_head, tup_merged_fields) := tup_head_and_fields rhs_full_name
  let s := s.add_leaf selc_node (Lnast_node.create_ref ("otup_" ++ tup_head))
  .ok (s.add_leaf selc_node (Lnast_node.create_const tup_merged_fields))

/-- Source: `Inou_firrtl_module::create_module_inst`, for the instance `inst_id` of module
`module_id`. -/
def create_module_inst (s : Env) (inst_id module_id : String) (parent_node : Nat) :
    Except String Env := do
  let temp_var_name2 := "F" ++ Str.of_nat s.firmod.tmp_var_cnt
  let s := { s with firmod := { s.firmod with tmp_var_cnt := s.firmod.tmp_var_cnt + 1 } }
  let inst_name := if Str.substr inst_id 0 2 = "_T" then "_." ++ inst_id else inst_id
  let inp_name := "itup_" ++ inst_name
  let out_name := "otup_" ++ inst_name
  let (s, idx_dot) := s.add_child parent_node Lnast_node.create_attr_get
  let s := s.add_leaf idx_dot (Lnast_node.create_ref temp_var_name2)
  let s := s.add_leaf idx_dot (Lnast_node.create_ref inp_name)
  let s := s.add_leaf idx_dot (Lnast_node.create_const "__last_value")
  let s := s.insert_wire_name temp_var_name2
  let (s, idx_fncall) := s.add_child parent_node Lnast_node.create_func_call
  let s := s.add_leaf idx_fncall (Lnast_node.create_ref out_name)
  let s := s.add_leaf idx_fncall (Lnast_node.create_ref ("__firrtl_" ++ module_id))
  let s := s.add_leaf idx_fncall (Lnast_node.create_ref temp_var_name2)
  let module_name := module_id
  let s := { s with firmod := { s.firmod with
               inst2module := s.firmod.inst2module.insert_or_assign inst_id module_name } }
  let inputs_set := s.glob_info.module2inputs.get module_name []
  let s := { s with glob_info := { s.glob_info with
               module2inputs := s.glob_info.module2inputs.touch module_name [] } }
  let s ← inputs_set.foldlM
    (fun s itr => do
      let hier_name := inst_id ++ "." ++ itr
      let flattened_out_name ← name_prefix_modifier_flattener s hier_name false
      create_tuple_add_for_instance_itup s parent_node hier_name flattened_out_name) s
  let outputs_map := s.glob_info.module2outputs.get module_name []
  let s := { s with glob_info := { s.glob_info with
               module2outputs := s.glob_info.module2outputs.touch module_name [] } }
  outputs_map.foldlM
    (fun s kv => do
      let hier_name_r := inst_id ++ "." ++ kv.1
      let flattened_inp_name ← name_prefix_modifier_flattener s hier_name_r false
      let s ← create_tuple_get_for_instance_otup s parent_node hier_name_r flattened_inp_name
      setup_scalar_bits s flattened_inp_name kv.2.1 parent_node kv.2.2) s

/-- Source: `Inou_firrtl_module::tuple_flattened_connections_instance_l`. -/
def tuple_flattened_connections_instance_l (s : Env) (parent_node : Nat)
    (hier_name_l_ori hier_name_r_ori : String) (is_input : Bool) : Except String Env := do
  let (hier_name_l_ori, hier_name_r_ori) :=
    if !is_input then (hier_name_r_ori, hier_name_l_ori) else (hier_name_l_ori, hier_name_r_ori)
  let hier_name_l ← name_prefix_modifier_flattener s hier_name_l_ori false
  let hier_name_r ← name_prefix_modifier_flattener s hier_name_r_ori true
  let (s, idx_asg) := s.add_child parent_node Lnast_node.create_assign
  let s := s.add_leaf idx_asg (Lnast_node.create_ref hier_name_l)
  let s ← attach_expr_str2node s hier_name_r idx_asg
  .ok (s.insert_wire_name hier_name_l)

/-- Source: `Inou_firrtl_module::tuple_flattened_connections_instance_r`. -/
def tuple_flattened_connections_instance_r (s : Env) (parent_node : Nat)
    (hier_name_l_ori hier_name_r_ori : String) (is_flipped is_output : Bool) :
    Except String Env := do
  let (hier_name_l_ori, hier_name_r_ori) :=
    if is_flipped && !is_output then (hier_name_r_ori, hier_name_l_ori)
    else (hier_name_l_ori, hier_name_r_ori)
  let hier_name_l ← name_prefix_modifier_flattener s hier_name_l_ori false
  let hier_name_r ← name_prefix_modifier_flattener s hier_name_r_ori true
  let (s, idx_asg) := s.add_child parent_node Lnast_node.create_assign
  let s := s.add_leaf idx_asg (Lnast_node.create_ref hier_name_l)
  let s ← attach_expr_str2node s hier_name_r idx_asg
  .ok (s.insert_wire_name hier_name_l)

/-- The test made on one flip-table entry by the instance connection handlers: the suffix
`leaf_field` of an entry that lies strictly below `head_chopped`, `none` when it does not.
The position assertion `I(p == 0)` can fail. -/
def instance_leaf_field (entry_name head_chopped : String) : Except String (Option String) :=
  match Str.find_sub entry_name head_chopped with
  | some p => do
    I (p == 0) "p == 0"
    let p2 := head_chopped.data.length
    if entry_name.data.length > p2 then do
      let c ← Str.char_at entry_name p2
      if c == '.' then .ok (some (Str.drop entry_name p2)) else .ok none
    else .ok none
  | none => .ok none

/-- The global flip-table set read through `glob_info.var2flip[module][key]`, and the unit
after the two `operator[]` lookups. -/
def glob_flip_sets (s : Env) (module_name key : String) : Flip_set × Env :=
  let tbl := s.glob_info.var2flip.get module_name []
  (tbl.get key [],
   { s with glob_info := { s.glob_info with
       var2flip := s.glob_info.var2flip.insert_or_assign module_name (tbl.touch key []) } })

/-- Source: `Inou_firrtl_module::handle_lhs_instance_connections`. -/
def handle_lhs_instance_connections (s : Env) (parent_node : Nat)
    (tup_head_l hier_name_l hier_name_r : String) : Except String Env := do
  let sub_module_name := s.firmod.inst2module.get tup_head_l ""
  let s := { s with firmod := { s.firmod with
               inst2module := s.firmod.inst2module.touch tup_head_l "" } }
  let head_chopped_hier_name_l :=
    match Str.find_char hier_name_l '.' with
    | some pos => Str.drop hier_name_l (pos + 1)
    | none => hier_name_l
  let inputs := s.glob_info.module2inputs.get sub_module_name []
  let s := { s with glob_info := { s.glob_info with
               module2inputs := s.glob_info.module2inputs.touch sub_module_name [] } }
  if head_chopped_hier_name_l ∈ inputs then
    tuple_flattened_connections_instance_l s parent_node hier_name_l hier_name_r true
  else do
    let inst_name := tup_head_l
    let head_chopped_hier_name_l_2 :=
      match Str.find_char head_chopped_hier_name_l '.' with
      | some pos2 => Str.substr head_chopped_hier_name_l 0 pos2
      | none => ""
    let (tup_l_sets, s) := glob_flip_sets s sub_module_name head_chopped_hier_name_l_2
    tup_l_sets.foldlM
      (fun s it => do
        match ← instance_leaf_field it.1 head_chopped_hier_name_l with
        | some leaf_field =>
          tuple_flattened_connections_instance_l s parent_node (inst_name ++ "." ++ it.1)
            (hier_name_r ++ leaf_field) true
        | none => .ok s) s

/-- Source: `Inou_firrtl_module::handle_rhs_instance_connections`. -/
def handle_rhs_instance_connections (s : Env) (parent_node : Nat)
    (tup_head_r hier_name_l hier_name_r : String) : Except String Env := do
  let sub_module_name := s.firmod.inst2module.get tup_head_r ""
  let s := { s with firmod := { s.firmod with
               inst2module := s.firmod.inst2module.touch tup_head_r "" } }
  let head_chopped_hier_name_r :=
    match Str.find_char hier_name_r '.' with
    | some pos => Str.drop hier_name_r (pos + 1)
    | none => hier_name_r
  let outputs := s.glob_info.module2outputs.get sub_module_name []
  let s := { s with glob_info := { s.glob_info with
               module2outputs := s.glob_info.module2outputs.touch sub_module_name [] } }
  if outputs.has head_chopped_hier_name_r then
    tuple_flattened_connections_instance_r s parent_node hier_name_l hier_name_r false true
  else do
    let (tup_r_sets, s) := glob_flip_sets s sub_module_name head_chopped_hier_name_r
    tup_r_sets.foldlM
      (fun s it => do
        match ← instance_leaf_field it.1 head_chopped_hier_name_r with
        | some leaf_field =>
          tuple_flattened_connections_instance_r s parent_node (hier_name_l ++ leaf_field)
            (hier_name_r ++ leaf_field) it.2 true
        | none => .ok s) s

end Inou_firrtl_module

/-! ## Statements and modules -/

/-- The message `firrtl::FirrtlPB_Statement`. -/
inductive FirrtlPB_Statement where
  | kWire (id : String) (type : FirrtlPB_Type)
  | kRegister (id : String) (type : FirrtlPB_Type) (clock reset init : FirrtlPB_Expression)
  | kMemory
  | kCmemory (cmemory : FirrtlPB_Statement_CMemory)
  | kMemoryPort (memory_port : FirrtlPB_Statement_MemoryPort)
  | kInstance (id module_id : String)
  | kNode (id : String) (expression : FirrtlPB_Expression)
  | kWhen (predicate : FirrtlPB_Expression) (consequent otherwise : List FirrtlPB_Statement)
  | kStop
  | kPrintf
  | kSkip
  | kConnect (location expression : FirrtlPB_Expression)
  | kPartialConnect (location expression : FirrtlPB_Expression)
  | kIsInvalid (expression : FirrtlPB_Expression)
  | kAttach
  | STATEMENT_NOT_SET

/-- The message `firrtl::FirrtlPB_Module_UserModule`. -/
structure FirrtlPB_Module_UserModule where
  id : String
  port : List FirrtlPB_Port
  statement : List FirrtlPB_Statement

namespace Inou_firrtl_module

/-- The head and the rest of a hierarchical name at its first dot (`find_first_of('.')`);
the rest is empty when there is no dot. -/
def tup_head_rest (hier_name : String) : String × String :=
  match Str.find_char hier_name '.' with
  | some pos => (Str.substr hier_name 0 pos, Str.drop hier_name (pos + 1))
  | none => (hier_name, "")

/-- The cases `kConnect` / `kPartialConnect` of `list_statement_info`. -/
def connect_statement (op2firsub : List (PrimOp_Op × String)) (s : Env) (parent_node : Nat)
    (lhs_expr rhs_expr : FirrtlPB_Expression) : Except String Env := do
  let (hier_name_l, is_runtime_idx_l) := get_expr_hier_name_rt lhs_expr false
  let (hier_name_r, is_runtime_idx_r) := get_expr_hier_name_rt rhs_expr false
  -- case-I: runtime index
  if is_runtime_idx_l then
    handle_lhs_runtime_idx s parent_node hier_name_l hier_name_r lhs_expr
  else if is_runtime_idx_r then
    handle_rhs_runtime_idx s parent_node hier_name_l hier_name_r rhs_expr
  -- case-II: the rhs is a component without a name
  else if hier_name_r = "" then
    init_expr_add op2firsub rhs_expr parent_node hier_name_l s
  else do
    let (tup_head_l, _) := tup_head_rest hier_name_l
    let (tup_head_r, _) := tup_head_rest hier_name_r
    -- case-IV: memory port connection
    let is_wr_mport := s.firmod.mport2mem.has tup_head_l
    let is_rd_mport := s.firmod.mport2mem.has tup_head_r
    if is_rd_mport then do
      let s := initialize_rd_mport_from_usage s parent_node tup_head_r
      let hier_name_l ← name_prefix_modifier_flattener s hier_name_l false
      if !Str.contains_char hier_name_r '.' then
        .ok (add_lnast_assign s parent_node hier_name_l tup_head_r)
      else do
        let (target_var_str, s) := create_tmp_var s
        let s ← create_tuple_get_from_str s parent_node hier_name_r
                  (Lnast_node.create_ref target_var_str)
        .ok (add_lnast_assign s parent_node hier_name_l target_var_str)
    else if is_wr_mport then do
      let s ← initialize_wr_mport_from_usage s tup_head_l
      let hier_name_r ← name_prefix_modifier_flattener s hier_name_r true
      if !Str.contains_char hier_name_l '.' then
        .ok (add_lnast_assign s parent_node tup_head_l hier_name_r)
      else
        create_tuple_add_from_str s parent_node hier_name_l (Lnast_node.create_ref hier_name_r)
    -- case-VII: connections involving instances
    else if s.firmod.inst2module.has tup_head_l then
      handle_lhs_instance_connections s parent_node tup_head_l hier_name_l hier_name_r
    else if s.firmod.inst2module.has tup_head_r then
      handle_rhs_instance_connections s parent_node tup_head_r hier_name_l hier_name_r
    -- case-VIII: the normal case
    else
      handle_normal_cases_wire_connections s parent_node tup_head_l hier_name_l hier_name_r

/-- The case `kIsInvalid` of `list_statement_info`. -/
def is_invalid_statement (op2firsub : List (PrimOp_Op × String)) (s : Env) (parent_node : Nat)
    (expression : FirrtlPB_Expression) : Except String Env := do
  let (id, s) ← get_expr_hier_name op2firsub expression parent_node s
  let s :=
    if id ∈ s.firmod.wire_names then
      { s with firmod := { s.firmod with
          is_invalid_table := set_insert s.firmod.is_invalid_table id } }
    else s
  if Str.contains_char id '.' then do
    let id ← name_prefix_modifier_flattener s id false
    let c ← Str.char_at id 0
    if c != '$' then
      let s := assign_node s parent_node id (Lnast_node.create_const "is_fir_invalid")
      .ok (s.insert_wire_name id)
    else .ok s
  else .ok s

/-- Source: `Inou_firrtl_module::list_statement_info`. -/
def list_statement_info (op2firsub : List (PrimOp_Op × String)) :
    FirrtlPB_Statement → Nat → Env → Except String Env
  | .kWire stmt_wire_id type, parent_node, s =>
    wire_init_flip_handling type stmt_wire_id false parent_node (s.insert_wire_name stmt_wire_id)
  | .kRegister stmt_reg_id type _ reset init, parent_node, s =>
    handle_register reset init type stmt_reg_id parent_node s
  | .kMemory, _, _ => .error "assertion failed: never happen in chirrtl"
  | .kCmemory cmemory, parent_node, s =>
    init_cmemory
      { s with firmod := { s.firmod with
          memory_names := set_insert s.firmod.memory_names cmemory.id } }
      parent_node cmemory
  | .kMemoryPort memory_port, parent_node, s =>
    handle_mport_declaration op2firsub s parent_node memory_port
  | .kInstance id module_id, parent_node, s => create_module_inst s id module_id parent_node
  | .kNode id expression, parent_node, s =>
    init_expr_add op2firsub expression parent_node id
      { s with firmod := { s.firmod with node_names := set_insert s.firmod.node_names id } }
  | .kWhen predicate consequent otherwise, parent_node, s => do
    let (cond_str, s) ← expr_str_flattened_or_tg op2firsub predicate parent_node s
    let (s, idx_when) := s.add_child parent_node Lnast_node.create_if
    let s ← attach_expr_str2node s cond_str idx_when
    let (s, idx_stmts_t) := s.add_child idx_when Lnast_node.create_stmts
    let s ← stmts op2firsub consequent idx_stmts_t s
    match otherwise with
    | [] => .ok s
    | other =>
      let (s, idx_stmts_f) := s.add_child idx_when Lnast_node.create_stmts
      stmts op2firsub other idx_stmts_f s
  | .kStop, _, s => .ok s
  | .kPrintf, _, s => .ok s
  | .kSkip, _, s => .ok s
  | .kConnect location expression, parent_node, s =>
    connect_statement op2firsub s parent_node location expression
  | .kPartialConnect location expression, parent_node, s =>
    connect_statement op2firsub s parent_node location expression
  | .kIsInvalid expression, parent_node, s =>
    is_invalid_statement op2firsub s parent_node expression
  | .kAttach, _, _ => .error "Attach statement not yet supported due to bidirectionality."
  | .STATEMENT_NOT_SET, _, s =>
    .ok ((s.warn "Warning: commented \"I(false)\" to enable RocketTile LG generation.").warn
          "Unknown statement type")
where
  /-- A list of statements translated in order under one statement list. -/
  stmts (op2firsub : List (PrimOp_Op × String)) :
      List FirrtlPB_Statement → Nat → Env → Except String Env
  | [], _, s => .ok s
  | st :: rest, parent_node, s => do
    let s ← list_statement_info op2firsub st parent_node s
    stmts op2firsub rest parent_node s

end Inou_firrtl_module

namespace Inou_firrtl

/-- Source: `Inou_firrtl::populate_module_io`, for one user module.  The creation of the
sub-node in the external graph library is not modelled. -/
def populate_module_io (s : Env) (user_module : FirrtlPB_Module_UserModule) :
    Except String Env :=
  user_module.port.foldlM
    (fun s port =>
      let s := { s with glob_info := { s.glob_info with
                   var2flip := s.glob_info.var2flip.insert_or_assign user_module.id
                     ((s.glob_info.var2flip.get user_module.id []).insert_or_assign port.id []) } }
      add_port_to_map user_module.id port.type port.direction false port.id s) s

/-- Source: `Inou_firrtl::user_module_to_lnast`: the tree of one user module, built on the
global tables `glob`.  The result is the unit at the moment the tree is handed to the
shared collection. -/
def user_module_to_lnast (op2firsub : List (PrimOp_Op × String)) (glob : Global_info)
    (user_module : FirrtlPB_Module_UserModule) : Except String Env := do
  let s : Env := { Env.fresh user_module.id with glob_info := glob }
  let idx_stmts := 1
  let s ← user_module.port.foldlM
    (fun s port => Inou_firrtl_module.list_port_info s port idx_stmts) s
  let s ← Inou_firrtl_module.list_statement_info.stmts op2firsub user_module.statement
            idx_stmts s
  Inou_firrtl_module.final_mem_interface_assign s idx_stmts

/-- Source: `Inou_firrtl::initialize_global_tables`, for the modules with the given ids. -/
def initialize_global_tables (glob : Global_info) (module_ids : List String) : Global_info :=
  module_ids.foldl
    (fun glob id =>
      { glob with
        var2flip := glob.var2flip.insert_or_assign id [],
        module2outputs := glob.module2outputs.insert_or_assign id [],
        module2inputs := glob.module2inputs.insert_or_assign id [] }) glob

/-- The global tables after `initialize_global_tables` and `populate_module_io` have run
for a circuit holding just this module, starting from empty tables. -/
def populated_glob (user_module : FirrtlPB_Module_UserModule) : Except String Global_info :=
  (populate_module_io
    { Env.fresh user_module.id with
      glob_info := initialize_global_tables {} [user_module.id] } user_module).map (·.glob_info)

/-- The translation of a circuit made of one user module: the port-population phase
followed by the translation of the module body. -/
def single_module_to_lnast (op2firsub : List (PrimOp_Op × String))
    (user_module : FirrtlPB_Module_UserModule) : Except String Env := do
  let glob ← populated_glob user_module
  user_module_to_lnast op2firsub glob user_module

end Inou_firrtl

/-! ## Port lists -/

/-- The direction opposite to `dir` (1 is an input, 2 an output). -/
def opposite_dir (dir : Nat) : Nat := if dir = 1 then 2 else if dir = 2 then 1 else 0

/-- The number of flipped fields on a path. -/
def flip_count : List (String × Bool) → Nat
  | [] => 0
  | (_, is_flipped) :: rest => (if is_flipped then 1 else 0) + flip_count rest

/-- The direction of a leaf of a port declared with direction `dir`: `dir` when the number
of flipped fields on the path of the leaf is even, the opposite direction when it is odd. -/
def leaf_dir (dir : Nat) (p : List (String × Bool)) : Nat :=
  if flip_count p % 2 = 0 then dir else opposite_dir dir

/-- The width that the port list gives a scalar leaf: the declared width of a UInt or SInt,
1 for a Clock, a Reset and an AsyncReset. -/
def leaf_bits : FirrtlPB_Type → Nat
  | .kUintType w => w
  | .kSintType w => w
  | _ => 1

/-- The sign that the port list gives a scalar leaf: signed for an SInt and a Clock. -/
def leaf_sign : FirrtlPB_Type → Bool
  | .kSintType _ => true
  | .kClockType => true
  | _ => false

namespace Inou_firrtl

/-- Source: `Inou_firrtl::create_io_list`, with the output parameter `vec` explicit: the
list on entry is an argument and the list on exit is the result. -/
def create_io_list_vec :
    FirrtlPB_Type → Nat → String → List Port_entry → Except String (List Port_entry)
  | .kUintType w, dir, port_id, vec => .ok (vec ++ [(port_id, dir, w, false)])
  | .kSintType w, dir, port_id, vec => .ok (vec ++ [(port_id, dir, w, true)])
  | .kClockType, dir, port_id, vec => .ok (vec ++ [(port_id, dir, 1, true)])
  | .kBundleType field, dir, port_id, vec => fields field dir port_id vec
  | .kVectorType type size, dir, port_id, vec =>
    (List.range size).foldlM
      (fun vec i =>
        create_io_list_vec type dir (port_id ++ "." ++ Str.of_nat i)
          (vec ++ [(port_id, dir, 0, false)])) vec
  | .kFixedType, _, _, _ => .error "assertion failed: false (fixed type)"
  | .kAnalogType _, _, _, _ => .error "assertion failed: false (analog type)"
  | .kAsyncResetType, dir, port_id, vec => .ok (vec ++ [(port_id, dir, 1, false)])
  | .kResetType, dir, port_id, vec => .ok (vec ++ [(port_id, dir, 1, false)])
  | .TYPE_NOT_SET, _, _, _ => .error "Unknown port type."
where
  /-- The loop over the fields of a Bundle. -/
  fields : List (String × Bool × FirrtlPB_Type) → Nat → String → List Port_entry →
      Except String (List Port_entry)
  | [], _, _, vec => .ok vec
  | (fid, is_flipped, ftype) :: rest, dir, port_id, vec => do
    let vec ←
      if is_flipped then do
        let new_dir := if dir = 1 then 2 else if dir = 2 then 1 else 0
        I (new_dir != 0) "new_dir != 0"
        create_io_list_vec ftype new_dir (port_id ++ "." ++ fid) vec
      else
        create_io_list_vec ftype dir (port_id ++ "." ++ fid) vec
    fields rest dir port_id vec

end Inou_firrtl

/-- A port that is a Vector of two `UInt<8>`. -/
def vector_port_example : FirrtlPB_Type := .kVectorType (.kUintType 8) 2

/-- A module with an input port `a : Bundle{x: flipped UInt<8>, y: UInt<0>}` and an output
port `b : Clock`. -/
def populate_example : FirrtlPB_Module_UserModule :=
  { id := "M",
    port := [⟨"a", 1, .kBundleType [("x", true, .kUintType 8), ("y", false, .kUintType 0)]⟩,
             ⟨"b", 2, .kClockType⟩],
    statement := [] }

/-- A wire type with a Vector under a flipped field: `Bundle{a: flipped UInt<8>[2]}`. -/
def flipped_vector_example : FirrtlPB_Type :=
  .kBundleType [("a", true, .kVectorType (.kUintType 8) 2)]

/-- A unit with the output `io.out`, the input `io.in` and the declared register `r_x`. -/
def name_prefix_example : Env :=
  Inou_firrtl_module.setup_register_q_pin
    { Env.fresh "M" with
      firmod := { output_names := ["io.out"], input_names := ["io.in"] } } 1 "r_x"

/-- The node by which `attach_expr_str2node` and `add_lnast_assign` attach an operand
string: a constant when the text starts with a digit or a sign, a reference otherwise. -/
def operand_node (str : String) : Lnast_node :=
  if Str.starts_numeric str then Lnast_node.create_const str else Lnast_node.create_ref str

/-- A unit of module `M` in which the scalar wires `c`, `a`, `b` and `d` are declared. -/
def mux_example_env : Env :=
  { (Env.fresh "M") with
    firmod := { var2flip := [("c", [("c", false)]), ("a", [("a", false)]),
                             ("b", [("b", false)]), ("d", [("d", false)])],
                wire_names := ["c", "a", "b", "d"] } }

/-- A unit of module `M` in which the scalar wires `c` and `a` and the node `n` are
declared. -/
def valid_if_example_env : Env :=
  { (Env.fresh "M") with
    firmod := { var2flip := [("c", [("c", false)]), ("a", [("a", false)])],
                wire_names := ["c", "a"], node_names := ["n"] } }

/-- A unit of module `M` whose global tables hold the module `Sub` with the input `a` and
the output `y : UInt<8>`. -/
def instance_example_env : Env :=
  { (Env.fresh "M") with
    glob_info := { module2inputs := [("Sub", ["a"])],
                   module2outputs := [("Sub", [("y", (8, false))])] } }

/-- The module `M` with the input `in : UInt<w_in>`, the output `out : UInt<w_out>` and the
given statements. -/
def scalar_ports_module (w_in w_out : Nat) (statement : List FirrtlPB_Statement) :
    FirrtlPB_Module_UserModule :=
  { id := "M",
    port := [⟨"in", 1, .kUintType w_in⟩, ⟨"out", 2, .kUintType w_out⟩],
    statement := statement }

/-- The nodes that the port phase creates for `scalar_ports_module`: the root, the top
statement list, the width of `$in`, the default value of `%out` and the width of `%out`. -/
def scalar_ports_nodes (w_in w_out : Nat) : List Lnast_entry :=
  [⟨Lnast_node.create_top, none⟩, ⟨Lnast_node.create_stmts, some 0⟩,
   ⟨Lnast_node.create_tuple_add, some 1⟩, ⟨Lnast_node.create_ref "$in", some 2⟩,
   ⟨Lnast_node.create_const "__ubits", some 2⟩, ⟨Lnast_node.create_const_nat w_in, some 2⟩,
   ⟨Lnast_node.create_assign, some 1⟩, ⟨Lnast_node.create_ref "%out", some 6⟩,
   ⟨Lnast_node.create_const_nat 0, some 6⟩,
   ⟨Lnast_node.create_tuple_add, some 1⟩, ⟨Lnast_node.create_ref "%out", some 9⟩,
   ⟨Lnast_node.create_const "__ubits", some 9⟩, ⟨Lnast_node.create_const_nat w_out, some 9⟩]

/-- The global tables after the port-population phase of `scalar_ports_module`. -/
def scalar_ports_glob (w_out : Nat) : Global_info :=
  { module2inputs := [("M", ["in"])],
    module2outputs := [("M", [("out", (w_out % 65536, false))])],
    var2flip := [("M", [("in", [("in", false)]), ("out", [("out", false)])])] }

/-- The unit of `scalar_ports_module` after its ports were listed. -/
def scalar_ports_state (w_in w_out : Nat) : Env :=
  { lnast := ⟨"M", scalar_ports_nodes w_in w_out⟩,
    firmod := { input_names := ["in"], output_names := ["out"], wire_names := ["$in", "%out"] },
    glob_info := scalar_ports_glob w_out }

/-- The nodes of the `j`-th equality call of a runtime-index lowering that starts at node
index `base`, temporary counter `cnt` and vector index `i`: the function call, its fresh
temporary, the callee `__fir_eq`, the runtime index and the constant `i + j`. -/
def eq_call_nodes (parent_node : Nat) (rtidx_str : String) (base cnt i j : Nat) :
    List Lnast_entry :=
  [⟨Lnast_node.create_func_call, some parent_node⟩,
   ⟨Lnast_node.create_ref ("___F" ++ Str.of_nat (cnt + j + 1)), some (base + 5 * j)⟩,
   ⟨Lnast_node.create_const "__fir_eq", some (base + 5 * j)⟩,
   ⟨Lnast_node.create_ref rtidx_str, some (base + 5 * j)⟩,
   ⟨Lnast_node.create_const_nat (i + j), some (base + 5 * j)⟩]

/-- The nodes of the `j`-th branch of the if node `idx_mux` of a runtime-index read, the
first branch starting at node index `base` and vector index `i`: the condition, the
statement list, and in it the assign of the element to `lhs`. -/
def rhs_branch_nodes (idx_mux : Nat) (lhs : String) (cond elem : Nat → String)
    (base i j : Nat) : List Lnast_entry :=
  [⟨Lnast_node.create_ref (cond (i + j)), some idx_mux⟩,
   ⟨Lnast_node.create_stmts, some idx_mux⟩,
   ⟨Lnast_node.create_assign, some (base + 5 * j + 1)⟩,
   ⟨Lnast_node.create_ref lhs, some (base + 5 * j + 2)⟩,
   ⟨operand_node (elem (i + j)), some (base + 5 * j + 2)⟩]

/-- A unit of module `M` in which the wires `v : UInt<8>[2]`, `idx` and `out` are
declared. -/
def runtime_idx_example_env : Env :=
  { (Env.fresh "M") with
    firmod := { var2vec_size := [("v", 2)],
                var2flip := [("v", [("v.0", false), ("v.1", false)]), ("idx", [("idx", false)]),
                             ("out", [("out", false)])],
                wire_names := ["v_0", "v_1", "idx", "out"] } }

namespace Lnast

/-- The children lists of the nodes of kind `ty` within a run `es` of entries stored from
index `base` on, counting only children that belong to the run. -/
def seg_stmts (base : Nat) (es : List Lnast_entry) (ty : Lnast_ntype) : List (List Lnast_node) :=
  ((List.range es.length).filter (fun k => (es.get? k).map (·.node.type) = some ty)).map
    (fun k => (es.filter (fun e => e.parent = some (base + k))).map (·.node))

/-- The number of assign nodes of a run of entries whose left side is the reference `lhs`. -/
def seg_assigns_to (base : Nat) (es : List Lnast_entry) (lhs : String) : Nat :=
  ((seg_stmts base es .assign).filter
    (fun ch => ch.head? = some (Lnast_node.create_ref lhs))).length

/-- Every parent index recorded in a list of entries is below `n`. -/
def parents_below (n : Nat) (es : List Lnast_entry) : Prop :=
  ∀ e ∈ es, ∀ p, e.parent = some p → p < n

/-- No entry of `es` hangs under a node of kind `ty` of the list `ns`. -/
def no_child_of (ns es : List Lnast_entry) (ty : Lnast_ntype) : Prop :=
  ∀ e ∈ es, ∀ p, e.parent = some p → (ns.get? p).map (·.node.type) ≠ some ty

end Lnast

/-- The type `{a : UInt<8>, flip b : UInt<8>}`. -/
def flip_bundle_example : FirrtlPB_Type :=
  .kBundleType [("a", false, .kUintType 8), ("b", true, .kUintType 8)]

/-- The type `{a : UInt<8>, flip b : UInt<8>, c : UInt<8>}`. -/
def wide_bundle_example : FirrtlPB_Type :=
  .kBundleType [("a", false, .kUintType 8), ("b", true, .kUintType 8), ("c", false, .kUintType 8)]

/-- The unit of module `M` after the declarations `wire w : {a, flip b}` and
`wire v : {a, flip b}` under the top statement list. -/
def connect_wires_env : Env :=
  { lnast := ⟨"M",
      [⟨Lnast_node.create_top, none⟩, ⟨Lnast_node.create_stmts, some 0⟩,
       ⟨Lnast_node.create_assign, some 1⟩, ⟨Lnast_node.create_ref "w_a", some 2⟩,
       ⟨Lnast_node.create_const "0", some 2⟩,
       ⟨Lnast_node.create_assign, some 1⟩, ⟨Lnast_node.create_ref "w_b", some 5⟩,
       ⟨Lnast_node.create_const "0", some 5⟩,
       ⟨Lnast_node.create_assign, some 1⟩, ⟨Lnast_node.create_ref "v_a", some 8⟩,
       ⟨Lnast_node.create_const "0", some 8⟩,
       ⟨Lnast_node.create_assign, some 1⟩, ⟨Lnast_node.create_ref "v_b", some 11⟩,
       ⟨Lnast_node.create_const "0", some 11⟩]⟩,
    firmod := { var2flip := [("w", [("w.a", false), ("w.b", true)]),
                             ("v", [("v.a", false), ("v.b", true)])],
                wire_names := ["w", "w_a", "w_b", "v", "v_a", "v_b"] } }

/-- The unit of module `M` after the declarations `wire w : {a, flip b}` and
`wire v : {a, flip b, c}` under the top statement list. -/
def partial_connect_wires_env : Env :=
  { lnast := ⟨"M",
      [⟨Lnast_node.create_top, none⟩, ⟨Lnast_node.create_stmts, some 0⟩,
       ⟨Lnast_node.create_assign, some 1⟩, ⟨Lnast_node.create_ref "w_a", some 2⟩,
       ⟨Lnast_node.create_const "0", some 2⟩,
       ⟨Lnast_node.create_assign, some 1⟩, ⟨Lnast_node.create_ref "w_b", some 5⟩,
       ⟨Lnast_node.create_const "0", some 5⟩,
       ⟨Lnast_node.create_assign, some 1⟩, ⟨Lnast_node.create_ref "v_a", some 8⟩,
       ⟨Lnast_node.create_const "0", some 8⟩,
       ⟨Lnast_node.create_assign, some 1⟩, ⟨Lnast_node.create_ref "v_b", some 11⟩,
       ⟨Lnast_node.create_const "0", some 11⟩,
       ⟨Lnast_node.create_assign, some 1⟩, ⟨Lnast_node.create_ref "v_c", some 14⟩,
       ⟨Lnast_node.create_const "0", some 14⟩]⟩,
    firmod := { var2flip := [("w", [("w.a", false), ("w.b", true)]),
                             ("v", [("v.a", false), ("v.b", true), ("v.c", false)])],
                wire_names := ["w", "w_a", "w_b", "v", "v_a", "v_b", "v_c"] } }

/-- The statements `wire w : {a : UInt<8>, b : UInt<8>}`, `wire v : {a : UInt<8>}` and
`w <- v`: the leaf `w.b` has no counterpart in `v`. -/
def missing_counterpart_example : List FirrtlPB_Statement :=
  [.kWire "w" (.kBundleType [("a", false, .kUintType 8), ("b", false, .kUintType 8)]),
   .kWire "v" (.kBundleType [("a", false, .kUintType 8)]),
   .kPartialConnect (.kReference "w") (.kReference "v")]

/-- The unit `s` after the entries `es` were appended to its tree and `k` temporaries were
drawn. -/
def Env.emit (s : Env) (es : List Lnast_entry) (k : Nat) : Env :=
  { s with
    lnast := ⟨s.lnast.top_module_name, s.lnast.nodes ++ es⟩,
    firmod := { s.firmod with tmp_var_cnt := s.firmod.tmp_var_cnt + k } }

/-- The nodes that `final_mem_interface_assign` emits for the recorded read mports of a
memory under the statement list `idx`: per mport a tuple-get from `<mem>_res[port]` into a
fresh temporary and an assign of the temporary to the mport identifier.  `base` is the
index of the first node and `cnt` the temporary counter before the first mport. -/
def rd_mport_nodes (mem_name : String) (idx : Nat) :
    Nat → Nat → List (String × Nat) → List Lnast_entry
  | _, _, [] => []
  | base, cnt, mp :: rest =>
    [⟨Lnast_node.create_tuple_get, some idx⟩,
     ⟨Lnast_node.create_ref ("___F" ++ Str.of_nat (cnt + 1)), some base⟩,
     ⟨Lnast_node.create_ref (mem_name ++ "_res"), some base⟩,
     ⟨Lnast_node.create_const_nat mp.2, some base⟩,
     ⟨Lnast_node.create_assign, some idx⟩,
     ⟨Lnast_node.create_ref mp.1, some (base + 4)⟩,
     ⟨Lnast_node.create_ref ("___F" ++ Str.of_nat (cnt + 1)), some (base + 4)⟩]
    ++ rd_mport_nodes mem_name idx (base + 7) (cnt + 1) rest

/-- The nodes that `final_mem_interface_assign` emits for the interface tuple of a memory
under `parent_node`: the tuple-add with its nine field assigns, then the assign of the
tuple to `<mem>_interface_args`.  `base` is the index of the first node and `cnt` the
temporary counter before it. -/
def mem_interface_nodes (parent_node : Nat) (mem_name : String) (base cnt : Nat) :
    List Lnast_entry :=
  [⟨Lnast_node.create_tuple_add, some parent_node⟩,
   ⟨Lnast_node.create_ref ("___F" ++ Str.of_nat (cnt + 1)), some base⟩,
   ⟨Lnast_node.create_assign, some base⟩,
   ⟨Lnast_node.create_const "addr", some (base + 2)⟩,
   ⟨Lnast_node.create_ref (mem_name ++ "_addr"), some (base + 2)⟩,
   ⟨Lnast_node.create_assign, some base⟩,
   ⟨Lnast_node.create_const "clock", some (base + 5)⟩,
   ⟨Lnast_node.create_ref (mem_name ++ "_clock"), some (base + 5)⟩,
   ⟨Lnast_node.create_assign, some base⟩,
   ⟨Lnast_node.create_const "din", some (base + 8)⟩,
   ⟨Lnast_node.create_ref (mem_name ++ "_din"), some (base + 8)⟩,
   ⟨Lnast_node.create_assign, some base⟩,
   ⟨Lnast_node.create_const "enable", some (base + 11)⟩,
   ⟨Lnast_node.create_ref (mem_name ++ "_enable"), some (base + 11)⟩,
   ⟨Lnast_node.create_assign, some base⟩,
   ⟨Lnast_node.create_const "fwd", some (base + 14)⟩,
   ⟨Lnast_node.create_ref (mem_name ++ "_fwd"), some (base + 14)⟩,
   ⟨Lnast_node.create_assign, some base⟩,
   ⟨Lnast_node.create_const "type", some (base + 17)⟩,
   ⟨Lnast_node.create_ref (mem_name ++ "_type"), some (base + 17)⟩,
   ⟨Lnast_node.create_assign, some base⟩,
   ⟨Lnast_node.create_const "wensize", some (base + 20)⟩,
   ⟨Lnast_node.create_ref (mem_name ++ "_wensize"), some (base + 20)⟩,
   ⟨Lnast_node.create_assign, some base⟩,
   ⟨Lnast_node.create_const "size", some (base + 23)⟩,
   ⟨Lnast_node.create_ref (mem_name ++ "_size"), some (base + 23)⟩,
   ⟨Lnast_node.create_assign, some base⟩,
   ⟨Lnast_node.create_const "rdport", some (base + 26)⟩,
   ⟨Lnast_node.create_ref (mem_name ++ "_rdport"), some (base + 26)⟩,
   ⟨Lnast_node.create_assign, some parent_node⟩,
   ⟨Lnast_node.create_ref (mem_name ++ "_interface_args"), some (base + 29)⟩,
   ⟨Lnast_node.create_ref ("___F" ++ Str.of_nat (cnt + 1)), some (base + 29)⟩]

/-- The nodes that `final_mem_interface_assign` emits for a list of memories, each with its
deferred-initialization statement list and its recorded read mports. -/
def final_mem_nodes (parent_node : Nat) :
    Nat → Nat → List (String × Nat × List (String × Nat)) → List Lnast_entry
  | _, _, [] => []
  | base, cnt, m :: rest =>
    rd_mport_nodes m.1 m.2.1 base cnt m.2.2 ++
    mem_interface_nodes parent_node m.1 (base + 7 * m.2.2.length) (cnt + m.2.2.length) ++
    final_mem_nodes parent_node (base + 7 * m.2.2.length + 32) (cnt + m.2.2.length + 1) rest

/-- What `final_mem_interface_assign` reads about a memory: its name, the index of its
deferred-initialization statement list and its recorded read mports. -/
def mem_final_info (s : Env) (mem_name : String) : String × Nat × List (String × Nat) :=
  (mem_name, s.firmod.mem2initial_idx.get mem_name 0, s.firmod.mem2rd_mports.get mem_name [])

/-- The module of the memory example: `cmem m : UInt<8>[4]` followed by the declaration of
a wire that carries the name `m_interface_args` and of a wire `x_interface_args`. -/
def mem_name_clash_example : FirrtlPB_Module_UserModule :=
  ⟨"M", [],
   [.kCmemory ⟨"m", some (.kUintType 8, [4]), false, false⟩,
    .kWire "m_interface_args" (.kUintType 8),
    .kWire "x_interface_args" (.kUintType 8)]⟩

/-- The unit of module `M` just before finalization, after `cmem m : UInt<8>[4]` was
declared under the top statement list. -/
def cmemory_example_env : Env :=
  match Inou_firrtl_module.list_statement_info []
      (.kCmemory ⟨"m", some (.kUintType 8, [4]), false, false⟩) 1 (Env.fresh "M") with
  | .ok s => s
  | .error _ => Env.fresh "M"


/-- The module `Sub` with the output ports `y : SInt<w>` and `z : UInt<8>`. -/
def sint_output_module (w : Nat) : FirrtlPB_Module_UserModule :=
  ⟨"Sub", [⟨"y", 2, .kSintType w⟩, ⟨"z", 2, .kUintType 8⟩], []⟩

/-- Whether a type has a fixed-point leaf: a fixed-point type, a Bundle with such a field,
or a non-empty Vector of such elements. -/
def has_fixed_leaf : FirrtlPB_Type → Bool
  | .kFixedType => true
  | .kBundleType field => fields field
  | .kVectorType type size => decide (0 < size) && has_fixed_leaf type
  | _ => false
where
  /-- Some field of the list has a fixed-point leaf. -/
  fields : List (String × Bool × FirrtlPB_Type) → Bool
  | [] => false
  | (_, _, ftype) :: rest => has_fixed_leaf ftype || fields rest

/-- The primitive ops on fixed-point precision and on intervals. -/
def float_interval_ops : List PrimOp_Op :=
  [.OP_INCREASE_PRECISION, .OP_DECREASE_PRECISION, .OP_SET_PRECISION,
   .OP_WRAP, .OP_CLIP, .OP_SQUEEZE, .OP_AS_INTERVAL]

/-- A result that is a fatal error: the translation stops and yields no unit. -/
def is_fatal {α : Type} (r : Except String α) : Bool :=
  match r with
  | .error _ => true
  | .ok _ => false

/-- The statements of the claim on unsupported features: an attach, the declaration of a
wire or a register whose type has a fixed-point leaf, and a node defined by a
float/interval primitive op. -/
def unsupported_statement : FirrtlPB_Statement → Bool
  | .kAttach => true
  | .kWire _ type => has_fixed_leaf type
  | .kRegister _ type _ _ _ => has_fixed_leaf type
  | .kNode _ (.kPrimOp op _ _) => decide (op ∈ float_interval_ops)
  | _ => false

/-- The module `M` with the input port `a : UInt<8>[1]`, the output port `b : UInt<8>[1]`
and the statement `b[0] <= a[a[0]]`. -/
def runtime_idx_port_module : FirrtlPB_Module_UserModule :=
  ⟨"M",
   [⟨"a", 1, .kVectorType (.kUintType 8) 1⟩, ⟨"b", 2, .kVectorType (.kUintType 8) 1⟩],
   [.kConnect (.kSubIndex (.kReference "b") "0")
      (.kSubAccess (.kReference "a") (.kSubIndex (.kReference "a") "0"))]⟩

/-- The module `M` without ports whose only statement is `inst i of Ext`, where `Ext` is
not a user module of the circuit. -/
def ext_instance_module : FirrtlPB_Module_UserModule :=
  ⟨"M", [], [.kInstance "i" "Ext"]⟩

/-! ## Circuits -/

/-- The value of a parameter of an external module (`value_case()` and its payload). -/
inductive Parameter_value where
  | kInteger (value : List Nat)
  | kDouble (value : String)
  | kString (value : String)
  | kRawString (value : String)
  | VALUE_NOT_SET

/-- The message `firrtl::FirrtlPB_Module_ExternalModule`. -/
structure FirrtlPB_Module_ExternalModule where
  id : String
  defined_name : String
  port : List FirrtlPB_Port
  parameter : List (String × Parameter_value)

/-- The message `firrtl::FirrtlPB_Module`. -/
inductive FirrtlPB_Module where
  | user_module (m : FirrtlPB_Module_UserModule)
  | external_module (m : FirrtlPB_Module_ExternalModule)
  | MODULE_NOT_SET

/-- The message `firrtl::FirrtlPB_Circuit`: its modules and the number of its `top`
entries. -/
structure FirrtlPB_Circuit where
  module : List FirrtlPB_Module
  top_size : Nat

/-- What a run over circuits has produced so far: the global tables, the trees handed to
the shared collection and the warnings logged. -/
structure Firrtl_run where
  glob_info : Global_info := {}
  lnasts : List Lnast := []
  warnings : List String := []

namespace FirrtlPB_Module

/-- The accessor `module.user_module().id()`: the empty string unless the module is a user
module. -/
def user_module_id : FirrtlPB_Module → String
  | user_module m => m.id
  | _ => ""

end FirrtlPB_Module

namespace Inou_firrtl

/-- Source: `Inou_firrtl::grab_ext_module_info`. -/
def grab_ext_module_info (glob : Global_info) (emod : FirrtlPB_Module_ExternalModule) :
    Except String Global_info := do
  let _ ← emod.port.foldlM
    (fun vec port => do
      let sub ← create_io_list port.type port.direction port.id
      .ok (vec ++ sub)) ([] : List Port_entry)
  emod.parameter.foldlM
    (fun glob p => do
      let param_str ←
        match p.2 with
        | .kInteger v => (.ok (convert_bigint_to_str v) : Except String String)
        | .kDouble v => .ok v
        | .kString v => .ok v
        | .kRawString v => .ok v
        | .VALUE_NOT_SET => .error "assertion failed: false (parameter value)"
      .ok { glob with
        ext_module2param := glob.ext_module2param.insert_or_assign emod.defined_name
          ((glob.ext_module2param.get emod.defined_name []).insert p.1 param_str) }) glob

/-- Source: `Inou_firrtl::ext_module_to_lnast`: the tree of one external module. -/
def ext_module_to_lnast (glob : Global_info) (ext_module : FirrtlPB_Module_ExternalModule) :
    Except String Env :=
  let s : Env := { Env.fresh ext_module.id with glob_info := glob }
  ext_module.port.foldlM (fun s port => Inou_firrtl_module.list_port_info s port 1) s

/-- Source: `Inou_firrtl::populate_all_modules_io`; the tasks of the thread pool are run in
the order in which they are added. -/
def populate_all_modules_io (run : Firrtl_run) (circuit : FirrtlPB_Circuit) :
    Except String Firrtl_run :=
  circuit.module.foldlM
    (fun run m =>
      match m with
      | .user_module um => do
        let s ← populate_module_io { Env.fresh um.id with glob_info := run.glob_info } um
        .ok { run with glob_info := s.glob_info, warnings := run.warnings ++ s.warnings }
      | .external_module em =>
        .ok { run with warnings := run.warnings ++
                ["ext_module have not implemented: " ++ em.defined_name] }
      | .MODULE_NOT_SET => .error "Module not set.") run

/-- Source: `Inou_firrtl::para_modules_to_lnasts`: the modules are taken from the last to
the first; the tasks of the thread pool are run in the order in which they are added. -/
def para_modules_to_lnasts (op2firsub : List (PrimOp_Op × String)) (run : Firrtl_run)
    (circuit : FirrtlPB_Circuit) : Except String Firrtl_run :=
  circuit.module.reverse.foldlM
    (fun run m =>
      match m with
      | .user_module um => do
        let s ← user_module_to_lnast op2firsub run.glob_info um
        .ok { glob_info := s.glob_info, lnasts := run.lnasts ++ [s.lnast],
              warnings := run.warnings ++ s.warnings }
      | .external_module em => do
        let s ← ext_module_to_lnast run.glob_info em
        .ok { glob_info := s.glob_info, lnasts := run.lnasts ++ [s.lnast],
              warnings := run.warnings ++ s.warnings }
      | .MODULE_NOT_SET => .error "Module not set.") run

/-- Source: `Inou_firrtl::iterate_modules`. -/
def iterate_modules (op2firsub : List (PrimOp_Op × String)) (run : Firrtl_run)
    (circuit : FirrtlPB_Circuit) : Except String Firrtl_run := do
  if circuit.top_size > 1 then
    (.error "More than 1 top module specified." : Except String Unit)
  else .ok ()
  let run := { run with
    glob_info := initialize_global_tables run.glob_info
      (circuit.module.map FirrtlPB_Module.user_module_id) }
  let run ← populate_all_modules_io run circuit
  let glob ← circuit.module.foldlM
    (fun glob m =>
      match m with
      | .external_module em => grab_ext_module_info glob em
      | _ => .ok glob) run.glob_info
  para_modules_to_lnasts op2firsub { run with glob_info := glob } circuit

/-- The global tables at the moment `iterate_circuits` hands a circuit to
`iterate_modules`: the tables left by the previous circuit after the four `clear()` calls
at the head of the loop body. -/
def circuit_entry_tables (glob : Global_info) : Global_info :=
  { glob with module2outputs := [], module2inputs := [], ext_module2param := [], var2flip := [] }

/-- Source: `Inou_firrtl::iterate_circuits`. -/
def iterate_circuits (op2firsub : List (PrimOp_Op × String)) (run : Firrtl_run)
    (circuits : List FirrtlPB_Circuit) : Except String Firrtl_run :=
  circuits.foldlM
    (fun run circuit =>
      iterate_modules op2firsub { run with glob_info := circuit_entry_tables run.glob_info }
        circuit) run

end Inou_firrtl

/-- A circuit whose only module `M` has the input port `a : UInt<8>[2]`. -/
def vector_port_circuit : FirrtlPB_Circuit :=
  ⟨[.user_module ⟨"M", [⟨"a", 1, .kVectorType (.kUintType 8) 2⟩], []⟩], 1⟩

/-- A circuit whose only module `N` has the input port `x : UInt<1>`. -/
def scalar_port_circuit : FirrtlPB_Circuit :=
  ⟨[.user_module ⟨"N", [⟨"x", 1, .kUintType 1⟩], []⟩], 1⟩

/-- Equality of results is decidable when equality of values is. -/
instance Except.decEq {α : Type} [DecidableEq α] : DecidableEq (Except String α)
  | .ok a, .ok b =>
    if h : a = b then isTrue (by rw [h]) else isFalse (fun h2 => h (Except.ok.inj h2))
  | .error a, .error b =>
    if h : a = b then isTrue (by rw [h]) else isFalse (fun h2 => h (Except.error.inj h2))
  | .ok _, .error _ => isFalse (fun h => by cases h)
  | .error _, .ok _ => isFalse (fun h => by cases h)

/-- The statements `cmem m : UInt<8>[4]` and `read mport r = m[UInt<1>(0)], clk`; the
mport `r` is never used. -/
def unused_rd_mport_example : List FirrtlPB_Statement :=
  [.kCmemory ⟨"m", some (.kUintType 8, [4]), false, false⟩,
   .kMemoryPort ⟨"r", "m", .kUintLiteral "0" 1, .kReference "clk", .READ⟩]

/-- The statements `cmem m : UInt<8>[4]`, `read mport r0 = m[UInt<1>(0)], clk`,
`read mport r1 = m[UInt<1>(1)], clk`, `wire x : UInt<8>` and `x <= r0`: the mport `r0` is
first used after `r1` was declared. -/
def late_use_mport_example : List FirrtlPB_Statement :=
  [.kCmemory ⟨"m", some (.kUintType 8, [4]), false, false⟩,
   .kMemoryPort ⟨"r0", "m", .kUintLiteral "0" 1, .kReference "clk", .READ⟩,
   .kMemoryPort ⟨"r1", "m", .kUintLiteral "1" 1, .kReference "clk", .READ⟩,
   .kWire "x" (.kUintType 8),
   .kConnect (.kReference "x") (.kReference "r0")]

/-- A unit of module `M` in which `cmem m : UInt<8>[4]` is declared (its statement list is
node 32) and the read mport `r` of `m` is recorded with port 0. -/
def used_rd_mport_env : Env :=
  { cmemory_example_env with
    firmod := { cmemory_example_env.firmod with
      mport2mem := [("r", "m")],
      mem2port_cnt := [("m", 0)],
      mem2rd_mports := [("m", [("r", 0)])],
      mport_usage_visited := ["r"] } }

/-- The statements `wire w : {a : UInt<8>, b : {w : {a : UInt<8>}}}`,
`wire v : {a : UInt<8>}` and `w.a <= v.a`: the leaf `w.b.w.a` of `w` holds the left name
`w.a` at position 4. -/
def nested_head_example : List FirrtlPB_Statement :=
  [.kWire "w" (.kBundleType [("a", false, .kUintType 8),
      ("b", false, .kBundleType [("w", false, .kBundleType [("a", false, .kUintType 8)])])]),
   .kWire "v" (.kBundleType [("a", false, .kUintType 8)]),
   .kConnect (.kSubField (.kReference "w") "a") (.kSubField (.kReference "v") "a")]

/-- The nodes of the `j`-th branch of the if node `idx_mux` of a runtime-index write, the
first branch starting at node index `base` and vector index `i`: the condition, the
statement list, and in it the assign of `rhs` to the element. -/
def lhs_branch_nodes (idx_mux : Nat) (rhs : String) (cond elem : Nat → String)
    (base i j : Nat) : List Lnast_entry :=
  [⟨Lnast_node.create_ref (cond (i + j)), some idx_mux⟩,
   ⟨Lnast_node.create_stmts, some idx_mux⟩,
   ⟨Lnast_node.create_assign, some (base + 5 * j + 1)⟩,
   ⟨Lnast_node.create_ref (elem (i + j)), some (base + 5 * j + 2)⟩,
   ⟨operand_node rhs, some (base + 5 * j + 2)⟩]

/-- The module `M` with the two vector ports `a : UInt<8>[2]` and `b : UInt<8>[3]`. -/
def two_vector_ports_module : FirrtlPB_Module_UserModule :=
  ⟨"M", [⟨"a", 1, .kVectorType (.kUintType 8) 2⟩, ⟨"b", 1, .kVectorType (.kUintType 8) 3⟩], []⟩

/-- The module `M` with the port `p : UInt<8>[2][3]`, a vector of three vectors. -/
def nested_vector_port_module : FirrtlPB_Module_UserModule :=
  ⟨"M", [⟨"p", 1, .kVectorType (.kVectorType (.kUintType 8) 2) 3⟩], []⟩

/-- The type `{a : UInt<8>, q : {b : UInt<8>}}`. -/
def instance_bundle_example : FirrtlPB_Type :=
  .kBundleType [("a", false, .kUintType 8), ("q", false, .kBundleType [("b", false, .kUintType 8)])]

/-- The circuit of the module `Sub` with the input port `p` and the output port `o`, both
of type `{a, q : {b}}`, and of the top module `M` with the statements `inst i of Sub`,
`wire w : {a, q : {b}}` and the connect `location <= expression`. -/
def instance_connect_circuit (location expression : FirrtlPB_Expression) : FirrtlPB_Circuit :=
  ⟨[.user_module ⟨"Sub", [⟨"p", 1, instance_bundle_example⟩, ⟨"o", 2, instance_bundle_example⟩],
      []⟩,
    .user_module ⟨"M", [],
      [.kInstance "i" "Sub", .kWire "w" instance_bundle_example,
       .kConnect location expression]⟩], 1⟩

/-- The nodes that the connect of `instance_connect_circuit` adds to the tree of `M`: the
nodes after the 54 nodes of the two declarations. -/
def instance_connect_nodes (location expression : FirrtlPB_Expression) :
    Except String (List Lnast_entry) :=
  (Inou_firrtl.iterate_circuits [] {} [instance_connect_circuit location expression]).map
    (fun run => (run.lnasts.headD ⟨"", []⟩).nodes.drop 54)

/-- The scalar leaves of a memory data type in declaration order: for every leaf the
segments of its path from the data root (field names, and indices of Vector elements) and
its type. -/
def din_leaf_paths : FirrtlPB_Type → List (List String × FirrtlPB_Type)
  | .kBundleType field => fields field
  | .kVectorType type size =>
    (List.range size).flatMap
      (fun i => (din_leaf_paths type).map (fun p => (Str.of_nat i :: p.1, p.2)))
  | t => [([], t)]
where
  /-- The leaves below the fields of a Bundle, in declaration order. -/
  fields : List (String × Bool × FirrtlPB_Type) → List (List String × FirrtlPB_Type)
  | [] => []
  | (fid, _, ftype) :: rest =>
    (din_leaf_paths ftype).map (fun p => (fid :: p.1, p.2)) ++ fields rest

/-- The dotted path of the segments `segs` below the path `pre`; an empty `pre` is the
data root. -/
def din_path (pre : String) : List String → String
  | [] => pre
  | seg :: rest => din_path (if pre = "" then seg else pre ++ "." ++ seg) rest

/-- The bit width that `get_bit_count` gives a leaf type, 0 when it gives none. -/
def din_leaf_bits (t : FirrtlPB_Type) : Nat :=
  match Inou_firrtl_module.get_bit_count t with
  | .ok n => n
  | .error _ => 0

/-- The leaf types that `get_bit_count` accepts. -/
def din_leaf_ok : FirrtlPB_Type → Bool
  | .kUintType _ | .kSintType _ | .kClockType | .kAnalogType _ | .kAsyncResetType
  | .kResetType => true
  | _ => false

/-- A Bundle or a Vector. -/
def is_aggregate : FirrtlPB_Type → Bool
  | .kBundleType _ | .kVectorType _ _ => true
  | _ => false

/-- The entry recorded for a leaf: its dotted path, a dot and its decimal bit width. -/
def din_entry (pre : String) (p : List String × FirrtlPB_Type) : String :=
  din_path pre p.1 ++ "." ++ Str.of_nat (din_leaf_bits p.2)

/-- The first segment of the path of a leaf is not the empty string. -/
def din_root_named (p : List String × FirrtlPB_Type) : Bool :=
  p.1.head? != some ""

/-- The requirement on a leaf of a memory data type: `get_bit_count` accepts its type and
its path does not start with an empty field name. -/
def din_leaf_wf (p : List String × FirrtlPB_Type) : Bool :=
  din_leaf_ok p.2 && din_root_named p

/-- The din-field entry of a leaf as the specification words it: the segments of the path
joined with dots, a dot, and the decimal bit width. -/
def din_spec_entry (p : List String × FirrtlPB_Type) : String :=
  ".".intercalate p.1 ++ "." ++ Str.of_nat (din_leaf_bits p.2)

/-- A memory of depth 4 whose data type is the scalar `SInt<8>`. -/
def sint_cmemory_example : FirrtlPB_Statement_CMemory :=
  ⟨"m", some (.kSintType 8, [4]), false, false⟩

/-- A memory of depth 4 with the data type
`Bundle{a: UInt<8>, v: Bundle{x: SInt<3>, y: Clock}[2]}`. -/
def bundle_cmemory_example : FirrtlPB_Statement_CMemory :=
  ⟨"m", some (.kBundleType [("a", false, .kUintType 8),
    ("v", false, .kVectorType (.kBundleType [("x", false, .kSintType 3),
      ("y", false, .kClockType)]) 2)], [4]), false, false⟩

/-- The nodes of the tuple-add that the scalar branch of `init_mem_din` puts below the
statement list `idx`, in a tree that held `n` nodes before:
`<mem>_din[port_cnt_str] = 0`. -/
def scalar_din_nodes (idx n : Nat) (mem_name port_cnt_str : String) : List Lnast_entry :=
  [⟨Lnast_node.create_tuple_add, some idx⟩,
   ⟨Lnast_node.create_ref (mem_name ++ "_din"), some n⟩,
   ⟨Lnast_node.create_const port_cnt_str, some n⟩,
   ⟨Lnast_node.create_const_nat 0, some n⟩]

/-- A state in which the memory `m` has the deferred-initialization list 7 and the
din-field record `[".8"]`. -/
def scalar_din_env : Env :=
  { (Env.fresh "M") with firmod := { (Env.fresh "M").firmod with
      mem2initial_idx := [("m", 7)], mem2din_fields := [("m", [".8"])] } }

/-- The entry name is the key itself or begins with the key followed by a dot. -/
def flip_entry_ok (k : String) (e : String × Bool) : Bool :=
  e.1 == k || (k ++ ".").data.isPrefixOf e.1.data

/-- Every entry stored under a key of the flip table is the key or lies below it. -/
def flip_table_inv (m : Table Flip_set) : Bool :=
  m.all (fun kv => kv.2.all (flip_entry_ok kv.1))

/-- The 8 binary digits of a byte value, most significant bit first. -/
def byte_bits (b : Nat) : String :=
  ⟨(List.range 8).reverse.map (fun j => if b / 2 ^ j % 2 = 1 then '1' else '0')⟩

/-- The number that a list of binary digits denotes, read as a binary numeral. -/
def bin_value (digits : List Char) : Nat :=
  digits.foldl (fun a c => 2 * a + (if c = '1' then 1 else 0)) 0

/-- The big-endian unsigned value of a byte string. -/
def be_value (value : List Nat) : Nat :=
  value.foldl (fun a b => 256 * a + b) 0

/-- The statement `d <= mux(c, t_value, f_value)`. -/
def mux_connect_example (t_value f_value : FirrtlPB_Expression) : FirrtlPB_Statement :=
  .kConnect (.kReference "d") (.kMux (.kReference "c") t_value f_value)

/-- The nodes that the translation of a statement adds under the top statement list of the
fresh unit of module `M`. -/
def fresh_statement_nodes (stmt : FirrtlPB_Statement) : Except String (List Lnast_entry) :=
  (Inou_firrtl_module.list_statement_info [] stmt 1 (Env.fresh "M")).map
    (fun s => s.lnast.nodes.drop 2)

/-- All scalar leaves of a port type: for every leaf the `(segment, is_flipped)` markers on
the path from the root to the leaf and the leaf type.  A Bundle field contributes its id
and flip marker, an element of a Vector its index with the marker `false`. -/
def port_leaf_paths : FirrtlPB_Type → List (List (String × Bool) × FirrtlPB_Type)
  | .kBundleType field => fields field
  | .kVectorType type size =>
    (List.range size).flatMap
      (fun i => (port_leaf_paths type).map (fun p => ((Str.of_nat i, false) :: p.1, p.2)))
  | t => [([], t)]
where
  /-- The leaves below the fields of a Bundle, in declaration order. -/
  fields : List (String × Bool × FirrtlPB_Type) → List (List (String × Bool) × FirrtlPB_Type)
  | [] => []
  | (fid, is_flipped, ftype) :: rest =>
    (port_leaf_paths ftype).map (fun p => ((fid, is_flipped) :: p.1, p.2)) ++ fields rest

/-- Every leaf of the type, Vector elements included, is one that `add_port_to_map`
accepts. -/
def port_paths_ok (t : FirrtlPB_Type) : Bool :=
  (port_leaf_paths t).all (fun p => port_leaf_ok p.2)

/-- A module with the input port `io : Bundle{a: UInt<8>, v: flipped Bundle{x: UInt<4>}[2]}`
and the output port `q : UInt<0>[2]`. -/
def populate_vector_example : FirrtlPB_Module_UserModule :=
  { id := "M",
    port := [⟨"io", 1, .kBundleType [("a", false, .kUintType 8),
               ("v", true, .kVectorType (.kBundleType [("x", false, .kUintType 4)]) 2)]⟩,
             ⟨"q", 2, .kVectorType (.kUintType 0) 2⟩],
    statement := [] }
/-- The name that `name_prefix_modifier_flattener` returns, the empty string standing for a
failed assertion. -/
def flattened_name (s : Env) (name : String) (is_rhs : Bool) : String :=
  match Inou_firrtl_module.name_prefix_modifier_flattener s name is_rhs with
  | .ok x => x
  | .error _ => ""

/-- The decorated heads `(hier_name_l, hier_name_r)` that `tuple_flattened_connections`
uses for a leaf of a connect `l <= r`, where neither `l` nor `r` is a scalar register: the
two sides are swapped when the leaf is flipped, then a source that is an input port gets
the prefix `$` and a destination that is an output port the prefix `%`. -/
def connect_heads (s : Env) (l r : String) (is_flipped : Bool) : String × String :=
  let dst := if is_flipped then r else l
  let src := if is_flipped then l else r
  (if dst ∈ s.firmod.output_names then "%" ++ dst else dst,
   if src ∈ s.firmod.input_names then "$" ++ src else src)

/-- The names `(rhs_wire_name, lhs_full_name, rhs_full_name)` that
`tuple_flattened_connections` derives for the leaf `leaf = (path, is_flipped)` of a connect
`l <= r`: the head of the source, the flattened destination leaf and the flattened source
leaf.  The destination is the leaf of `l` when the flip is false and the same-path leaf of
`r` when it is true; the two are exchanged once more when the destination turns out to be
a module input (its name starts with `$`). -/
def connect_leaf_sides (s : Env) (l r : String) (leaf : String × Bool) :
    String × String × String :=
  let heads := connect_heads s l r leaf.2
  let lhs_full_name := flattened_name s (heads.1 ++ "." ++ leaf.1) false
  let rhs_full_name := flattened_name s (heads.2 ++ "." ++ leaf.1) true
  if Str.index lhs_full_name 0 = '$' then (Str.head heads.2, rhs_full_name, lhs_full_name)
  else (Str.head heads.2, lhs_full_name, rhs_full_name)

/-- The source leaf is known: it is in the wire-name set or it starts with a digit. -/
def known_source (wire_names : List String) (rhs_full_name : String) : Bool :=
  decide (rhs_full_name ∈ wire_names) || (Str.index rhs_full_name 0).isDigit

/-- The unit after `tuple_flattened_connections` handled one leaf with the names `sides`:
when the head of the source is a wire name, the destination is assigned the fresh temporary
that holds the `__last_value` of the source; otherwise, when the source leaf is known, the
destination is assigned the source; otherwise nothing is emitted. -/
def connect_step_state (s : Env) (parent_node : Nat) (sides : String × String × String) : Env :=
  if sides.1 ∈ s.firmod.wire_names then
    { s with
      lnast := ⟨s.lnast.top_module_name, s.lnast.nodes ++
        [⟨Lnast_node.create_attr_get, some parent_node⟩,
         ⟨Lnast_node.create_ref ("___F" ++ Str.of_nat (s.firmod.tmp_var_cnt + 1)),
           some s.lnast.nodes.length⟩,
         ⟨Lnast_node.create_ref sides.2.2, some s.lnast.nodes.length⟩,
         ⟨Lnast_node.create_const "__last_value", some s.lnast.nodes.length⟩,
         ⟨Lnast_node.create_assign, some parent_node⟩,
         ⟨Lnast_node.create_ref sides.2.1, some (s.lnast.nodes.length + 4)⟩,
         ⟨Lnast_node.create_ref ("___F" ++ Str.of_nat (s.firmod.tmp_var_cnt + 1)),
           some (s.lnast.nodes.length + 4)⟩]⟩,
      firmod := { s.firmod with
        tmp_var_cnt := s.firmod.tmp_var_cnt + 1,
        wire_names := set_insert (set_insert s.firmod.wire_names
          ("___F" ++ Str.of_nat (s.firmod.tmp_var_cnt + 1))) sides.2.1 } }
  else if known_source s.firmod.wire_names sides.2.2 then
    { s with
      lnast := ⟨s.lnast.top_module_name, s.lnast.nodes ++
        [⟨Lnast_node.create_assign, some parent_node⟩,
         ⟨Lnast_node.create_ref sides.2.1, some s.lnast.nodes.length⟩,
         ⟨if sides.2.1 ∈ s.firmod.node_names then Lnast_node.create_ref sides.2.2
          else operand_node sides.2.2, some s.lnast.nodes.length⟩]⟩,
      firmod := { s.firmod with
        wire_names := set_insert s.firmod.wire_names sides.2.1 } }
  else s

/-- The nodes emitted for a list of leaves, given for each leaf the names
`(rhs_wire_name, lhs_full_name, rhs_full_name)`: per leaf either an attribute-get of
`__last_value` of the source into a fresh temporary and an assign of the temporary to the
destination, or one assign of the source to the destination, or nothing (the source is not
known).  `base` is the index of the first node, `cnt` the temporary counter and
`wire_names` the wire-name set before the first leaf. -/
def connect_leaves_nodes (parent_node : Nat) (node_names : List String) :
    Nat → Nat → List String → List (String × String × String) → List Lnast_entry
  | _, _, _, [] => []
  | base, cnt, wire_names, sides :: rest =>
    if sides.1 ∈ wire_names then
      [⟨Lnast_node.create_attr_get, some parent_node⟩,
       ⟨Lnast_node.create_ref ("___F" ++ Str.of_nat (cnt + 1)), some base⟩,
       ⟨Lnast_node.create_ref sides.2.2, some base⟩,
       ⟨Lnast_node.create_const "__last_value", some base⟩,
       ⟨Lnast_node.create_assign, some parent_node⟩,
       ⟨Lnast_node.create_ref sides.2.1, some (base + 4)⟩,
       ⟨Lnast_node.create_ref ("___F" ++ Str.of_nat (cnt + 1)), some (base + 4)⟩]
      ++ connect_leaves_nodes parent_node node_names (base + 7) (cnt + 1)
          (set_insert (set_insert wire_names ("___F" ++ Str.of_nat (cnt + 1))) sides.2.1) rest
    else if known_source wire_names sides.2.2 then
      [⟨Lnast_node.create_assign, some parent_node⟩,
       ⟨Lnast_node.create_ref sides.2.1, some base⟩,
       ⟨if sides.2.1 ∈ node_names then Lnast_node.create_ref sides.2.2
        else operand_node sides.2.2, some base⟩]
      ++ connect_leaves_nodes parent_node node_names (base + 3) cnt
          (set_insert wire_names sides.2.1) rest
    else connect_leaves_nodes parent_node node_names base cnt wire_names rest

/-- The leaves of a list for which nodes are emitted (those whose source is known at the
moment the leaf is handled), each with the names derived for it. -/
def connected_leaves : Nat → List String → List (String × String × String) →
    List (String × String × String)
  | _, _, [] => []
  | cnt, wire_names, sides :: rest =>
    if sides.1 ∈ wire_names then
      sides :: connected_leaves (cnt + 1)
        (set_insert (set_insert wire_names ("___F" ++ Str.of_nat (cnt + 1))) sides.2.1) rest
    else if known_source wire_names sides.2.2 then
      sides :: connected_leaves cnt (set_insert wire_names sides.2.1) rest
    else connected_leaves cnt wire_names rest

/-- A head of a connect between declared aggregates: a dot-free, non-empty name that is
not a scalar register, a memory port or a module instance.  (A wire, a port or a register
of aggregate type is such a head.) -/
def connect_head_ok (s : Env) (name : String) : Bool :=
  (Str.find_char name '.').isNone && !name.data.isEmpty && !s.firmod.reg2qpin.has name &&
    !s.firmod.mport2mem.has name && !s.firmod.inst2module.has name

/-- The two calls of `name_prefix_modifier_flattener` made for the leaf return a name (the
assertion on the q-pin of a register leaf holds). -/
def connect_leaf_flat (s : Env) (l r : String) (leaf : String × Bool) : Bool :=
  (Inou_firrtl_module.name_prefix_modifier_flattener s
      ((connect_heads s l r leaf.2).1 ++ "." ++ leaf.1) false).toBool &&
    (Inou_firrtl_module.name_prefix_modifier_flattener s
      ((connect_heads s l r leaf.2).2 ++ "." ++ leaf.1) true).toBool

/-- The source of the leaf is known in the unit `s`: the head of the source is a wire
name (a declared wire), or the flattened source leaf is (a port leaf, the q-pin of a
register leaf), or it starts with a digit. -/
def connect_leaf_known (s : Env) (l r : String) (leaf : String × Bool) : Bool :=
  decide ((connect_leaf_sides s l r leaf).1 ∈ s.firmod.wire_names) ||
    known_source s.firmod.wire_names (connect_leaf_sides s l r leaf).2.2
/-- The unit reached by translating the module `m` (ports and body) as a one-module
circuit; the fresh unit when the translation fails. -/
def translated_unit (m : FirrtlPB_Module_UserModule) : Env :=
  match Inou_firrtl.single_module_to_lnast [] m with
  | .ok s => s
  | .error _ => Env.fresh m.id

/-- The type `{a : UInt<8>, b : UInt<8>}`. -/
def plain_bundle_example : FirrtlPB_Type :=
  .kBundleType [("a", false, .kUintType 8), ("b", false, .kUintType 8)]

/-- The declarations of module `M`: the input port `in` and the output port `out` of type
`{a, flip b}`, the wires `w : {a, flip b}`, `x : {a, b}` and `v : {a, flip b, c}` and the
register `r : {a, b}`. -/
def connect_kinds_module : FirrtlPB_Module_UserModule :=
  ⟨"M", [⟨"in", 1, flip_bundle_example⟩, ⟨"out", 2, flip_bundle_example⟩],
    [.kWire "w" flip_bundle_example, .kWire "x" plain_bundle_example,
     .kWire "v" wide_bundle_example,
     .kRegister "r" plain_bundle_example (.kReference "clk") (.kUintLiteral "0" 1)
       (.kUintLiteral "0" 8)]⟩

/-- The unit of module `M` after the declarations of `connect_kinds_module`. -/
def connect_kinds_env : Env := translated_unit connect_kinds_module

/-! # Theorems -/

/-! ## Strings and containers -/

namespace Str

theorem find_char_from_append_some (c : Char) (l1 l2 : List Char) (i p : Nat)
    (h : find_char_from c l1 i = some p) : find_char_from c (l1 ++ l2) i = some p := by
  induction l1 generalizing i with
  | nil => simp [find_char_from] at h
  | cons x xs ih =>
    simp only [List.cons_append, find_char_from] at h ⊢
    split
    · simp_all
    · rename_i hx
      simp only [hx, if_false] at h
      exact ih _ h

theorem find_char_from_append_none (c : Char) (l1 l2 : List Char) (i : Nat)
    (h : find_char_from c l1 i = none) :
    find_char_from c (l1 ++ c :: l2) i = some (i + l1.length) := by
  induction l1 generalizing i with
  | nil => simp [find_char_from]
  | cons x xs ih =>
    simp only [List.cons_append, find_char_from] at h ⊢
    split
    · simp_all
    · rename_i hx
      simp only [hx, if_false] at h
      have h2 := ih _ h
      simp only [List.append_eq, List.length_cons] at h2 ⊢
      rw [h2]
      congr 1
      omega

theorem find_char_from_lt (c : Char) (l : List Char) (i p : Nat)
    (h : find_char_from c l i = some p) : p < i + l.length := by
  induction l generalizing i with
  | nil => simp [find_char_from] at h
  | cons x xs ih =>
    simp only [find_char_from] at h
    split at h
    · simp at h; simp; omega
    · have := ih _ h
      simp only [List.length_cons]
      omega

theorem data_dot_append (a b : String) : (a ++ "." ++ b).data = a.data ++ '.' :: b.data := by
  simp [String.data_append]

theorem head_append_dot (a b : String) : head (a ++ "." ++ b) = head a := by
  unfold head find_char
  rw [data_dot_append]
  cases h : find_char_from '.' a.data 0 with
  | some p =>
    rw [find_char_from_append_some _ _ _ _ _ h]
    have hp := find_char_from_lt _ _ _ _ h
    simp only [substr, data_dot_append, List.drop_zero]
    congr 1
    rw [List.take_append_of_le_length (by omega)]
  | none =>
    rw [find_char_from_append_none _ _ _ _ h]
    simp only [substr, data_dot_append, List.drop_zero, Nat.zero_add]
    rw [List.take_left']
    rfl

theorem find_char_append_dot (a b : String) : ∃ p, find_char (a ++ "." ++ b) '.' = some p ∧
    substr (a ++ "." ++ b) 0 p = head a := by
  have hh := head_append_dot a b
  unfold head at hh
  unfold find_char at hh ⊢
  rw [data_dot_append] at hh ⊢
  cases h : find_char_from '.' a.data 0 with
  | some p =>
    rw [find_char_from_append_some _ _ _ _ _ h] at hh ⊢
    exact ⟨p, rfl, by simpa [head, find_char, h] using hh⟩
  | none =>
    rw [find_char_from_append_none _ _ _ _ h] at hh ⊢
    exact ⟨_, rfl, by simpa [head, find_char, h] using hh⟩

end Str

namespace Table

variable {β : Type}

theorem find_insert_or_assign_self (m : Table β) (k : String) (v : β) :
    (insert_or_assign m k v).find k = some v := by
  induction m with
  | nil => simp [insert_or_assign, find, List.lookup]
  | cons x xs ih =>
    obtain ⟨k', v'⟩ := x
    simp only [insert_or_assign]
    split
    · simp [find, List.lookup]
    · rename_i hk
      have hk' : (k == k') = false := by
        simp only [beq_eq_false_iff_ne, ne_eq]
        exact fun h => hk h.symm
      simp only [find, List.lookup, hk'] at ih ⊢
      exact ih

theorem find_insert_or_assign_other (m : Table β) (k k2 : String) (v : β) (h : k2 ≠ k) :
    (insert_or_assign m k v).find k2 = m.find k2 := by
  induction m with
  | nil =>
    have hk' : (k2 == k) = false := by simpa using h
    simp [insert_or_assign, find, List.lookup, hk']
  | cons x xs ih =>
    obtain ⟨k', v'⟩ := x
    simp only [insert_or_assign]
    split
    · rename_i hk
      subst hk
      have hk' : (k2 == k') = false := by simpa using h
      simp [find, List.lookup, hk']
    · simp only [find, List.lookup] at ih ⊢
      split <;> simp_all

theorem get_insert_or_assign_self (m : Table β) (k : String) (v d : β) :
    (insert_or_assign m k v).get k d = v := by
  have := find_insert_or_assign_self m k v
  simp only [find] at this
  simp [get, this]

theorem get_insert_or_assign_other (m : Table β) (k k2 : String) (v d : β) (h : k2 ≠ k) :
    (insert_or_assign m k v).get k2 d = m.get k2 d := by
  have := find_insert_or_assign_other m k k2 v h
  simp only [find] at this
  simp [get, this]

theorem get_of_find_none (m : Table β) (k : String) (d : β) (h : m.find k = none) :
    m.get k d = d := by
  simp only [find] at h
  simp [get, h]

theorem get_of_find_some (m : Table β) (k : String) (d v : β) (h : m.find k = some v) :
    m.get k d = v := by
  simp only [find] at h
  simp [get, h]

end Table

theorem mem_set_insert {α : Type} [DecidableEq α] (s : List α) (x e : α) :
    e ∈ set_insert s x ↔ e ∈ s ∨ e = x := by
  unfold set_insert
  split
  · constructor
    · exact Or.inl
    · rintro (h | h)
      · exact h
      · subst h; assumption
  · simp

/-! ## Flip accumulation -/

namespace Inou_firrtl_module

theorem flip_get_create_default (s : Env) (parent : Nat) (sv : String) (v : Lnast_node)
    (k : String) : flip_get (create_default_value_for_scalar_var s parent sv v) k = flip_get s k := by
  rfl

theorem add_local_flip_info_dotted (s : Env) (f : Bool) (id b : String) :
    ∃ s', add_local_flip_info s f (id ++ "." ++ b) = .ok s' ∧
      ∀ e, e ∈ flip_get s' (Str.head id) ↔
        e ∈ flip_get s (Str.head id) ∨ e = (id ++ "." ++ b, f) := by
  obtain ⟨p, hp, hsub⟩ := Str.find_char_append_dot id b
  unfold add_local_flip_info
  rw [hp]
  simp only [hsub]
  cases hf : s.firmod.var2flip.find (Str.head id) with
  | none =>
    refine ⟨_, rfl, ?_⟩
    intro e
    simp [flip_get, Table.get_insert_or_assign_self, Table.get_of_find_none _ _ _ hf]
  | some set =>
    refine ⟨_, rfl, ?_⟩
    intro e
    simp [flip_get, Table.get_insert_or_assign_self, Table.get_of_find_some _ _ _ _ hf,
      mem_set_insert]

end Inou_firrtl_module

namespace Inou_firrtl_module

theorem xor_flag_step (f a b : Bool) : xor (if a then !f else f) b = xor f (xor a b) := by
  cases f <;> cases a <;> cases b <;> rfl

theorem wire_scalar_step (s : Env) (f : Bool) (id b : String) (t : FirrtlPB_Type)
    (r : Except String Env)
    (hr : ∀ s1, add_local_flip_info s f (id ++ "." ++ b) = .ok s1 →
      ∃ s', r = .ok s' ∧ ∀ k, flip_get s' k = flip_get s1 k)
    (hp : leaf_paths t = [([], t)]) :
    ∃ s', r = .ok s' ∧
      ∀ e, e ∈ flip_get s' (Str.head id) ↔ e ∈ flip_get s (Str.head id) ∨
        ∃ p ∈ leaf_paths t, e = (path_name (id ++ "." ++ b) p.1, xor f (xor_flips p.1)) := by
  obtain ⟨s2, h2, he2⟩ := add_local_flip_info_dotted s f id b
  obtain ⟨s', hs', hk⟩ := hr s2 h2
  refine ⟨s', hs', ?_⟩
  intro e
  rw [hk, he2, hp]
  simp [path_name, xor_flips]

mutual

theorem wire_flip_dotted : ∀ (t : FirrtlPB_Type) (id b : String) (f : Bool) (parent : Nat)
    (s : Env), bundles_only t = true → wire_leaves_ok t = true →
    ∃ s', wire_init_flip_handling t (id ++ "." ++ b) f parent s = .ok s' ∧
      ∀ e, e ∈ flip_get s' (Str.head id) ↔ e ∈ flip_get s (Str.head id) ∨
        ∃ p ∈ leaf_paths t, e = (path_name (id ++ "." ++ b) p.1, xor f (xor_flips p.1))
  | .kBundleType fs, id, b, f, parent, s, hb, hl => by
    have h := wire_flip_fields fs (id ++ "." ++ b) f parent s
      (by simpa [bundles_only] using hb) (by simpa [wire_leaves_ok, leaf_paths] using hl)
    rw [Str.head_append_dot] at h
    simpa [wire_init_flip_handling, leaf_paths] using h
  | .kVectorType _ _, _, _, _, _, _, hb, _ => by simp [bundles_only] at hb
  | .kFixedType, _, _, _, _, _, _, hl => by
    simp [wire_leaves_ok, leaf_paths, wire_leaf_ok] at hl
  | .kUintType w, id, b, f, parent, s, _, _ => by
    apply wire_scalar_step s f id b
    · intro s1 h1
      exact ⟨create_default_value_for_scalar_var s1 parent (Str.replace_dots (id ++ "." ++ b))
        (Lnast_node.create_const_nat 0),
        by simp [wire_init_flip_handling, h1, bind, Except.bind], fun k => rfl⟩
    · rfl
  | .kSintType w, id, b, f, parent, s, _, _ => by
    apply wire_scalar_step s f id b
    · intro s1 h1
      exact ⟨create_default_value_for_scalar_var s1 parent (Str.replace_dots (id ++ "." ++ b))
        (Lnast_node.create_const_nat 0),
        by simp [wire_init_flip_handling, h1, bind, Except.bind], fun k => rfl⟩
    · rfl
  | .kAsyncResetType, id, b, f, parent, s, _, _ => by
    apply wire_scalar_step s f id b
    · intro s1 h1
      exact ⟨create_default_value_for_scalar_var s1 parent (Str.replace_dots (id ++ "." ++ b))
        (Lnast_node.create_const_nat 0),
        by simp [wire_init_flip_handling, h1, bind, Except.bind], fun k => rfl⟩
    · rfl
  | .kClockType, id, b, f, parent, s, _, _ => by
    apply wire_scalar_step s f id b
    · intro s1 h1
      exact ⟨_, by simp [wire_init_flip_handling, h1], fun k => rfl⟩
    · rfl
  | .kResetType, id, b, f, parent, s, _, _ => by
    apply wire_scalar_step s f id b
    · intro s1 h1
      exact ⟨_, by simp [wire_init_flip_handling, h1], fun k => rfl⟩
    · rfl
  | .kAnalogType w, id, b, f, parent, s, _, _ => by
    apply wire_scalar_step s f id b
    · intro s1 h1
      exact ⟨_, by simp [wire_init_flip_handling, h1], fun k => rfl⟩
    · rfl
  | .TYPE_NOT_SET, id, b, f, parent, s, _, _ => by
    apply wire_scalar_step s f id b
    · intro s1 h1
      exact ⟨_, by simp [wire_init_flip_handling, h1], fun k => rfl⟩
    · rfl

theorem wire_flip_fields : ∀ (fs : List (String × Bool × FirrtlPB_Type)) (id : String)
    (f : Bool) (parent : Nat) (s : Env), bundles_only.fields fs = true →
    (leaf_paths.fields fs).all (fun p => wire_leaf_ok p.2) = true →
    ∃ s', wire_init_flip_handling.fields fs id f parent s = .ok s' ∧
      ∀ e, e ∈ flip_get s' (Str.head id) ↔ e ∈ flip_get s (Str.head id) ∨
        ∃ p ∈ leaf_paths.fields fs, e = (path_name id p.1, xor f (xor_flips p.1))
  | [], id, f, parent, s, _, _ =>
    ⟨s, rfl, by simp [leaf_paths.fields]⟩
  | (fid, fl, ft) :: rest, id, f, parent, s, hb, hl => by
    simp only [bundles_only.fields, Bool.and_eq_true] at hb
    simp only [leaf_paths.fields, List.all_append, Bool.and_eq_true, List.all_map] at hl
    obtain ⟨s1, h1, he1⟩ := wire_flip_dotted ft id fid (if fl then !f else f) parent s hb.1
      (by simpa [wire_leaves_ok, Function.comp] using hl.1)
    obtain ⟨s2, h2, he2⟩ := wire_flip_fields rest id f parent s1 hb.2 hl.2
    refine ⟨s2, ?_, ?_⟩
    · simp [wire_init_flip_handling.fields, h1, h2, bind, Except.bind]
    · intro e
      rw [he2, he1]
      simp only [leaf_paths.fields, List.mem_append, List.mem_map]
      constructor
      · rintro ((h | ⟨p, hp, rfl⟩) | ⟨p, hp, rfl⟩)
        · exact Or.inl h
        · exact Or.inr ⟨_, Or.inl ⟨p, hp, rfl⟩, by simp [path_name, xor_flips, xor_flag_step]⟩
        · exact Or.inr ⟨p, Or.inr hp, rfl⟩
      · rintro (h | ⟨p, (⟨q, hq, rfl⟩ | hp), rfl⟩)
        · exact Or.inl (Or.inl h)
        · exact Or.inl (Or.inr ⟨q, hq, by simp [path_name, xor_flips, xor_flag_step]⟩)
        · exact Or.inr ⟨p, hp, rfl⟩

end

end Inou_firrtl_module

namespace Inou_firrtl

theorem glob_flip_get_record_port_dir (s : Env) (mod_id port_id : String) (dir bits : Nat)
    (sign : Bool) (m k : String) :
    glob_flip_get (record_port_dir s mod_id port_id dir bits sign) m k = glob_flip_get s m k := by
  unfold record_port_dir
  split
  · rfl
  · split <;> rfl

theorem add_global_io_flipness_dotted (s : Env) (mod_id : String) (f : Bool) (id b : String) :
    ∀ e, e ∈ glob_flip_get (add_global_io_flipness s mod_id f (id ++ "." ++ b)) mod_id (Str.head id)
      ↔ e ∈ glob_flip_get s mod_id (Str.head id) ∨ e = (id ++ "." ++ b, f) := by
  obtain ⟨p, hp, _⟩ := Str.find_char_append_dot id b
  intro e
  unfold add_global_io_flipness
  simp only [hp, Str.head_append_dot, glob_flip_get, Table.get_insert_or_assign_self]
  cases hf : (s.glob_info.var2flip.get mod_id []).find (Str.head id) with
  | none =>
    simp [Table.get_insert_or_assign_self, Table.get_of_find_none _ _ _ hf]
  | some set =>
    simp [Table.get_insert_or_assign_self, Table.get_of_find_some _ _ _ _ hf, mem_set_insert]

theorem port_scalar_step (s : Env) (mod_id : String) (f : Bool) (id b : String)
    (t : FirrtlPB_Type) (dir bits : Nat) (sign : Bool) (r : Except String Env)
    (hp : leaf_paths t = [([], t)])
    (hr : (port_leaf_recorded t = true ∧
            r = .ok (add_global_io_flipness (record_port_dir s mod_id (id ++ "." ++ b) dir bits sign)
                  mod_id f (id ++ "." ++ b))) ∨
          (port_leaf_recorded t = false ∧
            r = .ok (record_port_dir s mod_id (id ++ "." ++ b) dir bits sign))) :
    ∃ s', r = .ok s' ∧
      ∀ e, e ∈ glob_flip_get s' mod_id (Str.head id) ↔ e ∈ glob_flip_get s mod_id (Str.head id) ∨
        ∃ p ∈ leaf_paths t, port_leaf_recorded p.2 = true ∧
          e = (path_name (id ++ "." ++ b) p.1, xor f (xor_flips p.1)) := by
  rcases hr with ⟨hrec, rfl⟩ | ⟨hrec, rfl⟩
  · refine ⟨_, rfl, ?_⟩
    intro e
    rw [add_global_io_flipness_dotted, glob_flip_get_record_port_dir, hp]
    simp [path_name, xor_flips, hrec]
  · refine ⟨_, rfl, ?_⟩
    intro e
    rw [glob_flip_get_record_port_dir, hp]
    simp [hrec]

mutual

theorem port_flip_dotted : ∀ (t : FirrtlPB_Type) (mod_id : String) (dir : Nat) (id b : String)
    (f : Bool) (s : Env), bundles_only t = true → port_leaves_ok t = true →
    (dir = 1 ∨ dir = 2) →
    ∃ s', add_port_to_map mod_id t dir f (id ++ "." ++ b) s = .ok s' ∧
      ∀ e, e ∈ glob_flip_get s' mod_id (Str.head id) ↔ e ∈ glob_flip_get s mod_id (Str.head id) ∨
        ∃ p ∈ leaf_paths t, port_leaf_recorded p.2 = true ∧
          e = (path_name (id ++ "." ++ b) p.1, xor f (xor_flips p.1))
  | .kBundleType fs, mod_id, dir, id, b, f, s, hb, hl, hd => by
    have h := port_flip_fields fs mod_id dir (id ++ "." ++ b) f s
      (by simpa [bundles_only] using hb) (by simpa [port_leaves_ok, leaf_paths] using hl) hd
    rw [Str.head_append_dot] at h
    simpa [add_port_to_map, leaf_paths] using h
  | .kVectorType _ _, _, _, _, _, _, _, hb, _, _ => by simp [bundles_only] at hb
  | .kFixedType, _, _, _, _, _, _, _, hl, _ => by
    simp [port_leaves_ok, leaf_paths, port_leaf_ok] at hl
  | .kAnalogType _, _, _, _, _, _, _, _, hl, _ => by
    simp [port_leaves_ok, leaf_paths, port_leaf_ok] at hl
  | .TYPE_NOT_SET, _, _, _, _, _, _, _, hl, _ => by
    simp [port_leaves_ok, leaf_paths, port_leaf_ok] at hl
  | .kUintType w, mod_id, dir, id, b, f, s, _, _, _ => by
    apply port_scalar_step s mod_id f id b (.kUintType w) dir w false _ rfl
    by_cases hw : w = 0
    · exact Or.inr ⟨by simp [port_leaf_recorded, hw], by simp [add_port_to_map, hw]⟩
    · exact Or.inl ⟨by simp [port_leaf_recorded, hw], by simp [add_port_to_map, hw]⟩
  | .kSintType w, mod_id, dir, id, b, f, s, _, _, _ => by
    apply port_scalar_step s mod_id f id b (.kSintType w) dir 0 true _ rfl
    by_cases hw : w = 0
    · exact Or.inr ⟨by simp [port_leaf_recorded, hw],
        by simp [add_port_to_map, hw, FirrtlPB_Type.uint_width]⟩
    · exact Or.inl ⟨by simp [port_leaf_recorded, hw],
        by simp [add_port_to_map, hw, FirrtlPB_Type.uint_width]⟩
  | .kClockType, mod_id, dir, id, b, f, s, _, _, _ => by
    apply port_scalar_step s mod_id f id b .kClockType dir 0 false _ rfl
    exact Or.inl ⟨rfl, by simp [add_port_to_map, FirrtlPB_Type.uint_width]⟩
  | .kResetType, mod_id, dir, id, b, f, s, _, _, _ => by
    apply port_scalar_step s mod_id f id b .kResetType dir 0 false _ rfl
    exact Or.inl ⟨rfl, by simp [add_port_to_map, FirrtlPB_Type.uint_width]⟩
  | .kAsyncResetType, mod_id, dir, id, b, f, s, _, _, _ => by
    apply port_scalar_step s mod_id f id b .kAsyncResetType dir 0 false _ rfl
    exact Or.inl ⟨rfl, by simp [add_port_to_map, FirrtlPB_Type.uint_width]⟩

theorem port_flip_fields : ∀ (fs : List (String × Bool × FirrtlPB_Type)) (mod_id : String)
    (dir : Nat) (id : String) (f : Bool) (s : Env), bundles_only.fields fs = true →
    (leaf_paths.fields fs).all (fun p => port_leaf_ok p.2) = true → (dir = 1 ∨ dir = 2) →
    ∃ s', add_port_to_map.fields mod_id fs dir f id s = .ok s' ∧
      ∀ e, e ∈ glob_flip_get s' mod_id (Str.head id) ↔ e ∈ glob_flip_get s mod_id (Str.head id) ∨
        ∃ p ∈ leaf_paths.fields fs, port_leaf_recorded p.2 = true ∧
          e = (path_name id p.1, xor f (xor_flips p.1))
  | [], _, _, _, _, s, _, _, _ =>
    ⟨s, rfl, by simp [leaf_paths.fields]⟩
  | (fid, fl, ft) :: rest, mod_id, dir, id, f, s, hb, hl, hd => by
    simp only [bundles_only.fields, Bool.and_eq_true] at hb
    simp only [leaf_paths.fields, List.all_append, Bool.and_eq_true, List.all_map] at hl
    have hcomb : ∀ (s1 s2 : Env),
        (∀ e, e ∈ glob_flip_get s1 mod_id (Str.head id) ↔
          e ∈ glob_flip_get s mod_id (Str.head id) ∨
          ∃ p ∈ leaf_paths ft, port_leaf_recorded p.2 = true ∧
            e = (path_name (id ++ "." ++ fid) p.1, xor (if fl then !f else f) (xor_flips p.1))) →
        (∀ e, e ∈ glob_flip_get s2 mod_id (Str.head id) ↔
          e ∈ glob_flip_get s1 mod_id (Str.head id) ∨
          ∃ p ∈ leaf_paths.fields rest, port_leaf_recorded p.2 = true ∧
            e = (path_name id p.1, xor f (xor_flips p.1))) →
        ∀ e, e ∈ glob_flip_get s2 mod_id (Str.head id) ↔
          e ∈ glob_flip_get s mod_id (Str.head id) ∨
          ∃ p ∈ leaf_paths.fields ((fid, fl, ft) :: rest), port_leaf_recorded p.2 = true ∧
            e = (path_name id p.1, xor f (xor_flips p.1)) := by
      intro s1 s2 he1 he2 e
      rw [he2, he1]
      simp only [leaf_paths.fields, List.mem_append, List.mem_map]
      constructor
      · rintro ((h | ⟨p, hp, hr, rfl⟩) | ⟨p, hp, hr, rfl⟩)
        · exact Or.inl h
        · exact Or.inr ⟨_, Or.inl ⟨p, hp, rfl⟩, hr,
            by simp [path_name, xor_flips, Inou_firrtl_module.xor_flag_step]⟩
        · exact Or.inr ⟨p, Or.inr hp, hr, rfl⟩
      · rintro (h | ⟨p, (⟨q, hq, rfl⟩ | hp), hr, rfl⟩)
        · exact Or.inl (Or.inl h)
        · exact Or.inl (Or.inr ⟨q, hq, hr,
            by simp [path_name, xor_flips, Inou_firrtl_module.xor_flag_step]⟩)
        · exact Or.inr ⟨p, hp, hr, rfl⟩
    cases fl with
    | true =>
      have hd' : (if dir = 1 then 2 else if dir = 2 then 1 else 0) = 1 ∨
          (if dir = 1 then 2 else if dir = 2 then 1 else 0) = 2 := by
        rcases hd with h | h <;> simp [h]
      obtain ⟨s1, h1, he1⟩ := port_flip_dotted ft mod_id _ id fid (!f) s hb.1
        (by simpa [port_leaves_ok, Function.comp] using hl.1) hd'
      obtain ⟨s2, h2, he2⟩ := port_flip_fields rest mod_id dir id f s1 hb.2 hl.2 hd
      have hI : I ((if dir = 1 then 2 else if dir = 2 then 1 else 0) != 0) "new_dir != 0"
          = .ok () := by
        rcases hd with h | h <;> simp [h, I]
      refine ⟨s2, ?_, hcomb s1 s2 (by simpa using he1) he2⟩
      simp [add_port_to_map.fields, hI, h1, h2, bind, Except.bind]
    | false =>
      obtain ⟨s1, h1, he1⟩ := port_flip_dotted ft mod_id dir id fid f s hb.1
        (by simpa [port_leaves_ok, Function.comp] using hl.1) hd
      obtain ⟨s2, h2, he2⟩ := port_flip_fields rest mod_id dir id f s1 hb.2 hl.2 hd
      refine ⟨s2, ?_, hcomb s1 s2 (by simpa using he1) he2⟩
      simp [add_port_to_map.fields, h1, h2, bind, Except.bind]

end

end Inou_firrtl

namespace Inou_firrtl_module

end Inou_firrtl_module

namespace Inou_firrtl

theorem add_global_io_flipness_fresh (s : Env) (mod_id : String) (f : Bool) (id : String)
    (h : glob_flip_get s mod_id (Str.head id) = []) :
    glob_flip_get (add_global_io_flipness s mod_id f id) mod_id (Str.head id) = [(id, f)] := by
  unfold add_global_io_flipness
  simp only [glob_flip_get, Table.get_insert_or_assign_self] at h ⊢
  cases hf : Str.find_char id '.' with
  | none =>
    have hh : Str.head id = id := by simp [Str.head, hf]
    simp [hh, Table.get_insert_or_assign_self]
  | some found =>
    simp only
    cases hk : (s.glob_info.var2flip.get mod_id []).find (Str.head id) with
    | none => simp [Table.get_insert_or_assign_self]
    | some set =>
      have := Table.get_of_find_some _ _ [] _ hk
      rw [h] at this
      subst this
      simp [Table.get_insert_or_assign_self, set_insert]

end Inou_firrtl

/-- The flip table after declaring the wire `x : Bundle{a: flipped Bundle{b: UInt<8>}}`
holds the leaf `x.a.b` with accumulated flip `true`; declaring the port does the same in
the global table. -/
theorem flip_example_single :
    (Inou_firrtl_module.wire_init_flip_handling flip_example_inner "x" false 1
        (Env.fresh "M")).map (fun s => s.firmod.var2flip) = .ok [("x", [("x.a.b", true)])] ∧
    (Inou_firrtl.add_port_to_map "M" flip_example_inner 1 false "x"
        (Env.fresh "M")).map (fun s => s.glob_info.var2flip)
      = .ok [("M", [("x", [("x.a.b", true)])])] := by
  constructor <;> rfl

/-- Placing that bundle under one more flipped field gives the same leaf the
accumulated flip `false`. -/
theorem flip_example_double :
    (Inou_firrtl_module.wire_init_flip_handling flip_example_outer "y" false 1
        (Env.fresh "M")).map (fun s => s.firmod.var2flip) = .ok [("y", [("y.x.a.b", false)])] ∧
    (Inou_firrtl.add_port_to_map "M" flip_example_outer 2 false "y"
        (Env.fresh "M")).map (fun s => s.glob_info.var2flip)
      = .ok [("M", [("y", [("y.x.a.b", false)])])] := by
  constructor <;> rfl

/-- C9: in module `M` with vector ports `a` (length 2) and `b` (length 3) the name `a` is
in neither vector-size table when the module body is translated (the entry of `b` replaced
the table of the module), and `get_vector_size` returns 0 for it, where the default for a
name in neither table is 1: the name falls through to `io_var2vec_size[vec_name]`. -/
theorem get_vector_size_missing_name :
    two_vector_ports_env.map (fun s =>
      (s.firmod.var2vec_size.find "a",
       (s.glob_info.module_var2vec_size.get s.lnast.top_module_name []).find "a",
       (Inou_firrtl_module.get_vector_size s "a").1))
      = .ok (none, none, 0) := by
  rfl

/-- The outcomes of `get_vector_size(name)` as coded: the module-local recorded length when
the name is in the module-local table; otherwise the length in the global table of the
module when the name is there; otherwise 1 when the module has no global vector-size table;
and when the module has one that lacks the name, the 0 that `operator[]` yields. -/
theorem get_vector_size_lookup (s : Env) (name : String) :
    (∀ n, s.firmod.var2vec_size.find name = some n →
      (Inou_firrtl_module.get_vector_size s name).1 = n) ∧
    (s.firmod.var2vec_size.find name = none →
      (∀ io n, s.glob_info.module_var2vec_size.find s.lnast.top_module_name = some io →
        io.find name = some n → (Inou_firrtl_module.get_vector_size s name).1 = n) ∧
      (s.glob_info.module_var2vec_size.find s.lnast.top_module_name = none →
        (Inou_firrtl_module.get_vector_size s name).1 = 1) ∧
      (∀ io, s.glob_info.module_var2vec_size.find s.lnast.top_module_name = some io →
        io.find name = none → (Inou_firrtl_module.get_vector_size s name).1 = 0)) := by
  refine ⟨?_, ?_⟩
  · intro n h
    simp [Inou_firrtl_module.get_vector_size, h]
  · intro h
    refine ⟨?_, ?_, ?_⟩
    · intro io n hio hn
      simp [Inou_firrtl_module.get_vector_size, h, Env.warn, hio,
        Table.get_of_find_some _ _ _ _ hn]
    · intro hio
      simp [Inou_firrtl_module.get_vector_size, h, Env.warn, hio]
    · intro io hio hn
      simp [Inou_firrtl_module.get_vector_size, h, Env.warn, hio,
        Table.get_of_find_none _ _ _ hn]

/-- The lookup at the unit of module `M` with the vector wire `w` of length 4 recorded
locally, and at the fresh unit. -/
theorem get_vector_size_lookup_witness :
    (Inou_firrtl_module.get_vector_size
        { Env.fresh "M" with firmod := { var2vec_size := [("w", 4)] } } "w").1 = 4 ∧
    (Inou_firrtl_module.get_vector_size (Env.fresh "M") "w").1 = 1 :=
  ⟨(get_vector_size_lookup _ "w").1 4 rfl, ((get_vector_size_lookup (Env.fresh "M") "w").2 rfl).2.1 rfl⟩

/-! ## Registers -/

/-- C3 (counterexample). Declaring the register `r : UInt<4>` with reset literal 0 and init
literal 0 does emit a tuple-write to `r.__reset_pin`. -/
theorem register_reset_pin_counterexample :
    (Inou_firrtl_module.handle_register (.kUintLiteral "0" 1) (.kUintLiteral "0" 4)
        (.kUintType 4) "r" 1 (Env.fresh "M")).map
      (fun s => s.lnast.writes_field "r" "__reset_pin") = .ok true := by
  rfl

theorem setup_register_reset_init_tied_zero (s : Env) (p : Nat) (reg h : String) (b : Bool)
    (inite : FirrtlPB_Expression) (w : Nat) :
    Inou_firrtl_module.setup_register_reset_init s p reg (.kUintLiteral "0" w) inite h b
      = Inou_firrtl_module.create_tuple_add_from_str s p (reg ++ ".__reset_pin")
          (Lnast_node.create_const "0") := by
  simp [Inou_firrtl_module.setup_register_reset_init, Inou_firrtl_module.reset_value_node,
    FirrtlPB_Expression.uint_literal_value, bind, Except.bind, Lnast_node.is_invalid,
    Lnast_node.create_const]
  cases Inou_firrtl_module.create_tuple_add_from_str s p (reg ++ ".__reset_pin")
    ⟨.const, "0"⟩ <;> rfl

/-- C3 (amended). Declaring the register `r : UInt<4>` whose reset expression is the
literal 0 (of any width), whatever its init expression, emits exactly two tuple-writes,
`r.__ubits = 4` and `r.__reset_pin = 0` (so none to `r.__initial`: the tied-zero
short-circuit skips the init value), one attribute-get of `__create_flop` on `r`, and two
assigns, one binding `r` to the created flop and one aliasing the q-pin `_#_r_q` to `r`. -/
theorem register_tied_zero_reset (inite : FirrtlPB_Expression) (w : Nat) :
    (Inou_firrtl_module.handle_register (.kUintLiteral "0" w) inite
        (.kUintType 4) "r" 1 (Env.fresh "M")).map
      (fun s => (s.lnast.stmts_of .tuple_add, s.lnast.stmts_of .attr_get,
                 s.lnast.stmts_of .assign, s.lnast.writes_field "r" "__initial",
                 s.lnast.nodes.length))
      = .ok ([[⟨.ref, "r"⟩, ⟨.const, "__ubits"⟩, ⟨.const, "4"⟩],
              [⟨.ref, "r"⟩, ⟨.const, "__reset_pin"⟩, ⟨.const, "0"⟩]],
             [[⟨.ref, "___F1"⟩, ⟨.ref, "r"⟩, ⟨.const, "__create_flop"⟩]],
             [[⟨.ref, "r"⟩, ⟨.ref, "___F1"⟩], [⟨.ref, "_#_r_q"⟩, ⟨.ref, "r"⟩]],
             false, 20) := by
  have h : Inou_firrtl_module.handle_register (.kUintLiteral "0" w) inite
      (.kUintType 4) "r" 1 (Env.fresh "M")
      = Inou_firrtl_module.handle_register (.kUintLiteral "0" 1) (.kUintLiteral "0" 4)
          (.kUintType 4) "r" 1 (Env.fresh "M") := by
    simp only [Inou_firrtl_module.handle_register, Inou_firrtl_module.handle_register_scalar,
      setup_register_reset_init_tied_zero]
  rw [h]
  rfl

/-! ## The arena -/

namespace Lnast

theorem children_append_nodes (ln : Lnast) (extra : List Lnast_entry) (i : Nat) :
    children ⟨ln.top_module_name, ln.nodes ++ extra⟩ i
      = children ln i ++ (extra.filter (fun e => e.parent = some i)).map (·.node) := by
  simp [children, List.filter_append]

theorem children_of_closed_ge (ln : Lnast) (hc : ln.closed = true) (i : Nat)
    (hi : ln.nodes.length ≤ i) : ln.children i = [] := by
  simp only [children, List.map_eq_nil_iff, List.filter_eq_nil_iff]
  intro e he
  simp only [closed, List.all_eq_true] at hc
  have := hc e he
  intro hp
  simp only [decide_eq_true_eq] at hp
  rw [hp] at this
  simp only [decide_eq_true_eq] at this
  omega

theorem closed_append (ln : Lnast) (extra : List Lnast_entry)
    (hc : closed ln = true)
    (he : ∀ e ∈ extra, ∀ p, e.parent = some p → p < ln.nodes.length + extra.length) :
    closed ⟨ln.top_module_name, ln.nodes ++ extra⟩ = true := by
  simp only [closed, List.all_eq_true, List.mem_append, List.length_append] at hc ⊢
  rintro e (h | h)
  · have := hc e h
    cases hp : e.parent with
    | none => rfl
    | some p =>
      simp only [hp, decide_eq_true_eq] at this ⊢
      omega
  · cases hp : e.parent with
    | none => rfl
    | some p =>
      simp only [decide_eq_true_eq]
      exact he e h p hp

theorem node_at_append_new (ln : Lnast) (extra : List Lnast_entry) (k : Nat) :
    node_at ⟨ln.top_module_name, ln.nodes ++ extra⟩ (ln.nodes.length + k)
      = (extra.get? k).map (·.node) := by
  simp [node_at, List.getElem?_append_right]

end Lnast

/-! ## Memory finalization -/

namespace Inou_firrtl_module

theorem final_mem_rd_mports_ok (mem_name : String) (idx : Nat) :
    ∀ (l : List (String × Nat)) (s : Env), idx < s.lnast.nodes.length →
      s.lnast.closed = true →
      ∃ s1, final_mem_rd_mports mem_name (some idx) l s = .ok s1 ∧
        s1.lnast.closed = true ∧
        s1.lnast.nodes.length = s.lnast.nodes.length + 7 * l.length ∧
        s1.firmod.tmp_var_cnt = s.firmod.tmp_var_cnt + l.length
  | [], s, _, hc => ⟨s, rfl, hc, by simp, by simp⟩
  | (mport_name, cnt) :: rest, s, hidx, hc => by
    simp only [final_mem_rd_mports, Env.add_child, Env.add_leaf, Lnast.add_child, create_tmp_var,
      List.append_assoc, List.cons_append, List.nil_append, List.length_append,
      List.length_cons, List.length_nil]
    obtain ⟨s1, h1, hc1, hl1, ht1⟩ := final_mem_rd_mports_ok mem_name idx rest
      { s with
        lnast := ⟨s.lnast.top_module_name, s.lnast.nodes ++
          [⟨Lnast_node.create_tuple_get, some idx⟩,
           ⟨Lnast_node.create_ref ("___F" ++ Str.of_nat (s.firmod.tmp_var_cnt + 1)),
             some s.lnast.nodes.length⟩,
           ⟨Lnast_node.create_ref (mem_name ++ "_res"), some s.lnast.nodes.length⟩,
           ⟨Lnast_node.create_const_nat cnt, some s.lnast.nodes.length⟩,
           ⟨Lnast_node.create_assign, some idx⟩,
           ⟨Lnast_node.create_ref mport_name, some (s.lnast.nodes.length + 4)⟩,
           ⟨Lnast_node.create_ref ("___F" ++ Str.of_nat (s.firmod.tmp_var_cnt + 1)),
             some (s.lnast.nodes.length + 4)⟩]⟩,
        firmod := { s.firmod with tmp_var_cnt := s.firmod.tmp_var_cnt + 1 } }
      (by simp; omega)
      (by
        apply Lnast.closed_append _ _ hc
        intro e he p hp
        simp only [List.mem_cons, List.mem_singleton, List.not_mem_nil, or_false] at he
        rcases he with rfl | rfl | rfl | rfl | rfl | rfl | rfl <;>
          simp only [Option.some.injEq] at hp <;> subst hp <;>
          simp only [List.length_cons, List.length_nil] <;> omega)
    refine ⟨s1, ?_, hc1, ?_, ?_⟩
    · rw [← h1]
    · rw [hl1]
      simp
      omega
    · rw [ht1]
      simp
      omega

end Inou_firrtl_module

set_option maxRecDepth 8192 in
/-- C8 (amended). For a memory `mem_name` finalized by `final_mem_interface_assign`, the
interface tuple is built by one tuple-add (created after the `k` recorded read mports were
wired) whose children are a fresh temporary and nine assign nodes, binding in order the
fields addr, clock, din, enable, fwd, type, wensize, size and rdport each to the reference
`<mem>_<field>`; the tuple-add is followed by the assign of the temporary to
`<mem>_interface_args`. -/
theorem mem_interface_tuple_fields (s : Env) (parent_node : Nat) (mem_name : String)
    (hc : s.lnast.closed = true) (hp : parent_node < s.lnast.nodes.length)
    (hidx : ∀ idx, s.firmod.mem2initial_idx.find mem_name = some idx →
      idx < s.lnast.nodes.length)
    (hrd : s.firmod.mem2initial_idx.find mem_name = none →
      s.firmod.mem2rd_mports.get mem_name [] = []) :
    ∃ s', Inou_firrtl_module.final_mem_interface_assign_mem parent_node s mem_name = .ok s' ∧
      s'.lnast.node_at (s.lnast.nodes.length + 7 * (s.firmod.mem2rd_mports.get mem_name []).length)
        = some ⟨.tuple_add, ""⟩ ∧
      s'.lnast.children (s.lnast.nodes.length + 7 * (s.firmod.mem2rd_mports.get mem_name []).length)
        = ⟨.ref, "___F" ++ Str.of_nat (s.firmod.tmp_var_cnt +
              (s.firmod.mem2rd_mports.get mem_name []).length + 1)⟩
          :: List.replicate 9 ⟨.assign, ""⟩ ∧
      (List.range 9).map (fun i => s'.lnast.children
          (s.lnast.nodes.length + 7 * (s.firmod.mem2rd_mports.get mem_name []).length + 2 + 3 * i))
        = mem_interface_fields.map (fun f => [⟨.const, f.1⟩, ⟨.ref, mem_name ++ f.2⟩]) ∧
      s'.lnast.node_at
          (s.lnast.nodes.length + 7 * (s.firmod.mem2rd_mports.get mem_name []).length + 29)
        = some ⟨.assign, ""⟩ ∧
      s'.lnast.children
          (s.lnast.nodes.length + 7 * (s.firmod.mem2rd_mports.get mem_name []).length + 29)
        = [⟨.ref, mem_name ++ "_interface_args"⟩,
           ⟨.ref, "___F" ++ Str.of_nat (s.firmod.tmp_var_cnt +
              (s.firmod.mem2rd_mports.get mem_name []).length + 1)⟩] := by
  have h1 : ∃ s1, Inou_firrtl_module.final_mem_rd_mports mem_name
      (s.firmod.mem2initial_idx.find mem_name) (s.firmod.mem2rd_mports.get mem_name []) s
        = .ok s1 ∧ s1.lnast.closed = true ∧
      s1.lnast.nodes.length = s.lnast.nodes.length +
        7 * (s.firmod.mem2rd_mports.get mem_name []).length ∧
      s1.firmod.tmp_var_cnt = s.firmod.tmp_var_cnt +
        (s.firmod.mem2rd_mports.get mem_name []).length := by
    cases hf : s.firmod.mem2initial_idx.find mem_name with
    | none =>
      rw [hrd hf]
      exact ⟨s, rfl, hc, by simp, by simp⟩
    | some idx =>
      exact Inou_firrtl_module.final_mem_rd_mports_ok mem_name idx _ s (hidx idx hf) hc
  obtain ⟨s1, h1, hc1, hl1, ht1⟩ := h1
  simp only [Inou_firrtl_module.final_mem_interface_assign_mem, h1, bind, Except.bind,
    Inou_firrtl_module.mem_interface_field, Env.add_child, Env.add_leaf, Lnast.add_child,
    Inou_firrtl_module.create_tmp_var, List.append_assoc, List.cons_append, List.nil_append,
    List.length_append, List.length_cons, List.length_nil]
  refine ⟨_, rfl, ?_⟩
  rw [← hl1, ← ht1]
  have hold : ∀ j, s1.lnast.nodes.length ≤ j →
      s1.lnast.nodes.filter (fun e => decide (e.parent = some j)) = [] := by
    intro j hj
    have := Lnast.children_of_closed_ge s1.lnast hc1 j hj
    simpa [Lnast.children] using this
  have hne : ∀ k, (parent_node = s1.lnast.nodes.length + k) = False := by
    intro k
    simp only [eq_iff_iff, iff_false]
    omega
  have hne0 : (parent_node = s1.lnast.nodes.length) = False := by
    simp only [eq_iff_iff, iff_false]
    omega
  refine ⟨?_, ?_, ?_, ?_, ?_⟩
  · exact (Lnast.node_at_append_new s1.lnast _ 0).trans rfl
  · simp [Lnast.children, List.filter_append, hold _ (Nat.le_refl _), List.filter_cons,
      Lnast_node.create_ref, Lnast_node.create_assign, List.replicate, hne, hne0]
  · simp [Lnast.children, List.filter_append, List.range, List.range.loop, mem_interface_fields,
      hold _ (Nat.le_add_right _ _), List.filter_cons, Nat.add_assoc,
      Lnast_node.create_ref, Lnast_node.create_const, hne, hne0]
  · exact (Lnast.node_at_append_new s1.lnast _ 29).trans rfl
  · simp [Lnast.children, List.filter_append, hold _ (Nat.le_add_right _ _), List.filter_cons,
      Lnast_node.create_ref, hne, hne0]

/-! ## Port lists -/

theorem xor_flips_eq_odd (p : List (String × Bool)) :
    xor_flips p = decide (flip_count p % 2 = 1) := by
  induction p with
  | nil => rfl
  | cons a rest ih =>
    obtain ⟨fid, fl⟩ := a
    cases fl
    · simp [xor_flips, flip_count, ih]
    · simp only [xor_flips, flip_count, ih, if_true]
      rcases Nat.mod_two_eq_zero_or_one (flip_count rest) with h | h
      · have : (1 + flip_count rest) % 2 = 1 := by omega
        simp [h, this]
      · have : (1 + flip_count rest) % 2 = 0 := by omega
        simp [h, this]

theorem leaf_dir_cons_false (dir : Nat) (fid : String) (p : List (String × Bool)) :
    leaf_dir dir ((fid, false) :: p) = leaf_dir dir p := by
  simp [leaf_dir, flip_count]

theorem leaf_dir_cons_true (dir : Nat) (fid : String) (p : List (String × Bool))
    (hd : dir = 1 ∨ dir = 2) :
    leaf_dir dir ((fid, true) :: p) = leaf_dir (opposite_dir dir) p := by
  simp only [leaf_dir, flip_count, if_true]
  rcases Nat.mod_two_eq_zero_or_one (flip_count p) with h | h
  · have : (1 + flip_count p) % 2 = 1 := by omega
    simp [h, this]
  · have : (1 + flip_count p) % 2 = 0 := by omega
    rcases hd with hd | hd <;> simp [h, this, hd, opposite_dir]

namespace Inou_firrtl

/-- The entry of the port list for the leaf at path `p` of a port `port_id` declared with
direction `dir`. -/
theorem leaf_paths_self (t : FirrtlPB_Type) (h : leaf_paths t = [([], t)]) (dir : Nat)
    (port_id : String) :
    (leaf_paths t).map (fun p => ((path_name port_id p.1, leaf_dir dir p.1, leaf_bits p.2,
      leaf_sign p.2) : Port_entry)) = [(port_id, dir, leaf_bits t, leaf_sign t)] := by
  rw [h]
  simp [path_name, leaf_dir, flip_count]

mutual

theorem create_io_list_bundles : ∀ (t : FirrtlPB_Type) (dir : Nat) (port_id : String),
    bundles_only t = true → port_leaves_ok t = true → (dir = 1 ∨ dir = 2) →
    create_io_list t dir port_id = .ok ((leaf_paths t).map
      (fun p => (path_name port_id p.1, leaf_dir dir p.1, leaf_bits p.2, leaf_sign p.2)))
  | .kBundleType fs, dir, port_id, hb, hl, hd => by
    have h := create_io_list_fields fs dir port_id
      (by simpa [bundles_only] using hb) (by simpa [port_leaves_ok, leaf_paths] using hl) hd
    simpa [create_io_list, leaf_paths] using h
  | .kVectorType _ _, _, _, hb, _, _ => by simp [bundles_only] at hb
  | .kFixedType, _, _, _, hl, _ => by simp [port_leaves_ok, leaf_paths, port_leaf_ok] at hl
  | .kAnalogType _, _, _, _, hl, _ => by simp [port_leaves_ok, leaf_paths, port_leaf_ok] at hl
  | .TYPE_NOT_SET, _, _, _, hl, _ => by simp [port_leaves_ok, leaf_paths, port_leaf_ok] at hl
  | .kUintType w, dir, port_id, _, _, _ => by
    rw [leaf_paths_self (.kUintType w) rfl]; rfl
  | .kSintType w, dir, port_id, _, _, _ => by
    rw [leaf_paths_self (.kSintType w) rfl]; rfl
  | .kClockType, dir, port_id, _, _, _ => by
    rw [leaf_paths_self (.kClockType) rfl]; rfl
  | .kResetType, dir, port_id, _, _, _ => by
    rw [leaf_paths_self (.kResetType) rfl]; rfl
  | .kAsyncResetType, dir, port_id, _, _, _ => by
    rw [leaf_paths_self (.kAsyncResetType) rfl]; rfl

theorem create_io_list_fields : ∀ (fs : List (String × Bool × FirrtlPB_Type)) (dir : Nat)
    (port_id : String), bundles_only.fields fs = true →
    (leaf_paths.fields fs).all (fun p => port_leaf_ok p.2) = true → (dir = 1 ∨ dir = 2) →
    create_io_list.fields fs dir port_id = .ok ((leaf_paths.fields fs).map
      (fun p => (path_name port_id p.1, leaf_dir dir p.1, leaf_bits p.2, leaf_sign p.2)))
  | [], _, _, _, _, _ => rfl
  | (fid, fl, ft) :: rest, dir, port_id, hb, hl, hd => by
    simp only [bundles_only.fields, Bool.and_eq_true] at hb
    simp only [leaf_paths.fields, List.all_append, Bool.and_eq_true, List.all_map] at hl
    have h2 := create_io_list_fields rest dir port_id hb.2 hl.2 hd
    cases fl with
    | true =>
      have hd' : opposite_dir dir = 1 ∨ opposite_dir dir = 2 := by
        rcases hd with h | h <;> simp [h, opposite_dir]
      have h1 := create_io_list_bundles ft (opposite_dir dir) (port_id ++ "." ++ fid) hb.1
        (by simpa [port_leaves_ok, Function.comp] using hl.1) hd'
      have hI : I ((if dir = 1 then 2 else if dir = 2 then 1 else 0) != 0) "new_dir != 0"
          = .ok () := by
        rcases hd with h | h <;> simp [h, I]
      simp only [opposite_dir] at h1
      simp [create_io_list.fields, hI, h1, h2, bind, Except.bind, leaf_paths.fields,
        Function.comp, path_name, leaf_dir_cons_true _ _ _ hd, opposite_dir]
    | false =>
      have h1 := create_io_list_bundles ft dir (port_id ++ "." ++ fid) hb.1
        (by simpa [port_leaves_ok, Function.comp] using hl.1) hd
      simp [create_io_list.fields, h1, h2, bind, Except.bind, leaf_paths.fields,
        Function.comp, path_name, leaf_dir_cons_false]

end

end Inou_firrtl

namespace Inou_firrtl

theorem create_io_list_vector_loop (t : FirrtlPB_Type) (dir : Nat) (port_id : String)
    (sub : Nat → List Port_entry) :
    ∀ (l : List Nat) (vec : List Port_entry),
    (∀ i ∈ l, create_io_list t dir (port_id ++ "." ++ Str.of_nat i) = .ok (sub i)) →
    l.foldlM
      (fun vec i => do
        let sub ← create_io_list t dir (port_id ++ "." ++ Str.of_nat i)
        .ok (vec ++ [(port_id, dir, 0, false)] ++ sub)) vec
      = (.ok (vec ++ (l.map (fun i => (port_id, dir, 0, false) :: sub i)).flatten) :
          Except String (List Port_entry))
  | [], vec, _ => by simp [pure, Except.pure]
  | i :: rest, vec, h => by
    have hi := h i (List.mem_cons_self _ _)
    have hr := create_io_list_vector_loop t dir port_id sub rest
      (vec ++ [(port_id, dir, 0, false)] ++ sub i)
      (fun j hj => h j (List.mem_cons_of_mem _ hj))
    rw [List.foldlM_cons, hi]
    show List.foldlM _ (vec ++ [(port_id, dir, 0, false)] ++ sub i) rest = _
    rw [hr]
    simp

theorem create_io_list_vec_loop (t : FirrtlPB_Type) (dir : Nat) (port_id : String)
    (ih : ∀ (p : String) (vec : List Port_entry),
      create_io_list_vec t dir p vec = (create_io_list t dir p).map (fun l => vec ++ l)) :
    ∀ (l : List Nat) (vec acc : List Port_entry),
    l.foldlM
      (fun vec i =>
        create_io_list_vec t dir (port_id ++ "." ++ Str.of_nat i)
          (vec ++ [(port_id, dir, 0, false)])) (vec ++ acc)
      = (l.foldlM
          (fun vec i => do
            let sub ← create_io_list t dir (port_id ++ "." ++ Str.of_nat i)
            .ok (vec ++ [(port_id, dir, 0, false)] ++ sub)) acc).map (fun l => vec ++ l)
  | [], vec, acc => by simp [pure, Except.pure, Except.map]
  | i :: rest, vec, acc => by
    rw [List.foldlM_cons, List.foldlM_cons, ih]
    cases h : create_io_list t dir (port_id ++ "." ++ Str.of_nat i) with
    | error e => rfl
    | ok sub =>
      have hr := create_io_list_vec_loop t dir port_id ih rest vec
        (acc ++ [(port_id, dir, 0, false)] ++ sub)
      show List.foldlM _ (vec ++ acc ++ [(port_id, dir, 0, false)] ++ sub) rest
        = Except.map _ (List.foldlM _ (acc ++ [(port_id, dir, 0, false)] ++ sub) rest)
      rw [← hr]
      simp only [List.append_assoc]

mutual

theorem create_io_list_vec_eq : ∀ (t : FirrtlPB_Type) (dir : Nat) (port_id : String)
    (vec : List Port_entry),
    create_io_list_vec t dir port_id vec = (create_io_list t dir port_id).map (fun l => vec ++ l)
  | .kBundleType fs, dir, port_id, vec => by
    simpa [create_io_list_vec, create_io_list] using create_io_list_vec_fields fs dir port_id vec
  | .kVectorType t n, dir, port_id, vec => by
    have h := create_io_list_vec_loop t dir port_id (create_io_list_vec_eq t dir) (List.range n)
      vec []
    simpa [create_io_list_vec, create_io_list] using h
  | .kFixedType, _, _, _ => rfl
  | .kAnalogType _, _, _, _ => rfl
  | .TYPE_NOT_SET, _, _, _ => rfl
  | .kUintType _, _, _, _ => rfl
  | .kSintType _, _, _, _ => rfl
  | .kClockType, _, _, _ => rfl
  | .kResetType, _, _, _ => rfl
  | .kAsyncResetType, _, _, _ => rfl

theorem create_io_list_vec_fields : ∀ (fs : List (String × Bool × FirrtlPB_Type)) (dir : Nat)
    (port_id : String) (vec : List Port_entry),
    create_io_list_vec.fields fs dir port_id vec
      = (create_io_list.fields fs dir port_id).map (fun l => vec ++ l)
  | [], _, _, vec => by simp [create_io_list_vec.fields, create_io_list.fields, Except.map]
  | (fid, fl, ft) :: rest, dir, port_id, vec => by
    have hrest := fun v => create_io_list_vec_fields rest dir port_id v
    cases fl with
    | true =>
      have h1 := create_io_list_vec_eq ft (if dir = 1 then 2 else if dir = 2 then 1 else 0)
        (port_id ++ "." ++ fid) vec
      simp only [create_io_list_vec.fields, create_io_list.fields, if_true]
      cases hI : I ((if dir = 1 then 2 else if dir = 2 then 1 else 0) != 0) "new_dir != 0" with
      | error e => simp [Except.map, bind, Except.bind]
      | ok u =>
        simp only [bind, Except.bind, h1]
        cases hs : create_io_list ft (if dir = 1 then 2 else if dir = 2 then 1 else 0)
            (port_id ++ "." ++ fid) with
        | error e => simp [Except.map]
        | ok sub =>
          simp only [Except.map, hrest]
          cases create_io_list.fields rest dir port_id <;> simp [Except.map]
    | false =>
      have h1 := create_io_list_vec_eq ft dir (port_id ++ "." ++ fid) vec
      simp only [create_io_list_vec.fields, create_io_list.fields, bind, Except.bind, h1]
      cases hs : create_io_list ft dir (port_id ++ "." ++ fid) with
      | error e => simp [Except.map]
      | ok sub =>
        simp only [Except.map, hrest]
        cases create_io_list.fields rest dir port_id <;> simp [Except.map]

end

end Inou_firrtl

/-- C11. For a port declared with direction `dir` (1 input, 2 output) whose type is any
nesting of Bundles, `create_io_list` returns one entry per leaf, in declaration order; the
name of the entry is the base name joined with the field names of the path by `.`, and its
direction is `dir` when the number of flipped fields on the path is even and the opposite
direction when that number is odd. -/
theorem io_list_leaf_direction (t : FirrtlPB_Type) (dir : Nat) (port_id : String)
    (hb : bundles_only t = true) (hl : port_leaves_ok t = true) (hd : dir = 1 ∨ dir = 2) :
    (Inou_firrtl.create_io_list t dir port_id).map (List.map (fun e => (e.1, e.2.1)))
      = .ok ((leaf_paths t).map (fun p =>
          (path_name port_id p.1,
           if flip_count p.1 % 2 = 0 then dir else opposite_dir dir))) := by
  rw [Inou_firrtl.create_io_list_bundles t dir port_id hb hl hd]
  simp [Except.map, leaf_dir, Function.comp]

/-- Witness of C11 at the output port `y : Bundle{x: flipped Bundle{a: flipped Bundle{b:
UInt<8>}}}`: the leaf `y.x.a.b` lies under two flipped fields and is an output. -/
theorem io_list_leaf_direction_witness :
    bundles_only flip_example_outer = true ∧
    (Inou_firrtl.create_io_list flip_example_outer 2 "y").map (List.map (fun e => (e.1, e.2.1)))
      = .ok ((leaf_paths flip_example_outer).map (fun p =>
          (path_name "y" p.1, if flip_count p.1 % 2 = 0 then 2 else opposite_dir 2))) :=
  ⟨by decide, io_list_leaf_direction flip_example_outer 2 "y" (by decide) (by decide)
    (Or.inr rfl)⟩

/-- C12 (counterexample). For the input port `v : UInt<8>[2]` the list has four entries:
besides the two leaves `v.0` and `v.1` it holds, before each of them, an entry for the
Vector path `v` itself, of width 0. -/
theorem io_list_vector_counterexample :
    Inou_firrtl.create_io_list vector_port_example 1 "v"
      = .ok [("v", 1, 0, false), ("v.0", 1, 8, false), ("v", 1, 0, false), ("v.1", 1, 8, false)] := by
  rfl

/-- C12 (amended). For a port type built from Bundles and scalar leaves the list of
`create_io_list` has exactly one (leaf path, direction, width, sign) entry per scalar leaf,
in declaration order, and no other entry.  For a Vector with `n` elements whose elements
give the lists `sub 0 .. sub (n-1)`, the list is, for each element in order, one entry
(vector path, direction, 0, unsigned) followed by the entries of the element. -/
theorem io_list_entries (t : FirrtlPB_Type) (dir n : Nat) (port_id : String)
    (sub : Nat → List Inou_firrtl.Port_entry)
    (hd : dir = 1 ∨ dir = 2)
    (hsub : ∀ i < n, Inou_firrtl.create_io_list t dir (port_id ++ "." ++ Str.of_nat i)
      = .ok (sub i)) :
    (bundles_only t = true → port_leaves_ok t = true →
      Inou_firrtl.create_io_list t dir port_id = .ok ((leaf_paths t).map
        (fun p => (path_name port_id p.1, leaf_dir dir p.1, leaf_bits p.2, leaf_sign p.2)))) ∧
    Inou_firrtl.create_io_list (.kVectorType t n) dir port_id
      = .ok (((List.range n).map (fun i => (port_id, dir, 0, false) :: sub i)).flatten) := by
  refine ⟨fun hb hl => Inou_firrtl.create_io_list_bundles t dir port_id hb hl hd, ?_⟩
  have h := Inou_firrtl.create_io_list_vector_loop t dir port_id sub (List.range n) []
    (fun i hi => hsub i (List.mem_range.mp hi))
  simpa [Inou_firrtl.create_io_list] using h

/-- Witness of C12 (amended) at the input port `v : UInt<8>[2]`. -/
theorem io_list_entries_witness :
    (bundles_only (.kUintType 8) = true → port_leaves_ok (.kUintType 8) = true →
      Inou_firrtl.create_io_list (.kUintType 8) 1 "v" = .ok ((leaf_paths (.kUintType 8)).map
        (fun p => (path_name "v" p.1, leaf_dir 1 p.1, leaf_bits p.2, leaf_sign p.2)))) ∧
    Inou_firrtl.create_io_list (.kVectorType (.kUintType 8) 2) 1 "v"
      = .ok (((List.range 2).map (fun i => ("v", 1, 0, false) ::
          [("v" ++ "." ++ Str.of_nat i, 1, 8, false)])).flatten) :=
  io_list_entries (.kUintType 8) 1 2 "v" (fun i => [("v" ++ "." ++ Str.of_nat i, 1, 8, false)])
    (Or.inl rfl) (fun _ _ => rfl)

/-- C13. The port flattener is a function of (type, direction, base path) alone: called on
any list `vec`, `create_io_list` leaves the entries of `vec` in place and appends the list
that the three arguments determine; so two calls with the same three arguments append the
same entries. -/
theorem create_io_list_pure (t : FirrtlPB_Type) (dir : Nat) (port_id : String)
    (vec : List Inou_firrtl.Port_entry) :
    Inou_firrtl.create_io_list_vec t dir port_id vec
      = (Inou_firrtl.create_io_list t dir port_id).map (fun l => vec ++ l) :=
  Inou_firrtl.create_io_list_vec_eq t dir port_id vec

/-! ## The port-population phase -/

theorem nodup_set_insert {α : Type} [DecidableEq α] (s : List α) (x : α) (h : s.Nodup) :
    (set_insert s x).Nodup := by
  unfold set_insert
  split
  · exact h
  · rename_i hx
    exact List.Nodup.append h (List.nodup_singleton x) (by simpa using hx)

theorem foldlM_rel {α : Type} (R : Env → Env → Prop) (hrefl : ∀ s, R s s)
    (htrans : ∀ a b c, R a b → R b c → R a c) (f : Env → α → Except String Env) :
    ∀ (l : List α) (s s' : Env), (∀ a ∈ l, ∀ s s', f s a = .ok s' → R s s') →
      l.foldlM f s = .ok s' → R s s'
  | [], s, s', _, h => by
    simp only [List.foldlM_nil, pure, Except.pure, Except.ok.injEq] at h
    exact h ▸ hrefl s
  | a :: rest, s, s', hf, h => by
    rw [List.foldlM_cons] at h
    cases h1 : f s a with
    | error e => rw [h1] at h; cases h
    | ok s1 =>
      rw [h1] at h
      exact htrans _ _ _ (hf a (List.mem_cons_self _ _) s s1 h1)
        (foldlM_rel R hrefl htrans f rest s1 s' (fun b hb => hf b (List.mem_cons_of_mem _ hb)) h)

namespace Inou_firrtl

mutual

theorem add_port_to_map_rel (R : Env → Env → Prop) (hrefl : ∀ s, R s s)
    (htrans : ∀ a b c, R a b → R b c → R a c) (mod_id h : String)
    (hrec : ∀ s id dir bits sign, R s (record_port_dir s mod_id id dir bits sign))
    (hvec : ∀ (s : Env) tbl,
      R s { s with glob_info := { s.glob_info with module_var2vec_size := tbl } })
    (hflip : ∀ s f id, Str.head id = h → R s (add_global_io_flipness s mod_id f id)) :
    ∀ (t : FirrtlPB_Type) (dir : Nat) (f : Bool) (id : String) (s s' : Env),
      Str.head id = h → add_port_to_map mod_id t dir f id s = .ok s' → R s s'
  | .kBundleType fs, dir, f, id, s, s', hh, hs =>
    add_port_to_map_fields_rel R hrefl htrans mod_id h hrec hvec hflip fs dir f id s s' hh
      (by simpa [add_port_to_map] using hs)
  | .kVectorType t n, dir, f, id, s, s', hh, hs => by
    simp only [add_port_to_map] at hs
    refine htrans _ _ _ (hvec s _) (foldlM_rel R hrefl htrans _ (List.range n) _ s' ?_ hs)
    intro i _ a b hab
    exact add_port_to_map_rel R hrefl htrans mod_id h hrec hvec hflip t dir f _ a b
      (by rw [Str.head_append_dot]; exact hh) hab
  | .kFixedType, _, _, _, _, _, _, hs => by simp [add_port_to_map] at hs
  | .kAnalogType _, _, _, _, _, _, _, hs => by simp [add_port_to_map] at hs
  | .TYPE_NOT_SET, _, _, _, _, _, _, hs => by simp [add_port_to_map] at hs
  | .kUintType w, dir, f, id, s, s', hh, hs => by
    simp only [add_port_to_map] at hs
    split at hs
    · cases hs; exact htrans _ _ _ (hrec s id dir _ _) (hflip _ f id hh)
    · cases hs; exact hrec s id dir _ _
  | .kSintType w, dir, f, id, s, s', hh, hs => by
    simp only [add_port_to_map] at hs
    split at hs
    · cases hs; exact htrans _ _ _ (hrec s id dir _ _) (hflip _ f id hh)
    · cases hs; exact hrec s id dir _ _
  | .kClockType, dir, f, id, s, s', hh, hs => by
    simp only [add_port_to_map] at hs
    cases hs; exact htrans _ _ _ (hrec s id dir _ _) (hflip _ f id hh)
  | .kResetType, dir, f, id, s, s', hh, hs => by
    simp only [add_port_to_map] at hs
    cases hs; exact htrans _ _ _ (hrec s id dir _ _) (hflip _ f id hh)
  | .kAsyncResetType, dir, f, id, s, s', hh, hs => by
    simp only [add_port_to_map] at hs
    cases hs; exact htrans _ _ _ (hrec s id dir _ _) (hflip _ f id hh)

theorem add_port_to_map_fields_rel (R : Env → Env → Prop) (hrefl : ∀ s, R s s)
    (htrans : ∀ a b c, R a b → R b c → R a c) (mod_id h : String)
    (hrec : ∀ s id dir bits sign, R s (record_port_dir s mod_id id dir bits sign))
    (hvec : ∀ (s : Env) tbl,
      R s { s with glob_info := { s.glob_info with module_var2vec_size := tbl } })
    (hflip : ∀ s f id, Str.head id = h → R s (add_global_io_flipness s mod_id f id)) :
    ∀ (fs : List (String × Bool × FirrtlPB_Type)) (dir : Nat) (f : Bool) (id : String)
      (s s' : Env), Str.head id = h → add_port_to_map.fields mod_id fs dir f id s = .ok s' →
      R s s'
  | [], _, _, _, s, s', _, hs => by
    simp only [add_port_to_map.fields, Except.ok.injEq] at hs
    exact hs ▸ hrefl s
  | (fid, fl, ft) :: rest, dir, f, id, s, s', hh, hs => by
    have hh' : Str.head (id ++ "." ++ fid) = h := by rw [Str.head_append_dot]; exact hh
    simp only [add_port_to_map.fields, bind, Except.bind] at hs
    cases fl with
    | true =>
      simp only [if_true] at hs
      cases hI : I ((if dir = 1 then 2 else if dir = 2 then 1 else 0) != 0) "new_dir != 0" with
      | error e => simp [hI] at hs
      | ok u =>
        cases h1 : add_port_to_map mod_id ft (if dir = 1 then 2 else if dir = 2 then 1 else 0)
            (!f) (id ++ "." ++ fid) s with
        | error e => simp [hI, h1] at hs
        | ok s1 =>
          simp only [hI, h1] at hs
          exact htrans _ _ _
            (add_port_to_map_rel R hrefl htrans mod_id h hrec hvec hflip ft _ _ _ s s1 hh' h1)
            (add_port_to_map_fields_rel R hrefl htrans mod_id h hrec hvec hflip rest dir f id
              s1 s' hh hs)
    | false =>
      simp only [Bool.false_eq_true, if_false] at hs
      cases h1 : add_port_to_map mod_id ft dir f (id ++ "." ++ fid) s with
      | error e => simp [h1] at hs
      | ok s1 =>
        simp only [h1] at hs
        exact htrans _ _ _
          (add_port_to_map_rel R hrefl htrans mod_id h hrec hvec hflip ft _ _ _ s s1 hh' h1)
          (add_port_to_map_fields_rel R hrefl htrans mod_id h hrec hvec hflip rest dir f id
            s1 s' hh hs)

end

end Inou_firrtl

namespace Inou_firrtl

theorem glob_flip_get_add_global_io_flipness_other (s : Env) (mod_id : String) (f : Bool)
    (id k : String) (hk : k ≠ Str.head id) :
    glob_flip_get (add_global_io_flipness s mod_id f id) mod_id k = glob_flip_get s mod_id k := by
  unfold add_global_io_flipness
  simp only [glob_flip_get, Table.get_insert_or_assign_self]
  cases hf : Str.find_char id '.' with
  | none =>
    have hh : Str.head id = id := by simp [Str.head, hf]
    rw [hh] at hk
    simp [Table.get_insert_or_assign_other _ _ _ _ _ hk]
  | some found =>
    simp only
    cases (s.glob_info.var2flip.get mod_id []).find (Str.head id) <;>
      simp [Table.get_insert_or_assign_other _ _ _ _ _ hk]

theorem add_global_io_flipness_nodup (s : Env) (mod_id : String) (f : Bool) (id k : String)
    (h : (glob_flip_get s mod_id k).Nodup) :
    (glob_flip_get (add_global_io_flipness s mod_id f id) mod_id k).Nodup := by
  by_cases hk : k = Str.head id
  · subst hk
    unfold add_global_io_flipness
    simp only [glob_flip_get, Table.get_insert_or_assign_self] at h ⊢
    cases hf : Str.find_char id '.' with
    | none =>
      have hh : Str.head id = id := by simp [Str.head, hf]
      simp [hh, Table.get_insert_or_assign_self]
    | some found =>
      simp only
      cases hs : (s.glob_info.var2flip.get mod_id []).find (Str.head id) with
      | none => simp [Table.get_insert_or_assign_self]
      | some set =>
        rw [Table.get_of_find_some _ _ [] _ hs] at h
        simp only [Table.get_insert_or_assign_self]
        exact nodup_set_insert _ _ h
  · rw [glob_flip_get_add_global_io_flipness_other _ _ _ _ _ hk]
    exact h

theorem add_port_to_map_frame (mod_id : String) (t : FirrtlPB_Type) (dir : Nat) (f : Bool)
    (id k : String) (s s' : Env) (hk : k ≠ Str.head id)
    (hs : add_port_to_map mod_id t dir f id s = .ok s') :
    glob_flip_get s' mod_id k = glob_flip_get s mod_id k :=
  add_port_to_map_rel (fun a b => glob_flip_get b mod_id k = glob_flip_get a mod_id k)
    (fun _ => rfl) (fun _ _ _ h1 h2 => h2.trans h1) mod_id (Str.head id)
    (fun s id dir bits sign => glob_flip_get_record_port_dir s mod_id id dir bits sign mod_id k)
    (fun _ _ => rfl)
    (fun s f id2 h2 => glob_flip_get_add_global_io_flipness_other s mod_id f id2 k (h2 ▸ hk))
    t dir f id s s' rfl hs

theorem add_port_to_map_nodup (mod_id : String) (t : FirrtlPB_Type) (dir : Nat) (f : Bool)
    (id k : String) (s s' : Env) (hs : add_port_to_map mod_id t dir f id s = .ok s')
    (hn : (glob_flip_get s mod_id k).Nodup) : (glob_flip_get s' mod_id k).Nodup :=
  add_port_to_map_rel
    (fun a b => (glob_flip_get a mod_id k).Nodup → (glob_flip_get b mod_id k).Nodup)
    (fun _ h => h) (fun _ _ _ h1 h2 h => h2 (h1 h)) mod_id (Str.head id)
    (fun s id dir bits sign h => by
      rw [glob_flip_get_record_port_dir]; exact h)
    (fun _ _ h => h)
    (fun s f id2 _ h => add_global_io_flipness_nodup s mod_id f id2 k h)
    t dir f id s s' rfl hs hn

theorem port_flip_fresh (t : FirrtlPB_Type) (id mod_id : String) (dir : Nat) (f : Bool) (s : Env)
    (hb : bundles_only t = true) (hp : port_leaves_ok t = true) (hd : dir = 1 ∨ dir = 2)
    (hg : glob_flip_get s mod_id (Str.head id) = []) :
    ∃ s', add_port_to_map mod_id t dir f id s = .ok s' ∧
      ∀ e, e ∈ glob_flip_get s' mod_id (Str.head id) ↔
        ∃ p ∈ leaf_paths t, port_leaf_recorded p.2 = true ∧
          e = (path_name id p.1, xor f (xor_flips p.1)) := by
  have port_scalar : ∀ (bits : Nat) (sign : Bool), leaf_paths t = [([], t)] →
      ∀ r : Except String Env,
      ((port_leaf_recorded t = true ∧
        r = .ok (add_global_io_flipness (record_port_dir s mod_id id dir bits sign) mod_id f id)) ∨
       (port_leaf_recorded t = false ∧ r = .ok (record_port_dir s mod_id id dir bits sign))) →
      ∃ s', r = .ok s' ∧ ∀ e, e ∈ glob_flip_get s' mod_id (Str.head id) ↔
        ∃ p ∈ leaf_paths t, port_leaf_recorded p.2 = true ∧
          e = (path_name id p.1, xor f (xor_flips p.1)) := by
    intro bits sign hlp r hr
    rcases hr with ⟨hrec, rfl⟩ | ⟨hrec, rfl⟩
    · refine ⟨_, rfl, ?_⟩
      intro e
      rw [add_global_io_flipness_fresh _ _ _ _
        (by rw [glob_flip_get_record_port_dir]; exact hg), hlp]
      simp [path_name, xor_flips, hrec]
    · refine ⟨_, rfl, ?_⟩
      intro e
      rw [glob_flip_get_record_port_dir, hg, hlp]
      simp [hrec]
  cases t with
  | kBundleType fs =>
    obtain ⟨s', h1, he⟩ := port_flip_fields fs mod_id dir id f s
      (by simpa [bundles_only] using hb) (by simpa [port_leaves_ok, leaf_paths] using hp) hd
    refine ⟨s', by simpa [add_port_to_map] using h1, ?_⟩
    intro e
    rw [he, hg]
    simp [leaf_paths]
  | kVectorType _ _ => simp [bundles_only] at hb
  | kFixedType => simp [port_leaves_ok, leaf_paths, port_leaf_ok] at hp
  | kAnalogType _ => simp [port_leaves_ok, leaf_paths, port_leaf_ok] at hp
  | TYPE_NOT_SET => simp [port_leaves_ok, leaf_paths, port_leaf_ok] at hp
  | kUintType w =>
    refine port_scalar w false rfl _ ?_
    by_cases hw0 : w = 0
    · exact Or.inr ⟨by simp [port_leaf_recorded, hw0], by simp [add_port_to_map, hw0]⟩
    · exact Or.inl ⟨by simp [port_leaf_recorded, hw0], by simp [add_port_to_map, hw0]⟩
  | kSintType w =>
    refine port_scalar 0 true rfl _ ?_
    by_cases hw0 : w = 0
    · exact Or.inr ⟨by simp [port_leaf_recorded, hw0],
        by simp [add_port_to_map, hw0, FirrtlPB_Type.uint_width]⟩
    · exact Or.inl ⟨by simp [port_leaf_recorded, hw0],
        by simp [add_port_to_map, hw0, FirrtlPB_Type.uint_width]⟩
  | kAsyncResetType =>
    exact port_scalar 0 false rfl _
      (Or.inl ⟨rfl, by simp [add_port_to_map, FirrtlPB_Type.uint_width]⟩)
  | kClockType =>
    exact port_scalar 0 false rfl _
      (Or.inl ⟨rfl, by simp [add_port_to_map, FirrtlPB_Type.uint_width]⟩)
  | kResetType =>
    exact port_scalar 0 false rfl _
      (Or.inl ⟨rfl, by simp [add_port_to_map, FirrtlPB_Type.uint_width]⟩)

/-- The state in which `populate_module_io` calls `add_port_to_map` for a port: the set of
the port id is (re)set to the empty set. -/
theorem glob_flip_get_reset (s : Env) (mod_id id k : String) :
    glob_flip_get { s with glob_info := { s.glob_info with
        var2flip := s.glob_info.var2flip.insert_or_assign mod_id
          ((s.glob_info.var2flip.get mod_id []).insert_or_assign id []) } } mod_id k
      = if k = id then [] else glob_flip_get s mod_id k := by
  simp only [glob_flip_get, Table.get_insert_or_assign_self]
  split
  · rename_i h
    subst h
    simp [Table.get_insert_or_assign_self]
  · rename_i h
    simp [Table.get_insert_or_assign_other _ _ _ _ _ h]

theorem populate_module_io_ports (mod_id : String) :
    ∀ (ports : List FirrtlPB_Port) (s : Env),
    (∀ p ∈ ports, bundles_only p.type = true ∧ port_leaves_ok p.type = true ∧
      (p.direction = 1 ∨ p.direction = 2) ∧ Str.head p.id = p.id) →
    (ports.map (fun p => p.id)).Nodup →
    ∃ s', populate_module_io s ⟨mod_id, ports, []⟩ = .ok s' ∧
      (∀ k, k ∉ ports.map (fun p => p.id) → glob_flip_get s' mod_id k = glob_flip_get s mod_id k) ∧
      ∀ p ∈ ports,
        (∀ e, e ∈ glob_flip_get s' mod_id p.id ↔
          ∃ q ∈ leaf_paths p.type, port_leaf_recorded q.2 = true ∧
            e = (path_name p.id q.1, xor_flips q.1)) ∧
        (glob_flip_get s' mod_id p.id).Nodup
  | [], s, _, _ => ⟨s, rfl, fun _ _ => rfl, by simp⟩
  | p :: rest, s, hp, hn => by
    obtain ⟨hb, hl, hd, hh⟩ := hp p (List.mem_cons_self _ _)
    simp only [List.map_cons, List.nodup_cons] at hn
    have hreset := glob_flip_get_reset s mod_id p.id
    obtain ⟨s1, h1, he1⟩ := port_flip_fresh p.type p.id mod_id p.direction false _ hb hl hd
      (by rw [hreset, hh]; simp)
    have hn1 := add_port_to_map_nodup mod_id p.type p.direction false p.id p.id _ s1 h1
      (by rw [hreset]; simp)
    obtain ⟨s2, h2, hf2, hr2⟩ := populate_module_io_ports mod_id rest s1
      (fun q hq => hp q (List.mem_cons_of_mem _ hq)) hn.2
    refine ⟨s2, ?_, ?_, ?_⟩
    · simp only [populate_module_io, List.foldlM_cons] at h2 ⊢
      rw [h1]
      exact h2
    · intro k hk
      simp only [List.map_cons, List.mem_cons, not_or] at hk
      rw [hf2 k hk.2, add_port_to_map_frame mod_id p.type p.direction false p.id k _ s1
        (by rw [hh]; exact hk.1) h1, hreset, if_neg hk.1]
    · intro q hq
      rcases List.mem_cons.mp hq with rfl | hq
      · rw [hf2 _ hn.1]
        rw [hh] at he1
        exact ⟨by simpa using he1, hn1⟩
      · exact hr2 q hq

end Inou_firrtl

/-- C14 (counterexample). After the port-population phase of a module `M` with the single
input port `in : UInt<0>` the flip-table set of `in` is empty: the leaf of width 0 is not
entered. -/
theorem populate_zero_width_counterexample :
    (Inou_firrtl.populate_module_io (Env.fresh "M")
        ⟨"M", [⟨"in", 1, .kUintType 0⟩], []⟩).map (fun s => glob_flip_get s "M" "in")
      = .ok [] := by
  rfl

/-! ## Wire declarations -/

/-- C15 (the code at the failing input). Declaring the wire `w : Bundle{a: flipped
UInt<8>[2]}` records the leaves `w.a.0` and `w.a.1` with the flag `false`, although one
flipped field lies on their paths: the Vector case passes `false` to its elements instead
of the accumulated flag.  The port flattener, given the same type, records them with the
flag `true`. -/
theorem wire_vector_flip_reset :
    (Inou_firrtl_module.wire_init_flip_handling flipped_vector_example "w" false 1
        (Env.fresh "M")).map (fun s => flip_get s "w")
      = .ok [("w.a.0", false), ("w.a.1", false)] ∧
    (Inou_firrtl.add_port_to_map "M" flipped_vector_example 1 false "w"
        (Env.fresh "M")).map (fun s => glob_flip_get s "M" "w")
      = .ok [("w.a.0", true), ("w.a.1", true)] := by
  constructor <;> rfl

/-! ## Names -/

namespace Str

theorem substr_qpin (reg_name : String) : substr ("_#_" ++ reg_name ++ "_q") 0 3 = "_#_" := by
  simp only [substr, String.data_append, List.drop_zero, List.append_assoc]
  rfl

end Str

/-- C16. With `flat` the name with every dot replaced by an underscore,
`name_prefix_modifier_flattener` returns `%flat` when the (dotted) name is a recorded
output name; otherwise `$flat` when it is a recorded input name; otherwise, when `flat` is
a declared register, the q-pin name of the register if `is_rhs` and `flat` if not;
otherwise `flat`.  The q-pin name that a register declaration records for `reg` is
`_#_reg_q`. -/
theorem name_prefix_modifier_flattener_cases (s : Env) (name : String) (is_rhs : Bool)
    (parent : Nat) (reg : String) :
    (name ∈ s.firmod.output_names →
      Inou_firrtl_module.name_prefix_modifier_flattener s name is_rhs
        = .ok ("%" ++ Str.replace_dots name)) ∧
    (name ∉ s.firmod.output_names → name ∈ s.firmod.input_names →
      Inou_firrtl_module.name_prefix_modifier_flattener s name is_rhs
        = .ok ("$" ++ Str.replace_dots name)) ∧
    (name ∉ s.firmod.output_names → name ∉ s.firmod.input_names →
      s.firmod.reg2qpin.find (Str.replace_dots name)
        = some ("_#_" ++ Str.replace_dots name ++ "_q") →
      Inou_firrtl_module.name_prefix_modifier_flattener s name is_rhs
        = .ok (if is_rhs then "_#_" ++ Str.replace_dots name ++ "_q"
               else Str.replace_dots name)) ∧
    (name ∉ s.firmod.output_names → name ∉ s.firmod.input_names →
      s.firmod.reg2qpin.find (Str.replace_dots name) = none →
      Inou_firrtl_module.name_prefix_modifier_flattener s name is_rhs
        = .ok (Str.replace_dots name)) ∧
    (Inou_firrtl_module.setup_register_q_pin s parent reg).firmod.reg2qpin.find reg
      = some ("_#_" ++ reg ++ "_q") := by
  refine ⟨?_, ?_, ?_, ?_, ?_⟩
  · intro ho
    simp [Inou_firrtl_module.name_prefix_modifier_flattener, ho]
  · intro ho hi
    simp [Inou_firrtl_module.name_prefix_modifier_flattener, ho, hi]
  · intro ho hi hr
    simp only [Inou_firrtl_module.name_prefix_modifier_flattener, ho, hi, hr, if_false,
      Str.substr_qpin, I, decide_True, if_true, bind, Except.bind]
    cases is_rhs <;> rfl
  · intro ho hi hr
    simp [Inou_firrtl_module.name_prefix_modifier_flattener, ho, hi, hr]
  · exact Table.find_insert_or_assign_self _ _ _

/-- Witness of C16 in a unit with the output `io.out`, the input `io.in` and the register
`r_x`: the four kinds of name, read and written. -/
theorem name_prefix_modifier_flattener_witness :
    Inou_firrtl_module.name_prefix_modifier_flattener name_prefix_example "io.out" true
      = .ok "%io_out" ∧
    Inou_firrtl_module.name_prefix_modifier_flattener name_prefix_example "io.in" false
      = .ok "$io_in" ∧
    Inou_firrtl_module.name_prefix_modifier_flattener name_prefix_example "r.x" true
      = .ok "_#_r_x_q" ∧
    Inou_firrtl_module.name_prefix_modifier_flattener name_prefix_example "r.x" false
      = .ok "r_x" ∧
    Inou_firrtl_module.name_prefix_modifier_flattener name_prefix_example "w.x" true
      = .ok "w_x" :=
  ⟨(name_prefix_modifier_flattener_cases name_prefix_example "io.out" true 1 "r").1
      (by decide),
   (name_prefix_modifier_flattener_cases name_prefix_example "io.in" false 1 "r").2.1
      (by decide) (by decide),
   (name_prefix_modifier_flattener_cases name_prefix_example "r.x" true 1 "r").2.2.1
      (by decide) (by decide) rfl,
   (name_prefix_modifier_flattener_cases name_prefix_example "r.x" false 1 "r").2.2.1
      (by decide) (by decide) rfl,
   (name_prefix_modifier_flattener_cases name_prefix_example "w.x" true 1 "r").2.2.2.1
      (by decide) (by decide) rfl⟩

/-! ## Primitive operations -/

/-- C17 (the code at the failing input). Lowering `orr(UInt<4>(5))` into `x` attaches the
operand, whose text `5ubits4` starts with a digit, as a reference child of the function
call; the sibling `andr` attaches the same operand as a constant child. -/
theorem or_reduce_literal_operand :
    (Inou_firrtl_module.list_prime_op_info [] .OP_OR_REDUCE [.kUintLiteral "5" 4] [] 1 "x"
        (Env.fresh "M")).map (fun s => s.lnast.children 2)
      = .ok [Lnast_node.create_ref "x", Lnast_node.create_const "__fir_orr",
             Lnast_node.create_ref "5ubits4"] ∧
    (Inou_firrtl_module.list_prime_op_info [] .OP_AND_REDUCE [.kUintLiteral "5" 4] [] 1 "x"
        (Env.fresh "M")).map (fun s => s.lnast.children 2)
      = .ok [Lnast_node.create_ref "x", Lnast_node.create_const "__fir_andr",
             Lnast_node.create_const "5ubits4"] := by
  constructor <;> rfl

/-! ## Mux and valid-if -/

theorem except_ok_bind {ε α β : Type} (a : α) (f : α → Except ε β) :
    (Except.ok a >>= f) = f a := rfl

theorem except_error_bind {ε α β : Type} (e : ε) (f : α → Except ε β) :
    ((Except.error e : Except ε α) >>= f) = Except.error e := rfl

namespace Inou_firrtl_module

theorem name_prefix_modifier_flattener_congr (s s2 : Env) (name : String) (is_rhs : Bool)
    (h1 : s2.firmod.output_names = s.firmod.output_names)
    (h2 : s2.firmod.input_names = s.firmod.input_names)
    (h3 : s2.firmod.reg2qpin = s.firmod.reg2qpin) :
    name_prefix_modifier_flattener s2 name is_rhs = name_prefix_modifier_flattener s name is_rhs := by
  simp only [name_prefix_modifier_flattener, h1, h2, h3]

theorem last_value_of_congr (s s2 : Env) (str : String)
    (h : s2.firmod.var2last_value = s.firmod.var2last_value) :
    last_value_of s2 str = last_value_of s str := by
  simp only [last_value_of, h]

end Inou_firrtl_module

namespace Inou_firrtl_module

theorem mux_if_skeleton_reference (op2firsub : List (PrimOp_Op × String)) (s : Env)
    (c lhs : String) (parent_node : Nat) (tc : String)
    (hc : name_prefix_modifier_flattener s c true = .ok tc) :
    ∃ s3, mux_if_skeleton op2firsub s parent_node lhs (.kReference c)
        = .ok (s3, s.lnast.nodes.length + 5, s.lnast.nodes.length + 6) ∧
      s3.lnast.nodes = s.lnast.nodes ++
        [⟨Lnast_node.create_assign, some parent_node⟩,
         ⟨Lnast_node.create_ref lhs, some s.lnast.nodes.length⟩,
         ⟨Lnast_node.create_const "0b?", some s.lnast.nodes.length⟩,
         ⟨Lnast_node.create_if, some parent_node⟩,
         ⟨operand_node (last_value_of s tc), some (s.lnast.nodes.length + 3)⟩,
         ⟨Lnast_node.create_stmts, some (s.lnast.nodes.length + 3)⟩,
         ⟨Lnast_node.create_stmts, some (s.lnast.nodes.length + 3)⟩] ∧
      s3.firmod.output_names = s.firmod.output_names ∧
      s3.firmod.input_names = s.firmod.input_names ∧
      s3.firmod.reg2qpin = s.firmod.reg2qpin ∧
      s3.firmod.var2last_value = s.firmod.var2last_value := by
  have hif : ∀ (ln : Lnast) (e0 e1 e2 : Lnast_entry) (p : Option Nat),
      Lnast.node_at ⟨ln.top_module_name, ln.nodes ++ [e0, e1, e2, ⟨Lnast_node.create_if, p⟩]⟩
        (ln.nodes.length + 3) = some Lnast_node.create_if := by
    intro ln e0 e1 e2 p
    exact (Lnast.node_at_append_new ln _ 3).trans rfl
  simp only [name_prefix_modifier_flattener, I] at hc
  simp only [mux_if_skeleton, expr_str_flattened_or_tg, get_expr_hier_name_rt, Env.add_child,
    Env.add_leaf, Lnast.add_child, Env.insert_wire_name, except_ok_bind, Bool.false_eq_true,
    if_false, List.append_assoc, List.cons_append, List.nil_append, List.length_append,
    List.length_cons, List.length_nil, attach_expr_str2node, I, name_prefix_modifier_flattener,
    hc, last_value_of, hif]
  have hne : (Option.map (fun x => x.type) (some Lnast_node.create_if) != some Lnast_ntype.stmts)
      = true := rfl
  simp only [hne, if_true, except_ok_bind, operand_node]
  split <;>
  · simp only [except_ok_bind, List.append_assoc, List.cons_append, List.nil_append,
      List.length_append, List.length_cons, List.length_nil]
    exact ⟨_, rfl, rfl, rfl, rfl, rfl, rfl⟩

end Inou_firrtl_module

set_option maxRecDepth 8192 in
/-- The reference case of the scalar mux lowering: a mux with condition `c` and the scalar
values `a` and `b` (references; `a` has no leaf below it in the flip tables), assigned to
the destination `lhs`, appends to the tree:
an assign of the constant `0b?` to `lhs`; then one if node whose children are the
condition, a statement list holding exactly one assign of the then-value to `lhs`, and a
statement list holding exactly one assign of the else-value to `lhs`. -/
theorem mux_scalar_lowering (op2firsub : List (PrimOp_Op × String)) (s : Env)
    (c a b lhs : String) (parent_node : Nat) (tc ta tb : String)
    (hp : Inou_firrtl_module.parent_is_stmts s parent_node = true)
    (ha : Str.find_char a '.' = none)
    (hscalar : ∀ set,
      ((s.glob_info.var2flip.get s.lnast.top_module_name []).find a = some set ∨
       ((s.glob_info.var2flip.get s.lnast.top_module_name []).find a = none ∧
         s.firmod.var2flip.find a = some set)) →
      Inou_firrtl_module.mux_head_chopped a set = .ok [])
    (hc : Inou_firrtl_module.name_prefix_modifier_flattener s c true = .ok tc)
    (hta : Inou_firrtl_module.name_prefix_modifier_flattener s a true = .ok ta)
    (htb : Inou_firrtl_module.name_prefix_modifier_flattener s b true = .ok tb) :
    ∃ s', Inou_firrtl_module.handle_mux_assign op2firsub s (.kReference c) (.kReference a)
        (.kReference b) parent_node lhs = .ok s' ∧
      s'.lnast.nodes = s.lnast.nodes ++
        [⟨Lnast_node.create_assign, some parent_node⟩,
         ⟨Lnast_node.create_ref lhs, some s.lnast.nodes.length⟩,
         ⟨Lnast_node.create_const "0b?", some s.lnast.nodes.length⟩,
         ⟨Lnast_node.create_if, some parent_node⟩,
         ⟨operand_node (Inou_firrtl_module.last_value_of s tc), some (s.lnast.nodes.length + 3)⟩,
         ⟨Lnast_node.create_stmts, some (s.lnast.nodes.length + 3)⟩,
         ⟨Lnast_node.create_stmts, some (s.lnast.nodes.length + 3)⟩,
         ⟨Lnast_node.create_assign, some (s.lnast.nodes.length + 5)⟩,
         ⟨Lnast_node.create_ref lhs, some (s.lnast.nodes.length + 7)⟩,
         ⟨operand_node (Inou_firrtl_module.last_value_of s ta), some (s.lnast.nodes.length + 7)⟩,
         ⟨Lnast_node.create_assign, some (s.lnast.nodes.length + 6)⟩,
         ⟨Lnast_node.create_ref lhs, some (s.lnast.nodes.length + 10)⟩,
         ⟨operand_node (Inou_firrtl_module.last_value_of s tb),
           some (s.lnast.nodes.length + 10)⟩] := by
  obtain ⟨s3, h3, hn3, ho3, hi3, hr3, hv3⟩ :=
    Inou_firrtl_module.mux_if_skeleton_reference op2firsub
      { s with glob_info := { s.glob_info with
          var2flip := s.glob_info.var2flip.touch s.lnast.top_module_name [] } }
      c lhs parent_node tc
      ((Inou_firrtl_module.name_prefix_modifier_flattener_congr s _ c true rfl rfl rfl).trans hc)
  have h3 : Inou_firrtl_module.mux_if_skeleton op2firsub
      { s with glob_info := { s.glob_info with
          var2flip := s.glob_info.var2flip.touch s.lnast.top_module_name [] } }
      parent_node lhs (.kReference c)
        = .ok (s3, s.lnast.nodes.length + 5, s.lnast.nodes.length + 6) := h3
  have hn3 : s3.lnast.nodes = s.lnast.nodes ++
      [⟨Lnast_node.create_assign, some parent_node⟩,
       ⟨Lnast_node.create_ref lhs, some s.lnast.nodes.length⟩,
       ⟨Lnast_node.create_const "0b?", some s.lnast.nodes.length⟩,
       ⟨Lnast_node.create_if, some parent_node⟩,
       ⟨operand_node (Inou_firrtl_module.last_value_of s tc), some (s.lnast.nodes.length + 3)⟩,
       ⟨Lnast_node.create_stmts, some (s.lnast.nodes.length + 3)⟩,
       ⟨Lnast_node.create_stmts, some (s.lnast.nodes.length + 3)⟩] := hn3
  have ho3 : s3.firmod.output_names = s.firmod.output_names := ho3
  have hi3 : s3.firmod.input_names = s.firmod.input_names := hi3
  have hr3 : s3.firmod.reg2qpin = s.firmod.reg2qpin := hr3
  have hv3 : s3.firmod.var2last_value = s.firmod.var2last_value := hv3
  have hta3 := (Inou_firrtl_module.name_prefix_modifier_flattener_congr s s3 a true
    ho3 hi3 hr3).trans hta
  have htb3 := (Inou_firrtl_module.name_prefix_modifier_flattener_congr s s3 b true
    ho3 hi3 hr3).trans htb
  have hva := Inou_firrtl_module.last_value_of_congr s s3 ta hv3
  have hvb := Inou_firrtl_module.last_value_of_congr s s3 tb hv3
  have hfin : ∃ s', (do
      let __discr ← Inou_firrtl_module.mux_if_skeleton op2firsub
        { s with glob_info := { s.glob_info with
            var2flip := s.glob_info.var2flip.touch s.lnast.top_module_name [] } }
        parent_node lhs (FirrtlPB_Expression.kReference c)
      let t_str ← Inou_firrtl_module.name_prefix_modifier_flattener __discr.1 a true
      let f_str ← Inou_firrtl_module.name_prefix_modifier_flattener __discr.1 b true
      Except.ok
        (Inou_firrtl_module.add_lnast_assign
          (Inou_firrtl_module.add_lnast_assign __discr.1 __discr.2.1 lhs
            (Inou_firrtl_module.last_value_of __discr.1 t_str))
          __discr.2.2 lhs (Inou_firrtl_module.last_value_of __discr.1 f_str))) = .ok s' ∧
      s'.lnast.nodes = s.lnast.nodes ++
        [⟨Lnast_node.create_assign, some parent_node⟩,
         ⟨Lnast_node.create_ref lhs, some s.lnast.nodes.length⟩,
         ⟨Lnast_node.create_const "0b?", some s.lnast.nodes.length⟩,
         ⟨Lnast_node.create_if, some parent_node⟩,
         ⟨operand_node (Inou_firrtl_module.last_value_of s tc), some (s.lnast.nodes.length + 3)⟩,
         ⟨Lnast_node.create_stmts, some (s.lnast.nodes.length + 3)⟩,
         ⟨Lnast_node.create_stmts, some (s.lnast.nodes.length + 3)⟩,
         ⟨Lnast_node.create_assign, some (s.lnast.nodes.length + 5)⟩,
         ⟨Lnast_node.create_ref lhs, some (s.lnast.nodes.length + 7)⟩,
         ⟨operand_node (Inou_firrtl_module.last_value_of s ta), some (s.lnast.nodes.length + 7)⟩,
         ⟨Lnast_node.create_assign, some (s.lnast.nodes.length + 6)⟩,
         ⟨Lnast_node.create_ref lhs, some (s.lnast.nodes.length + 10)⟩,
         ⟨operand_node (Inou_firrtl_module.last_value_of s tb),
           some (s.lnast.nodes.length + 10)⟩] := by
    rw [h3]
    simp only [except_ok_bind, hta3, htb3, hva, hvb]
    refine ⟨_, rfl, ?_⟩
    simp only [Inou_firrtl_module.add_lnast_assign, Env.add_child, Env.add_leaf, Lnast.add_child,
      Env.insert_wire_name, operand_node, hn3]
    split <;> split <;>
      simp [Nat.add_assoc]
  simp only [Inou_firrtl_module.handle_mux_assign, hp, I, Inou_firrtl_module.mux_value_str,
    Inou_firrtl_module.get_expr_hier_name_rt, Inou_firrtl_module.get_expr_hier_name,
    except_ok_bind, if_true, ha, Bool.false_eq_true, if_false]
  cases hg : (s.glob_info.var2flip.get s.lnast.top_module_name []).find a with
  | some set =>
    simp only [hscalar set (Or.inl hg), except_ok_bind, List.length_nil, if_true]
    exact hfin
  | none =>
    cases hl : s.firmod.var2flip.find a with
    | some set =>
      simp only [hscalar set (Or.inr ⟨hg, hl⟩), except_ok_bind, List.length_nil, if_true]
      exact hfin
    | none =>
      simp only [except_ok_bind, List.length_nil, if_true]
      exact hfin

/-- The reference case in a unit with the wires `c`, `a`, `b` (module `M`), at the mux
`mux(c, a, b)` assigned to `d` under the top statement list. -/
theorem mux_scalar_lowering_witness :
    ∃ s', Inou_firrtl_module.handle_mux_assign [] mux_example_env (.kReference "c")
        (.kReference "a") (.kReference "b") 1 "d" = .ok s' ∧
      s'.lnast.nodes = mux_example_env.lnast.nodes ++
        [⟨Lnast_node.create_assign, some 1⟩,
         ⟨Lnast_node.create_ref "d", some mux_example_env.lnast.nodes.length⟩,
         ⟨Lnast_node.create_const "0b?", some mux_example_env.lnast.nodes.length⟩,
         ⟨Lnast_node.create_if, some 1⟩,
         ⟨operand_node (Inou_firrtl_module.last_value_of mux_example_env "c"),
           some (mux_example_env.lnast.nodes.length + 3)⟩,
         ⟨Lnast_node.create_stmts, some (mux_example_env.lnast.nodes.length + 3)⟩,
         ⟨Lnast_node.create_stmts, some (mux_example_env.lnast.nodes.length + 3)⟩,
         ⟨Lnast_node.create_assign, some (mux_example_env.lnast.nodes.length + 5)⟩,
         ⟨Lnast_node.create_ref "d", some (mux_example_env.lnast.nodes.length + 7)⟩,
         ⟨operand_node (Inou_firrtl_module.last_value_of mux_example_env "a"),
           some (mux_example_env.lnast.nodes.length + 7)⟩,
         ⟨Lnast_node.create_assign, some (mux_example_env.lnast.nodes.length + 6)⟩,
         ⟨Lnast_node.create_ref "d", some (mux_example_env.lnast.nodes.length + 10)⟩,
         ⟨operand_node (Inou_firrtl_module.last_value_of mux_example_env "b"),
           some (mux_example_env.lnast.nodes.length + 10)⟩] :=
  mux_scalar_lowering [] mux_example_env "c" "a" "b" "d" 1 "c" "a" "b" rfl rfl
    (by
      intro set h
      have hset : set = [("a", false)] := by
        rcases h with h | ⟨_, h⟩
        · have hn : (mux_example_env.glob_info.var2flip.get
              mux_example_env.lnast.top_module_name []).find "a" = none := rfl
          rw [hn] at h
          cases h
        · exact (Option.some.inj h).symm
      subst hset
      rfl)
    rfl rfl rfl

/-- C19 (the code at the failing input). With the wires `c`, `a` and `d` declared, lowering
`d <= validif(c, a)` emits only the if node with its condition and an empty statement list:
`d` is assigned neither before the if nor inside it, because `init_expr_add` assigns a
reference value only to a destination that is a node or was marked invalid.  The connect
statement `d <= validif(c, a)` reaches this lowering and emits the same three nodes. -/
theorem valid_if_reference_no_assign :
    (Inou_firrtl_module.handle_valid_if_assign [] mux_example_env (.kReference "c")
        (.kReference "a") 1 "d").map (fun s => s.lnast.nodes.drop 2)
      = .ok [⟨Lnast_node.create_if, some 1⟩, ⟨Lnast_node.create_ref "c", some 2⟩,
             ⟨Lnast_node.create_stmts, some 2⟩] ∧
    (Inou_firrtl_module.connect_statement [] mux_example_env 1 (.kReference "d")
        (.kValidIf (.kReference "c") (.kReference "a"))).map (fun s => s.lnast.nodes.drop 2)
      = .ok [⟨Lnast_node.create_if, some 1⟩, ⟨Lnast_node.create_ref "c", some 2⟩,
             ⟨Lnast_node.create_stmts, some 2⟩] := by
  constructor <;> rfl

set_option maxRecDepth 8192 in
/-- The valid-if lowering where it assigns: for a valid-if with condition `c` assigned to
the destination `lhs` (flattened name `tl`) under a statement list, when the value is an
unsigned literal `v`,
or a reference `a` and the destination is a declared node (not marked invalid), the
destination is assigned the value once before the if node, and the if node has exactly the
condition and one statement list, in which the destination is assigned the same value
again. -/
theorem valid_if_lowering (op2firsub : List (PrimOp_Op × String)) (s : Env)
    (c a v lhs : String) (w parent_node : Nat) (tl tc ta : String)
    (hp : Inou_firrtl_module.parent_is_stmts s parent_node = true)
    (hl : Inou_firrtl_module.name_prefix_modifier_flattener s lhs false = .ok tl)
    (hc : Inou_firrtl_module.name_prefix_modifier_flattener s c true = .ok tc)
    (hta : Inou_firrtl_module.name_prefix_modifier_flattener s a true = .ok ta) :
    (∃ s', Inou_firrtl_module.handle_valid_if_assign op2firsub s (.kReference c)
        (.kUintLiteral v w) parent_node lhs = .ok s' ∧
      s'.lnast.nodes = s.lnast.nodes ++
        [⟨⟨.assign, "assign"⟩, some parent_node⟩,
         ⟨Lnast_node.create_ref tl, some s.lnast.nodes.length⟩,
         ⟨Lnast_node.create_const v, some s.lnast.nodes.length⟩,
         ⟨Lnast_node.create_if, some parent_node⟩,
         ⟨Lnast_node.create_ref (Inou_firrtl_module.last_value_of s tc),
           some (s.lnast.nodes.length + 3)⟩,
         ⟨Lnast_node.create_stmts, some (s.lnast.nodes.length + 3)⟩,
         ⟨⟨.assign, "assign"⟩, some (s.lnast.nodes.length + 5)⟩,
         ⟨Lnast_node.create_ref tl, some (s.lnast.nodes.length + 6)⟩,
         ⟨Lnast_node.create_const v, some (s.lnast.nodes.length + 6)⟩]) ∧
    (a ∉ s.firmod.is_invalid_table → tl ∉ s.firmod.is_invalid_table →
      tl ∈ s.firmod.node_names →
      ∃ s', Inou_firrtl_module.handle_valid_if_assign op2firsub s (.kReference c)
          (.kReference a) parent_node lhs = .ok s' ∧
        s'.lnast.nodes = s.lnast.nodes ++
          [⟨⟨.assign, "assign"⟩, some parent_node⟩,
           ⟨Lnast_node.create_ref tl, some s.lnast.nodes.length⟩,
           ⟨Lnast_node.create_ref ta, some s.lnast.nodes.length⟩,
           ⟨Lnast_node.create_if, some parent_node⟩,
           ⟨Lnast_node.create_ref (Inou_firrtl_module.last_value_of s tc),
             some (s.lnast.nodes.length + 3)⟩,
           ⟨Lnast_node.create_stmts, some (s.lnast.nodes.length + 3)⟩,
           ⟨⟨.assign, "assign"⟩, some (s.lnast.nodes.length + 5)⟩,
           ⟨Lnast_node.create_ref tl, some (s.lnast.nodes.length + 6)⟩,
           ⟨Lnast_node.create_ref ta, some (s.lnast.nodes.length + 6)⟩]) := by
  have hst : ∀ (ln : Lnast) (e0 e1 e2 e3 e4 : Lnast_entry) (p : Option Nat),
      Lnast.node_at ⟨ln.top_module_name,
          ln.nodes ++ [e0, e1, e2, e3, e4, ⟨Lnast_node.create_stmts, p⟩]⟩
        (ln.nodes.length + 5) = some Lnast_node.create_stmts := by
    intro ln e0 e1 e2 e3 e4 p
    exact (Lnast.node_at_append_new ln _ 5).trans rfl
  simp only [Inou_firrtl_module.parent_is_stmts] at hp
  simp only [Inou_firrtl_module.name_prefix_modifier_flattener, I, Bool.false_eq_true, if_false,
    if_true] at hl hc hta
  have hst2 : (Option.map (fun x => x.type) (some Lnast_node.create_stmts)
      == some Lnast_ntype.stmts) = true := rfl
  constructor
  · simp only [Inou_firrtl_module.handle_valid_if_assign, Inou_firrtl_module.init_expr_add,
      Inou_firrtl_module.parent_is_stmts, hp, I, if_true, except_ok_bind,
      Inou_firrtl_module.name_prefix_modifier_flattener, hl,
      Inou_firrtl_module.expr_str_flattened_or_tg, Inou_firrtl_module.get_expr_hier_name_rt,
      Env.add_child, Env.add_leaf, Lnast.add_child, Env.insert_wire_name, Bool.false_eq_true,
      if_false, List.append_assoc, List.cons_append, List.nil_append, List.length_append,
      List.length_cons, List.length_nil, hc, Inou_firrtl_module.last_value_of, hst, hst2]
    exact ⟨_, rfl, rfl⟩
  · intro hai hli hln
    simp only [Inou_firrtl_module.handle_valid_if_assign, Inou_firrtl_module.init_expr_add,
      Inou_firrtl_module.parent_is_stmts, hp, I, if_true, except_ok_bind,
      Inou_firrtl_module.name_prefix_modifier_flattener, hl, hta, hai, hli, hln,
      Inou_firrtl_module.expr_str_flattened_or_tg, Inou_firrtl_module.get_expr_hier_name_rt,
      Env.add_child, Env.add_leaf, Lnast.add_child, Env.insert_wire_name, Bool.false_eq_true,
      if_false, List.append_assoc, List.cons_append, List.nil_append, List.length_append,
      List.length_cons, List.length_nil, hc, Inou_firrtl_module.last_value_of, hst, hst2]
    exact ⟨_, rfl, rfl⟩

/-- The valid-if lowering at `n <= validif(c, UInt(5))` and `n <= validif(c, a)` for the
node `n`. -/
theorem valid_if_lowering_witness :
    (∃ s', Inou_firrtl_module.handle_valid_if_assign [] valid_if_example_env (.kReference "c")
        (.kUintLiteral "5" 4) 1 "n" = .ok s' ∧
      s'.lnast.nodes.drop 2 =
        [⟨⟨.assign, "assign"⟩, some 1⟩, ⟨Lnast_node.create_ref "n", some 2⟩,
         ⟨Lnast_node.create_const "5", some 2⟩,
         ⟨Lnast_node.create_if, some 1⟩, ⟨Lnast_node.create_ref "c", some 5⟩,
         ⟨Lnast_node.create_stmts, some 5⟩,
         ⟨⟨.assign, "assign"⟩, some 7⟩, ⟨Lnast_node.create_ref "n", some 8⟩,
         ⟨Lnast_node.create_const "5", some 8⟩]) ∧
    (∃ s', Inou_firrtl_module.handle_valid_if_assign [] valid_if_example_env (.kReference "c")
        (.kReference "a") 1 "n" = .ok s' ∧
      s'.lnast.nodes.drop 2 =
        [⟨⟨.assign, "assign"⟩, some 1⟩, ⟨Lnast_node.create_ref "n", some 2⟩,
         ⟨Lnast_node.create_ref "a", some 2⟩,
         ⟨Lnast_node.create_if, some 1⟩, ⟨Lnast_node.create_ref "c", some 5⟩,
         ⟨Lnast_node.create_stmts, some 5⟩,
         ⟨⟨.assign, "assign"⟩, some 7⟩, ⟨Lnast_node.create_ref "n", some 8⟩,
         ⟨Lnast_node.create_ref "a", some 8⟩]) := by
  have h := valid_if_lowering [] valid_if_example_env "c" "a" "5" "n" 4 1 "n" "c" "a"
    rfl rfl rfl rfl
  obtain ⟨⟨s1, h1, hn1⟩, h2⟩ := h
  obtain ⟨s2, h2, hn2⟩ := h2 (by decide) (by decide) (by decide)
  exact ⟨⟨s1, h1, by rw [hn1]; rfl⟩, ⟨s2, h2, by rw [hn2]; rfl⟩⟩

/-! ## Module instances -/

/-- C20 (the code at the failing input). For the instance `_T1` of module `Sub` (input `a`,
output `y`), the function call reads the latest value of `itup__._T1` and binds its result
to `otup__._T1`, while the tuple-write of the input targets `itup__T1` and the tuple-get of
the output reads `otup__T1`.  For the instance `u1` the names agree. -/
theorem instance_tuple_names_differ :
    (Inou_firrtl_module.create_module_inst instance_example_env "_T1" "Sub" 1).map
        (fun s => (s.lnast.children 2, s.lnast.children 6,
                   (s.lnast.stmts_of .tuple_add).head?, s.lnast.stmts_of .tuple_get))
      = .ok ([Lnast_node.create_ref "F0", Lnast_node.create_ref "itup__._T1",
              Lnast_node.create_const "__last_value"],
             [Lnast_node.create_ref "otup__._T1", Lnast_node.create_ref "__firrtl_Sub",
              Lnast_node.create_ref "F0"],
             some [Lnast_node.create_ref "itup__T1", Lnast_node.create_const "a",
                   Lnast_node.create_ref "___F2"],
             [[Lnast_node.create_ref "_T1_y", Lnast_node.create_ref "otup__T1",
               Lnast_node.create_const "y"]]) ∧
    (Inou_firrtl_module.create_module_inst instance_example_env "u1" "Sub" 1).map
        (fun s => (s.lnast.children 2, s.lnast.children 6,
                   (s.lnast.stmts_of .tuple_add).head?, s.lnast.stmts_of .tuple_get))
      = .ok ([Lnast_node.create_ref "F0", Lnast_node.create_ref "itup_u1",
              Lnast_node.create_const "__last_value"],
             [Lnast_node.create_ref "otup_u1", Lnast_node.create_ref "__firrtl_Sub",
              Lnast_node.create_ref "F0"],
             some [Lnast_node.create_ref "itup_u1", Lnast_node.create_const "a",
                   Lnast_node.create_ref "___F2"],
             [[Lnast_node.create_ref "u1_y", Lnast_node.create_ref "otup_u1",
               Lnast_node.create_const "y"]]) := by
  constructor <;> rfl

/-- C8 (counterexample). Finalizing the memory `m` in a fresh unit builds a tuple-add (node
2) with nine field assigns; the seventh (node 22) binds the field `wensize`, which is not
among addr, clock, din, enable, fwd, type, size and rdport. -/
theorem mem_interface_wensize_counterexample :
    (Inou_firrtl_module.final_mem_interface_assign_mem 1 (Env.fresh "M") "m").map
        (fun s => (s.lnast.node_at 2, (s.lnast.children 2).length, s.lnast.children 22))
      = .ok (some Lnast_node.create_tuple_add, 10,
             [Lnast_node.create_const "wensize", Lnast_node.create_ref "m_wensize"]) := by
  rfl

/-- Witness of C8 (amended) for the memory `m` finalized in a fresh unit. -/
theorem mem_interface_tuple_fields_witness :
    ∃ s', Inou_firrtl_module.final_mem_interface_assign_mem 1 (Env.fresh "M") "m" = .ok s' ∧
      s'.lnast.node_at 2 = some ⟨.tuple_add, ""⟩ ∧
      (List.range 9).map (fun i => s'.lnast.children (2 + 2 + 3 * i))
        = mem_interface_fields.map (fun f => [⟨.const, f.1⟩, ⟨.ref, "m" ++ f.2⟩]) ∧
      s'.lnast.children 31 = [⟨.ref, "m_interface_args"⟩, ⟨.ref, "___F1"⟩] := by
  obtain ⟨s', h, h1, _, h3, _, h5⟩ := mem_interface_tuple_fields (Env.fresh "M") 1 "m"
    (by decide) (by decide) (fun idx h => by cases h) (fun _ => rfl)
  exact ⟨s', h, h1, h3, h5⟩

/-! ## Connections -/

namespace Inou_firrtl

theorem add_port_to_map_uint (w : Nat) (hw : w ≠ 0) (mod_id : String) (dir : Nat) (f : Bool)
    (id : String) (s : Env) :
    add_port_to_map mod_id (.kUintType w) dir f id s
      = .ok (add_global_io_flipness (record_port_dir s mod_id id dir w false) mod_id f id) := by
  simp [add_port_to_map, hw]

end Inou_firrtl

namespace Inou_firrtl_module

theorem list_port_info_uint (w : Nat) (_hw : w ≠ 0) (s : Env) (id : String) (dir parent : Nat) :
    list_port_info s ⟨id, dir, .kUintType w⟩ parent
      = list_port_entry s parent (id, dir, w, false) := by
  simp only [list_port_info, Inou_firrtl.create_io_list, except_ok_bind, List.foldlM_cons,
    List.foldlM_nil]
  cases list_port_entry s parent (id, dir, w, false) <;> rfl

theorem list_port_entry_bits (w : Nat) (hw : w ≠ 0) (s : Env) (parent : Nat)
    (name : String) (dir : Nat) (sign : Bool) :
    list_port_entry s parent (name, dir, w, sign)
      = (do
          let (s, full_port_name) ←
            if dir = 1 then
              .ok (record_all_input_hierarchy s name, "$" ++ name)
            else if dir = 2 then
              .ok (record_all_output_hierarchy s name, "%" ++ name)
            else
              (.error "Found IO port specified with unknown direction in Protobuf message." :
                Except String (Env × String))
          let full_port_name := Str.replace_dots full_port_name
          let s :=
            if Str.substr full_port_name 0 1 = "%" then
              create_default_value_for_scalar_var s parent full_port_name
                (Lnast_node.create_const_nat 0)
            else s
          let extension := if sign then ".__sbits" else ".__ubits"
          create_tuple_add_from_str s parent (full_port_name ++ extension)
            (Lnast_node.create_const_nat w)) := by
  have hpos : w > 0 := Nat.pos_of_ne_zero hw
  simp only [list_port_entry, hpos, if_true]

end Inou_firrtl_module


theorem scalar_ports_populated (w_in w_out : Nat) (hi : w_in ≠ 0) (ho : w_out ≠ 0)
    (st : List FirrtlPB_Statement) :
    Inou_firrtl.populated_glob (scalar_ports_module w_in w_out st)
      = .ok (scalar_ports_glob w_out) := by
  simp only [Inou_firrtl.populated_glob, Inou_firrtl.populate_module_io, scalar_ports_module,
    List.foldlM_cons, List.foldlM_nil, Inou_firrtl.add_port_to_map_uint _ hi,
    Inou_firrtl.add_port_to_map_uint _ ho]
  rfl

theorem scalar_ports_listed (w_in w_out : Nat) (hi : w_in ≠ 0) (ho : w_out ≠ 0) :
    [(⟨"in", 1, .kUintType w_in⟩ : FirrtlPB_Port), ⟨"out", 2, .kUintType w_out⟩].foldlM
        (fun s port => Inou_firrtl_module.list_port_info s port 1)
        { Env.fresh "M" with glob_info := scalar_ports_glob w_out }
      = .ok (scalar_ports_state w_in w_out) := by
  simp only [List.foldlM_cons, List.foldlM_nil, Inou_firrtl_module.list_port_info_uint _ hi,
    Inou_firrtl_module.list_port_info_uint _ ho, Inou_firrtl_module.list_port_entry_bits _ hi,
    Inou_firrtl_module.list_port_entry_bits _ ho]
  rfl

theorem scalar_ports_connect (op2firsub : List (PrimOp_Op × String)) (w_in w_out : Nat) :
    ∃ s2, Inou_firrtl_module.list_statement_info.stmts op2firsub
        [.kConnect (.kReference "out") (.kReference "in")] 1
        (scalar_ports_state w_in w_out) = .ok s2 ∧
      s2.lnast.nodes = scalar_ports_nodes w_in w_out ++
          [⟨Lnast_node.create_assign, some 1⟩, ⟨Lnast_node.create_ref "%out", some 13⟩,
           ⟨Lnast_node.create_ref "$in", some 13⟩] ∧
      s2.firmod.memory_names = [] := by
  have h : (Inou_firrtl_module.list_statement_info.stmts op2firsub
        [.kConnect (.kReference "out") (.kReference "in")] 1
        (scalar_ports_state w_in w_out)).map (fun s => (s.lnast.nodes, s.firmod.memory_names))
      = .ok (scalar_ports_nodes w_in w_out ++
          [⟨Lnast_node.create_assign, some 1⟩, ⟨Lnast_node.create_ref "%out", some 13⟩,
           ⟨Lnast_node.create_ref "$in", some 13⟩], []) := rfl
  cases hr : Inou_firrtl_module.list_statement_info.stmts op2firsub
      [.kConnect (.kReference "out") (.kReference "in")] 1 (scalar_ports_state w_in w_out) with
  | error e => rw [hr] at h; cases h
  | ok s2 =>
    rw [hr] at h
    simp only [Except.map, Except.ok.injEq, Prod.mk.injEq] at h
    exact ⟨s2, rfl, h.1, h.2⟩

/-- C2. In the module with the input `in` and the output `out` of non-zero widths, the
statement `out <= in` emits exactly one assign node, under the top statement list, whose
left child is the reference `%out` and whose right child is the reference `$in`: the tree
of the module is the tree of the module without the statement (the 13 nodes of the port
phase) followed by these three nodes. -/
theorem connect_scalar_ports (op2firsub : List (PrimOp_Op × String)) (w_in w_out : Nat)
    (hi : w_in ≠ 0) (ho : w_out ≠ 0) :
    (Inou_firrtl.single_module_to_lnast op2firsub
        (scalar_ports_module w_in w_out
          [.kConnect (.kReference "out") (.kReference "in")])).map (fun s => s.lnast.nodes)
      = .ok (scalar_ports_nodes w_in w_out ++
          [⟨Lnast_node.create_assign, some 1⟩, ⟨Lnast_node.create_ref "%out", some 13⟩,
           ⟨Lnast_node.create_ref "$in", some 13⟩]) ∧
    (Inou_firrtl.single_module_to_lnast op2firsub
        (scalar_ports_module w_in w_out [])).map (fun s => s.lnast.nodes)
      = .ok (scalar_ports_nodes w_in w_out) := by
  obtain ⟨s2, h2, hn2, hm2⟩ := scalar_ports_connect op2firsub w_in w_out
  have hl := scalar_ports_listed w_in w_out hi ho
  constructor
  · simp only [Inou_firrtl.single_module_to_lnast, scalar_ports_populated w_in w_out hi ho,
      except_ok_bind, Inou_firrtl.user_module_to_lnast]
    simp only [scalar_ports_module, hl, except_ok_bind, h2,
      Inou_firrtl_module.final_mem_interface_assign, hm2, List.foldlM_nil, pure, Except.pure,
      Except.map, hn2]
  · simp only [Inou_firrtl.single_module_to_lnast, scalar_ports_populated w_in w_out hi ho,
      except_ok_bind, Inou_firrtl.user_module_to_lnast]
    simp only [scalar_ports_module, hl, except_ok_bind]
    rfl

/-- Witness of C2 at the widths 8 and 8. -/
theorem connect_scalar_ports_witness :
    (Inou_firrtl.single_module_to_lnast []
        (scalar_ports_module 8 8
          [.kConnect (.kReference "out") (.kReference "in")])).map (fun s => s.lnast.nodes)
      = .ok (scalar_ports_nodes 8 8 ++
          [⟨Lnast_node.create_assign, some 1⟩, ⟨Lnast_node.create_ref "%out", some 13⟩,
           ⟨Lnast_node.create_ref "$in", some 13⟩]) ∧
    (Inou_firrtl.single_module_to_lnast []
        (scalar_ports_module 8 8 [])).map (fun s => s.lnast.nodes)
      = .ok (scalar_ports_nodes 8 8) :=
  connect_scalar_ports [] 8 8 (by decide) (by decide)

/-! ## Runtime indices -/

theorem eq_call_nodes_shift (parent_node : Nat) (rtidx_str : String) (base cnt i : Nat) :
    eq_call_nodes parent_node rtidx_str (base + 5) (cnt + 1) (i + 1)
      = fun j => eq_call_nodes parent_node rtidx_str base cnt i (j + 1) := by
  funext j
  have h1 : cnt + 1 + j + 1 = cnt + (j + 1) + 1 := by omega
  have h2 : base + 5 + 5 * j = base + 5 * (j + 1) := by omega
  have h3 : i + 1 + j = i + (j + 1) := by omega
  simp only [eq_call_nodes, h1, h2, h3]

theorem rhs_branch_nodes_shift (idx_mux : Nat) (lhs : String) (cond elem : Nat → String)
    (base i : Nat) :
    rhs_branch_nodes idx_mux lhs cond elem (base + 5) (i + 1)
      = fun j => rhs_branch_nodes idx_mux lhs cond elem base i (j + 1) := by
  funext j
  have h2 : base + 5 + 5 * j = base + 5 * (j + 1) := by omega
  have h3 : i + 1 + j = i + (j + 1) := by omega
  simp only [rhs_branch_nodes, h2, h3]

theorem map_range_succ {α : Type} (g : Nat → α) (k : Nat) :
    (List.range (k + 1)).map g = g 0 :: (List.range k).map (fun j => g (j + 1)) := by
  rw [List.range_succ_eq_map]
  simp only [List.map_cons, List.map_map]
  rfl

theorem flatten_range_succ {α : Type} (f : Nat → List α) (k : Nat) :
    ((List.range (k + 1)).map f).flatten
      = f 0 ++ ((List.range k).map (fun j => f (j + 1))).flatten := by
  rw [map_range_succ]
  rfl

namespace Inou_firrtl_module

theorem runtime_idx_eq_loop_nodes (parent_node : Nat) (rtidx_str : String) :
    ∀ (k i : Nat) (s : Env) (cond_strs : List String),
    runtime_idx_eq_loop parent_node rtidx_str k i s cond_strs
      = ({ s with
           lnast := ⟨s.lnast.top_module_name, s.lnast.nodes ++
             ((List.range k).map (eq_call_nodes parent_node rtidx_str s.lnast.nodes.length
               s.firmod.tmp_var_cnt i)).flatten⟩,
           firmod := { s.firmod with tmp_var_cnt := s.firmod.tmp_var_cnt + k } },
         cond_strs ++ (List.range k).map
           (fun j => "___F" ++ Str.of_nat (s.firmod.tmp_var_cnt + j + 1)))
  | 0, i, s, cond_strs => by
    simp [runtime_idx_eq_loop]
  | k + 1, i, s, cond_strs => by
    simp only [runtime_idx_eq_loop, Env.add_child, Env.add_leaf, Lnast.add_child,
      create_tmp_var, List.append_assoc, List.cons_append, List.nil_append,
      List.length_append, List.length_cons, List.length_nil]
    rw [runtime_idx_eq_loop_nodes parent_node rtidx_str k (i + 1)]
    have h1 : ∀ j, s.firmod.tmp_var_cnt + 1 + j + 1 = s.firmod.tmp_var_cnt + (j + 1) + 1 := by
      intro j; omega
    have hk : s.firmod.tmp_var_cnt + 1 + k = s.firmod.tmp_var_cnt + (k + 1) := by omega
    simp only [flatten_range_succ, map_range_succ, eq_call_nodes_shift, List.append_assoc,
      List.length_append, List.length_cons, List.length_nil, h1, hk, List.cons_append,
      List.nil_append, List.singleton_append]
    simp only [eq_call_nodes, Nat.mul_zero, Nat.add_zero, List.cons_append, List.nil_append,
      Nat.zero_add]
    rfl

theorem add_lnast_assign_nodes (s : Env) (parent_node : Nat) (lhs rhs : String) :
    (add_lnast_assign s parent_node lhs rhs).lnast.nodes = s.lnast.nodes ++
        [⟨Lnast_node.create_assign, some parent_node⟩,
         ⟨Lnast_node.create_ref lhs, some s.lnast.nodes.length⟩,
         ⟨operand_node rhs, some s.lnast.nodes.length⟩] ∧
      (add_lnast_assign s parent_node lhs rhs).firmod.output_names = s.firmod.output_names ∧
      (add_lnast_assign s parent_node lhs rhs).firmod.input_names = s.firmod.input_names ∧
      (add_lnast_assign s parent_node lhs rhs).firmod.reg2qpin = s.firmod.reg2qpin := by
  simp only [add_lnast_assign, Env.add_child, Env.add_leaf, Lnast.add_child,
    Env.insert_wire_name, operand_node]
  split <;> simp

theorem rhs_runtime_idx_branches_nodes (idx_mux : Nat) (lhs vec_name : String)
    (is_2d_vector : Bool) (leaf_field_name : String) (cond_strs : List String)
    (elem : Nat → String) (s0 : Env) :
    ∀ (k i : Nat) (s : Env),
    s.firmod.output_names = s0.firmod.output_names →
    s.firmod.input_names = s0.firmod.input_names →
    s.firmod.reg2qpin = s0.firmod.reg2qpin →
    (∀ j < k, name_prefix_modifier_flattener s0
      (runtime_idx_elem vec_name is_2d_vector leaf_field_name (i + j)) true = .ok (elem (i + j))) →
    ∃ s', rhs_runtime_idx_branches idx_mux lhs vec_name is_2d_vector leaf_field_name cond_strs
        k i s = .ok s' ∧
      s'.lnast.nodes = s.lnast.nodes ++
        ((List.range k).map (rhs_branch_nodes idx_mux lhs (fun n => cond_strs.getD n "") elem
          s.lnast.nodes.length i)).flatten
  | 0, i, s, _, _, _, _ => ⟨s, rfl, by simp⟩
  | k + 1, i, s, ho, hi, hr, he => by
    have he0 := he 0 (Nat.succ_pos k)
    rw [Nat.add_zero] at he0
    simp only [rhs_runtime_idx_branches, Env.add_child, Env.add_leaf, Lnast.add_child,
      List.append_assoc, List.cons_append, List.nil_append, List.length_append,
      List.length_cons, List.length_nil]
    have hstep : name_prefix_modifier_flattener
        { s with lnast := ⟨s.lnast.top_module_name, s.lnast.nodes ++
            [⟨Lnast_node.create_ref (cond_strs.getD i ""), some idx_mux⟩,
             ⟨Lnast_node.create_stmts, some idx_mux⟩]⟩ }
        (runtime_idx_elem vec_name is_2d_vector leaf_field_name i) true = .ok (elem i) :=
      (name_prefix_modifier_flattener_congr s0 _ _ true ho hi hr).trans he0
    simp only [hstep, except_ok_bind]
    obtain ⟨han, hao, hai, har⟩ := add_lnast_assign_nodes
      { s with lnast := ⟨s.lnast.top_module_name, s.lnast.nodes ++
          [⟨Lnast_node.create_ref (cond_strs.getD i ""), some idx_mux⟩,
           ⟨Lnast_node.create_stmts, some idx_mux⟩]⟩ }
      (s.lnast.nodes.length + 1) lhs (elem i)
    obtain ⟨s', h', hn'⟩ := rhs_runtime_idx_branches_nodes idx_mux lhs vec_name is_2d_vector
      leaf_field_name cond_strs elem s0 k (i + 1)
      (add_lnast_assign
        { s with lnast := ⟨s.lnast.top_module_name, s.lnast.nodes ++
            [⟨Lnast_node.create_ref (cond_strs.getD i ""), some idx_mux⟩,
             ⟨Lnast_node.create_stmts, some idx_mux⟩]⟩ }
        (s.lnast.nodes.length + 1) lhs (elem i))
      (hao.trans ho) (hai.trans hi) (har.trans hr)
      (fun j hj => by
        have := he (j + 1) (Nat.succ_lt_succ hj)
        rw [show i + 1 + j = i + (j + 1) by omega]
        exact this)
    refine ⟨s', h', ?_⟩
    rw [hn', han]
    simp only [flatten_range_succ, List.append_assoc, List.cons_append,
      List.nil_append, List.length_append, List.length_cons, List.length_nil,
      rhs_branch_nodes_shift]
    simp only [rhs_branch_nodes, Nat.mul_zero, Nat.add_zero, List.cons_append, List.nil_append,
      Nat.add_assoc]

theorem get_vector_size_state (s : Env) (vec_name : String) :
    (get_vector_size s vec_name).2.lnast = s.lnast ∧
      (get_vector_size s vec_name).2.firmod = s.firmod := by
  unfold get_vector_size
  cases s.firmod.var2vec_size.find vec_name with
  | some n => exact ⟨rfl, rfl⟩
  | none =>
    simp only [Env.warn]
    cases s.glob_info.module_var2vec_size.find s.lnast.top_module_name <;> exact ⟨rfl, rfl⟩

theorem length_flatten_range {α : Type} (c : Nat) :
    ∀ (N : Nat) (f : Nat → List α), (∀ j, (f j).length = c) →
      ((List.range N).map f).flatten.length = c * N
  | 0, _, _ => by simp
  | N + 1, f, h => by
    rw [flatten_range_succ, List.length_append, h 0,
      length_flatten_range c N (fun j => f (j + 1)) (fun j => h (j + 1))]
    rw [Nat.mul_succ, Nat.add_comm]

theorem getD_map_range (f : Nat → String) (n j : Nat) (hj : j < n) :
    ((List.range n).map f).getD j "" = f j := by
  simp [List.getD, hj]

end Inou_firrtl_module

/-- C6. A read `lhs <= vec[idx]` with a runtime index into a vector of recorded length `N`
appends to the tree: first `N` function calls, the `i`-th writing the fresh temporary
`___F(cnt+i+1)` as `__fir_eq(runtime index, i)`; then one if node (at index `n + 5N`) with
exactly `N` branches, the `i`-th being the condition `___F(cnt+i+1)` followed by a statement
list that holds exactly one assign of element `i` to the destination. -/
theorem rhs_runtime_idx_shape (s : Env) (parent_node : Nat) (hier_name_l hier_name_r : String)
    (rhs_expr : FirrtlPB_Expression) (N : Nat) (tl ri rt tv : String) (elem : Nat → String)
    (hlhs : Inou_firrtl_module.name_prefix_modifier_flattener s hier_name_l false = .ok tl)
    (hidx : Inou_firrtl_module.get_runtime_idx_field_name rhs_expr = .ok ri)
    (hrt : Inou_firrtl_module.name_prefix_modifier_flattener s ri true = .ok rt)
    (hsize : (Inou_firrtl_module.get_vector_size s
      (Inou_firrtl_module.runtime_idx_vec_name hier_name_r).1).1 = N)
    (hvec : Inou_firrtl_module.name_prefix_modifier_flattener s
      (Inou_firrtl_module.runtime_idx_vec_name hier_name_r).1 true = .ok tv)
    (helem : ∀ i < N, Inou_firrtl_module.name_prefix_modifier_flattener s
      (Inou_firrtl_module.runtime_idx_elem tv
        (Inou_firrtl_module.runtime_idx_vec_name hier_name_r).2.1
        (Inou_firrtl_module.runtime_idx_vec_name hier_name_r).2.2 i) true = .ok (elem i)) :
    ∃ s', Inou_firrtl_module.handle_rhs_runtime_idx s parent_node hier_name_l hier_name_r
        rhs_expr = .ok s' ∧
      s'.lnast.nodes = s.lnast.nodes ++
        ((List.range N).map (eq_call_nodes parent_node rt s.lnast.nodes.length
          s.firmod.tmp_var_cnt 0)).flatten ++
        [⟨Lnast_node.create_if, some parent_node⟩] ++
        ((List.range N).map (rhs_branch_nodes (s.lnast.nodes.length + 5 * N) tl
          (fun i => "___F" ++ Str.of_nat (s.firmod.tmp_var_cnt + i + 1)) elem
          (s.lnast.nodes.length + 5 * N + 1) 0)).flatten := by
  obtain ⟨h1l, h1f⟩ := Inou_firrtl_module.get_vector_size_state s
    (Inou_firrtl_module.runtime_idx_vec_name hier_name_r).1
  have hvec1 : Inou_firrtl_module.name_prefix_modifier_flattener
      (Inou_firrtl_module.get_vector_size s
        (Inou_firrtl_module.runtime_idx_vec_name hier_name_r).1).2
      (Inou_firrtl_module.runtime_idx_vec_name hier_name_r).1 true = .ok tv :=
    (Inou_firrtl_module.name_prefix_modifier_flattener_congr s _ _ true
      (by rw [h1f]) (by rw [h1f]) (by rw [h1f])).trans hvec
  have hlen : (s.lnast.nodes ++ ((List.range N).map (eq_call_nodes parent_node rt
      s.lnast.nodes.length s.firmod.tmp_var_cnt 0)).flatten).length
        = s.lnast.nodes.length + 5 * N := by
    rw [List.length_append, Inou_firrtl_module.length_flatten_range 5 N
      (eq_call_nodes parent_node rt s.lnast.nodes.length s.firmod.tmp_var_cnt 0)
      (fun _ => rfl)]
  simp only [Inou_firrtl_module.handle_rhs_runtime_idx, hlhs, hidx, hrt, except_ok_bind,
    hvec1, hsize, Inou_firrtl_module.runtime_idx_eq_loop_nodes, Env.add_child,
    Lnast.add_child, List.nil_append, h1l, h1f, hlen]
  obtain ⟨s', h', hn'⟩ := Inou_firrtl_module.rhs_runtime_idx_branches_nodes
    (s.lnast.nodes.length + 5 * N) tl tv
    (Inou_firrtl_module.runtime_idx_vec_name hier_name_r).2.1
    (Inou_firrtl_module.runtime_idx_vec_name hier_name_r).2.2
    ((List.range N).map (fun j => "___F" ++ Str.of_nat (s.firmod.tmp_var_cnt + j + 1)))
    elem s N 0
    { lnast := ⟨s.lnast.top_module_name, s.lnast.nodes ++
          ((List.range N).map (eq_call_nodes parent_node rt s.lnast.nodes.length
            s.firmod.tmp_var_cnt 0)).flatten ++
          [⟨Lnast_node.create_if, some parent_node⟩]⟩,
      firmod := { s.firmod with tmp_var_cnt := s.firmod.tmp_var_cnt + N },
      glob_info := (Inou_firrtl_module.get_vector_size s
        (Inou_firrtl_module.runtime_idx_vec_name hier_name_r).1).2.glob_info,
      warnings := (Inou_firrtl_module.get_vector_size s
        (Inou_firrtl_module.runtime_idx_vec_name hier_name_r).1).2.warnings }
    rfl rfl rfl
    (fun j hj => by
      rw [Nat.zero_add]
      exact helem j hj)
  refine ⟨s', h', ?_⟩
  rw [hn']
  simp only [List.length_append, List.length_cons, List.length_nil, hlen]
  congr 2
  apply List.map_congr_left
  intro j hj
  have hj' : j < N := List.mem_range.mp hj
  simp only [rhs_branch_nodes, Nat.zero_add,
    Inou_firrtl_module.getD_map_range _ N j hj']

/-- Witness of C6: `out <= v[idx]` for the wire `v : UInt<8>[2]` gives two equality calls
and an if node with exactly two branches. -/
theorem rhs_runtime_idx_shape_witness :
    ∃ s', Inou_firrtl_module.handle_rhs_runtime_idx runtime_idx_example_env 1 "out" "v."
        (.kSubAccess (.kReference "v") (.kReference "idx")) = .ok s' ∧
      s'.lnast.nodes.drop 2 =
        [⟨Lnast_node.create_func_call, some 1⟩, ⟨Lnast_node.create_ref "___F1", some 2⟩,
         ⟨Lnast_node.create_const "__fir_eq", some 2⟩, ⟨Lnast_node.create_ref "idx", some 2⟩,
         ⟨Lnast_node.create_const "0", some 2⟩,
         ⟨Lnast_node.create_func_call, some 1⟩, ⟨Lnast_node.create_ref "___F2", some 7⟩,
         ⟨Lnast_node.create_const "__fir_eq", some 7⟩, ⟨Lnast_node.create_ref "idx", some 7⟩,
         ⟨Lnast_node.create_const "1", some 7⟩,
         ⟨Lnast_node.create_if, some 1⟩,
         ⟨Lnast_node.create_ref "___F1", some 12⟩, ⟨Lnast_node.create_stmts, some 12⟩,
         ⟨Lnast_node.create_assign, some 14⟩, ⟨Lnast_node.create_ref "out", some 15⟩,
         ⟨Lnast_node.create_ref "v_0", some 15⟩,
         ⟨Lnast_node.create_ref "___F2", some 12⟩, ⟨Lnast_node.create_stmts, some 12⟩,
         ⟨Lnast_node.create_assign, some 19⟩, ⟨Lnast_node.create_ref "out", some 20⟩,
         ⟨Lnast_node.create_ref "v_1", some 20⟩] := by
  obtain ⟨s', h, hn⟩ := rhs_runtime_idx_shape runtime_idx_example_env 1 "out" "v."
    (.kSubAccess (.kReference "v") (.kReference "idx")) 2 "out" "idx" "idx" "v"
    (fun i => "v_" ++ Str.of_nat i) rfl rfl rfl rfl rfl
    (fun i hi => by interval_cases i <;> rfl)
  exact ⟨s', h, by rw [hn]; rfl⟩

/-! ## Aggregate connections -/

namespace Str

theorem find_sub_prefix (w r : String) : find_sub (w ++ "." ++ r) w = some 0 := by
  unfold find_sub
  rw [data_dot_append]
  cases hw : w.data with
  | nil => simp [find_sub_from]
  | cons x xs =>
    simp only [List.cons_append, find_sub_from]
    have : (x :: xs).isPrefixOf (x :: (xs ++ '.' :: r.data)) = true := by
      rw [List.isPrefixOf_iff_prefix]
      exact ⟨'.' :: r.data, by simp⟩
    simp [this]

theorem char_at_dot (w r : String) : char_at (w ++ "." ++ r) w.data.length = .ok '.' := by
  unfold char_at
  rw [data_dot_append]
  have h : (w.data ++ '.' :: r.data).get? w.data.length = some '.' := by
    rw [List.get?_eq_getElem?, List.getElem?_append_right (Nat.le_refl _)]
    simp
  rw [h]

theorem length_dot_append (w r : String) :
    (w ++ "." ++ r).data.length > w.data.length := by
  rw [data_dot_append]
  simp

theorem substr_from_dot (w r : String) :
    substr_from (w ++ "." ++ r) w.data.length = .ok ("." ++ r) := by
  unfold substr_from drop
  rw [data_dot_append]
  simp only [List.length_append, List.length_cons, Nat.le_add_right, if_true,
    List.drop_left']
  rfl

theorem append_dot_assoc (w r : String) : w ++ ("." ++ r) = w ++ "." ++ r := by
  rw [String.append_assoc]

theorem head_no_dot (w : String) (h : find_char w '.' = none) : head w = w := by
  simp [head, h]

theorem wire_head (v r : String) (h : find_char v '.' = none) :
    (match find_char (v ++ "." ++ r) '.' with
      | some pos => substr (v ++ "." ++ r) 0 pos
      | none => "") = v := by
  obtain ⟨p, hp, hs⟩ := find_char_append_dot v r
  rw [hp]
  simp only [hs, head_no_dot v h]

end Str

namespace Inou_firrtl_module

theorem wire_connection_hit_leaf (w r : String) :
    wire_connection_hit (w ++ "." ++ r) w = .ok true := by
  simp only [wire_connection_hit, Str.find_sub_prefix, I, beq_self_eq_true, if_true,
    except_ok_bind, Str.length_dot_append, Str.char_at_dot]
  simp

end Inou_firrtl_module

namespace Lnast

theorem children_append (name : String) (N E : List Lnast_entry) (i : Nat) :
    children ⟨name, N ++ E⟩ i = children ⟨name, N⟩ i ++
      (E.filter (fun e => e.parent = some i)).map (·.node) := by
  simp [children, List.filter_append]

theorem children_of_new (name : String) (N : List Lnast_entry) (i : Nat)
    (hclosed : parents_below N.length N) (hi : N.length ≤ i) :
    children ⟨name, N⟩ i = [] := by
  simp only [children, List.map_eq_nil_iff, List.filter_eq_nil_iff, decide_eq_true_eq]
  intro e he hp
  have := hclosed e he i hp
  omega

theorem children_of_no_child (name : String) (N E : List Lnast_entry) (ty : Lnast_ntype) (i : Nat)
    (hpar : no_child_of N E ty) (hi : (N.get? i).map (·.node.type) = some ty) :
    children ⟨name, N ++ E⟩ i = children ⟨name, N⟩ i := by
  rw [children_append]
  have : E.filter (fun e => e.parent = some i) = [] := by
    simp only [List.filter_eq_nil_iff, decide_eq_true_eq]
    intro e he hp
    exact hpar e he i hp hi
  simp [this]

theorem idx_of_type_append (name : String) (N E : List Lnast_entry) (ty : Lnast_ntype) :
    idx_of_type ⟨name, N ++ E⟩ ty = idx_of_type ⟨name, N⟩ ty ++
      ((List.range E.length).filter
        (fun k => (E.get? k).map (·.node.type) = some ty)).map (fun k => N.length + k) := by
  simp only [idx_of_type, node_at, List.length_append, List.range_add, List.filter_append,
    List.filter_map]
  congr 1
  · apply List.filter_congr
    intro i hi
    simp only [List.mem_range] at hi
    simp [List.getElem?_append_left hi]
  · congr 1
    apply List.filter_congr
    intro k _
    simp [Function.comp, List.getElem?_append_right]

theorem stmts_of_append (name : String) (N E : List Lnast_entry) (ty : Lnast_ntype)
    (hclosed : parents_below N.length N) (hpar : no_child_of N E ty) :
    stmts_of ⟨name, N ++ E⟩ ty = stmts_of ⟨name, N⟩ ty ++ seg_stmts N.length E ty := by
  simp only [stmts_of, idx_of_type_append, List.map_append, List.map_map, seg_stmts]
  congr 1
  · apply List.map_congr_left
    intro i hi
    apply children_of_no_child name N E ty i hpar
    simp only [idx_of_type, node_at, List.mem_filter, decide_eq_true_eq] at hi
    simpa using hi.2
  · apply List.map_congr_left
    intro k _
    simp only [Function.comp]
    rw [children_append, children_of_new name N _ hclosed (Nat.le_add_right _ _)]
    rfl

theorem assigns_to_append (name : String) (N E : List Lnast_entry) (lhs : String)
    (hclosed : parents_below N.length N) (hpar : no_child_of N E .assign) :
    assigns_to ⟨name, N ++ E⟩ lhs = assigns_to ⟨name, N⟩ lhs + seg_assigns_to N.length E lhs := by
  simp only [assigns_to, seg_assigns_to, stmts_of_append name N E _ hclosed hpar,
    List.filter_append, List.length_append]

theorem assigns_to_congr (ln ln2 : Lnast) (lhs : String) (h : ln2.nodes = ln.nodes) :
    assigns_to ln2 lhs = assigns_to ln lhs := by
  simp only [assigns_to, stmts_of, idx_of_type, node_at, children, h]

theorem parents_below_append (n : Nat) (N E : List Lnast_entry)
    (h1 : parents_below n N) (h2 : parents_below n E) : parents_below n (N ++ E) := by
  intro e he p hp
  rcases List.mem_append.1 he with h | h
  · exact h1 e h p hp
  · exact h2 e h p hp

theorem parents_below_mono (n m : Nat) (N : List Lnast_entry) (hnm : n ≤ m)
    (h1 : parents_below n N) : parents_below m N :=
  fun e he p hp => Nat.lt_of_lt_of_le (h1 e he p hp) hnm

end Lnast

namespace Lnast

theorem seg_assigns_wire_group (parent_node base : Nat) (tmp src dst x : String)
    (hp : parent_node < base) :
    seg_assigns_to base
      [⟨Lnast_node.create_attr_get, some parent_node⟩,
       ⟨Lnast_node.create_ref tmp, some base⟩,
       ⟨Lnast_node.create_ref src, some base⟩,
       ⟨Lnast_node.create_const "__last_value", some base⟩,
       ⟨Lnast_node.create_assign, some parent_node⟩,
       ⟨Lnast_node.create_ref dst, some (base + 4)⟩,
       ⟨Lnast_node.create_ref tmp, some (base + 4)⟩] x = if dst = x then 1 else 0 := by
  have h0 : ∀ k, parent_node ≠ base + k := fun k => by omega
  simp [seg_assigns_to, seg_stmts, List.range_succ, List.filter, Lnast_node.create_attr_get,
    Lnast_node.create_ref, Lnast_node.create_const, Lnast_node.create_assign, h0]
  split <;> simp_all

end Lnast

namespace Inou_firrtl_module

theorem tup_head_rest_no_dot (w : String) (h : Str.find_char w '.' = none) :
    tup_head_rest w = (w, "") := by
  simp [tup_head_rest, h]

end Inou_firrtl_module

theorem connect_wires_env_declared :
    Inou_firrtl_module.list_statement_info.stmts []
      [.kWire "w" flip_bundle_example, .kWire "v" flip_bundle_example] 1 (Env.fresh "M")
      = .ok connect_wires_env := by rfl

theorem partial_connect_wires_env_declared :
    Inou_firrtl_module.list_statement_info.stmts []
      [.kWire "w" flip_bundle_example, .kWire "v" wide_bundle_example] 1 (Env.fresh "M")
      = .ok partial_connect_wires_env := by rfl

/-- C4, counterexample: in module `M` with the wires `w` and `v` of the same type
`{a : UInt<8>, flip b : UInt<8>}`, the connect `w <= v` emits no assign whose left side is
the left leaf `w_b` (the count of such assigns stays at 1, the default value written by
the declaration); the assign it emits for that leaf has the right leaf `v_b` on its left
side (that count goes from 1 to 2). -/
theorem connect_flipped_leaf_counterexample :
    (Inou_firrtl_module.list_statement_info []
        (.kConnect (.kReference "w") (.kReference "v")) 1 connect_wires_env).map
      (fun s => (connect_wires_env.lnast.assigns_to "w_b", s.lnast.assigns_to "w_b",
                 connect_wires_env.lnast.assigns_to "v_b", s.lnast.assigns_to "v_b",
                 s.lnast.nodes.drop connect_wires_env.lnast.nodes.length))
      = .ok (1, 1, 1, 2,
             [⟨Lnast_node.create_attr_get, some 1⟩, ⟨Lnast_node.create_ref "___F1", some 14⟩,
              ⟨Lnast_node.create_ref "v_a", some 14⟩,
              ⟨Lnast_node.create_const "__last_value", some 14⟩,
              ⟨Lnast_node.create_assign, some 1⟩, ⟨Lnast_node.create_ref "w_a", some 18⟩,
              ⟨Lnast_node.create_ref "___F1", some 18⟩,
              ⟨Lnast_node.create_attr_get, some 1⟩, ⟨Lnast_node.create_ref "___F2", some 21⟩,
              ⟨Lnast_node.create_ref "w_b", some 21⟩,
              ⟨Lnast_node.create_const "__last_value", some 21⟩,
              ⟨Lnast_node.create_assign, some 1⟩, ⟨Lnast_node.create_ref "v_b", some 25⟩,
              ⟨Lnast_node.create_ref "___F2", some 25⟩]) := by
  rfl

/-- C5, counterexample: in module `M` with the wires `w : {a, flip b}` and
`v : {a, flip b, c}`, the partial connect `w <- v` does not assign the left leaf `w_b`
from `v_b`, although `w.b` has the counterpart `v.b`: the nodes emitted for this leaf read
`w_b` and assign `v_b`. -/
theorem partial_connect_flipped_leaf_counterexample :
    (Inou_firrtl_module.list_statement_info []
        (.kPartialConnect (.kReference "w") (.kReference "v")) 1
        partial_connect_wires_env).map
      (fun s => s.lnast.nodes.drop (partial_connect_wires_env.lnast.nodes.length + 7))
      = .ok [⟨Lnast_node.create_attr_get, some 1⟩, ⟨Lnast_node.create_ref "___F2", some 24⟩,
             ⟨Lnast_node.create_ref "w_b", some 24⟩,
             ⟨Lnast_node.create_const "__last_value", some 24⟩,
             ⟨Lnast_node.create_assign, some 1⟩, ⟨Lnast_node.create_ref "v_b", some 28⟩,
             ⟨Lnast_node.create_ref "___F2", some 28⟩] := by
  rfl

/-- C10: in module `M` with the wires `w : {a, b}` and `v : {a}`, the partial connect
`w <- v` emits, for the sink leaf `w.b` that has no counterpart in `v`, an attribute-get
of the undeclared name `v_b` and an assign of the result to `w_b`. -/
theorem partial_connect_missing_counterpart :
    (Inou_firrtl_module.list_statement_info.stmts [] missing_counterpart_example 1
        (Env.fresh "M")).map
      (fun s => (s.lnast.nodes.drop 18, decide ("v_b" ∈ s.firmod.wire_names)))
      = .ok ([⟨Lnast_node.create_attr_get, some 1⟩, ⟨Lnast_node.create_ref "___F2", some 18⟩,
              ⟨Lnast_node.create_ref "v_b", some 18⟩,
              ⟨Lnast_node.create_const "__last_value", some 18⟩,
              ⟨Lnast_node.create_assign, some 1⟩, ⟨Lnast_node.create_ref "w_b", some 22⟩,
              ⟨Lnast_node.create_ref "___F2", some 22⟩], false) := by
  rfl

theorem Env.emit_emit (s : Env) (e1 e2 : List Lnast_entry) (k1 k2 : Nat) :
    (s.emit e1 k1).emit e2 k2 = s.emit (e1 ++ e2) (k1 + k2) := by
  simp [Env.emit, List.append_assoc, Nat.add_assoc]

theorem Env.emit_nil (s : Env) : s.emit [] 0 = s := by
  simp [Env.emit]

namespace Inou_firrtl_module

theorem final_mem_rd_mports_nodes (mem_name : String) (idx : Nat) :
    ∀ (l : List (String × Nat)) (s : Env),
      final_mem_rd_mports mem_name (some idx) l s =
        .ok (s.emit (rd_mport_nodes mem_name idx s.lnast.nodes.length s.firmod.tmp_var_cnt l)
          l.length)
  | [], s => by simp [final_mem_rd_mports, rd_mport_nodes, Env.emit_nil]
  | mp :: rest, s => by
    have ih := final_mem_rd_mports_nodes mem_name idx rest
      (s.emit
        [⟨Lnast_node.create_tuple_get, some idx⟩,
         ⟨Lnast_node.create_ref ("___F" ++ Str.of_nat (s.firmod.tmp_var_cnt + 1)),
           some s.lnast.nodes.length⟩,
         ⟨Lnast_node.create_ref (mem_name ++ "_res"), some s.lnast.nodes.length⟩,
         ⟨Lnast_node.create_const_nat mp.2, some s.lnast.nodes.length⟩,
         ⟨Lnast_node.create_assign, some idx⟩,
         ⟨Lnast_node.create_ref mp.1, some (s.lnast.nodes.length + 4)⟩,
         ⟨Lnast_node.create_ref ("___F" ++ Str.of_nat (s.firmod.tmp_var_cnt + 1)),
           some (s.lnast.nodes.length + 4)⟩] 1)
    rw [Env.emit_emit] at ih
    have hlen : (s.emit
        [⟨Lnast_node.create_tuple_get, some idx⟩,
         ⟨Lnast_node.create_ref ("___F" ++ Str.of_nat (s.firmod.tmp_var_cnt + 1)),
           some s.lnast.nodes.length⟩,
         ⟨Lnast_node.create_ref (mem_name ++ "_res"), some s.lnast.nodes.length⟩,
         ⟨Lnast_node.create_const_nat mp.2, some s.lnast.nodes.length⟩,
         ⟨Lnast_node.create_assign, some idx⟩,
         ⟨Lnast_node.create_ref mp.1, some (s.lnast.nodes.length + 4)⟩,
         ⟨Lnast_node.create_ref ("___F" ++ Str.of_nat (s.firmod.tmp_var_cnt + 1)),
           some (s.lnast.nodes.length + 4)⟩] 1).lnast.nodes.length = s.lnast.nodes.length + 7 := by
      simp [Env.emit]
    rw [hlen] at ih
    have hcnt : ∀ es, (s.emit es 1).firmod.tmp_var_cnt = s.firmod.tmp_var_cnt + 1 := fun _ => rfl
    rw [hcnt] at ih
    rw [List.length_cons, Nat.add_comm rest.length 1]
    rw [show rd_mport_nodes mem_name idx s.lnast.nodes.length s.firmod.tmp_var_cnt (mp :: rest)
      = _ ++ rd_mport_nodes mem_name idx (s.lnast.nodes.length + 7) (s.firmod.tmp_var_cnt + 1) rest
      from rfl]
    rw [← ih]
    obtain ⟨mport_name, c⟩ := mp
    simp only [final_mem_rd_mports, Env.add_child, Env.add_leaf, Lnast.add_child, create_tmp_var,
      List.append_assoc, List.cons_append, List.nil_append, List.length_append,
      List.length_cons, List.length_nil, Env.emit]

end Inou_firrtl_module

theorem length_rd_mport_nodes (mem_name : String) (idx : Nat) :
    ∀ (l : List (String × Nat)) (base cnt : Nat),
      (rd_mport_nodes mem_name idx base cnt l).length = 7 * l.length
  | [], _, _ => rfl
  | _ :: rest, base, cnt => by
    simp only [rd_mport_nodes, List.length_append, List.length_cons, List.length_nil,
      length_rd_mport_nodes mem_name idx rest]
    omega

namespace Inou_firrtl_module

set_option maxRecDepth 8192 in
theorem final_mem_interface_assign_mem_nodes (parent_node : Nat) (s : Env)
    (mem_name : String) (idx : Nat)
    (hidx : s.firmod.mem2initial_idx.find mem_name = some idx) :
    final_mem_interface_assign_mem parent_node s mem_name =
      .ok (s.emit
        (rd_mport_nodes mem_name idx s.lnast.nodes.length s.firmod.tmp_var_cnt
            (s.firmod.mem2rd_mports.get mem_name []) ++
          mem_interface_nodes parent_node mem_name
            (s.lnast.nodes.length + 7 * (s.firmod.mem2rd_mports.get mem_name []).length)
            (s.firmod.tmp_var_cnt + (s.firmod.mem2rd_mports.get mem_name []).length))
        ((s.firmod.mem2rd_mports.get mem_name []).length + 1)) := by
  simp only [final_mem_interface_assign_mem, hidx, final_mem_rd_mports_nodes, except_ok_bind]
  rw [← Env.emit_emit]
  generalize hs1 : s.emit (rd_mport_nodes mem_name idx s.lnast.nodes.length s.firmod.tmp_var_cnt
    (s.firmod.mem2rd_mports.get mem_name [])) (s.firmod.mem2rd_mports.get mem_name []).length
    = s1
  have hl : s1.lnast.nodes.length =
      s.lnast.nodes.length + 7 * (s.firmod.mem2rd_mports.get mem_name []).length := by
    rw [← hs1]
    simp [Env.emit, length_rd_mport_nodes]
  have hc : s1.firmod.tmp_var_cnt =
      s.firmod.tmp_var_cnt + (s.firmod.mem2rd_mports.get mem_name []).length := by
    rw [← hs1]
    rfl
  rw [← hl, ← hc]
  simp only [mem_interface_field, Env.add_child, Env.add_leaf, Lnast.add_child, create_tmp_var,
    List.append_assoc, List.cons_append, List.nil_append, List.length_append,
    List.length_cons, List.length_nil, Env.emit, mem_interface_nodes]

end Inou_firrtl_module

namespace Lnast

theorem seg_assigns_rd_group (idx base : Nat) (tmp res dst x : String) (c : Nat)
    (hp : idx < base) :
    seg_assigns_to base
      [⟨Lnast_node.create_tuple_get, some idx⟩,
       ⟨Lnast_node.create_ref tmp, some base⟩,
       ⟨Lnast_node.create_ref res, some base⟩,
       ⟨Lnast_node.create_const_nat c, some base⟩,
       ⟨Lnast_node.create_assign, some idx⟩,
       ⟨Lnast_node.create_ref dst, some (base + 4)⟩,
       ⟨Lnast_node.create_ref tmp, some (base + 4)⟩] x = if dst = x then 1 else 0 := by
  have h0 : ∀ k, idx ≠ base + k := fun k => by omega
  simp [seg_assigns_to, seg_stmts, List.range_succ, List.filter, Lnast_node.create_tuple_get,
    Lnast_node.create_ref, Lnast_node.create_const_nat, Lnast_node.create_assign, h0]
  split <;> simp_all

set_option maxRecDepth 8192 in
theorem seg_assigns_mem_interface (parent_node base cnt : Nat) (mem_name x : String)
    (hp : parent_node < base) :
    seg_assigns_to base (mem_interface_nodes parent_node mem_name base cnt) x =
      if mem_name ++ "_interface_args" = x then 1 else 0 := by
  have h0 : ∀ k, parent_node ≠ base + k := fun k => by omega
  have h1 : parent_node ≠ base := by omega
  simp [seg_assigns_to, seg_stmts, mem_interface_nodes, List.range_succ, List.filter,
    Lnast_node.create_tuple_add, Lnast_node.create_ref, Lnast_node.create_const,
    Lnast_node.create_assign, h0, h1]
  split <;> simp_all

theorem get_append_old (N E : List Lnast_entry) (p : Nat) (hp : p < N.length) :
    (N ++ E).get? p = N.get? p := by
  simp [List.getElem?_append_left hp]

theorem not_assign_new (N : List Lnast_entry) (p : Nat) (hp : N.length ≤ p) :
    (N.get? p).map (·.node.type) ≠ some Lnast_ntype.assign := by
  simp [List.getElem?_eq_none hp]

theorem assigns_to_rd_mport_nodes (name mem_name : String) (idx : Nat) (x : String) :
    ∀ (l : List (String × Nat)) (N : List Lnast_entry) (cnt : Nat),
    parents_below N.length N → idx < N.length →
    (N.get? idx).map (·.node.type) ≠ some .assign →
    assigns_to ⟨name, N ++ rd_mport_nodes mem_name idx N.length cnt l⟩ x =
      assigns_to ⟨name, N⟩ x + (l.map (·.1)).count x ∧
    parents_below (N.length + 7 * l.length) (N ++ rd_mport_nodes mem_name idx N.length cnt l)
  | [], N, cnt, hc, _, _ => by simpa [rd_mport_nodes] using hc
  | mp :: rest, N, cnt, hc, hp, hty => by
    have hcons : rd_mport_nodes mem_name idx N.length cnt (mp :: rest) =
      [⟨Lnast_node.create_tuple_get, some idx⟩,
       ⟨Lnast_node.create_ref ("___F" ++ Str.of_nat (cnt + 1)), some N.length⟩,
       ⟨Lnast_node.create_ref (mem_name ++ "_res"), some N.length⟩,
       ⟨Lnast_node.create_const_nat mp.2, some N.length⟩,
       ⟨Lnast_node.create_assign, some idx⟩,
       ⟨Lnast_node.create_ref mp.1, some (N.length + 4)⟩,
       ⟨Lnast_node.create_ref ("___F" ++ Str.of_nat (cnt + 1)), some (N.length + 4)⟩] ++
      rd_mport_nodes mem_name idx (N.length + 7) (cnt + 1) rest := rfl
    rw [hcons, ← List.append_assoc]
    generalize hG : [(⟨Lnast_node.create_tuple_get, some idx⟩ : Lnast_entry),
       ⟨Lnast_node.create_ref ("___F" ++ Str.of_nat (cnt + 1)), some N.length⟩,
       ⟨Lnast_node.create_ref (mem_name ++ "_res"), some N.length⟩,
       ⟨Lnast_node.create_const_nat mp.2, some N.length⟩,
       ⟨Lnast_node.create_assign, some idx⟩,
       ⟨Lnast_node.create_ref mp.1, some (N.length + 4)⟩,
       ⟨Lnast_node.create_ref ("___F" ++ Str.of_nat (cnt + 1)), some (N.length + 4)⟩] = G
    have hlenG : G.length = 7 := by rw [← hG]; rfl
    have hlen : (N ++ G).length = N.length + 7 := by simp [hlenG]
    have hpb : parents_below (N.length + 7) G := by
      rw [← hG]
      simp [parents_below]
      omega
    have hnc : no_child_of N G .assign := by
      rw [← hG]
      intro e he p hpe
      simp only [List.mem_cons, List.mem_singleton, List.not_mem_nil, or_false] at he
      rcases he with h | h | h | h | h | h | h <;> subst h <;> simp at hpe <;> subst hpe
      · exact hty
      · exact not_assign_new N _ (Nat.le_refl _)
      · exact not_assign_new N _ (Nat.le_refl _)
      · exact not_assign_new N _ (Nat.le_refl _)
      · exact hty
      · exact not_assign_new N _ (Nat.le_add_right _ _)
      · exact not_assign_new N _ (Nat.le_add_right _ _)
    have ih := assigns_to_rd_mport_nodes name mem_name idx x rest (N ++ G) (cnt + 1)
      (by
        rw [hlen]
        exact parents_below_append _ _ _
          (parents_below_mono _ _ _ (Nat.le_add_right _ _) hc) hpb)
      (by rw [hlen]; omega)
      (by rw [get_append_old N G idx hp]; exact hty)
    rw [hlen] at ih
    refine ⟨?_, ?_⟩
    · rw [ih.1, assigns_to_append name N G x hc hnc, ← hG,
        seg_assigns_rd_group _ _ _ _ _ _ _ hp]
      simp only [List.map_cons, List.count_cons, beq_iff_eq]
      omega
    · have := ih.2
      rw [List.length_cons]
      have e : N.length + 7 + 7 * rest.length = N.length + 7 * (rest.length + 1) := by omega
      rw [← e]
      exact this

theorem parents_below_mem_interface (parent_node base cnt : Nat) (mem_name : String)
    (hp : parent_node < base) :
    parents_below (base + 32) (mem_interface_nodes parent_node mem_name base cnt) := by
  simp [parents_below, mem_interface_nodes]
  omega

theorem no_child_mem_interface (N : List Lnast_entry) (parent_node cnt : Nat)
    (mem_name : String)
    (hty : (N.get? parent_node).map (·.node.type) ≠ some .assign) :
    no_child_of N (mem_interface_nodes parent_node mem_name N.length cnt) .assign := by
  intro e he p hpe
  by_cases hlt : N.length ≤ p
  · exact not_assign_new N p hlt
  · have hp : p = parent_node := by
      simp only [mem_interface_nodes, List.mem_cons, List.mem_singleton, List.not_mem_nil,
        or_false] at he
      rcases he with h | h | h | h | h | h | h | h | h | h | h | h | h | h | h | h | h | h |
        h | h | h | h | h | h | h | h | h | h | h | h | h | h <;> subst h <;>
        simp at hpe <;> omega
    rw [hp]
    exact hty

end Lnast

theorem length_mem_interface_nodes (parent_node : Nat) (mem_name : String) (base cnt : Nat) :
    (mem_interface_nodes parent_node mem_name base cnt).length = 32 := rfl

namespace Lnast

theorem assigns_to_final_mem_nodes (name : String) (parent_node : Nat) (x : String) :
    ∀ (infos : List (String × Nat × List (String × Nat))) (N : List Lnast_entry) (cnt : Nat),
    parents_below N.length N → parent_node < N.length →
    (N.get? parent_node).map (·.node.type) ≠ some .assign →
    (∀ i ∈ infos, i.2.1 < N.length ∧ (N.get? i.2.1).map (·.node.type) ≠ some .assign) →
    assigns_to ⟨name, N ++ final_mem_nodes parent_node N.length cnt infos⟩ x =
      assigns_to ⟨name, N⟩ x + (infos.map (fun i => i.1 ++ "_interface_args")).count x +
        ((infos.map (fun i => i.2.2)).flatten.map (·.1)).count x
  | [], N, cnt, _, _, _, _ => by simp [final_mem_nodes]
  | m :: rest, N, cnt, hc, hp, hty, hidx => by
    obtain ⟨hi1, hi2⟩ := hidx m (List.mem_cons_self _ _)
    obtain ⟨hrd, hrdc⟩ := assigns_to_rd_mport_nodes name m.1 m.2.1 x m.2.2 N cnt hc hi1 hi2
    generalize hN1 : N ++ rd_mport_nodes m.1 m.2.1 N.length cnt m.2.2 = N1 at hrd hrdc
    have hl1 : N1.length = N.length + 7 * m.2.2.length := by
      rw [← hN1, List.length_append, length_rd_mport_nodes]
    rw [← hl1] at hrdc
    have hp1 : parent_node < N1.length := by omega
    have hty1 : (N1.get? parent_node).map (·.node.type) ≠ some .assign := by
      rw [← hN1, get_append_old N _ parent_node hp]; exact hty
    have hmi := assigns_to_append name N1
      (mem_interface_nodes parent_node m.1 N1.length (cnt + m.2.2.length)) x hrdc
      (no_child_mem_interface N1 parent_node _ m.1 hty1)
    rw [seg_assigns_mem_interface _ _ _ _ _ hp1] at hmi
    generalize hN2 : N1 ++ mem_interface_nodes parent_node m.1 N1.length (cnt + m.2.2.length)
      = N2 at hmi
    have hl2 : N2.length = N1.length + 32 := by
      rw [← hN2, List.length_append]; rfl
    have hc2 : parents_below N2.length N2 := by
      rw [hl2, ← hN2]
      exact parents_below_append _ _ _
        (parents_below_mono _ _ _ (Nat.le_add_right _ _) hrdc)
        (parents_below_mem_interface _ _ _ _ hp1)
    have hN : ∀ p, p < N.length → N2.get? p = N.get? p := by
      intro p hpl
      rw [← hN2, get_append_old N1 _ p (by omega), ← hN1, get_append_old N _ p hpl]
    have ih := assigns_to_final_mem_nodes name parent_node x rest N2 (cnt + m.2.2.length + 1)
      hc2 (by omega) (by rw [hN _ hp]; exact hty)
      (fun i hi => by
        obtain ⟨a, b⟩ := hidx i (List.mem_cons_of_mem _ hi)
        exact ⟨by omega, by rw [hN _ a]; exact b⟩)
    have hshape : N ++ final_mem_nodes parent_node N.length cnt (m :: rest) =
        N2 ++ final_mem_nodes parent_node N2.length (cnt + m.2.2.length + 1) rest := by
      rw [← hN2, ← hN1]
      simp only [final_mem_nodes, List.append_assoc, List.length_append, length_rd_mport_nodes,
        length_mem_interface_nodes, Nat.add_assoc]
    rw [hshape, ih, hmi, hrd]
    simp only [List.map_cons, List.count_cons, beq_iff_eq, List.flatten_cons, List.map_append,
      List.count_append]
    omega

end Lnast

namespace Inou_firrtl_module

theorem mem_final_info_emit (s : Env) (es : List Lnast_entry) (k : Nat) :
    mem_final_info (s.emit es k) = mem_final_info s := rfl

theorem final_mem_interface_assign_fold (parent_node : Nat) :
    ∀ (ms : List String) (s : Env),
    (∀ m ∈ ms, (s.firmod.mem2initial_idx.find m).isSome = true) →
    ms.foldlM (final_mem_interface_assign_mem parent_node) s =
      .ok (s.emit
        (final_mem_nodes parent_node s.lnast.nodes.length s.firmod.tmp_var_cnt
          (ms.map (mem_final_info s)))
        ((ms.map (fun m => (mem_final_info s m).2.2.length + 1)).sum))
  | [], s, _ => by simp [final_mem_nodes, Env.emit_nil]; rfl
  | m :: rest, s, h => by
    have hm := h m (List.mem_cons_self _ _)
    obtain ⟨idx, hidx⟩ := Option.isSome_iff_exists.1 hm
    have hget : s.firmod.mem2initial_idx.get m 0 = idx := by
      simp only [Table.find] at hidx
      simp [Table.get, hidx]
    rw [List.foldlM_cons, final_mem_interface_assign_mem_nodes parent_node s m idx hidx,
      except_ok_bind]
    have ih := final_mem_interface_assign_fold parent_node rest
      (s.emit
        (rd_mport_nodes m idx s.lnast.nodes.length s.firmod.tmp_var_cnt
            (s.firmod.mem2rd_mports.get m []) ++
          mem_interface_nodes parent_node m
            (s.lnast.nodes.length + 7 * (s.firmod.mem2rd_mports.get m []).length)
            (s.firmod.tmp_var_cnt + (s.firmod.mem2rd_mports.get m []).length))
        ((s.firmod.mem2rd_mports.get m []).length + 1))
      (fun m2 h2 => h m2 (List.mem_cons_of_mem _ h2))
    rw [ih, Env.emit_emit, mem_final_info_emit]
    congr 2
    simp only [final_mem_nodes, List.map_cons, mem_final_info, hget, Env.emit,
      List.length_append, length_rd_mport_nodes, List.append_assoc,
      length_mem_interface_nodes, Nat.add_assoc]

end Inou_firrtl_module

namespace Lnast

theorem parents_below_of_closed (ln : Lnast) (hc : closed ln = true) :
    parents_below ln.nodes.length ln.nodes := by
  intro e he p hp
  simp only [closed, List.all_eq_true] at hc
  have := hc e he
  simp only [hp, decide_eq_true_eq] at this
  exact this

theorem not_assign_of_stmts (ln : Lnast) (p : Nat)
    (hty : ln.node_at p = some Lnast_node.create_stmts) :
    p < ln.nodes.length ∧ (ln.nodes.get? p).map (·.node.type) ≠ some .assign := by
  simp only [node_at, Option.map_eq_some'] at hty
  obtain ⟨e, he, hen⟩ := hty
  refine ⟨(List.get?_eq_some.1 he).1, ?_⟩
  rw [he]
  simp [hen, Lnast_node.create_stmts]

end Lnast

namespace Inou_firrtl_module

theorem final_mem_interface_assign_emit (s : Env) (parent_node : Nat)
    (hclosed : s.lnast.closed = true)
    (hty : s.lnast.node_at parent_node = some Lnast_node.create_stmts)
    (hidx : ∀ m ∈ s.firmod.memory_names, ∃ idx,
      s.firmod.mem2initial_idx.find m = some idx ∧
      s.lnast.node_at idx = some Lnast_node.create_stmts) :
    ∃ s', final_mem_interface_assign s parent_node = .ok s' ∧
      s'.firmod.memory_names = s.firmod.memory_names ∧
      ∀ x, s'.lnast.assigns_to x = s.lnast.assigns_to x +
        (s.firmod.memory_names.map (fun m => m ++ "_interface_args")).count x +
        ((s.firmod.memory_names.map
            (fun m => s.firmod.mem2rd_mports.get m [])).flatten.map (·.1)).count x := by
  have hfold := final_mem_interface_assign_fold parent_node
    s.firmod.memory_names s
    (fun m hm => by
      obtain ⟨idx, h1, _⟩ := hidx m hm
      rw [h1]; rfl)
  refine ⟨_, hfold, rfl, fun x => ?_⟩
  obtain ⟨hp, hnt⟩ := Lnast.not_assign_of_stmts s.lnast parent_node hty
  have h1 := Lnast.assigns_to_final_mem_nodes s.lnast.top_module_name parent_node x
    (s.firmod.memory_names.map (mem_final_info s)) s.lnast.nodes s.firmod.tmp_var_cnt
    (Lnast.parents_below_of_closed _ hclosed) hp hnt
    (fun i hi => by
      obtain ⟨m, hm, rfl⟩ := List.mem_map.1 hi
      obtain ⟨idx, h1, h2⟩ := hidx m hm
      have hget : s.firmod.mem2initial_idx.get m 0 = idx := by
        simp only [Table.find] at h1
        simp [Table.get, h1]
      simp only [mem_final_info, hget]
      exact Lnast.not_assign_of_stmts s.lnast idx h2)
  simp only [List.map_map] at h1
  exact h1

set_option maxHeartbeats 1000000 in
theorem mem_name_clash_translated :
    (list_statement_info.stmts [] mem_name_clash_example.statement 1 (Env.fresh "M")).map
      (fun s => (s.lnast.assigns_to "m_interface_args", s.lnast.assigns_to "x_interface_args",
        s.lnast.closed, s.lnast.node_at 1, s.lnast.node_at 32, s.firmod.memory_names,
        s.firmod.mem2initial_idx, s.firmod.mem2rd_mports))
      = .ok (1, 1, true, some Lnast_node.create_stmts, some Lnast_node.create_stmts, ["m"],
          [("m", 32)], []) := by rfl

end Inou_firrtl_module

/-- C7, counterexample: module `M` with `cmem m : UInt<8>[4]`, a wire named
`m_interface_args` and a wire named `x_interface_args`.  After the whole translation
(statements, then `final_mem_interface_assign`) the tree holds two assign nodes with left
side `m_interface_args` for the one declared memory `m`, and one assign node with left
side `x_interface_args` although `x` is not a declared memory. -/
theorem mem_interface_assign_clash_counterexample :
    (Inou_firrtl.user_module_to_lnast [] {} mem_name_clash_example).map
      (fun s => (s.firmod.memory_names, s.lnast.assigns_to "m_interface_args",
                 s.lnast.assigns_to "x_interface_args"))
      = .ok (["m"], 2, 1) := by
  have hrun : Inou_firrtl.user_module_to_lnast [] {} mem_name_clash_example =
      (Inou_firrtl_module.list_statement_info.stmts [] mem_name_clash_example.statement 1
        (Env.fresh "M")).bind (fun s => Inou_firrtl_module.final_mem_interface_assign s 1) := by
    have hp : mem_name_clash_example.port = [] := rfl
    simp only [Inou_firrtl.user_module_to_lnast, hp, List.foldlM_nil, pure, Except.pure,
      except_ok_bind]
    rfl
  have ht := Inou_firrtl_module.mem_name_clash_translated
  rw [hrun]
  cases h0 : Inou_firrtl_module.list_statement_info.stmts [] mem_name_clash_example.statement 1
      (Env.fresh "M") with
  | error e => rw [h0] at ht; cases ht
  | ok s =>
    rw [h0] at ht
    have ht := Except.ok.inj ht
    simp only [Prod.mk.injEq] at ht
    obtain ⟨c1, c2, hcl, hn1, hn32, hmn, hmi, hrd⟩ := ht
    obtain ⟨s', h, hm, hx⟩ := Inou_firrtl_module.final_mem_interface_assign_emit s 1 hcl hn1
      (by
        intro m hm
        rw [hmn, List.mem_singleton] at hm
        subst hm
        exact ⟨32, by rw [hmi]; rfl, hn32⟩)
    have e1 := hx "m_interface_args"
    have e2 := hx "x_interface_args"
    rw [c1, hmn, hrd] at e1
    rw [c2, hmn, hrd] at e2
    have k1 : (["m"].map (fun m => m ++ "_interface_args")).count "m_interface_args" = 1 := by
      decide
    have k2 : (["m"].map (fun m => m ++ "_interface_args")).count "x_interface_args" = 0 := by
      decide
    have k3 : ∀ x, ((["m"].map
        (fun m => Table.get ([] : Table (List (String × Nat))) m [])).flatten.map
          (·.1)).count x = 0 := fun _ => rfl
    rw [k1, k3] at e1
    rw [k2, k3] at e2
    simp only [Except.bind, h, Except.map, hm, hmn, e1, e2]

/-- C7 (amended): run on a unit whose tree is closed, under a statement list
`parent_node`, with every declared memory owning a deferred-initialization statement
list, `final_mem_interface_assign` succeeds and adds, for every name `x`, exactly as many
assign nodes with left side `x` as there are declared memories `m` with
`x = m ++ "_interface_args"` plus recorded read mports named `x`: one interface assign
per declared memory, none for any other name, and the assigns already in the tree stay. -/
theorem final_mem_interface_assign_counts (s : Env) (parent_node : Nat)
    (hclosed : s.lnast.closed = true)
    (hty : s.lnast.node_at parent_node = some Lnast_node.create_stmts)
    (hidx : ∀ m ∈ s.firmod.memory_names, ∃ idx,
      s.firmod.mem2initial_idx.find m = some idx ∧
      s.lnast.node_at idx = some Lnast_node.create_stmts) :
    ∃ s', Inou_firrtl_module.final_mem_interface_assign s parent_node = .ok s' ∧
      ∀ x, s'.lnast.assigns_to x = s.lnast.assigns_to x +
        (s.firmod.memory_names.map (fun m => m ++ "_interface_args")).count x +
        ((s.firmod.memory_names.map
            (fun m => s.firmod.mem2rd_mports.get m [])).flatten.map (·.1)).count x := by
  obtain ⟨s', h, _, hx⟩ := Inou_firrtl_module.final_mem_interface_assign_emit s parent_node
    hclosed hty hidx
  exact ⟨s', h, hx⟩

/-- Witness of C7 in module `M` after `cmem m : UInt<8>[4]`, finalized under the top
statement list. -/
theorem final_mem_interface_assign_counts_witness :
    ∃ s', Inou_firrtl_module.final_mem_interface_assign cmemory_example_env 1 = .ok s' ∧
      ∀ x, s'.lnast.assigns_to x = cmemory_example_env.lnast.assigns_to x +
        (cmemory_example_env.firmod.memory_names.map
          (fun m => m ++ "_interface_args")).count x +
        ((cmemory_example_env.firmod.memory_names.map
            (fun m => cmemory_example_env.firmod.mem2rd_mports.get m [])).flatten.map
          (·.1)).count x :=
  final_mem_interface_assign_counts cmemory_example_env 1 (by rfl) (by rfl)
    (by
      intro m hm
      have hmn : cmemory_example_env.firmod.memory_names = ["m"] := by rfl
      rw [hmn, List.mem_singleton] at hm
      subst hm
      exact ⟨32, by rfl, by rfl⟩)

/-- C21: for the module `Sub` with the outputs `y : SInt<w>` and `z : UInt<8>`, port
population records `z` with (8, unsigned) but `y` with width 0 whatever `w` is; an
instance `i` of `Sub` (declared for `w = 8`) then gets the tuple-get of `i_y` and of `i_z`
and a width write `__ubits = 8` for `i_z` only: no `__sbits` is written for `i_y`. -/
theorem sint_output_width_lost :
    (∀ w, (Inou_firrtl.populated_glob (sint_output_module w)).map (·.module2outputs)
      = .ok [("Sub", [("y", 0, true), ("z", 8, false)])]) ∧
    ((Inou_firrtl.populated_glob (sint_output_module 8)).bind
        (fun g => Inou_firrtl_module.create_module_inst
          { Env.fresh "M" with glob_info := g } "i" "Sub" 1)).map
      (fun s => s.lnast.nodes.drop 10)
      = .ok [⟨Lnast_node.create_tuple_get, some 1⟩, ⟨Lnast_node.create_ref "i_y", some 10⟩,
             ⟨Lnast_node.create_ref "otup_i", some 10⟩, ⟨Lnast_node.create_const "y", some 10⟩,
             ⟨Lnast_node.create_tuple_get, some 1⟩, ⟨Lnast_node.create_ref "i_z", some 14⟩,
             ⟨Lnast_node.create_ref "otup_i", some 14⟩, ⟨Lnast_node.create_const "z", some 14⟩,
             ⟨Lnast_node.create_tuple_add, some 1⟩, ⟨Lnast_node.create_ref "i_z", some 18⟩,
             ⟨Lnast_node.create_const "__ubits", some 18⟩,
             ⟨Lnast_node.create_const "8", some 18⟩] := by
  refine ⟨fun w => ?_, by rfl⟩
  cases w <;> rfl

theorem is_fatal_bind {α β : Type} (r : Except String α) (f : α → Except String β)
    (h : ∀ a, is_fatal (f a) = true) : is_fatal (r >>= f) = true := by
  cases r with
  | error e => rfl
  | ok a => exact h a

theorem is_fatal_bind_left {α β : Type} (r : Except String α) (f : α → Except String β)
    (h : is_fatal r = true) : is_fatal (r >>= f) = true := by
  cases r with
  | error e => rfl
  | ok a => simp [is_fatal] at h

theorem is_fatal_foldlM {α β : Type} (f : β → α → Except String β)
    (l : List α) (hl : l ≠ []) (h : ∀ b a, is_fatal (f b a) = true) (b : β) :
    is_fatal (l.foldlM f b) = true := by
  cases l with
  | nil => exact absurd rfl hl
  | cons a rest =>
    rw [List.foldlM_cons]
    exact is_fatal_bind_left _ _ (h b a)

namespace Inou_firrtl_module

mutual

theorem wire_fixed_leaf_fatal : ∀ (t : FirrtlPB_Type), has_fixed_leaf t = true →
    ∀ (id : String) (flipped_in : Bool) (parent_node : Nat) (s : Env),
      is_fatal (wire_init_flip_handling t id flipped_in parent_node s) = true
  | .kFixedType, _, _, _, _, _ => rfl
  | .kBundleType field, h, id, flipped_in, parent_node, s => by
    simp only [wire_init_flip_handling]
    exact wire_fixed_fields_fatal field (by simpa [has_fixed_leaf] using h) id flipped_in
      parent_node s
  | .kVectorType type size, h, id, flipped_in, parent_node, s => by
    simp only [has_fixed_leaf, Bool.and_eq_true, decide_eq_true_eq] at h
    simp only [wire_init_flip_handling]
    apply is_fatal_foldlM
    · intro hr
      have := congrArg List.length hr
      simp at this
      omega
    · intro b a
      exact wire_fixed_leaf_fatal type h.2 _ _ _ _
  | .kUintType _, h, _, _, _, _ => by simp [has_fixed_leaf] at h
  | .kSintType _, h, _, _, _, _ => by simp [has_fixed_leaf] at h
  | .kClockType, h, _, _, _, _ => by simp [has_fixed_leaf] at h
  | .kAnalogType _, h, _, _, _, _ => by simp [has_fixed_leaf] at h
  | .kAsyncResetType, h, _, _, _, _ => by simp [has_fixed_leaf] at h
  | .kResetType, h, _, _, _, _ => by simp [has_fixed_leaf] at h
  | .TYPE_NOT_SET, h, _, _, _, _ => by simp [has_fixed_leaf] at h

theorem wire_fixed_fields_fatal : ∀ (field : List (String × Bool × FirrtlPB_Type)),
    has_fixed_leaf.fields field = true →
    ∀ (id : String) (flipped_in : Bool) (parent_node : Nat) (s : Env),
      is_fatal (wire_init_flip_handling.fields field id flipped_in parent_node s) = true
  | [], h, _, _, _, _ => by simp [has_fixed_leaf.fields] at h
  | (fid, is_flipped, ftype) :: rest, h, id, flipped_in, parent_node, s => by
    simp only [has_fixed_leaf.fields, Bool.or_eq_true] at h
    simp only [wire_init_flip_handling.fields]
    rcases h with h | h
    · exact is_fatal_bind_left _ _ (wire_fixed_leaf_fatal ftype h _ _ _ _)
    · exact is_fatal_bind _ _ (fun a => wire_fixed_fields_fatal rest h _ _ _ _)

end

mutual

theorem register_fixed_leaf_fatal (resete inite : FirrtlPB_Expression) :
    ∀ (t : FirrtlPB_Type), has_fixed_leaf t = true →
    ∀ (id : String) (parent_node : Nat) (s : Env),
      is_fatal (handle_register resete inite t id parent_node s) = true
  | .kFixedType, _, _, _, _ => rfl
  | .kBundleType field, h, id, parent_node, s => by
    simp only [handle_register]
    exact register_fixed_fields_fatal resete inite field (by simpa [has_fixed_leaf] using h) id
      parent_node s
  | .kVectorType type size, h, id, parent_node, s => by
    simp only [has_fixed_leaf, Bool.and_eq_true, decide_eq_true_eq] at h
    simp only [handle_register]
    apply is_fatal_foldlM
    · intro hr
      have := congrArg List.length hr
      simp at this
      omega
    · intro b a
      exact register_fixed_leaf_fatal resete inite type h.2 _ _ _
  | .kUintType _, h, _, _, _ => by simp [has_fixed_leaf] at h
  | .kSintType _, h, _, _, _ => by simp [has_fixed_leaf] at h
  | .kClockType, h, _, _, _ => by simp [has_fixed_leaf] at h
  | .kAnalogType _, h, _, _, _ => by simp [has_fixed_leaf] at h
  | .kAsyncResetType, h, _, _, _ => by simp [has_fixed_leaf] at h
  | .kResetType, h, _, _, _ => by simp [has_fixed_leaf] at h
  | .TYPE_NOT_SET, h, _, _, _ => by simp [has_fixed_leaf] at h

theorem register_fixed_fields_fatal (resete inite : FirrtlPB_Expression) :
    ∀ (field : List (String × Bool × FirrtlPB_Type)),
    has_fixed_leaf.fields field = true →
    ∀ (id : String) (parent_node : Nat) (s : Env),
      is_fatal (handle_register.fields resete inite field id parent_node s) = true
  | [], h, _, _, _ => by simp [has_fixed_leaf.fields] at h
  | (fid, is_flipped, ftype) :: rest, h, id, parent_node, s => by
    simp only [has_fixed_leaf.fields, Bool.or_eq_true] at h
    simp only [handle_register.fields]
    rcases h with h | h
    · exact is_fatal_bind_left _ _ (register_fixed_leaf_fatal resete inite ftype h _ _ _)
    · exact is_fatal_bind _ _ (fun a => register_fixed_fields_fatal resete inite rest h _ _ _)

end

theorem float_interval_op_fatal (op2firsub : List (PrimOp_Op × String)) (op : PrimOp_Op)
    (h : op ∈ float_interval_ops) (arg : List FirrtlPB_Expression) (const_ : List String)
    (parent_node : Nat) (lhs : String) (s : Env) :
    is_fatal (list_prime_op_info op2firsub op arg const_ parent_node lhs s) = true := by
  simp only [float_interval_ops, List.mem_cons, List.mem_singleton, List.not_mem_nil,
    or_false] at h
  rcases h with h | h | h | h | h | h | h <;> subst h <;> rw [list_prime_op_info.eq_def] <;>
    simp [prim_op_handler, Prim_handler.check, is_fatal, bind, Except.bind]

end Inou_firrtl_module

namespace Inou_firrtl

mutual

theorem io_list_fixed_leaf_fatal : ∀ (t : FirrtlPB_Type), has_fixed_leaf t = true →
    ∀ (dir : Nat) (port_id : String), is_fatal (create_io_list t dir port_id) = true
  | .kFixedType, _, _, _ => rfl
  | .kBundleType field, h, dir, port_id => by
    simp only [create_io_list]
    exact io_list_fixed_fields_fatal field (by simpa [has_fixed_leaf] using h) dir port_id
  | .kVectorType type size, h, dir, port_id => by
    simp only [has_fixed_leaf, Bool.and_eq_true, decide_eq_true_eq] at h
    simp only [create_io_list]
    apply is_fatal_foldlM
    · intro hr
      have := congrArg List.length hr
      simp at this
      omega
    · intro b a
      exact is_fatal_bind_left _ _ (io_list_fixed_leaf_fatal type h.2 _ _)
  | .kUintType _, h, _, _ => by simp [has_fixed_leaf] at h
  | .kSintType _, h, _, _ => by simp [has_fixed_leaf] at h
  | .kClockType, h, _, _ => by simp [has_fixed_leaf] at h
  | .kAnalogType _, h, _, _ => by simp [has_fixed_leaf] at h
  | .kAsyncResetType, h, _, _ => by simp [has_fixed_leaf] at h
  | .kResetType, h, _, _ => by simp [has_fixed_leaf] at h
  | .TYPE_NOT_SET, h, _, _ => by simp [has_fixed_leaf] at h

theorem io_list_fixed_fields_fatal : ∀ (field : List (String × Bool × FirrtlPB_Type)),
    has_fixed_leaf.fields field = true →
    ∀ (dir : Nat) (port_id : String),
      is_fatal (create_io_list.fields field dir port_id) = true
  | [], h, _, _ => by simp [has_fixed_leaf.fields] at h
  | (fid, is_flipped, ftype) :: rest, h, dir, port_id => by
    simp only [has_fixed_leaf.fields, Bool.or_eq_true] at h
    simp only [create_io_list.fields]
    rcases h with h | h
    · cases is_flipped
      · simp only [Bool.false_eq_true, if_false]
        exact is_fatal_bind_left _ _ (io_list_fixed_leaf_fatal ftype h _ _)
      · simp only [if_true]
        exact is_fatal_bind _ _
          (fun _ => is_fatal_bind_left _ _ (io_list_fixed_leaf_fatal ftype h _ _))
    · cases is_flipped
      · simp only [Bool.false_eq_true, if_false]
        exact is_fatal_bind _ _
          (fun _ => is_fatal_bind_left _ _ (io_list_fixed_fields_fatal rest h _ _))
      · simp only [if_true]
        exact is_fatal_bind _ _ (fun _ => is_fatal_bind _ _
          (fun _ => is_fatal_bind_left _ _ (io_list_fixed_fields_fatal rest h _ _)))

end

end Inou_firrtl

namespace Inou_firrtl_module

theorem unsupported_statement_fatal (op2firsub : List (PrimOp_Op × String)) :
    ∀ (st : FirrtlPB_Statement), unsupported_statement st = true →
    ∀ (parent_node : Nat) (s : Env),
      is_fatal (list_statement_info op2firsub st parent_node s) = true
  | .kAttach, _, _, _ => by simp [list_statement_info, is_fatal]
  | .kWire id type, h, parent_node, s => by
    simp only [list_statement_info]
    exact wire_fixed_leaf_fatal type h _ _ _ _
  | .kRegister id type clock reset init, h, parent_node, s => by
    simp only [list_statement_info]
    exact register_fixed_leaf_fatal reset init type h _ _ _
  | .kNode id (.kPrimOp op arg const_), h, parent_node, s => by
    simp only [unsupported_statement, decide_eq_true_eq] at h
    simp only [list_statement_info]
    rw [init_expr_add.eq_def]
    apply is_fatal_bind
    intro _
    apply is_fatal_bind
    intro lhs_str
    exact float_interval_op_fatal op2firsub op h _ _ _ _ _
  | .kNode _ (.kReference _), h, _, _ => by simp [unsupported_statement] at h
  | .kNode _ (.kUintLiteral _ _), h, _, _ => by simp [unsupported_statement] at h
  | .kNode _ (.kSintLiteral _ _), h, _, _ => by simp [unsupported_statement] at h
  | .kNode _ .kFixedLiteral, h, _, _ => by simp [unsupported_statement] at h
  | .kNode _ (.kValidIf _ _), h, _, _ => by simp [unsupported_statement] at h
  | .kNode _ (.kMux _ _ _), h, _, _ => by simp [unsupported_statement] at h
  | .kNode _ (.kSubField _ _), h, _, _ => by simp [unsupported_statement] at h
  | .kNode _ (.kSubIndex _ _), h, _, _ => by simp [unsupported_statement] at h
  | .kNode _ (.kSubAccess _ _), h, _, _ => by simp [unsupported_statement] at h
  | .kNode _ .EXPRESSION_NOT_SET, h, _, _ => by simp [unsupported_statement] at h
  | .kMemory, h, _, _ => by simp [unsupported_statement] at h
  | .kCmemory _, h, _, _ => by simp [unsupported_statement] at h
  | .kMemoryPort _, h, _, _ => by simp [unsupported_statement] at h
  | .kInstance _ _, h, _, _ => by simp [unsupported_statement] at h
  | .kWhen _ _ _, h, _, _ => by simp [unsupported_statement] at h
  | .kStop, h, _, _ => by simp [unsupported_statement] at h
  | .kPrintf, h, _, _ => by simp [unsupported_statement] at h
  | .kSkip, h, _, _ => by simp [unsupported_statement] at h
  | .kConnect _ _, h, _, _ => by simp [unsupported_statement] at h
  | .kPartialConnect _ _, h, _, _ => by simp [unsupported_statement] at h
  | .kIsInvalid _, h, _, _ => by simp [unsupported_statement] at h
  | .STATEMENT_NOT_SET, h, _, _ => by simp [unsupported_statement] at h

theorem stmts_fatal (op2firsub : List (PrimOp_Op × String)) (parent_node : Nat) :
    ∀ (l : List FirrtlPB_Statement), l.any unsupported_statement = true →
    ∀ (s : Env), is_fatal (list_statement_info.stmts op2firsub l parent_node s) = true
  | [], h, _ => by simp at h
  | st :: rest, h, s => by
    simp only [List.any_cons, Bool.or_eq_true] at h
    simp only [list_statement_info.stmts]
    rcases h with h | h
    · exact is_fatal_bind_left _ _ (unsupported_statement_fatal op2firsub st h _ _)
    · exact is_fatal_bind _ _ (fun a => stmts_fatal op2firsub parent_node rest h a)

end Inou_firrtl_module

theorem is_fatal_foldlM_any {α β : Type} (f : β → α → Except String β) (p : α → Bool)
    (h : ∀ b a, p a = true → is_fatal (f b a) = true) :
    ∀ (l : List α), l.any p = true → ∀ b, is_fatal (l.foldlM f b) = true
  | [], hl, _ => by simp at hl
  | a :: rest, hl, b => by
    simp only [List.any_cons, Bool.or_eq_true] at hl
    rw [List.foldlM_cons]
    rcases hl with hl | hl
    · exact is_fatal_bind_left _ _ (h b a hl)
    · exact is_fatal_bind _ _ (fun b2 => is_fatal_foldlM_any f p h rest hl b2)

/-- C22: translating an attach statement, the declaration of a wire or of a register whose
type has a fixed-point leaf, or a node defined by one of the primitive ops on precision or
on intervals (increase/decrease/set precision, wrap, clip, squeeze, as-interval) is a
fatal error from every unit and under every parent: no unit, hence no node, results from
the construct.  The same holds for the primitive-op lowering `list_prime_op_info` itself,
whatever its operands, for the listing of a port whose type has a fixed-point leaf, and
for the translation of a whole module that declares such a port or whose statement list
holds such a statement: the module has no tree. -/
theorem unsupported_feature_fatal (op2firsub : List (PrimOp_Op × String)) :
    (∀ st, unsupported_statement st = true → ∀ parent_node s,
      is_fatal (Inou_firrtl_module.list_statement_info op2firsub st parent_node s) = true) ∧
    (∀ op, op ∈ float_interval_ops → ∀ arg const_ parent_node lhs s,
      is_fatal (Inou_firrtl_module.list_prime_op_info op2firsub op arg const_ parent_node
        lhs s) = true) ∧
    (∀ port : FirrtlPB_Port, has_fixed_leaf port.type = true → ∀ parent_node s,
      is_fatal (Inou_firrtl_module.list_port_info s port parent_node) = true) ∧
    (∀ glob user_module,
      (user_module.port.any (fun port => has_fixed_leaf port.type) ||
        user_module.statement.any unsupported_statement) = true →
      is_fatal (Inou_firrtl.user_module_to_lnast op2firsub glob user_module) = true) := by
  have hport : ∀ port : FirrtlPB_Port, has_fixed_leaf port.type = true → ∀ parent_node s,
      is_fatal (Inou_firrtl_module.list_port_info s port parent_node) = true := by
    intro port h parent_node s
    simp only [Inou_firrtl_module.list_port_info]
    exact is_fatal_bind_left _ _ (Inou_firrtl.io_list_fixed_leaf_fatal port.type h _ _)
  refine ⟨Inou_firrtl_module.unsupported_statement_fatal op2firsub,
    fun op h arg const_ parent_node lhs s =>
      Inou_firrtl_module.float_interval_op_fatal op2firsub op h arg const_ parent_node lhs s,
    hport, ?_⟩
  intro glob user_module h
  simp only [Bool.or_eq_true] at h
  simp only [Inou_firrtl.user_module_to_lnast]
  rcases h with h | h
  · apply is_fatal_bind_left
    exact is_fatal_foldlM_any _ (fun port => has_fixed_leaf port.type)
      (fun b a ha => hport a ha 1 b) _ h _
  · apply is_fatal_bind
    intro s
    apply is_fatal_bind_left
    exact Inou_firrtl_module.stmts_fatal op2firsub 1 _ h s

/-- Witness of C22: the wire `w : {a : UInt<8>, b : Fixed}`, the op `wrap`, the input port
`p : Fixed[2]` and a module `M` whose second statement is an attach. -/
theorem unsupported_feature_fatal_witness :
    is_fatal (Inou_firrtl_module.list_statement_info []
      (.kWire "w" (.kBundleType [("a", false, .kUintType 8), ("b", false, .kFixedType)])) 1
      (Env.fresh "M")) = true ∧
    is_fatal (Inou_firrtl_module.list_prime_op_info [] .OP_WRAP [.kReference "a"] [] 1 "x"
      (Env.fresh "M")) = true ∧
    is_fatal (Inou_firrtl_module.list_port_info (Env.fresh "M")
      ⟨"p", 1, .kVectorType .kFixedType 2⟩ 1) = true ∧
    is_fatal (Inou_firrtl.user_module_to_lnast [] {}
      ⟨"M", [], [.kWire "w" (.kUintType 8), .kAttach]⟩) = true :=
  ⟨(unsupported_feature_fatal []).1 _ (by rfl) 1 (Env.fresh "M"),
   (unsupported_feature_fatal []).2.1 .OP_WRAP (by decide) [.kReference "a"] [] 1 "x"
     (Env.fresh "M"),
   (unsupported_feature_fatal []).2.2.1 ⟨"p", 1, .kVectorType .kFixedType 2⟩ (by rfl) 1
     (Env.fresh "M"),
   (unsupported_feature_fatal []).2.2.2 {} ⟨"M", [], [.kWire "w" (.kUintType 8), .kAttach]⟩
     (by rfl)⟩

/-- C23, counterexample: the node `n = <unknown op>(a)` and the port `p` of unset type
are not skipped with a warning: the translation of the statement, the listing of the port
and the translation of a module holding the statement all end in a fatal error. -/
theorem unknown_op_fatal_counterexample :
    is_fatal (Inou_firrtl_module.list_statement_info []
      (.kNode "n" (.kPrimOp .OP_UNKNOWN [.kReference "a"] [])) 1 (Env.fresh "M")) = true ∧
    is_fatal (Inou_firrtl_module.list_port_info (Env.fresh "M") ⟨"p", 1, .TYPE_NOT_SET⟩ 1)
      = true ∧
    is_fatal (Inou_firrtl.user_module_to_lnast [] {}
      ⟨"M", [], [.kWire "a" (.kUintType 8),
                 .kNode "n" (.kPrimOp .OP_UNKNOWN [.kReference "a"] []),
                 .kWire "b" (.kUintType 8)]⟩) = true := by
  refine ⟨by rfl, by rfl, by rfl⟩

/-- C23 (amended): a statement of unrecognized tag is skipped with warnings only: its
translation succeeds from every unit, logs two warnings and changes neither the tree nor
any module-local or global table, and the statements after it are translated from that
unit.  A primitive op of unrecognized tag and a port or port leaf of unrecognized type
tag are fatal errors; a wire of unrecognized type tag is declared like a scalar without
default value, by an entry in the flip table and without any warning. -/
theorem unknown_construct_handling (op2firsub : List (PrimOp_Op × String))
    (parent_node : Nat) (s : Env) :
    Inou_firrtl_module.list_statement_info op2firsub .STATEMENT_NOT_SET parent_node s
      = .ok { s with warnings := s.warnings ++
          ["Warning: commented \"I(false)\" to enable RocketTile LG generation.",
           "Unknown statement type"] } ∧
    (∀ rest, Inou_firrtl_module.list_statement_info.stmts op2firsub
        (.STATEMENT_NOT_SET :: rest) parent_node s =
      Inou_firrtl_module.list_statement_info.stmts op2firsub rest parent_node
        { s with warnings := s.warnings ++
          ["Warning: commented \"I(false)\" to enable RocketTile LG generation.",
           "Unknown statement type"] }) ∧
    (∀ arg const_ lhs, is_fatal (Inou_firrtl_module.list_prime_op_info op2firsub .OP_UNKNOWN
        arg const_ parent_node lhs s) = true) ∧
    (∀ dir port_id, is_fatal (Inou_firrtl.create_io_list .TYPE_NOT_SET dir port_id) = true) ∧
    (∀ mod_id dir flipped_in port_id,
      is_fatal (Inou_firrtl.add_port_to_map mod_id .TYPE_NOT_SET dir flipped_in port_id s)
        = true) ∧
    (∀ id, Inou_firrtl_module.list_statement_info op2firsub (.kWire id .TYPE_NOT_SET)
        parent_node s =
      Inou_firrtl_module.add_local_flip_info (s.insert_wire_name id) false id) := by
  have h1 : Inou_firrtl_module.list_statement_info op2firsub .STATEMENT_NOT_SET parent_node s
      = .ok { s with warnings := s.warnings ++
          ["Warning: commented \"I(false)\" to enable RocketTile LG generation.",
           "Unknown statement type"] } := by
    simp [Inou_firrtl_module.list_statement_info, Env.warn]
  refine ⟨h1, ?_, ?_, ?_, ?_, ?_⟩
  · intro rest
    simp only [Inou_firrtl_module.list_statement_info.stmts, h1, except_ok_bind]
  · intro arg const_ lhs
    rw [Inou_firrtl_module.list_prime_op_info.eq_def]
    simp [prim_op_handler, Prim_handler.check, is_fatal, bind, Except.bind]
  · intro dir port_id
    simp [Inou_firrtl.create_io_list, is_fatal]
  · intro mod_id dir flipped_in port_id
    simp [Inou_firrtl.add_port_to_map, is_fatal]
  · intro id
    simp [Inou_firrtl_module.list_statement_info, Inou_firrtl_module.wire_init_flip_handling]

set_option maxHeartbeats 1000000 in
/-- C24: the translation of a module body changes global tables.  For the module `M` with
the vector ports `a`, `b` and the statement `b[0] <= a[a[0]]`, the global vector-size
table is `M: {b: 1}` after port population and `M: {b: 1, a: 0}` after the body was
translated; for the module `M` with the statement `inst i of Ext`, the global input and
output tables hold the key `M` only after port population and the keys `M` and `Ext`
after the body. -/
theorem body_translation_adds_global_keys :
    (Inou_firrtl.populated_glob runtime_idx_port_module).map (·.module_var2vec_size)
      = .ok [("M", [("b", 1)])] ∧
    (Inou_firrtl.single_module_to_lnast [] runtime_idx_port_module).map
        (·.glob_info.module_var2vec_size)
      = .ok [("M", [("b", 1), ("a", 0)])] ∧
    (Inou_firrtl.populated_glob ext_instance_module).map
        (fun g => (g.module2inputs, g.module2outputs))
      = .ok ([("M", [])], [("M", [])]) ∧
    (Inou_firrtl.single_module_to_lnast [] ext_instance_module).map
        (fun s => (s.glob_info.module2inputs, s.glob_info.module2outputs))
      = .ok ([("M", []), ("Ext", [])], [("M", []), ("Ext", [])]) := by
  refine ⟨by rfl, by rfl, by rfl, by rfl⟩

set_option maxHeartbeats 1000000 in
/-- C25: the loop body of `iterate_circuits` clears the input, output, flip and parameter
tables but not the vector-size table.  After the circuit with the module `M` and its port
`a : UInt<8>[2]` was processed, the tables with which the next circuit starts hold the
entry `M: {a: 2}` in the vector-size table (the four other tables are empty), and the
entry is still there after a second circuit, which has no vector at all, was processed. -/
theorem vector_sizes_survive_circuit :
    (∀ glob, (Inou_firrtl.circuit_entry_tables glob).module2inputs = [] ∧
      (Inou_firrtl.circuit_entry_tables glob).module2outputs = [] ∧
      (Inou_firrtl.circuit_entry_tables glob).var2flip = [] ∧
      (Inou_firrtl.circuit_entry_tables glob).ext_module2param = [] ∧
      (Inou_firrtl.circuit_entry_tables glob).module_var2vec_size = glob.module_var2vec_size) ∧
    (Inou_firrtl.iterate_circuits [] {} [vector_port_circuit]).map
        (fun run => (Inou_firrtl.circuit_entry_tables run.glob_info).module_var2vec_size)
      = .ok [("M", [("a", 2)])] ∧
    (Inou_firrtl.iterate_circuits [] {} [vector_port_circuit, scalar_port_circuit]).map
        (fun run => run.glob_info.module_var2vec_size)
      = .ok [("M", [("a", 2)])] := by
  refine ⟨fun glob => ⟨rfl, rfl, rfl, rfl, rfl⟩, by rfl, by rfl⟩

set_option maxHeartbeats 1000000 in
/-- C26, counterexample: in module `M` with `cmem m` and the read mport `r` that is never
used as the source of a connect, no read mport is recorded for `m`, and after
finalization the tree holds no tuple-get node at all and no assign to `r`. -/
theorem unused_rd_mport_counterexample :
    ((Inou_firrtl_module.list_statement_info.stmts [] unused_rd_mport_example 1
        (Env.fresh "M")).bind
      (fun s => (Inou_firrtl_module.final_mem_interface_assign s 1).map
        (fun s' => (s.firmod.mem2rd_mports, s'.lnast.idx_of_type .tuple_get,
                    s'.lnast.assigns_to "r"))))
      = .ok ([], [], 0) := by
  rfl

/-- C26 (amended): the read mports wired at finalization are those recorded for the
memory, and an mport is recorded at its first use as the source of a connect.  For a
memory with the deferred-initialization statement list `idx`, finalization emits, for
each recorded read mport in order, a tuple-get from `<mem>_res[port]` into a fresh
temporary and an assign of the temporary to the mport identifier, both under `idx`, and
then the interface tuple; `initialize_rd_mport_from_usage` appends an mport not yet
visited, with the current port counter of its memory, to the recorded list. -/
theorem used_rd_mports_wired (s : Env) (parent_node : Nat) (mem_name : String) (idx : Nat)
    (hidx : s.firmod.mem2initial_idx.find mem_name = some idx) :
    (∃ s', Inou_firrtl_module.final_mem_interface_assign_mem parent_node s mem_name = .ok s' ∧
      s'.lnast.nodes = s.lnast.nodes ++
        rd_mport_nodes mem_name idx s.lnast.nodes.length s.firmod.tmp_var_cnt
          (s.firmod.mem2rd_mports.get mem_name []) ++
        mem_interface_nodes parent_node mem_name
          (s.lnast.nodes.length + 7 * (s.firmod.mem2rd_mports.get mem_name []).length)
          (s.firmod.tmp_var_cnt + (s.firmod.mem2rd_mports.get mem_name []).length)) ∧
    (∀ p mport_name, mport_name ∉ s.firmod.mport_usage_visited →
      s.firmod.mport2mem.get mport_name "" = mem_name →
      (Inou_firrtl_module.initialize_rd_mport_from_usage s p mport_name).firmod.mem2rd_mports.get
          mem_name [] =
        s.firmod.mem2rd_mports.get mem_name [] ++
          [(mport_name, (s.firmod.mem2port_cnt.get mem_name 0 % 256).toNat)]) := by
  refine ⟨⟨_, Inou_firrtl_module.final_mem_interface_assign_mem_nodes parent_node s mem_name
    idx hidx, ?_⟩, ?_⟩
  · simp only [Env.emit, List.append_assoc]
  · intro p mport_name hv hm
    simp only [Inou_firrtl_module.initialize_rd_mport_from_usage, hv, if_false, hm,
      Inou_firrtl_module.port_tuple_add, Env.add_child, Env.add_leaf, Lnast.add_child,
      Table.get_insert_or_assign_self]

set_option maxHeartbeats 1000000 in
/-- Witness of C26 in module `M` with `cmem m` declared and the read mport `r` recorded:
the memory `m` with its statement list at node 32. -/
theorem used_rd_mports_wired_witness :
    (∃ s', Inou_firrtl_module.final_mem_interface_assign_mem 1 used_rd_mport_env "m" = .ok s' ∧
      s'.lnast.nodes = used_rd_mport_env.lnast.nodes ++
        rd_mport_nodes "m" 32 used_rd_mport_env.lnast.nodes.length
          used_rd_mport_env.firmod.tmp_var_cnt
          (used_rd_mport_env.firmod.mem2rd_mports.get "m" []) ++
        mem_interface_nodes 1 "m"
          (used_rd_mport_env.lnast.nodes.length +
            7 * (used_rd_mport_env.firmod.mem2rd_mports.get "m" []).length)
          (used_rd_mport_env.firmod.tmp_var_cnt +
            (used_rd_mport_env.firmod.mem2rd_mports.get "m" []).length)) ∧
    (∀ p mport_name, mport_name ∉ used_rd_mport_env.firmod.mport_usage_visited →
      used_rd_mport_env.firmod.mport2mem.get mport_name "" = "m" →
      (Inou_firrtl_module.initialize_rd_mport_from_usage used_rd_mport_env p
          mport_name).firmod.mem2rd_mports.get "m" [] =
        used_rd_mport_env.firmod.mem2rd_mports.get "m" [] ++
          [(mport_name, (used_rd_mport_env.firmod.mem2port_cnt.get "m" 0 % 256).toNat)]) ∧
    used_rd_mport_env.firmod.mem2rd_mports.get "m" [] = [("r", 0)] :=
  ⟨(used_rd_mports_wired used_rd_mport_env 1 "m" 32 (by rfl)).1,
   (used_rd_mports_wired used_rd_mport_env 1 "m" 32 (by rfl)).2, by rfl⟩

/-- C28: in module `M` with `cmem m`, the read mports `r0` (port 0) and `r1` (port 1)
and the later statement `x <= r0`, the address and enable writes of the declaration of
`r0` carry the index 0, but the first use of `r0` writes the read flag `m_rdport[1]` and
records `r0` with port 1, the index of `r1`. -/
theorem late_use_mport_index :
    (Inou_firrtl_module.list_statement_info.stmts [] late_use_mport_example 1
        (Env.fresh "M")).map (fun s => (s.lnast.children 33, s.lnast.children 37))
      = .ok ([Lnast_node.create_ref "m_addr", Lnast_node.create_const "0",
              Lnast_node.create_ref "0ubits1"],
             [Lnast_node.create_ref "m_enable", Lnast_node.create_const "0",
              Lnast_node.create_const "1"]) ∧
    (Inou_firrtl_module.list_statement_info.stmts [] late_use_mport_example 1
        (Env.fresh "M")).map (fun s => (s.lnast.children 92, s.firmod.mem2rd_mports))
      = .ok ([Lnast_node.create_ref "m_rdport", Lnast_node.create_const "1",
              Lnast_node.create_const "true"],
             [("m", [("r0", 1)])]) := by
  constructor <;> decide!

/-- C27: the two wire declarations of `nested_head_example` record the leaves `w.a` and
`w.b.w.a` for the head `w`; scanning the leaf `w.b.w.a` for the left name `w.a` violates
the position assertion, whereas `w.a` itself is selected and `w.ab` is not; the connect
`w.a <= v.a` therefore ends in the fatal error of the assertion. -/
theorem nested_head_name_assertion :
    (Inou_firrtl_module.list_statement_info.stmts [] (nested_head_example.take 2) 1
        (Env.fresh "M")).map (fun s => s.firmod.var2flip.get "w" [])
      = .ok [("w.a", false), ("w.b.w.a", false)] ∧
    Inou_firrtl_module.wire_connection_hit "w.b.w.a" "w.a"
      = .error "assertion failed: pos == 0" ∧
    Inou_firrtl_module.wire_connection_hit "w.a" "w.a" = .ok true ∧
    Inou_firrtl_module.wire_connection_hit "w.ab" "w.a" = .ok false ∧
    (Inou_firrtl_module.list_statement_info.stmts [] nested_head_example 1
        (Env.fresh "M")).map (fun s => s.lnast.nodes.length)
      = .error "assertion failed: pos == 0" := by
  refine ⟨by decide!, by decide!, by decide!, by decide!, by decide!⟩

namespace Inou_firrtl_module

theorem lhs_branch_nodes_shift (idx_mux : Nat) (rhs : String) (cond elem : Nat → String)
    (base i : Nat) :
    lhs_branch_nodes idx_mux rhs cond elem (base + 5) (i + 1)
      = fun j => lhs_branch_nodes idx_mux rhs cond elem base i (j + 1) := by
  funext j
  have h2 : base + 5 + 5 * j = base + 5 * (j + 1) := by omega
  have h3 : i + 1 + j = i + (j + 1) := by omega
  simp only [lhs_branch_nodes, h2, h3]

theorem lhs_runtime_idx_branches_nodes (idx_mux : Nat) (rhs vec_name : String)
    (is_2d_vector : Bool) (leaf_field_name : String) (cond_strs : List String)
    (elem : Nat → String) (s0 : Env) :
    ∀ (k i : Nat) (s : Env),
    s.firmod.output_names = s0.firmod.output_names →
    s.firmod.input_names = s0.firmod.input_names →
    s.firmod.reg2qpin = s0.firmod.reg2qpin →
    (∀ j < k, name_prefix_modifier_flattener s0
      (runtime_idx_elem vec_name is_2d_vector leaf_field_name (i + j)) false
        = .ok (elem (i + j))) →
    ∃ s', lhs_runtime_idx_branches idx_mux rhs vec_name is_2d_vector leaf_field_name cond_strs
        k i s = .ok s' ∧
      s'.lnast.nodes = s.lnast.nodes ++
        ((List.range k).map (lhs_branch_nodes idx_mux rhs (fun n => cond_strs.getD n "") elem
          s.lnast.nodes.length i)).flatten
  | 0, i, s, _, _, _, _ => ⟨s, rfl, by simp⟩
  | k + 1, i, s, ho, hi, hr, he => by
    have he0 := he 0 (Nat.succ_pos k)
    rw [Nat.add_zero] at he0
    simp only [lhs_runtime_idx_branches, Env.add_child, Env.add_leaf, Lnast.add_child,
      List.append_assoc, List.cons_append, List.nil_append, List.length_append,
      List.length_cons, List.length_nil]
    have hstep : name_prefix_modifier_flattener
        { s with lnast := ⟨s.lnast.top_module_name, s.lnast.nodes ++
            [⟨Lnast_node.create_ref (cond_strs.getD i ""), some idx_mux⟩,
             ⟨Lnast_node.create_stmts, some idx_mux⟩]⟩ }
        (runtime_idx_elem vec_name is_2d_vector leaf_field_name i) false = .ok (elem i) :=
      (name_prefix_modifier_flattener_congr s0 _ _ false ho hi hr).trans he0
    simp only [hstep, except_ok_bind]
    obtain ⟨han, hao, hai, har⟩ := add_lnast_assign_nodes
      { s with lnast := ⟨s.lnast.top_module_name, s.lnast.nodes ++
          [⟨Lnast_node.create_ref (cond_strs.getD i ""), some idx_mux⟩,
           ⟨Lnast_node.create_stmts, some idx_mux⟩]⟩ }
      (s.lnast.nodes.length + 1) (elem i) rhs
    obtain ⟨s', h', hn'⟩ := lhs_runtime_idx_branches_nodes idx_mux rhs vec_name is_2d_vector
      leaf_field_name cond_strs elem s0 k (i + 1)
      (add_lnast_assign
        { s with lnast := ⟨s.lnast.top_module_name, s.lnast.nodes ++
            [⟨Lnast_node.create_ref (cond_strs.getD i ""), some idx_mux⟩,
             ⟨Lnast_node.create_stmts, some idx_mux⟩]⟩ }
        (s.lnast.nodes.length + 1) (elem i) rhs)
      (hao.trans ho) (hai.trans hi) (har.trans hr)
      (fun j hj => by
        have := he (j + 1) (Nat.succ_lt_succ hj)
        rw [show i + 1 + j = i + (j + 1) by omega]
        exact this)
    refine ⟨s', h', ?_⟩
    rw [hn', han]
    simp only [flatten_range_succ, List.append_assoc, List.cons_append,
      List.nil_append, List.length_append, List.length_cons, List.length_nil,
      lhs_branch_nodes_shift]
    simp only [lhs_branch_nodes, Nat.mul_zero, Nat.add_zero, List.cons_append, List.nil_append,
      Nat.add_assoc]

end Inou_firrtl_module

/-- C29. A write `vec[idx] <= rhs` with a runtime index into a vector of recorded length `N`
appends to the tree: first `N` function calls, the `i`-th writing the fresh temporary
`___F(cnt+i+1)` as `__fir_eq(runtime index, i)`; then one if node (at index `n + 5N`) with
exactly `N` branches, the `i`-th being the condition `___F(cnt+i+1)` followed by a statement
list that holds exactly one assign of the flattened right-hand name to element `i`, whose
name is the flattened `vec.i`, or `vec.i.leaf` with the one leaf field of the double-dot
form. -/
theorem lhs_runtime_idx_shape (s : Env) (parent_node : Nat) (hier_name_l hier_name_r : String)
    (lhs_expr : FirrtlPB_Expression) (N : Nat) (tr ri rt tv : String) (elem : Nat → String)
    (hrhs : Inou_firrtl_module.name_prefix_modifier_flattener s hier_name_r true = .ok tr)
    (hidx : Inou_firrtl_module.get_runtime_idx_field_name lhs_expr = .ok ri)
    (hrt : Inou_firrtl_module.name_prefix_modifier_flattener s ri true = .ok rt)
    (hsize : (Inou_firrtl_module.get_vector_size s
      (Inou_firrtl_module.runtime_idx_vec_name hier_name_l).1).1 = N)
    (hvec : Inou_firrtl_module.name_prefix_modifier_flattener s
      (Inou_firrtl_module.runtime_idx_vec_name hier_name_l).1 true = .ok tv)
    (helem : ∀ i < N, Inou_firrtl_module.name_prefix_modifier_flattener s
      (Inou_firrtl_module.runtime_idx_elem tv
        (Inou_firrtl_module.runtime_idx_vec_name hier_name_l).2.1
        (Inou_firrtl_module.runtime_idx_vec_name hier_name_l).2.2 i) false = .ok (elem i)) :
    ∃ s', Inou_firrtl_module.handle_lhs_runtime_idx s parent_node hier_name_l hier_name_r
        lhs_expr = .ok s' ∧
      s'.lnast.nodes = s.lnast.nodes ++
        ((List.range N).map (eq_call_nodes parent_node rt s.lnast.nodes.length
          s.firmod.tmp_var_cnt 0)).flatten ++
        [⟨Lnast_node.create_if, some parent_node⟩] ++
        ((List.range N).map (lhs_branch_nodes (s.lnast.nodes.length + 5 * N) tr
          (fun i => "___F" ++ Str.of_nat (s.firmod.tmp_var_cnt + i + 1)) elem
          (s.lnast.nodes.length + 5 * N + 1) 0)).flatten := by
  obtain ⟨h1l, h1f⟩ := Inou_firrtl_module.get_vector_size_state s
    (Inou_firrtl_module.runtime_idx_vec_name hier_name_l).1
  have hvec1 : Inou_firrtl_module.name_prefix_modifier_flattener
      (Inou_firrtl_module.get_vector_size s
        (Inou_firrtl_module.runtime_idx_vec_name hier_name_l).1).2
      (Inou_firrtl_module.runtime_idx_vec_name hier_name_l).1 true = .ok tv :=
    (Inou_firrtl_module.name_prefix_modifier_flattener_congr s _ _ true
      (by rw [h1f]) (by rw [h1f]) (by rw [h1f])).trans hvec
  have hlen : (s.lnast.nodes ++ ((List.range N).map (eq_call_nodes parent_node rt
      s.lnast.nodes.length s.firmod.tmp_var_cnt 0)).flatten).length
        = s.lnast.nodes.length + 5 * N := by
    rw [List.length_append, Inou_firrtl_module.length_flatten_range 5 N
      (eq_call_nodes parent_node rt s.lnast.nodes.length s.firmod.tmp_var_cnt 0)
      (fun _ => rfl)]
  simp only [Inou_firrtl_module.handle_lhs_runtime_idx, hrhs, hidx, hrt, except_ok_bind,
    hvec1, hsize, Inou_firrtl_module.runtime_idx_eq_loop_nodes, Env.add_child,
    Lnast.add_child, List.nil_append, h1l, h1f, hlen]
  obtain ⟨s', h', hn'⟩ := Inou_firrtl_module.lhs_runtime_idx_branches_nodes
    (s.lnast.nodes.length + 5 * N) tr tv
    (Inou_firrtl_module.runtime_idx_vec_name hier_name_l).2.1
    (Inou_firrtl_module.runtime_idx_vec_name hier_name_l).2.2
    ((List.range N).map (fun j => "___F" ++ Str.of_nat (s.firmod.tmp_var_cnt + j + 1)))
    elem s N 0
    { lnast := ⟨s.lnast.top_module_name, s.lnast.nodes ++
          ((List.range N).map (eq_call_nodes parent_node rt s.lnast.nodes.length
            s.firmod.tmp_var_cnt 0)).flatten ++
          [⟨Lnast_node.create_if, some parent_node⟩]⟩,
      firmod := { s.firmod with tmp_var_cnt := s.firmod.tmp_var_cnt + N },
      glob_info := (Inou_firrtl_module.get_vector_size s
        (Inou_firrtl_module.runtime_idx_vec_name hier_name_l).1).2.glob_info,
      warnings := (Inou_firrtl_module.get_vector_size s
        (Inou_firrtl_module.runtime_idx_vec_name hier_name_l).1).2.warnings }
    rfl rfl rfl
    (fun j hj => by
      rw [Nat.zero_add]
      exact helem j hj)
  refine ⟨s', h', ?_⟩
  rw [hn']
  simp only [List.length_append, List.length_cons, List.length_nil, hlen]
  congr 2
  apply List.map_congr_left
  intro j hj
  have hj' : j < N := List.mem_range.mp hj
  simp only [lhs_branch_nodes, Nat.zero_add,
    Inou_firrtl_module.getD_map_range _ N j hj']

/-- Witness of C29: `v[idx] <= out` for the wire `v : UInt<8>[2]` gives two equality calls
and an if node with exactly two branches. -/
theorem lhs_runtime_idx_shape_witness :
    ∃ s', Inou_firrtl_module.handle_lhs_runtime_idx runtime_idx_example_env 1 "v." "out"
        (.kSubAccess (.kReference "v") (.kReference "idx")) = .ok s' ∧
      s'.lnast.nodes.drop 2 =
        [⟨Lnast_node.create_func_call, some 1⟩, ⟨Lnast_node.create_ref "___F1", some 2⟩,
         ⟨Lnast_node.create_const "__fir_eq", some 2⟩, ⟨Lnast_node.create_ref "idx", some 2⟩,
         ⟨Lnast_node.create_const "0", some 2⟩,
         ⟨Lnast_node.create_func_call, some 1⟩, ⟨Lnast_node.create_ref "___F2", some 7⟩,
         ⟨Lnast_node.create_const "__fir_eq", some 7⟩, ⟨Lnast_node.create_ref "idx", some 7⟩,
         ⟨Lnast_node.create_const "1", some 7⟩,
         ⟨Lnast_node.create_if, some 1⟩,
         ⟨Lnast_node.create_ref "___F1", some 12⟩, ⟨Lnast_node.create_stmts, some 12⟩,
         ⟨Lnast_node.create_assign, some 14⟩, ⟨Lnast_node.create_ref "v_0", some 15⟩,
         ⟨Lnast_node.create_ref "out", some 15⟩,
         ⟨Lnast_node.create_ref "___F2", some 12⟩, ⟨Lnast_node.create_stmts, some 12⟩,
         ⟨Lnast_node.create_assign, some 19⟩, ⟨Lnast_node.create_ref "v_1", some 20⟩,
         ⟨Lnast_node.create_ref "out", some 20⟩] := by
  obtain ⟨s', h, hn⟩ := lhs_runtime_idx_shape runtime_idx_example_env 1 "v." "out"
    (.kSubAccess (.kReference "v") (.kReference "idx")) 2 "out" "idx" "idx" "v"
    (fun i => "v_" ++ Str.of_nat i) rfl rfl rfl rfl rfl
    (fun i hi => by interval_cases i <;> rfl)
  exact ⟨s', h, by rw [hn]; rfl⟩

/-- C30: after port population of the module `M` with the vector ports `a : UInt<8>[2]`
and `b : UInt<8>[3]`, the global vector-size table of `M` holds `b` only; for the port
`p : UInt<8>[2][3]` it holds the last inner vector `p.2` only, neither `p` nor `p.0` nor
`p.1`. -/
theorem port_vector_sizes_overwritten :
    (Inou_firrtl.populated_glob two_vector_ports_module).map (·.module_var2vec_size)
      = .ok [("M", [("b", 3)])] ∧
    (Inou_firrtl.populated_glob nested_vector_port_module).map (·.module_var2vec_size)
      = .ok [("M", [("p.2", 2)])] := by
  constructor <;> decide!

/-- C31: with `inst i of Sub` and `wire w` of the port type `{a, q : {b}}`: the connect
`i.p <= w` to the whole input port emits no node, while `i.p.q <= w.q` to its
sub-aggregate emits the assign of its leaf; on the right side it is the other way round:
`w <= i.o` from the whole output port emits one assign per leaf, while `w.q <= i.o.q` from
its sub-aggregate emits no node. -/
theorem instance_aggregate_connects :
    instance_connect_nodes (.kSubField (.kReference "i") "p") (.kReference "w") = .ok [] ∧
    instance_connect_nodes (.kSubField (.kSubField (.kReference "i") "p") "q")
        (.kSubField (.kReference "w") "q")
      = .ok [⟨Lnast_node.create_assign, some 1⟩, ⟨Lnast_node.create_ref "i_p_q_b", some 54⟩,
             ⟨Lnast_node.create_ref "w_q_b", some 54⟩] ∧
    instance_connect_nodes (.kReference "w") (.kSubField (.kReference "i") "o")
      = .ok [⟨Lnast_node.create_assign, some 1⟩, ⟨Lnast_node.create_ref "w_a", some 54⟩,
             ⟨Lnast_node.create_ref "i_o_a", some 54⟩,
             ⟨Lnast_node.create_assign, some 1⟩, ⟨Lnast_node.create_ref "w_q_b", some 57⟩,
             ⟨Lnast_node.create_ref "i_o_q_b", some 57⟩] ∧
    instance_connect_nodes (.kSubField (.kReference "w") "q")
        (.kSubField (.kSubField (.kReference "i") "o") "q") = .ok [] := by
  refine ⟨by decide!, by decide!, by decide!, by decide!⟩

theorem foldlM_append_ok {α : Type} (f : List α → Nat → Except String (List α))
    (g2 : Nat → List α) :
    ∀ (l : List Nat) (init : List α), (∀ acc, ∀ i ∈ l, f acc i = .ok (acc ++ g2 i)) →
      l.foldlM f init = .ok (init ++ l.flatMap g2)
  | [], init, _ => by simp [pure, Except.pure]
  | i :: rest, init, h => by
    rw [List.foldlM_cons, h init i (List.mem_cons_self _ _)]
    simp only [except_ok_bind]
    rw [foldlM_append_ok f g2 rest _ (fun acc j hj => h acc j (List.mem_cons_of_mem _ hj))]
    simp [List.flatMap_cons, List.append_assoc]

theorem din_leaf_bits_ok (t : FirrtlPB_Type) (h : din_leaf_ok t = true) :
    Inou_firrtl_module.get_bit_count t = .ok (din_leaf_bits t) := by
  cases t <;> simp [din_leaf_ok] at h <;> rfl

theorem din_entry_cons (pre seg : String) (p : List String × FirrtlPB_Type) :
    din_entry pre (seg :: p.1, p.2)
      = din_entry (if pre = "" then seg else pre ++ "." ++ seg) p := rfl

theorem din_leaf_paths_vector_ok (type : FirrtlPB_Type) (size : Nat)
    (hok : (din_leaf_paths (.kVectorType type size)).all (fun p => din_leaf_ok p.2) = true)
    (hpos : 0 < size) : (din_leaf_paths type).all (fun p => din_leaf_ok p.2) = true := by
  rw [din_leaf_paths] at hok
  simp only [List.all_eq_true, List.mem_flatMap, List.mem_range, List.mem_map] at hok ⊢
  intro p hp
  exact hok (Str.of_nat 0 :: p.1, p.2) ⟨0, hpos, p, hp, rfl⟩

namespace Inou_firrtl_module

theorem din_child {β : Type} (c : FirrtlPB_Type) (np : String)
    (k : List String → Except String β) :
    (din_leaf_paths c).all (fun p => din_leaf_ok p.2) = true →
    (is_aggregate c = true →
      collect_memory_data_struct_hierarchy c np = .ok ((din_leaf_paths c).map (din_entry np))) →
    (match c with
      | .kBundleType f => do
        let y ← collect_memory_data_struct_hierarchy (.kBundleType f) np
        k y
      | .kVectorType t n => do
        let y ← collect_memory_data_struct_hierarchy (.kVectorType t n) np
        k y
      | leaf => do
        let bits ← get_bit_count leaf
        let y ← Except.ok [np ++ "." ++ Str.of_nat bits]
        k y)
      = k ((din_leaf_paths c).map (din_entry np)) := by
  intro hok ih
  cases c with
  | kBundleType f => simp only [ih rfl, except_ok_bind]
  | kVectorType t n => simp only [ih rfl, except_ok_bind]
  | kUintType w => rfl
  | kSintType w => rfl
  | kClockType => rfl
  | kAnalogType w => rfl
  | kAsyncResetType => rfl
  | kResetType => rfl
  | kFixedType => simp [din_leaf_paths, din_leaf_ok] at hok
  | TYPE_NOT_SET => simp [din_leaf_paths, din_leaf_ok] at hok

mutual

theorem collect_din_leaves : ∀ (t : FirrtlPB_Type) (pre : String),
    is_aggregate t = true → (din_leaf_paths t).all (fun p => din_leaf_ok p.2) = true →
    collect_memory_data_struct_hierarchy t pre = .ok ((din_leaf_paths t).map (din_entry pre))
  | .kBundleType field, pre, _, hok => by
    rw [din_leaf_paths] at hok
    rw [collect_memory_data_struct_hierarchy, din_leaf_paths]
    exact collect_din_fields field pre hok
  | .kVectorType type size, pre, _, hok => by
    rw [collect_memory_data_struct_hierarchy, din_leaf_paths]
    refine (foldlM_append_ok _
      (fun i => (din_leaf_paths type).map
        (din_entry (if pre = "" then Str.of_nat i else pre ++ "." ++ Str.of_nat i)))
      _ _ (fun acc i hi => ?_)).trans ?_
    · have hsub := din_leaf_paths_vector_ok type size hok
        (Nat.lt_of_le_of_lt (Nat.zero_le i) (List.mem_range.mp hi))
      exact din_child type _ _ hsub (fun h => collect_din_leaves type _ h hsub)
    · simp only [List.nil_append, List.map_flatMap, List.map_map]
      rfl
  | .kUintType _, _, h, _ => by simp [is_aggregate] at h
  | .kSintType _, _, h, _ => by simp [is_aggregate] at h
  | .kClockType, _, h, _ => by simp [is_aggregate] at h
  | .kAnalogType _, _, h, _ => by simp [is_aggregate] at h
  | .kAsyncResetType, _, h, _ => by simp [is_aggregate] at h
  | .kResetType, _, h, _ => by simp [is_aggregate] at h
  | .kFixedType, _, h, _ => by simp [is_aggregate] at h
  | .TYPE_NOT_SET, _, h, _ => by simp [is_aggregate] at h

theorem collect_din_fields : ∀ (field : List (String × Bool × FirrtlPB_Type)) (pre : String),
    (din_leaf_paths.fields field).all (fun p => din_leaf_ok p.2) = true →
    collect_memory_data_struct_hierarchy.fields field pre
      = .ok ((din_leaf_paths.fields field).map (din_entry pre))
  | [], _, _ => rfl
  | (fid, is_flipped, ftype) :: rest, pre, hok => by
    rw [din_leaf_paths.fields, List.all_append, Bool.and_eq_true] at hok
    obtain ⟨h1, h2⟩ := hok
    have h1' : (din_leaf_paths ftype).all (fun p => din_leaf_ok p.2) = true := by
      simp only [List.all_eq_true, List.mem_map] at h1 ⊢
      intro p hp
      exact h1 (fid :: p.1, p.2) ⟨p, hp, rfl⟩
    rw [collect_memory_data_struct_hierarchy.fields.eq_def, din_leaf_paths.fields]
    simp only [collect_din_fields rest pre h2]
    refine (din_child ftype _ _ h1' (fun h => collect_din_leaves ftype _ h h1')).trans ?_
    simp only [except_ok_bind, List.map_append, List.map_map]
    rfl

end

end Inou_firrtl_module

theorem append_ne_empty (a b : String) (h : a ≠ "") : a ++ b ≠ "" := by
  intro he
  apply h
  have := congrArg String.data he
  rw [String.data_append] at this
  exact String.ext (List.append_eq_nil.mp this).1

theorem din_path_intercalate_go : ∀ (segs : List String) (pre : String), pre ≠ "" →
    din_path pre segs = String.intercalate.go pre "." segs
  | [], _, _ => rfl
  | seg :: rest, pre, h => by
    rw [din_path, if_neg h, String.intercalate.go]
    exact din_path_intercalate_go rest _ (append_ne_empty _ _ (append_ne_empty _ _ h))

theorem din_entry_spec (p : List String × FirrtlPB_Type) (h : din_root_named p = true) :
    din_entry "" p = din_spec_entry p := by
  obtain ⟨segs, t⟩ := p
  unfold din_entry din_spec_entry
  congr 2
  cases segs with
  | nil => rfl
  | cons seg rest =>
    have hseg : seg ≠ "" := by
      intro he
      subst he
      simp [din_root_named] at h
    rw [din_path, if_pos rfl, String.intercalate]
    exact din_path_intercalate_go rest seg hseg

theorem init_cmemory_din_fields (s : Env) (parent_node : Nat)
    (cmem : FirrtlPB_Statement_CMemory) (t : FirrtlPB_Type) (depth : List Nat)
    (fields : List String) (htd : cmem.type_and_depth = some (t, depth))
    (hf : (is_aggregate t = true ∧
        Inou_firrtl_module.collect_memory_data_struct_hierarchy t "" = .ok fields) ∨
      ∃ w, t = .kUintType w ∧ fields = ["." ++ Str.of_nat w]) :
    (Inou_firrtl_module.init_cmemory s parent_node cmem).map
        (fun s2 => s2.firmod.mem2din_fields.get cmem.id [])
      = .ok (s.firmod.mem2din_fields.get cmem.id [] ++ fields) := by
  have hs : (if fields.isEmpty then s
      else { s with firmod := { s.firmod with
        mem2din_fields := s.firmod.mem2din_fields.insert_or_assign cmem.id
          (s.firmod.mem2din_fields.get cmem.id [] ++ fields) } }).firmod.mem2din_fields.get
        cmem.id [] = s.firmod.mem2din_fields.get cmem.id [] ++ fields := by
    by_cases he : fields.isEmpty = true
    · have : fields = [] := List.isEmpty_iff.mp he
      subst this
      simp
    · simp only [he]
      exact Table.get_insert_or_assign_self _ _ _ _
  unfold Inou_firrtl_module.init_cmemory
  rw [htd]
  simp only [except_ok_bind]
  rcases hf with ⟨hagg, hc⟩ | ⟨w, rfl, rfl⟩
  · cases t with
    | kBundleType f =>
      simp only [hc, except_ok_bind]
      simp only [Except.map]
      exact congrArg Except.ok hs
    | kVectorType t n =>
      simp only [hc, except_ok_bind]
      simp only [Except.map]
      exact congrArg Except.ok hs
    | kUintType w => simp [is_aggregate] at hagg
    | kSintType w => simp [is_aggregate] at hagg
    | kClockType => simp [is_aggregate] at hagg
    | kAnalogType w => simp [is_aggregate] at hagg
    | kAsyncResetType => simp [is_aggregate] at hagg
    | kResetType => simp [is_aggregate] at hagg
    | kFixedType => simp [is_aggregate] at hagg
    | TYPE_NOT_SET => simp [is_aggregate] at hagg
  · simp only [Inou_firrtl_module.get_bit_count, except_ok_bind]
    simp only [Except.map]
    exact congrArg Except.ok hs

/-- C32 (counterexample): a memory whose data type is the scalar `SInt<8>` records no
`".8"` entry; `init_cmemory` stops at its assertion, as for every scalar data type other
than UInt. -/
theorem cmemory_scalar_sint_counterexample :
    Inou_firrtl_module.init_cmemory (Env.fresh "M") 1 sint_cmemory_example
      = .error "assertion failed: false (memory data type)" := by
  decide!

/-- C32 (amended): for a cmemory whose data type is a Bundle or Vector all of whose leaves
have a type that `get_bit_count` accepts (UInt, SInt, Clock, Analog, Reset, AsyncReset) and
no path starting with an empty field name, `init_cmemory` appends to the memory's din-field
record exactly one entry per leaf in declaration order, the dotted path followed by a dot
and the decimal bit width; for the data type `UInt<w>` it appends the single entry `".w"`;
every other scalar data type is a fatal error. -/
theorem cmemory_din_hierarchy (s : Env) (parent_node : Nat)
    (cmem : FirrtlPB_Statement_CMemory) (t : FirrtlPB_Type) (depth : List Nat)
    (htd : cmem.type_and_depth = some (t, depth)) :
    (is_aggregate t = true → (din_leaf_paths t).all din_leaf_wf = true →
      (Inou_firrtl_module.init_cmemory s parent_node cmem).map
          (fun s2 => s2.firmod.mem2din_fields.get cmem.id [])
        = .ok (s.firmod.mem2din_fields.get cmem.id []
            ++ (din_leaf_paths t).map din_spec_entry)) ∧
    (∀ w, t = .kUintType w →
      (Inou_firrtl_module.init_cmemory s parent_node cmem).map
          (fun s2 => s2.firmod.mem2din_fields.get cmem.id [])
        = .ok (s.firmod.mem2din_fields.get cmem.id [] ++ ["." ++ Str.of_nat w])) ∧
    (is_aggregate t = false → (∀ w, t ≠ .kUintType w) →
      is_fatal (Inou_firrtl_module.init_cmemory s parent_node cmem) = true) := by
  refine ⟨fun hagg hwf => ?_, fun w hw => ?_, fun hagg hu => ?_⟩
  · have hok : (din_leaf_paths t).all (fun p => din_leaf_ok p.2) = true := by
      simp only [List.all_eq_true, din_leaf_wf, Bool.and_eq_true] at hwf ⊢
      exact fun p hp => (hwf p hp).1
    have hmap : (din_leaf_paths t).map (din_entry "") = (din_leaf_paths t).map din_spec_entry := by
      apply List.map_congr_left
      intro p hp
      simp only [List.all_eq_true, din_leaf_wf, Bool.and_eq_true] at hwf
      exact din_entry_spec p (hwf p hp).2
    rw [← hmap]
    exact init_cmemory_din_fields s parent_node cmem t depth _ htd
      (Or.inl ⟨hagg, Inou_firrtl_module.collect_din_leaves t "" hagg hok⟩)
  · exact init_cmemory_din_fields s parent_node cmem t depth _ htd (Or.inr ⟨w, hw, rfl⟩)
  · unfold Inou_firrtl_module.init_cmemory
    rw [htd]
    simp only [except_ok_bind]
    cases t with
    | kBundleType f => simp [is_aggregate] at hagg
    | kVectorType t n => simp [is_aggregate] at hagg
    | kUintType w => exact absurd rfl (hu w)
    | kSintType w => rfl
    | kClockType => rfl
    | kAnalogType w => rfl
    | kAsyncResetType => rfl
    | kResetType => rfl
    | kFixedType => rfl
    | TYPE_NOT_SET => rfl

theorem cmemory_din_hierarchy_witness :
    bundle_cmemory_example.type_and_depth
        = some (.kBundleType [("a", false, .kUintType 8),
            ("v", false, .kVectorType (.kBundleType [("x", false, .kSintType 3),
              ("y", false, .kClockType)]) 2)], [4]) ∧
      (Inou_firrtl_module.init_cmemory (Env.fresh "M") 1 bundle_cmemory_example).map
          (fun s2 => s2.firmod.mem2din_fields.get bundle_cmemory_example.id [])
        = .ok ((Env.fresh "M").firmod.mem2din_fields.get bundle_cmemory_example.id []
            ++ (din_leaf_paths (.kBundleType [("a", false, .kUintType 8),
              ("v", false, .kVectorType (.kBundleType [("x", false, .kSintType 3),
                ("y", false, .kClockType)]) 2)])).map din_spec_entry) ∧
      (din_leaf_paths (.kBundleType [("a", false, .kUintType 8),
          ("v", false, .kVectorType (.kBundleType [("x", false, .kSintType 3),
            ("y", false, .kClockType)]) 2)])).map din_spec_entry
        = ["a.8", "v.0.x.3", "v.0.y.1", "v.1.x.3", "v.1.y.1"] :=
  ⟨rfl, (cmemory_din_hierarchy (Env.fresh "M") 1 bundle_cmemory_example _ [4] rfl).1
    (by decide!) (by decide!), by decide!⟩

namespace Str

theorem digitChar_isDigit (m : Nat) (h : m < 10) : (Nat.digitChar m).isDigit = true := by
  interval_cases m <;> rfl

theorem digitChar_value (m : Nat) (h : m < 10) : (Nat.digitChar m).toNat - 48 = m := by
  interval_cases m <;> rfl

theorem toDigitsCore_digits : ∀ (fuel n : Nat) (ds : List Char),
    ∀ c ∈ Nat.toDigitsCore 10 fuel n ds, c ∈ ds ∨ c.isDigit = true
  | 0, _, _, c, hc => Or.inl hc
  | fuel + 1, n, ds, c, hc => by
    rw [Nat.toDigitsCore] at hc
    have hd := digitChar_isDigit (n % 10) (Nat.mod_lt _ (by decide))
    split at hc
    · rcases List.mem_cons.mp hc with h | h
      · exact Or.inr (h ▸ hd)
      · exact Or.inl h
    · rcases toDigitsCore_digits fuel (n / 10) _ c hc with h | h
      · rcases List.mem_cons.mp h with h | h
        · exact Or.inr (h ▸ hd)
        · exact Or.inl h
      · exact Or.inr h

theorem toDigitsCore_value : ∀ (fuel n : Nat) (ds : List Char), n < fuel →
    (Nat.toDigitsCore 10 fuel n ds).foldl (fun a c => 10 * a + (c.toNat - 48)) 0
      = ds.foldl (fun a c => 10 * a + (c.toNat - 48)) n
  | 0, _, _, h => absurd h (Nat.not_lt_zero _)
  | fuel + 1, n, ds, h => by
    rw [Nat.toDigitsCore]
    have hv := digitChar_value (n % 10) (Nat.mod_lt _ (by decide))
    split
    · rename_i h0
      rw [List.foldl_cons, hv]
      congr 1
      omega
    · rename_i h0
      rw [toDigitsCore_value fuel (n / 10) _ (by omega), List.foldl_cons, hv]
      congr 1
      omega

theorem of_nat_data (n : Nat) : (of_nat n).data = Nat.toDigits 10 n := rfl

theorem of_nat_digits (n : Nat) : ∀ c ∈ (of_nat n).data, c.isDigit = true := by
  intro c hc
  rw [of_nat_data, Nat.toDigits] at hc
  rcases toDigitsCore_digits _ _ _ c hc with h | h
  · simp at h
  · exact h

theorem of_nat_no_dot (n : Nat) : ∀ c ∈ (of_nat n).data, c ≠ '.' := by
  intro c hc he
  have := of_nat_digits n c hc
  rw [he] at this
  exact absurd this (by decide)

end Str

namespace Str

theorem rfind_char_from_absent (c : Char) : ∀ (l : List Char) (i : Nat) (acc : Option Nat),
    (∀ x ∈ l, x ≠ c) → rfind_char_from c l i acc = acc
  | [], _, _, _ => rfl
  | x :: xs, i, acc, h => by
    rw [rfind_char_from, if_neg (h x (List.mem_cons_self _ _))]
    exact rfind_char_from_absent c xs _ _ (fun y hy => h y (List.mem_cons_of_mem _ hy))

theorem rfind_char_dot_entry (d : String) (hd : ∀ c ∈ d.data, c ≠ '.') :
    rfind_char ("." ++ d) '.' = some 0 := by
  unfold rfind_char
  rw [String.data_append]
  show rfind_char_from '.' ('.' :: d.data) 0 none = some 0
  rw [rfind_char_from, if_pos rfl]
  exact rfind_char_from_absent _ _ _ _ hd

end Str

theorem init_mem_din_dot_entry (s : Env) (mem_name port_cnt_str d : String) (idx : Nat)
    (hidx : s.firmod.mem2initial_idx.find mem_name = some idx)
    (hf : s.firmod.mem2din_fields.find mem_name = some ["." ++ d])
    (hd : ∀ c ∈ d.data, c ≠ '.') :
    Inou_firrtl_module.init_mem_din s mem_name port_cnt_str
      = .ok (s.emit (scalar_din_nodes idx s.lnast.nodes.length mem_name port_cnt_str) 0) := by
  unfold Inou_firrtl_module.init_mem_din Inou_firrtl_module.mem_initial_idx
    Inou_firrtl_module.mem_din_fields
  rw [hidx, hf]
  simp only [except_ok_bind]
  by_cases he : "." ++ d = "."
  · rw [if_pos he]
    simp [Env.emit, Env.add_leaf, Env.add_child, Lnast.add_child, scalar_din_nodes]
  · rw [if_neg he]
    simp only [List.foldl_cons, List.foldl_nil, Str.rfind_char_dot_entry d hd]
    have hs : Inou_firrtl_module.split_hier_name (Str.substr ("." ++ d) 0 0) = [] := rfl
    rw [hs]
    simp [Env.emit, Env.add_leaf, Env.add_child, Lnast.add_child, scalar_din_nodes]

/-- C33: for a memory whose recorded din hierarchy is the single scalar entry `".<w>"`,
`init_mem_din` appends exactly one tuple-add with the children reference `<mem>_din`,
constant port index and constant 0, which is what its scalar branch builds; the entry is
never equal to `"."`, so it is the tuple loop that runs and produces this result. -/
theorem init_mem_din_scalar_record (s : Env) (mem_name port_cnt_str : String) (idx w : Nat)
    (hidx : s.firmod.mem2initial_idx.find mem_name = some idx)
    (hf : s.firmod.mem2din_fields.find mem_name = some ["." ++ Str.of_nat w]) :
    Inou_firrtl_module.init_mem_din s mem_name port_cnt_str
        = .ok (s.emit (scalar_din_nodes idx s.lnast.nodes.length mem_name port_cnt_str) 0) ∧
      s.emit (scalar_din_nodes idx s.lnast.nodes.length mem_name port_cnt_str) 0
        = (((s.add_child idx Lnast_node.create_tuple_add).1.add_leaf s.lnast.nodes.length
            (Lnast_node.create_ref (mem_name ++ "_din"))).add_leaf s.lnast.nodes.length
            (Lnast_node.create_const port_cnt_str)).add_leaf s.lnast.nodes.length
            (Lnast_node.create_const_nat 0) ∧
      "." ++ Str.of_nat w ≠ "." := by
  refine ⟨init_mem_din_dot_entry s mem_name port_cnt_str _ idx hidx hf (Str.of_nat_no_dot w),
    ?_, ?_⟩
  · simp [Env.emit, Env.add_leaf, Env.add_child, Lnast.add_child, scalar_din_nodes]
  · intro he
    have h1 := congrArg String.data he
    rw [String.data_append] at h1
    have h2 : (Str.of_nat w).data = [] := by simpa using h1
    have h3 := Str.toDigitsCore_value (w + 1) w [] (Nat.lt_succ_self w)
    rw [Str.of_nat_data, Nat.toDigits] at h2
    cases w with
    | zero => exact absurd h2 (by decide)
    | succ n =>
      rw [h2] at h3
      simp at h3

theorem init_mem_din_scalar_record_witness :
    (scalar_din_env.firmod.mem2initial_idx.find "m" = some 7 ∧
      scalar_din_env.firmod.mem2din_fields.find "m" = some ["." ++ Str.of_nat 8]) ∧
    (Inou_firrtl_module.init_mem_din scalar_din_env "m" "1"
        = .ok (scalar_din_env.emit
            (scalar_din_nodes 7 scalar_din_env.lnast.nodes.length "m" "1") 0) ∧
      scalar_din_env.emit (scalar_din_nodes 7 scalar_din_env.lnast.nodes.length "m" "1") 0
        = (((scalar_din_env.add_child 7 Lnast_node.create_tuple_add).1.add_leaf
            scalar_din_env.lnast.nodes.length
            (Lnast_node.create_ref ("m" ++ "_din"))).add_leaf
            scalar_din_env.lnast.nodes.length
            (Lnast_node.create_const "1")).add_leaf scalar_din_env.lnast.nodes.length
            (Lnast_node.create_const_nat 0) ∧
      "." ++ Str.of_nat 8 ≠ ".") :=
  ⟨⟨by decide!, by decide!⟩,
    init_mem_din_scalar_record scalar_din_env "m" "1" 7 8 (by decide!) (by decide!)⟩

theorem create_module_inst_leaf_module (s : Env) (inst_id module_id : String)
    (parent_node : Nat) (hin : s.glob_info.module2inputs.get module_id [] = [])
    (hout : s.glob_info.module2outputs.get module_id [] = []) :
    (Inou_firrtl_module.create_module_inst s inst_id module_id parent_node).map
        (fun s2 => (s2.lnast.nodes.drop s.lnast.nodes.length, s2.firmod.tmp_var_cnt))
      = .ok ([⟨Lnast_node.create_attr_get, some parent_node⟩,
          ⟨Lnast_node.create_ref ("F" ++ Str.of_nat s.firmod.tmp_var_cnt),
            some s.lnast.nodes.length⟩,
          ⟨Lnast_node.create_ref
            ("itup_" ++ if Str.substr inst_id 0 2 = "_T" then "_." ++ inst_id else inst_id),
            some s.lnast.nodes.length⟩,
          ⟨Lnast_node.create_const "__last_value", some s.lnast.nodes.length⟩,
          ⟨Lnast_node.create_func_call, some parent_node⟩,
          ⟨Lnast_node.create_ref
            ("otup_" ++ if Str.substr inst_id 0 2 = "_T" then "_." ++ inst_id else inst_id),
            some (s.lnast.nodes.length + 4)⟩,
          ⟨Lnast_node.create_ref ("__firrtl_" ++ module_id), some (s.lnast.nodes.length + 4)⟩,
          ⟨Lnast_node.create_ref ("F" ++ Str.of_nat s.firmod.tmp_var_cnt),
            some (s.lnast.nodes.length + 4)⟩], s.firmod.tmp_var_cnt + 1) := by
  unfold Inou_firrtl_module.create_module_inst
  simp only [Env.add_leaf, Env.add_child, Lnast.add_child, Env.insert_wire_name, hin, hout,
    List.foldlM_nil, pure, Except.pure, except_ok_bind, Except.map]
  simp

theorem flattener_local (s : Env) (name : String) (is_rhs : Bool)
    (hout : name ∉ s.firmod.output_names) (hin : name ∉ s.firmod.input_names)
    (hreg : s.firmod.reg2qpin.find (Str.replace_dots name) = none) :
    Inou_firrtl_module.name_prefix_modifier_flattener s name is_rhs
      = .ok (Str.replace_dots name) := by
  unfold Inou_firrtl_module.name_prefix_modifier_flattener
  simp only [hout, hin, if_false, hreg]

theorem replace_dots_injective : ∀ (a b : List Char), '_' ∉ a → '_' ∉ b →
    a.map (fun c => if c = '.' then '_' else c) = b.map (fun c => if c = '.' then '_' else c) →
    a = b
  | [], [], _, _, _ => rfl
  | [], _ :: _, _, _, h => by simp at h
  | _ :: _, [], _, _, h => by simp at h
  | x :: xs, y :: ys, ha, hb, h => by
    simp only [List.map_cons, List.cons.injEq] at h
    have hx : x ≠ '_' := fun e => ha (e ▸ List.mem_cons_self _ _)
    have hy : y ≠ '_' := fun e => hb (e ▸ List.mem_cons_self _ _)
    have hxy : x = y := by
      have h1 := h.1
      by_cases ex : x = '.' <;> by_cases ey : y = '.'
      · rw [ex, ey]
      · rw [if_pos ex, if_neg ey] at h1
        exact absurd h1.symm hy
      · rw [if_neg ex, if_pos ey] at h1
        exact absurd h1 hx
      · rw [if_neg ex, if_neg ey] at h1
        exact h1
    rw [hxy, replace_dots_injective xs ys (fun m => ha (List.mem_cons_of_mem _ m))
      (fun m => hb (List.mem_cons_of_mem _ m)) h.2]

/-- C35 (counterexample): the local names `a.b` and `a_b` are distinct and neither is a
port or a register, yet both are flattened to the identifier `a_b`. -/
theorem flattener_collision_counterexample :
    "a.b" ≠ "a_b" ∧
      Inou_firrtl_module.name_prefix_modifier_flattener (Env.fresh "M") "a.b" false
        = .ok "a_b" ∧
      Inou_firrtl_module.name_prefix_modifier_flattener (Env.fresh "M") "a_b" false
        = .ok "a_b" := by
  refine ⟨by decide, by decide!, by decide!⟩

/-- C35 (amended): for a fixed table state, two distinct names that are neither ports nor
registers and that contain no underscore are flattened to distinct identifiers; a local
name is flattened to the name with every dot replaced by an underscore. -/
theorem flattener_injective_without_underscore (s : Env) (a b : String) (ra rb : Bool)
    (hab : a ≠ b) (hua : '_' ∉ a.data) (hub : '_' ∉ b.data)
    (haout : a ∉ s.firmod.output_names) (hain : a ∉ s.firmod.input_names)
    (hareg : s.firmod.reg2qpin.find (Str.replace_dots a) = none)
    (hbout : b ∉ s.firmod.output_names) (hbin : b ∉ s.firmod.input_names)
    (hbreg : s.firmod.reg2qpin.find (Str.replace_dots b) = none) :
    Inou_firrtl_module.name_prefix_modifier_flattener s a ra = .ok (Str.replace_dots a) ∧
      Inou_firrtl_module.name_prefix_modifier_flattener s b rb = .ok (Str.replace_dots b) ∧
      Inou_firrtl_module.name_prefix_modifier_flattener s a ra
        ≠ Inou_firrtl_module.name_prefix_modifier_flattener s b rb := by
  refine ⟨flattener_local s a ra haout hain hareg, flattener_local s b rb hbout hbin hbreg, ?_⟩
  rw [flattener_local s a ra haout hain hareg, flattener_local s b rb hbout hbin hbreg]
  intro he
  have h1 : (Str.replace_dots a).data = (Str.replace_dots b).data :=
    congrArg String.data (Except.ok.inj he)
  exact hab (String.ext (replace_dots_injective a.data b.data hua hub h1))

theorem flattener_injective_without_underscore_witness :
    Inou_firrtl_module.name_prefix_modifier_flattener (Env.fresh "M") "a.b" true
        = .ok (Str.replace_dots "a.b") ∧
      Inou_firrtl_module.name_prefix_modifier_flattener (Env.fresh "M") "a.c" false
        = .ok (Str.replace_dots "a.c") ∧
      Inou_firrtl_module.name_prefix_modifier_flattener (Env.fresh "M") "a.b" true
        ≠ Inou_firrtl_module.name_prefix_modifier_flattener (Env.fresh "M") "a.c" false :=
  flattener_injective_without_underscore (Env.fresh "M") "a.b" "a.c" true false
    (by decide) (by decide) (by decide) (by decide!) (by decide!) (by decide!)
    (by decide!) (by decide!) (by decide!)

namespace Str

theorem find_sub_from_occurs (p : List Char) : ∀ (l : List Char) (i j : Nat),
    find_sub_from p l i = some j → p <:+: l
  | [], i, j, h => by
    rw [find_sub_from] at h
    split at h
    · rename_i he
      rw [List.isEmpty_iff.mp he]
    · exact absurd h (by simp)
  | x :: xs, i, j, h => by
    rw [find_sub_from] at h
    split at h
    · rename_i hp
      exact (List.isPrefixOf_iff_prefix.mp hp).isInfix
    · exact (find_sub_from_occurs p xs _ _ h).trans (List.suffix_cons x xs).isInfix

theorem find_sub_length (h t : String) (hfind : (find_sub h t).isSome = true) (hne : h ≠ t) :
    t.data.length < h.data.length := by
  obtain ⟨j, hj⟩ := Option.isSome_iff_exists.mp hfind
  have hin := find_sub_from_occurs t.data h.data 0 j hj
  rcases Nat.lt_or_ge t.data.length h.data.length with hlt | hge
  · exact hlt
  · exact absurd (String.ext (hin.sublist.eq_of_length_le hge)).symm hne

theorem char_at_in_range (s : String) (i : Nat) (h : i < s.data.length) :
    char_at s i = .ok (s.data.get ⟨i, h⟩) := by
  unfold char_at
  rw [List.get?_eq_get h]

end Str

theorem mux_head_chopped_total (t_str : String) : ∀ (set : Flip_set),
    ∃ names, Inou_firrtl_module.mux_head_chopped t_str set = .ok names
  | [] => ⟨[], rfl⟩
  | (hier_name, flipped) :: rest => by
    obtain ⟨more, hmore⟩ := mux_head_chopped_total t_str rest
    rw [Inou_firrtl_module.mux_head_chopped, hmore]
    by_cases hc : ((Str.find_sub hier_name t_str).isSome && hier_name != t_str) = true
    · have hc2 := hc
      rw [Bool.and_eq_true, bne_iff_ne] at hc2
      rw [if_pos hc, Str.char_at_in_range _ _ (Str.find_sub_length _ _ hc2.1 hc2.2)]
      exact ⟨_, rfl⟩
    · rw [if_neg hc]
      exact ⟨_, rfl⟩

/-- C36: when the then-side name `t` occurs in the flip-table entry name `h`
(`h.find(t) != npos`) and `h != t`, `t.size()` is a valid index of `h` and the checked
access `h.at(t.size())` returns a character; hence the leaf enumeration of
`handle_mux_assign` over any flip-table set raises no out-of-range error. -/
theorem mux_leaf_access_in_range (h t : String) (set : Flip_set)
    (hfind : (Str.find_sub h t).isSome = true) (hne : h ≠ t) :
    t.data.length < h.data.length ∧
      (∃ c, Str.char_at h t.data.length = .ok c) ∧
      ∃ names, Inou_firrtl_module.mux_head_chopped t set = .ok names :=
  ⟨Str.find_sub_length h t hfind hne,
    ⟨_, Str.char_at_in_range h _ (Str.find_sub_length h t hfind hne)⟩,
    mux_head_chopped_total t set⟩

theorem mux_leaf_access_in_range_witness :
    ((Str.find_sub "a.b" "a").isSome = true ∧ "a.b" ≠ "a") ∧
      ("a".data.length < "a.b".data.length ∧
        (∃ c, Str.char_at "a.b" "a".data.length = .ok c) ∧
        ∃ names, Inou_firrtl_module.mux_head_chopped "a"
          [("a.b", false), ("a", false), ("xa", true)] = .ok names) :=
  ⟨⟨by decide, by decide⟩, mux_leaf_access_in_range "a.b" "a" _ (by decide) (by decide)⟩

theorem find_char_from_prefix (c : Char) : ∀ (l : List Char) (i j : Nat),
    Str.find_char_from c l i = some j → ∃ k, j = i + k ∧ (l.take k ++ [c]) <+: l
  | [], _, _, h => by simp [Str.find_char_from] at h
  | x :: xs, i, j, h => by
    rw [Str.find_char_from] at h
    split at h
    · rename_i hx
      refine ⟨0, by simpa using (Option.some.inj h).symm, ?_⟩
      rw [hx]
      exact ⟨xs, rfl⟩
    · obtain ⟨k, hk, hp⟩ := find_char_from_prefix c xs (i + 1) j h
      refine ⟨k + 1, by omega, ?_⟩
      rw [List.take_succ_cons, List.cons_append]
      exact (List.prefix_cons_inj x).mpr hp

theorem flip_table_inv_insert_or_assign (k : String) (v : Flip_set)
    (hv : v.all (flip_entry_ok k) = true) : ∀ (m : Table Flip_set),
    flip_table_inv m = true → flip_table_inv (m.insert_or_assign k v) = true
  | [], _ => by simp [Table.insert_or_assign, flip_table_inv, hv]
  | (k2, v2) :: rest, h => by
    rw [flip_table_inv, List.all_cons, Bool.and_eq_true] at h
    rw [Table.insert_or_assign]
    split
    · rw [flip_table_inv, List.all_cons, Bool.and_eq_true]
      exact ⟨hv, h.2⟩
    · rw [flip_table_inv, List.all_cons, Bool.and_eq_true]
      exact ⟨h.1, flip_table_inv_insert_or_assign k v hv rest h.2⟩

theorem flip_table_inv_find (k : String) (v : Flip_set) : ∀ (m : Table Flip_set),
    flip_table_inv m = true → m.find k = some v → v.all (flip_entry_ok k) = true
  | [], _, hf => by simp [Table.find, List.lookup] at hf
  | (k2, v2) :: rest, h, hf => by
    rw [flip_table_inv, List.all_cons, Bool.and_eq_true] at h
    rw [Table.find, List.lookup] at hf
    split at hf
    · rename_i hk
      have hk2 : k = k2 := by simpa using hk
      rw [hk2, ← Option.some.inj hf]
      exact h.1
    · exact flip_table_inv_find k v rest h.2 hf

theorem flip_set_insert_ok (k : String) (set : Flip_set) (e : String × Bool)
    (hs : set.all (flip_entry_ok k) = true) (he : flip_entry_ok k e = true) :
    (set_insert set e).all (flip_entry_ok k) = true := by
  unfold set_insert
  split
  · exact hs
  · rw [List.all_append, hs]
    simp [he]

theorem flip_entry_ok_below (k n : String) (f : Bool) :
    flip_entry_ok k (k ++ "." ++ n, f) = true := by
  unfold flip_entry_ok
  rw [Bool.or_eq_true]
  right
  rw [List.isPrefixOf_iff_prefix, String.data_append]
  exact List.prefix_append _ _

theorem mux_flip_entries_ok (lhs : String) : ∀ (names : List String) (set : Flip_set),
    set.all (flip_entry_ok lhs) = true →
    (names.foldl (fun set n => set_insert set (lhs ++ "." ++ n, false)) set).all
      (flip_entry_ok lhs) = true
  | [], _, h => h
  | n :: rest, set, h => by
    rw [List.foldl_cons]
    exact mux_flip_entries_ok lhs rest _
      (flip_set_insert_ok lhs set _ h (flip_entry_ok_below lhs n false))

theorem flip_table_inv_add_local (s s2 : Env) (flipped_in : Bool) (id : String)
    (hinv : flip_table_inv s.firmod.var2flip = true)
    (h : Inou_firrtl_module.add_local_flip_info s flipped_in id = .ok s2) :
    flip_table_inv s2.firmod.var2flip = true := by
  unfold Inou_firrtl_module.add_local_flip_info at h
  cases hfc : Str.find_char id '.' with
  | none =>
    rw [hfc] at h
    simp only [] at h
    by_cases hhas : (!s.firmod.var2flip.has id) = true
    · simp only [I, hhas, if_true, except_ok_bind] at h
      rw [← Except.ok.inj h]
      exact flip_table_inv_insert_or_assign id _ (by simp [flip_entry_ok]) _ hinv
    · simp only [I, hhas] at h
      exact absurd h (by simp [bind, Except.bind])
  | some found =>
    rw [hfc] at h
    simp only [] at h
    obtain ⟨k, hk, hp⟩ := find_char_from_prefix '.' id.data 0 found hfc
    have hnew : flip_entry_ok (Str.substr id 0 found) (id, flipped_in) = true := by
      unfold flip_entry_ok
      rw [Bool.or_eq_true]
      right
      rw [List.isPrefixOf_iff_prefix, String.data_append]
      have hk2 : found = k := by omega
      rw [hk2]
      exact hp
    cases hfind : s.firmod.var2flip.find (Str.substr id 0 found) with
    | none =>
      rw [hfind] at h
      rw [← Except.ok.inj h]
      exact flip_table_inv_insert_or_assign _ _ (by simp [hnew]) _ hinv
    | some set =>
      rw [hfind] at h
      rw [← Except.ok.inj h]
      exact flip_table_inv_insert_or_assign _ _
        (flip_set_insert_ok _ set _ (flip_table_inv_find _ set _ hinv hfind) hnew) _ hinv

theorem flip_table_inv_mux_update (tbl : Table Flip_set) (lhs : String)
    (names : List String) (hinv : flip_table_inv tbl = true) :
    flip_table_inv (tbl.insert_or_assign lhs
      (names.foldl (fun set n => set_insert set (lhs ++ "." ++ n, false))
        (tbl.get lhs []))) = true := by
  apply flip_table_inv_insert_or_assign _ _ _ _ hinv
  apply mux_flip_entries_ok
  unfold Table.get
  cases hl : List.lookup lhs tbl with
  | none => rfl
  | some v => exact flip_table_inv_find lhs v _ hinv hl

theorem bigint_char_bits_byte : ∀ b : Nat, b < 256 →
    Inou_firrtl.bigint_char_bits 8 (if (b : Int) < 128 then (b : Int) else (b : Int) - 256) ""
      = byte_bits b := by
  decide!

theorem bin_value_byte : ∀ b : Nat, b < 256 → bin_value (byte_bits b).data = b := by
  decide!

theorem byte_bits_length (b : Nat) : (byte_bits b).data.length = 8 := by
  simp [byte_bits]

theorem byte_bits_flatMap_length : ∀ (value : List Nat),
    (value.flatMap (fun b => (byte_bits b).data)).length = 8 * value.length
  | [] => rfl
  | b :: rest => by
    rw [List.flatMap_cons, List.length_append, byte_bits_length,
      byte_bits_flatMap_length rest, List.length_cons]
    omega

theorem bin_foldl_shift : ∀ (l : List Char) (a : Nat),
    l.foldl (fun a c => 2 * a + (if c = '1' then 1 else 0)) a
      = a * 2 ^ l.length + bin_value l
  | [], a => by simp [bin_value]
  | c :: cs, a => by
    show cs.foldl (fun a c => 2 * a + (if c = '1' then 1 else 0))
        (2 * a + (if c = '1' then 1 else 0))
      = a * 2 ^ (cs.length + 1)
        + cs.foldl (fun a c => 2 * a + (if c = '1' then 1 else 0))
          (2 * 0 + (if c = '1' then 1 else 0))
    rw [bin_foldl_shift cs, bin_foldl_shift cs (2 * 0 + _)]
    ring

theorem bin_value_append (l1 l2 : List Char) :
    bin_value (l1 ++ l2) = bin_value l1 * 2 ^ l2.length + bin_value l2 := by
  rw [bin_value, List.foldl_append, bin_foldl_shift]
  rfl

theorem bigint_foldl_data : ∀ (value : List Nat) (init : String), (∀ b ∈ value, b < 256) →
    (value.foldl
      (fun bigint_val (b : Nat) => bigint_val ++
        Inou_firrtl.bigint_char_bits 8
          (if (b : Int) < 128 then (b : Int) else (b : Int) - 256) "")
      init).data = init.data ++ value.flatMap (fun b => (byte_bits b).data)
  | [], init, _ => by simp
  | b :: rest, init, h => by
    rw [List.foldl_cons, bigint_char_bits_byte b (h b (List.mem_cons_self _ _)),
      bigint_foldl_data rest _ (fun x hx => h x (List.mem_cons_of_mem _ hx))]
    simp [String.data_append, List.append_assoc]

theorem bin_value_bytes : ∀ (value : List Nat) (l : List Char), (∀ b ∈ value, b < 256) →
    bin_value (l ++ value.flatMap (fun b => (byte_bits b).data))
      = value.foldl (fun a b => 256 * a + b) (bin_value l)
  | [], l, _ => by simp
  | b :: rest, l, h => by
    rw [List.flatMap_cons, ← List.append_assoc, bin_value_bytes rest _
      (fun x hx => h x (List.mem_cons_of_mem _ hx)), List.foldl_cons, bin_value_append,
      byte_bits_length, bin_value_byte b (h b (List.mem_cons_self _ _))]
    congr 1
    omega

/-- C38: `convert_bigint_to_str` returns `"0b0"` for the empty byte string and otherwise
`"0b"` followed by the 8 binary digits of every byte, bytes in input order and most
significant bit first (for all byte values 0..255, those from 128 on being negative in the
signed `char`); in both cases the digits after `"0b"`, read as a binary numeral, are the
big-endian unsigned value of the bytes. -/
theorem convert_bigint_to_str_binary (value : List Nat) (hbytes : ∀ b ∈ value, b < 256) :
    (value = [] → Inou_firrtl.convert_bigint_to_str value = "0b0") ∧
      (value ≠ [] → (Inou_firrtl.convert_bigint_to_str value).data
        = '0' :: 'b' :: value.flatMap (fun b => (byte_bits b).data)) ∧
      (value ≠ [] → (Inou_firrtl.convert_bigint_to_str value).data.length
        = 2 + 8 * value.length) ∧
      bin_value ((Inou_firrtl.convert_bigint_to_str value).data.drop 2) = be_value value := by
  have hne : value ≠ [] → (Inou_firrtl.convert_bigint_to_str value).data
      = '0' :: 'b' :: value.flatMap (fun b => (byte_bits b).data) := by
    intro h
    unfold Inou_firrtl.convert_bigint_to_str
    simp only [bind_pure_comp, List.map_eq_map, List.foldl_map]
    rw [if_neg (by simpa using h), bigint_foldl_data value "0b" hbytes]
    rfl
  refine ⟨fun h => by rw [h]; rfl, hne, fun h => ?_, ?_⟩
  · rw [hne h]
    rw [List.length_cons, List.length_cons, byte_bits_flatMap_length]
    omega
  · by_cases h : value = []
    · rw [h]
      rfl
    · rw [hne h]
      exact bin_value_bytes value [] hbytes

theorem convert_bigint_to_str_binary_witness :
    (∀ b ∈ [1, 200], b < 256) ∧
      Inou_firrtl.convert_bigint_to_str [1, 200] = "0b0000000111001000" ∧
      bin_value ((Inou_firrtl.convert_bigint_to_str [1, 200]).data.drop 2)
        = be_value [1, 200] ∧
      be_value [1, 200] = 456 :=
  ⟨by decide, by decide!,
    (convert_bigint_to_str_binary [1, 200] (by decide)).2.2.2, by decide⟩

theorem dot_segments_shape : ∀ (l : List Char) (i0 : Nat),
    ∃ seg0 rest, Inou_firrtl_module.dot_segments l i0 = (i0, seg0) :: rest ∧ '.' ∉ seg0 ∧
      ∀ p ∈ rest, i0 < p.1 ∧ l.getD (p.1 - 1 - i0) (Char.ofNat 0) = '.' ∧ '.' ∉ p.2
  | [], i0 => ⟨[], [], rfl, by simp, by simp⟩
  | c :: cs, i0 => by
    obtain ⟨seg1, rest1, h1, hs1, hr1⟩ := dot_segments_shape cs (i0 + 1)
    have hshift : ∀ p ∈ rest1,
        i0 < p.1 ∧ (c :: cs).getD (p.1 - 1 - i0) (Char.ofNat 0) = '.' ∧ '.' ∉ p.2 := by
      intro p hp
      obtain ⟨ha, hb, hc⟩ := hr1 p hp
      refine ⟨by omega, ?_, hc⟩
      have he : p.1 - 1 - i0 = (p.1 - 1 - (i0 + 1)) + 1 := by omega
      rw [he, List.getD_cons_succ]
      exact hb
    rw [Inou_firrtl_module.dot_segments, h1]
    by_cases hc : c = '.'
    · rw [if_pos hc]
      refine ⟨[], (i0 + 1, seg1) :: rest1, rfl, by simp, ?_⟩
      intro p hp
      rcases List.mem_cons.mp hp with h | h
      · rw [h]
        refine ⟨Nat.lt_succ_self _, ?_, hs1⟩
        have he : i0 + 1 - 1 - i0 = 0 := by omega
        simp only [he, List.getD_cons_zero]
        exact hc
      · exact hshift p h
    · rw [if_neg hc]
      refine ⟨c :: seg1, rest1, rfl, ?_, hshift⟩
      intro hm
      rcases List.mem_cons.mp hm with h | h
      · exact hc h.symm
      · exact hs1 h

theorem strip_bracket_no_dot (seg : List Char) (h : '.' ∉ seg) :
    '.' ∉ Inou_firrtl_module.strip_bracket seg := by
  unfold Inou_firrtl_module.strip_bracket
  split
  · exact fun hm => h (List.dropLast_subset seg hm)
  · exact h

theorem hier_segments_start (full_name : String) :
    ∀ p ∈ Inou_firrtl_module.hier_segments full_name,
      (p.1 = 0 ∨ (p.1 ≠ 0 ∧ Str.index full_name (p.1 - 1) = '.')) ∧ '.' ∉ p.2.data := by
  intro p hp
  obtain ⟨seg0, rest, h0, hs0, hr⟩ := dot_segments_shape full_name.data 0
  unfold Inou_firrtl_module.hier_segments at hp
  rw [h0] at hp
  obtain ⟨q, hq, rfl⟩ := List.mem_map.mp hp
  have hq2 := (List.mem_filter.mp hq).1
  rcases List.mem_cons.mp hq2 with h | h
  · rw [h]
    exact ⟨Or.inl rfl, strip_bracket_no_dot _ hs0⟩
  · obtain ⟨ha, hb, hc⟩ := hr q h
    exact ⟨Or.inr ⟨by omega, by simpa [Str.index] using hb⟩, strip_bracket_no_dot _ hc⟩

theorem set_leaf_type_keeps (subname full_name : String) (prev : Nat)
    (h : prev = 0 ∨ (prev ≠ 0 ∧ Str.index full_name (prev - 1) = '.')) :
    (Inou_firrtl_module.set_leaf_type subname full_name prev).map (·.1) = [subname] := by
  unfold Inou_firrtl_module.set_leaf_type
  rcases h with h | ⟨h1, h2⟩
  · rw [if_pos h]
    rfl
  · rw [if_neg h1, if_pos h2]
    split <;> rfl

theorem flatMap_set_leaf_type (full_name : String) : ∀ (l : List (Nat × String)),
    (∀ p ∈ l, p.1 = 0 ∨ (p.1 ≠ 0 ∧ Str.index full_name (p.1 - 1) = '.')) →
    (l.flatMap (fun p => Inou_firrtl_module.set_leaf_type p.2 full_name p.1)).map (·.1)
      = l.map (·.2)
  | [], _ => rfl
  | p :: rest, h => by
    rw [List.flatMap_cons, List.map_append,
      set_leaf_type_keeps p.2 full_name p.1 (h p (List.mem_cons_self _ _)),
      flatMap_set_leaf_type full_name rest (fun q hq => h q (List.mem_cons_of_mem _ hq))]
    rfl

/-- C39: for every string the typed overload of `split_hier_name` yields exactly the
segments of the untyped overload, one pair per segment in the same order (`set_leaf_type`
drops none, every segment starting at index 0 or right after a dot), and no returned
segment contains a dot. -/
theorem split_hier_name_overloads_agree (full_name : String) :
    (Inou_firrtl_module.split_hier_name_typed full_name).map (·.1)
        = Inou_firrtl_module.split_hier_name full_name ∧
      (Inou_firrtl_module.split_hier_name_typed full_name).length
        = (Inou_firrtl_module.split_hier_name full_name).length ∧
      ∀ seg ∈ Inou_firrtl_module.split_hier_name full_name, '.' ∉ seg.data := by
  have h1 : (Inou_firrtl_module.split_hier_name_typed full_name).map (·.1)
      = Inou_firrtl_module.split_hier_name full_name :=
    flatMap_set_leaf_type full_name _ (fun p hp => (hier_segments_start full_name p hp).1)
  refine ⟨h1, ?_, ?_⟩
  · rw [← h1, List.length_map]
  · intro seg hseg
    obtain ⟨p, hp, rfl⟩ := List.mem_map.mp hseg
    exact (hier_segments_start full_name p hp).2

theorem rfind_char_from_last (c : Char) : ∀ (l : List Char) (i : Nat) (acc : Option Nat),
    (c ∉ l ∧ Str.rfind_char_from c l i acc = acc) ∨
      ∃ l1 l2, l = l1 ++ c :: l2 ∧ c ∉ l2 ∧
        Str.rfind_char_from c l i acc = some (i + l1.length)
  | [], _, _ => Or.inl ⟨by simp, rfl⟩
  | x :: xs, i, acc => by
    rw [Str.rfind_char_from]
    rcases rfind_char_from_last c xs (i + 1) (if x = c then some i else acc) with
      ⟨hno, hr⟩ | ⟨l1, l2, hl, hno, hr⟩
    · by_cases hx : x = c
      · right
        refine ⟨[], xs, by rw [hx]; rfl, hno, ?_⟩
        rw [hr, if_pos hx]
        rfl
      · left
        refine ⟨?_, by rw [hr, if_neg hx]⟩
        intro hm
        rcases List.mem_cons.mp hm with h | h
        · exact hx h.symm
        · exact hno h
    · right
      refine ⟨x :: l1, l2, by rw [hl]; rfl, hno, ?_⟩
      rw [hr, List.length_cons]
      congr 1
      omega

theorem dot_split_last (l1 l2 a : List Char) (hno : '.' ∉ l2) :
    (∃ b, l1 ++ '.' :: l2 = a ++ '.' :: b) ↔ a = l1 ∨ ∃ b, l1 = a ++ '.' :: b := by
  constructor
  · rintro ⟨b, h⟩
    rcases List.append_eq_append_iff.mp h with ⟨a2, ha, hb⟩ | ⟨c2, hl, hc⟩
    · cases a2 with
      | nil => exact Or.inl (by simpa using ha)
      | cons y ys =>
        rw [List.cons_append, List.cons.injEq] at hb
        exact absurd (hb.2 ▸ List.mem_append_right ys (List.mem_cons_self _ _)) hno
    · cases c2 with
      | nil => exact Or.inl (by simpa using hl.symm)
      | cons y ys =>
        rw [List.cons_append, List.cons.injEq] at hc
        right
        exact ⟨ys, by rw [hl, hc.1]⟩
  · rintro (h | ⟨b, h⟩)
    · exact ⟨l2, by rw [h]⟩
    · exact ⟨b ++ '.' :: l2, by rw [h, List.append_assoc]; rfl⟩

theorem mem_set_insert_iff {α : Type} [DecidableEq α] (s : List α) (x y : α) :
    y ∈ set_insert s x ↔ y ∈ s ∨ y = x := by
  unfold set_insert
  split
  · rename_i h
    constructor
    · exact Or.inl
    · rintro (h2 | h2)
      · exact h2
      · exact h2 ▸ h
  · simp

theorem set_insert_extends {α : Type} [DecidableEq α] (s : List α) (x : α) :
    s <+: set_insert s x := by
  unfold set_insert
  split
  · exact List.prefix_refl s
  · exact List.prefix_append s _

theorem record_hierarchy_loop_spec (port_name : String) : ∀ (fuel pos : Nat)
    (names : List String), pos < fuel → pos ≤ port_name.data.length →
    (∀ x, x ∈ Inou_firrtl_module.record_hierarchy_loop port_name fuel pos names ↔
      x ∈ names ∨ x = ⟨port_name.data.take pos⟩ ∨
        ∃ a b, port_name.data.take pos = a ++ '.' :: b ∧ x = ⟨a⟩) ∧
    names <+: Inou_firrtl_module.record_hierarchy_loop port_name fuel pos names ∧
    ∀ fuel2, pos < fuel2 →
      Inou_firrtl_module.record_hierarchy_loop port_name fuel2 pos names
        = Inou_firrtl_module.record_hierarchy_loop port_name fuel pos names
  | 0, _, _, h, _ => absurd h (Nat.not_lt_zero _)
  | fuel + 1, pos, names, hf, hp => by
    have htmp : Str.substr port_name 0 pos = ⟨port_name.data.take pos⟩ := rfl
    have hstep : ∀ f : Nat, Inou_firrtl_module.record_hierarchy_loop port_name (f + 1) pos names
        = match Str.rfind_char (Str.substr port_name 0 pos) '.' with
          | none => set_insert names (Str.substr port_name 0 pos)
          | some p => Inou_firrtl_module.record_hierarchy_loop port_name f p
              (set_insert names (Str.substr port_name 0 pos)) := fun f => rfl
    rcases rfind_char_from_last '.' (port_name.data.take pos) 0 none with
      ⟨hno, hr⟩ | ⟨l1, l2, hl, hno, hr⟩
    · have hr2 : Str.rfind_char (Str.substr port_name 0 pos) '.' = none := hr
      refine ⟨fun x => ?_, ?_, fun fuel2 h2 => ?_⟩
      · rw [hstep, hr2, htmp]
        simp only [mem_set_insert_iff]
        constructor
        · rintro (h | h)
          · exact Or.inl h
          · exact Or.inr (Or.inl h)
        · rintro (h | h | ⟨a, b, hab, _⟩)
          · exact Or.inl h
          · exact Or.inr h
          · exact absurd (hab ▸ List.mem_append_right a (List.mem_cons_self _ _)) hno
      · rw [hstep, hr2]
        exact set_insert_extends _ _
      · obtain ⟨f2, rfl⟩ : ∃ f2, fuel2 = f2 + 1 := ⟨fuel2 - 1, by omega⟩
        rw [hstep, hstep, hr2]
    · have hr2 : Str.rfind_char (Str.substr port_name 0 pos) '.' = some l1.length := by
        have : Str.rfind_char (Str.substr port_name 0 pos) '.' = some (0 + l1.length) := hr
        simpa using this
      have hlen : l1.length < pos := by
        have h1 := congrArg List.length hl
        rw [List.length_take, List.length_append, List.length_cons] at h1
        omega
      have htake : port_name.data.take l1.length = l1 := by
        have h1 : (port_name.data.take pos).take l1.length = l1 := by
          rw [hl, List.take_left]
        rw [List.take_take, Nat.min_eq_left (Nat.le_of_lt hlen)] at h1
        exact h1
      obtain ⟨ih1, ih2, ih3⟩ := record_hierarchy_loop_spec port_name fuel l1.length
        (set_insert names (Str.substr port_name 0 pos)) (by omega) (by omega)
      refine ⟨fun x => ?_, ?_, fun fuel2 h2 => ?_⟩
      · rw [hstep, hr2]
        simp only []
        rw [ih1 x, htake, htmp, mem_set_insert_iff, hl]
        have key := fun a => dot_split_last l1 l2 a hno
        constructor
        · rintro ((h | h) | h | ⟨a, b, hab, hx⟩)
          · exact Or.inl h
          · exact Or.inr (Or.inl h)
          · exact Or.inr (Or.inr ⟨l1, l2, rfl, h⟩)
          · exact Or.inr (Or.inr ⟨a, _, ((key a).mpr (Or.inr ⟨b, hab⟩)).choose_spec, hx⟩)
        · rintro (h | h | ⟨a, b, hab, hx⟩)
          · exact Or.inl (Or.inl h)
          · exact Or.inl (Or.inr h)
          · rcases (key a).mp ⟨b, hab⟩ with h | ⟨b2, h⟩
            · exact Or.inr (Or.inl (by rw [hx, h]))
            · exact Or.inr (Or.inr ⟨a, b2, h, hx⟩)
      · rw [hstep, hr2]
        exact (set_insert_extends _ _).trans ih2
      · obtain ⟨f2, rfl⟩ : ∃ f2, fuel2 = f2 + 1 := ⟨fuel2 - 1, by omega⟩
        rw [hstep, hstep, hr2]
        simp only []
        exact ih3 f2 (by omega)

/-- C40: `record_all_input_hierarchy` and `record_all_output_hierarchy` end on every port
name (the loop needs at most one round per character and one more, and more fuel does not
change its result) and add to the name set exactly the full name and each of its prefixes
that ends just before a dot; the names already in the set stay, in their order. -/
theorem record_hierarchy_prefixes (s : Env) (port_name : String) :
    (∀ x, x ∈ (Inou_firrtl_module.record_all_input_hierarchy s port_name).firmod.input_names ↔
      x ∈ s.firmod.input_names ∨ x = port_name ∨
        ∃ a b, port_name.data = a ++ '.' :: b ∧ x = ⟨a⟩) ∧
      s.firmod.input_names
        <+: (Inou_firrtl_module.record_all_input_hierarchy s port_name).firmod.input_names ∧
      (∀ x,
        x ∈ (Inou_firrtl_module.record_all_output_hierarchy s port_name).firmod.output_names ↔
        x ∈ s.firmod.output_names ∨ x = port_name ∨
          ∃ a b, port_name.data = a ++ '.' :: b ∧ x = ⟨a⟩) ∧
      s.firmod.output_names
        <+: (Inou_firrtl_module.record_all_output_hierarchy s port_name).firmod.output_names ∧
      ∀ (extra : Nat) (names : List String),
        Inou_firrtl_module.record_hierarchy_loop port_name
            (port_name.data.length + 1 + extra) port_name.data.length names
          = Inou_firrtl_module.record_hierarchy_loop port_name
            (port_name.data.length + 1) port_name.data.length names := by
  have hfull : (⟨port_name.data.take port_name.data.length⟩ : String) = port_name := by
    rw [List.take_length]
  have hspec := fun names => record_hierarchy_loop_spec port_name (port_name.data.length + 1)
    port_name.data.length names (Nat.lt_succ_self _) (Nat.le_refl _)
  refine ⟨fun x => ?_, (hspec _).2.1, fun x => ?_, (hspec _).2.1, fun extra names => ?_⟩
  · have h := (hspec s.firmod.input_names).1 x
    rw [hfull, List.take_length] at h
    exact h
  · have h := (hspec s.firmod.output_names).1 x
    rw [hfull, List.take_length] at h
    exact h
  · exact (hspec names).2.2 _ (by omega)

theorem record_hierarchy_example :
    (Inou_firrtl_module.record_all_input_hierarchy (Env.fresh "M") "a.b.c").firmod.input_names
        = ["a.b.c", "a.b", "a"] ∧
      (Inou_firrtl_module.record_all_output_hierarchy
        (Inou_firrtl_module.record_all_output_hierarchy (Env.fresh "M") "a.b") "a.c"
        ).firmod.output_names = ["a.b", "a", "a.c"] := by
  refine ⟨by decide!, by decide!⟩

/-- C18: the scalar mux `d <= mux(c, SInt<4>(-1), b)` is lowered to the assign of `0b?` to
`d` and one if node with the condition `c` and two statement lists of one assign each, but
the assign in the then-list gives `d` the reference with the empty name instead of the
then-value `-1`; likewise a nested mux as else-value is lost (`d <= mux(c, UInt<4>(5),
mux(c, a, b))` assigns the empty reference in the else-list). -/
theorem mux_value_without_name_lost :
    fresh_statement_nodes (mux_connect_example (.kSintLiteral "-1" 4) (.kReference "b"))
        = .ok [⟨Lnast_node.create_assign, some 1⟩, ⟨Lnast_node.create_ref "d", some 2⟩,
            ⟨Lnast_node.create_const "0b?", some 2⟩, ⟨Lnast_node.create_if, some 1⟩,
            ⟨Lnast_node.create_ref "c", some 5⟩, ⟨Lnast_node.create_stmts, some 5⟩,
            ⟨Lnast_node.create_stmts, some 5⟩, ⟨Lnast_node.create_assign, some 7⟩,
            ⟨Lnast_node.create_ref "d", some 9⟩, ⟨Lnast_node.create_ref "", some 9⟩,
            ⟨Lnast_node.create_assign, some 8⟩, ⟨Lnast_node.create_ref "d", some 12⟩,
            ⟨Lnast_node.create_ref "b", some 12⟩] ∧
      fresh_statement_nodes (mux_connect_example (.kUintLiteral "5" 4)
          (.kMux (.kReference "c") (.kReference "a") (.kReference "b")))
        = .ok [⟨Lnast_node.create_assign, some 1⟩, ⟨Lnast_node.create_ref "d", some 2⟩,
            ⟨Lnast_node.create_const "0b?", some 2⟩, ⟨Lnast_node.create_if, some 1⟩,
            ⟨Lnast_node.create_ref "c", some 5⟩, ⟨Lnast_node.create_stmts, some 5⟩,
            ⟨Lnast_node.create_stmts, some 5⟩, ⟨Lnast_node.create_assign, some 7⟩,
            ⟨Lnast_node.create_ref "d", some 9⟩, ⟨Lnast_node.create_const "5ubits4", some 9⟩,
            ⟨Lnast_node.create_assign, some 8⟩, ⟨Lnast_node.create_ref "d", some 12⟩,
            ⟨Lnast_node.create_ref "", some 12⟩] := by
  refine ⟨by decide!, by decide!⟩

theorem bind_eq_ok {α β : Type} (x : Except String α) (f : α → Except String β) (b : β)
    (h : (x >>= f) = .ok b) : ∃ a, x = .ok a ∧ f a = .ok b := by
  cases x with
  | error e => exact absurd h (by simp [bind, Except.bind])
  | ok a => exact ⟨a, rfl, h⟩

namespace Inou_firrtl_module

theorem attach_expr_str2node_flip (s s2 : Env) (a : String) (p : Nat)
    (h : attach_expr_str2node s a p = .ok s2) :
    s2.firmod.var2flip = s.firmod.var2flip := by
  unfold attach_expr_str2node at h
  obtain ⟨_, _, h⟩ := bind_eq_ok _ _ _ h
  split at h <;> · rw [← Except.ok.inj h]; rfl

theorem prim_func_call_flip (s : Env) (parent_node : Nat) (lhs callee : String) :
    (prim_func_call s parent_node lhs callee).1.firmod.var2flip = s.firmod.var2flip := rfl

theorem prim_op_emit_flip (op2firsub : List (PrimOp_Op × String)) (hd : Prim_handler)
    (s s2 : Env) (op : PrimOp_Op) (const_ : List String) (parent_node : Nat)
    (lhs e1 e2 : String)
    (h : prim_op_emit op2firsub hd s op const_ parent_node lhs e1 e2 = .ok s2) :
    s2.firmod.var2flip = s.firmod.var2flip := by
  cases hd
  case unary =>
    simp only [prim_op_emit] at h
    have h1 := attach_expr_str2node_flip _ _ _ _ h
    exact h1.trans (prim_func_call_flip _ _ _ _)
  case and_reduce =>
    simp only [prim_op_emit] at h
    have h1 := attach_expr_str2node_flip _ _ _ _ h
    exact h1.trans (prim_func_call_flip _ _ _ _)
  case or_reduce =>
    simp only [prim_op_emit] at h
    rw [← Except.ok.inj h]; rfl
  case xor_reduce =>
    simp only [prim_op_emit] at h
    rw [← Except.ok.inj h]; rfl
  case negate =>
    simp only [prim_op_emit] at h
    rw [← Except.ok.inj h]; rfl
  case conv =>
    simp only [prim_op_emit] at h
    rw [← Except.ok.inj h]; rfl
  case extract_bits =>
    simp only [prim_op_emit] at h
    obtain ⟨a, _, h⟩ := bind_eq_ok _ _ _ h
    obtain ⟨b, _, h⟩ := bind_eq_ok _ _ _ h
    rw [← Except.ok.inj h]; rfl
  case head =>
    simp only [prim_op_emit] at h
    obtain ⟨a, _, h⟩ := bind_eq_ok _ _ _ h
    rw [← Except.ok.inj h]; rfl
  case tail =>
    simp only [prim_op_emit] at h
    obtain ⟨a, _, h⟩ := bind_eq_ok _ _ _ h
    rw [← Except.ok.inj h]; rfl
  case concat =>
    simp only [prim_op_emit] at h
    obtain ⟨a, ha, h⟩ := bind_eq_ok _ _ _ h
    have h1 := attach_expr_str2node_flip _ _ _ _ h
    have h2 := attach_expr_str2node_flip _ _ _ _ ha
    exact h1.trans (h2.trans (prim_func_call_flip _ _ _ _))
  case pad =>
    simp only [prim_op_emit] at h
    obtain ⟨a, _, h⟩ := bind_eq_ok _ _ _ h
    rw [← Except.ok.inj h]; rfl
  case binary =>
    simp only [prim_op_emit] at h
    obtain ⟨c, _, h⟩ := bind_eq_ok _ _ _ h
    obtain ⟨a, ha, h⟩ := bind_eq_ok _ _ _ h
    have h1 := attach_expr_str2node_flip _ _ _ _ h
    have h2 := attach_expr_str2node_flip _ _ _ _ ha
    exact h1.trans (h2.trans (prim_func_call_flip _ _ _ _))
  case static_shift =>
    simp only [prim_op_emit] at h
    obtain ⟨c, _, h⟩ := bind_eq_ok _ _ _ h
    obtain ⟨a, ha, h⟩ := bind_eq_ok _ _ _ h
    obtain ⟨b, _, h⟩ := bind_eq_ok _ _ _ h
    have h2 := attach_expr_str2node_flip _ _ _ _ ha
    rw [← Except.ok.inj h]
    exact h2.trans (prim_func_call_flip _ _ _ _)
  case as_usint =>
    simp only [prim_op_emit] at h
    obtain ⟨c, _, h⟩ := bind_eq_ok _ _ _ h
    have h1 := attach_expr_str2node_flip _ _ _ _ h
    exact h1.trans (prim_func_call_flip _ _ _ _)
  case type_conv =>
    simp only [prim_op_emit] at h
    obtain ⟨c, _, h⟩ := bind_eq_ok _ _ _ h
    split at h <;> · rw [← Except.ok.inj h]; rfl
  all_goals
    simp only [prim_op_emit] at h
    exact absurd h (by simp)

end Inou_firrtl_module

namespace Inou_firrtl_module

theorem get_vector_size_flip (s : Env) (vec_name : String) :
    (get_vector_size s vec_name).2.firmod.var2flip = s.firmod.var2flip := by
  unfold get_vector_size
  cases s.firmod.var2vec_size.find vec_name with
  | some n => rfl
  | none =>
    simp only []
    cases (s.warn "the \"if\" statement below is to enable RocketTile LG generation"
      ).glob_info.module_var2vec_size.find s.lnast.top_module_name with
    | none => rfl
    | some io => rfl

theorem runtime_idx_eq_loop_flip (parent_node : Nat) (rtidx_str : String) :
    ∀ (k i : Nat) (s : Env) (cond_strs : List String),
      (runtime_idx_eq_loop parent_node rtidx_str k i s cond_strs).1.firmod.var2flip
        = s.firmod.var2flip
  | 0, _, _, _ => rfl
  | k + 1, i, s, cond_strs => by
    rw [runtime_idx_eq_loop]
    exact (runtime_idx_eq_loop_flip parent_node rtidx_str k (i + 1) _ _).trans rfl

theorem add_lnast_assign_flip (s : Env) (parent_node : Nat) (lhs rhs : String) :
    (add_lnast_assign s parent_node lhs rhs).firmod.var2flip = s.firmod.var2flip := by
  unfold add_lnast_assign
  by_cases hn : Str.starts_numeric rhs = true
  · simp only [hn, if_true]
    rfl
  · simp only [hn]
    rfl

theorem rhs_runtime_idx_branches_flip (idx_mux : Nat) (lhs vec_name : String)
    (is_2d : Bool) (leaf : String) (cond_strs : List String) :
    ∀ (k i : Nat) (s s2 : Env),
      rhs_runtime_idx_branches idx_mux lhs vec_name is_2d leaf cond_strs k i s = .ok s2 →
      s2.firmod.var2flip = s.firmod.var2flip
  | 0, _, s, s2, h => by
    rw [rhs_runtime_idx_branches] at h
    rw [← Except.ok.inj h]
  | k + 1, i, s, s2, h => by
    rw [rhs_runtime_idx_branches] at h
    obtain ⟨a, _, h⟩ := bind_eq_ok _ _ _ h
    have h1 := rhs_runtime_idx_branches_flip idx_mux lhs vec_name is_2d leaf cond_strs k
      (i + 1) _ s2 h
    exact h1.trans ((add_lnast_assign_flip _ _ _ _).trans rfl)

theorem handle_rhs_runtime_idx_flip (s s2 : Env) (parent_node : Nat) (l r : String)
    (e : FirrtlPB_Expression) (h : handle_rhs_runtime_idx s parent_node l r e = .ok s2) :
    s2.firmod.var2flip = s.firmod.var2flip := by
  unfold handle_rhs_runtime_idx at h
  obtain ⟨a, _, h⟩ := bind_eq_ok _ _ _ h
  obtain ⟨b, _, h⟩ := bind_eq_ok _ _ _ h
  obtain ⟨c, _, h⟩ := bind_eq_ok _ _ _ h
  obtain ⟨d, _, h⟩ := bind_eq_ok _ _ _ h
  have h1 := rhs_runtime_idx_branches_flip _ _ _ _ _ _ _ _ _ _ h
  exact h1.trans ((runtime_idx_eq_loop_flip _ _ _ _ _ _).trans (get_vector_size_flip _ _))

end Inou_firrtl_module

namespace Inou_firrtl_module

mutual

theorem get_expr_hier_name_flip (op2firsub : List (PrimOp_Op × String)) :
    ∀ (e : FirrtlPB_Expression) (p : Nat) (s : Env) (r : String × Env),
      get_expr_hier_name op2firsub e p s = .ok r → r.2.firmod.var2flip = s.firmod.var2flip
  | .kSubField e field, p, s, r, h => by
    rw [get_expr_hier_name] at h
    obtain ⟨a, ha, h⟩ := bind_eq_ok _ _ _ h
    rw [← Except.ok.inj h]
    exact get_expr_hier_name_flip op2firsub e p s a ha
  | .kSubAccess e index, p, s, r, h => by
    rw [get_expr_hier_name] at h
    obtain ⟨a, ha, h⟩ := bind_eq_ok _ _ _ h
    obtain ⟨b, hb, h⟩ := bind_eq_ok _ _ _ h
    rw [← Except.ok.inj h]
    exact (get_expr_hier_name_flip op2firsub e p a.2 b hb).trans
      (get_expr_hier_name_flip op2firsub index p s a ha)
  | .kSubIndex e index, p, s, r, h => by
    rw [get_expr_hier_name] at h
    obtain ⟨a, ha, h⟩ := bind_eq_ok _ _ _ h
    rw [← Except.ok.inj h]
    exact get_expr_hier_name_flip op2firsub e p s a ha
  | .kReference id, p, s, r, h => by
    rw [get_expr_hier_name] at h
    rw [← Except.ok.inj h]
  | .kPrimOp op arg const_, p, s, r, h => by
    rw [get_expr_hier_name] at h
    obtain ⟨a, ha, h⟩ := bind_eq_ok _ _ _ h
    rw [← Except.ok.inj h]
    exact (list_prime_op_info_flip op2firsub op arg const_ p _ _ a ha).trans rfl
  | .kUintLiteral value width, p, s, r, h => by
    rw [get_expr_hier_name] at h
    rw [← Except.ok.inj h]
  | .kSintLiteral _ _, p, s, r, h => by
    simp only [get_expr_hier_name] at h
    rw [← Except.ok.inj h]
  | .kFixedLiteral, p, s, r, h => by
    simp only [get_expr_hier_name] at h
    rw [← Except.ok.inj h]
  | .kValidIf _ _, p, s, r, h => by
    simp only [get_expr_hier_name] at h
    rw [← Except.ok.inj h]
  | .kMux _ _ _, p, s, r, h => by
    simp only [get_expr_hier_name] at h
    rw [← Except.ok.inj h]
  | .EXPRESSION_NOT_SET, p, s, r, h => by
    simp only [get_expr_hier_name] at h
    rw [← Except.ok.inj h]

theorem expr_str_flattened_or_tg_flip (op2firsub : List (PrimOp_Op × String))
    (e : FirrtlPB_Expression) (p : Nat) (s : Env) (r : String × Env)
    (h : expr_str_flattened_or_tg op2firsub e p s = .ok r) :
    r.2.firmod.var2flip = s.firmod.var2flip := by
  cases e with
  | kPrimOp op arg const_ =>
    rw [expr_str_flattened_or_tg] at h
    simp only [] at h
    split at h
    · obtain ⟨a, ha, h⟩ := bind_eq_ok _ _ _ h
      rw [← Except.ok.inj h]
      exact (handle_rhs_runtime_idx_flip _ _ _ _ _ _ ha).trans rfl
    · obtain ⟨a, ha, h⟩ := bind_eq_ok _ _ _ h
      rw [← Except.ok.inj h]
      exact (list_prime_op_info_flip op2firsub op arg const_ p _ _ a ha).trans rfl
  | kReference id =>
    simp only [expr_str_flattened_or_tg] at h
    split at h
    · obtain ⟨a, ha, h⟩ := bind_eq_ok _ _ _ h
      rw [← Except.ok.inj h]
      exact (handle_rhs_runtime_idx_flip _ _ _ _ _ _ ha).trans rfl
    · obtain ⟨a, ha, h⟩ := bind_eq_ok _ _ _ h
      rw [← Except.ok.inj h]
  | kUintLiteral v w =>
    simp only [expr_str_flattened_or_tg] at h
    split at h
    · obtain ⟨a, ha, h⟩ := bind_eq_ok _ _ _ h
      rw [← Except.ok.inj h]
      exact (handle_rhs_runtime_idx_flip _ _ _ _ _ _ ha).trans rfl
    · obtain ⟨a, ha, h⟩ := bind_eq_ok _ _ _ h
      rw [← Except.ok.inj h]
  | kSintLiteral v w =>
    simp only [expr_str_flattened_or_tg] at h
    split at h
    · obtain ⟨a, ha, h⟩ := bind_eq_ok _ _ _ h
      rw [← Except.ok.inj h]
      exact (handle_rhs_runtime_idx_flip _ _ _ _ _ _ ha).trans rfl
    · obtain ⟨a, ha, h⟩ := bind_eq_ok _ _ _ h
      rw [← Except.ok.inj h]
  | kFixedLiteral =>
    simp only [expr_str_flattened_or_tg] at h
    split at h
    · obtain ⟨a, ha, h⟩ := bind_eq_ok _ _ _ h
      rw [← Except.ok.inj h]
      exact (handle_rhs_runtime_idx_flip _ _ _ _ _ _ ha).trans rfl
    · obtain ⟨a, ha, h⟩ := bind_eq_ok _ _ _ h
      rw [← Except.ok.inj h]
  | kValidIf c v =>
    simp only [expr_str_flattened_or_tg] at h
    split at h
    · obtain ⟨a, ha, h⟩ := bind_eq_ok _ _ _ h
      rw [← Except.ok.inj h]
      exact (handle_rhs_runtime_idx_flip _ _ _ _ _ _ ha).trans rfl
    · obtain ⟨a, ha, h⟩ := bind_eq_ok _ _ _ h
      rw [← Except.ok.inj h]
  | kMux c t f =>
    simp only [expr_str_flattened_or_tg] at h
    split at h
    · obtain ⟨a, ha, h⟩ := bind_eq_ok _ _ _ h
      rw [← Except.ok.inj h]
      exact (handle_rhs_runtime_idx_flip _ _ _ _ _ _ ha).trans rfl
    · obtain ⟨a, ha, h⟩ := bind_eq_ok _ _ _ h
      rw [← Except.ok.inj h]
  | kSubField e2 f =>
    simp only [expr_str_flattened_or_tg] at h
    split at h
    · obtain ⟨a, ha, h⟩ := bind_eq_ok _ _ _ h
      rw [← Except.ok.inj h]
      exact (handle_rhs_runtime_idx_flip _ _ _ _ _ _ ha).trans rfl
    · obtain ⟨a, ha, h⟩ := bind_eq_ok _ _ _ h
      rw [← Except.ok.inj h]
  | kSubIndex e2 i =>
    simp only [expr_str_flattened_or_tg] at h
    split at h
    · obtain ⟨a, ha, h⟩ := bind_eq_ok _ _ _ h
      rw [← Except.ok.inj h]
      exact (handle_rhs_runtime_idx_flip _ _ _ _ _ _ ha).trans rfl
    · obtain ⟨a, ha, h⟩ := bind_eq_ok _ _ _ h
      rw [← Except.ok.inj h]
  | kSubAccess e2 i =>
    simp only [expr_str_flattened_or_tg] at h
    split at h
    · obtain ⟨a, ha, h⟩ := bind_eq_ok _ _ _ h
      rw [← Except.ok.inj h]
      exact (handle_rhs_runtime_idx_flip _ _ _ _ _ _ ha).trans rfl
    · obtain ⟨a, ha, h⟩ := bind_eq_ok _ _ _ h
      rw [← Except.ok.inj h]
  | EXPRESSION_NOT_SET =>
    simp only [expr_str_flattened_or_tg] at h
    split at h
    · obtain ⟨a, ha, h⟩ := bind_eq_ok _ _ _ h
      rw [← Except.ok.inj h]
      exact (handle_rhs_runtime_idx_flip _ _ _ _ _ _ ha).trans rfl
    · obtain ⟨a, ha, h⟩ := bind_eq_ok _ _ _ h
      rw [← Except.ok.inj h]

theorem list_prime_op_info_flip (op2firsub : List (PrimOp_Op × String)) (op : PrimOp_Op) :
    ∀ (arg : List FirrtlPB_Expression) (const_ : List String) (p : Nat) (lhs : String)
      (s s2 : Env), list_prime_op_info op2firsub op arg const_ p lhs s = .ok s2 →
      s2.firmod.var2flip = s.firmod.var2flip
  | [], const_, p, lhs, s, s2, h => by
    rw [list_prime_op_info] at h
    obtain ⟨_, _, h⟩ := bind_eq_ok _ _ _ h
    exact absurd h (by simp)
  | a0 :: rest, const_, p, lhs, s, s2, h => by
    rw [list_prime_op_info] at h
    obtain ⟨_, _, h⟩ := bind_eq_ok _ _ _ h
    simp only [] at h
    obtain ⟨r1, hr1, h⟩ := bind_eq_ok _ _ _ h
    have h1 := expr_str_flattened_or_tg_flip op2firsub a0 p s r1 hr1
    split at h
    · cases rest with
      | nil => exact absurd h (by simp)
      | cons a1 rest2 =>
        simp only [] at h
        obtain ⟨r2, hr2, h⟩ := bind_eq_ok _ _ _ h
        have h2 := expr_str_flattened_or_tg_flip op2firsub a1 p r1.2 r2 hr2
        exact (prim_op_emit_flip _ _ _ _ _ _ _ _ _ _ h).trans (h2.trans h1)
    · exact (prim_op_emit_flip _ _ _ _ _ _ _ _ _ _ h).trans h1

end

end Inou_firrtl_module

namespace Inou_firrtl_module

theorem mux_value_str_flip (op2firsub : List (PrimOp_Op × String)) (s : Env) (p : Nat)
    (e : FirrtlPB_Expression) (r : String × Env)
    (h : mux_value_str op2firsub s p e = .ok r) :
    r.2.firmod.var2flip = s.firmod.var2flip := by
  unfold mux_value_str at h
  simp only [] at h
  split at h
  · obtain ⟨a, ha, h⟩ := bind_eq_ok _ _ _ h
    rw [← Except.ok.inj h]
    exact (handle_rhs_runtime_idx_flip _ _ _ _ _ _ ha).trans rfl
  · exact get_expr_hier_name_flip op2firsub e p s r h

theorem mux_if_skeleton_flip (op2firsub : List (PrimOp_Op × String)) (s : Env) (p : Nat)
    (lhs : String) (c : FirrtlPB_Expression) (r : Env × Nat × Nat)
    (h : mux_if_skeleton op2firsub s p lhs c = .ok r) :
    r.1.firmod.var2flip = s.firmod.var2flip := by
  unfold mux_if_skeleton at h
  simp only [] at h
  obtain ⟨a, ha, h⟩ := bind_eq_ok _ _ _ h
  obtain ⟨b, hb, h⟩ := bind_eq_ok _ _ _ h
  have h1 := expr_str_flattened_or_tg_flip _ _ _ _ _ ha
  have h2 := attach_expr_str2node_flip _ _ _ _ hb
  rw [← Except.ok.inj h]
  exact h2.trans (h1.trans rfl)

theorem mux_rare_cases_flip (op2firsub : List (PrimOp_Op × String)) (p : Nat)
    (lhs t_str f_str : String) (is_instance : Bool) (instance_name : String)
    (c : FirrtlPB_Expression) : ∀ (names : List String) (s s2 : Env),
    mux_rare_cases op2firsub p lhs t_str f_str is_instance instance_name c names s = .ok s2 →
    s2.firmod.var2flip = s.firmod.var2flip
  | [], s, s2, h => by
    rw [mux_rare_cases] at h
    rw [← Except.ok.inj h]
  | n :: rest, s, s2, h => by
    rw [mux_rare_cases] at h
    obtain ⟨a, ha, h⟩ := bind_eq_ok _ _ _ h
    obtain ⟨b, hb, h⟩ := bind_eq_ok _ _ _ h
    simp only [] at h
    obtain ⟨c1, hc1, h⟩ := bind_eq_ok _ _ _ h
    obtain ⟨c2, hc2, h⟩ := bind_eq_ok _ _ _ h
    have h1 := mux_if_skeleton_flip _ _ _ _ _ _ hb
    have h2 := mux_rare_cases_flip op2firsub p lhs t_str f_str is_instance instance_name c
      rest _ s2 h
    exact h2.trans ((add_lnast_assign_flip _ _ _ _).trans
      ((add_lnast_assign_flip _ _ _ _).trans h1))

theorem handle_mux_assign_flip (op2firsub : List (PrimOp_Op × String)) (s s2 : Env)
    (c t f : FirrtlPB_Expression) (p : Nat) (lhs : String)
    (h : handle_mux_assign op2firsub s c t f p lhs = .ok s2) :
    s2.firmod.var2flip = s.firmod.var2flip ∨
      ∃ names : List String, s2.firmod.var2flip = s.firmod.var2flip.insert_or_assign lhs
        (names.foldl (fun set n => set_insert set (lhs ++ "." ++ n, false))
          (s.firmod.var2flip.get lhs [])) := by
  unfold handle_mux_assign at h
  obtain ⟨_, _, h⟩ := bind_eq_ok _ _ _ h
  obtain ⟨r1, hr1, h⟩ := bind_eq_ok _ _ _ h
  obtain ⟨r2, hr2, h⟩ := bind_eq_ok _ _ _ h
  have h1 := mux_value_str_flip _ _ _ _ _ hr1
  have h2 := mux_value_str_flip _ _ _ _ _ hr2
  simp only [] at h
  split at h
  · obtain ⟨names, hnames, h⟩ := bind_eq_ok _ _ _ h
    split at h
    · obtain ⟨sk, hsk, h⟩ := bind_eq_ok _ _ _ h
      obtain ⟨ts, _, h⟩ := bind_eq_ok _ _ _ h
      obtain ⟨fs, _, h⟩ := bind_eq_ok _ _ _ h
      have h3 := mux_if_skeleton_flip _ _ _ _ _ _ hsk
      left
      rw [← Except.ok.inj h]
      exact (add_lnast_assign_flip _ _ _ _).trans ((add_lnast_assign_flip _ _ _ _).trans
        (h3.trans (h2.trans h1)))
    · obtain ⟨s3, hs3, h⟩ := bind_eq_ok _ _ _ h
      have h3 := (mux_rare_cases_flip _ _ _ _ _ _ _ _ _ _ _ hs3).trans (h2.trans h1)
      split at h
      · right
        refine ⟨names, ?_⟩
        rw [← Except.ok.inj h]
        show s3.firmod.var2flip.insert_or_assign lhs
          (names.foldl (fun set n => set_insert set (lhs ++ "." ++ n, false))
            (s3.firmod.var2flip.get lhs [])) = _
        rw [h3]
      · left
        rw [← Except.ok.inj h]
        exact h3
  · split at h
    · obtain ⟨names, hnames, h⟩ := bind_eq_ok _ _ _ h
      split at h
      · obtain ⟨sk, hsk, h⟩ := bind_eq_ok _ _ _ h
        obtain ⟨ts, _, h⟩ := bind_eq_ok _ _ _ h
        obtain ⟨fs, _, h⟩ := bind_eq_ok _ _ _ h
        have h3 := mux_if_skeleton_flip _ _ _ _ _ _ hsk
        left
        rw [← Except.ok.inj h]
        exact (add_lnast_assign_flip _ _ _ _).trans ((add_lnast_assign_flip _ _ _ _).trans
          (h3.trans (h2.trans h1)))
      · obtain ⟨s3, hs3, h⟩ := bind_eq_ok _ _ _ h
        have h3 := (mux_rare_cases_flip _ _ _ _ _ _ _ _ _ _ _ hs3).trans (h2.trans h1)
        split at h
        · right
          refine ⟨names, ?_⟩
          rw [← Except.ok.inj h]
          show s3.firmod.var2flip.insert_or_assign lhs
            (names.foldl (fun set n => set_insert set (lhs ++ "." ++ n, false))
              (s3.firmod.var2flip.get lhs [])) = _
          rw [h3]
        · left
          rw [← Except.ok.inj h]
          exact h3
    · obtain ⟨names, hnames, h⟩ := bind_eq_ok _ _ _ h
      split at h
      · obtain ⟨sk, hsk, h⟩ := bind_eq_ok _ _ _ h
        obtain ⟨ts, _, h⟩ := bind_eq_ok _ _ _ h
        obtain ⟨fs, _, h⟩ := bind_eq_ok _ _ _ h
        have h3 := mux_if_skeleton_flip _ _ _ _ _ _ hsk
        left
        rw [← Except.ok.inj h]
        exact (add_lnast_assign_flip _ _ _ _).trans ((add_lnast_assign_flip _ _ _ _).trans
          (h3.trans (h2.trans h1)))
      · obtain ⟨s3, hs3, h⟩ := bind_eq_ok _ _ _ h
        have h3 := (mux_rare_cases_flip _ _ _ _ _ _ _ _ _ _ _ hs3).trans (h2.trans h1)
        split at h
        · right
          refine ⟨names, ?_⟩
          rw [← Except.ok.inj h]
          show s3.firmod.var2flip.insert_or_assign lhs
            (names.foldl (fun set n => set_insert set (lhs ++ "." ++ n, false))
              (s3.firmod.var2flip.get lhs [])) = _
          rw [h3]
        · left
          rw [← Except.ok.inj h]
          exact h3

end Inou_firrtl_module

/-- C37: every entry stored under a key of the module-local flip table is the key itself
or begins with the key followed by a dot: this holds in the empty table, and it is
preserved by `add_local_flip_info` (scalar and hierarchical case) and by every successful
run of `handle_mux_assign`, whose only change of the table is the update for an
aggregate-valued mux (the entries `lhs.<leaf>` added to the set of the key `lhs`). -/
theorem flip_table_invariant (s : Env) (hinv : flip_table_inv s.firmod.var2flip = true) :
    flip_table_inv ([] : Table Flip_set) = true ∧
      (∀ (flipped_in : Bool) (id : String) (s2 : Env),
        Inou_firrtl_module.add_local_flip_info s flipped_in id = .ok s2 →
        flip_table_inv s2.firmod.var2flip = true) ∧
      (∀ (op2firsub : List (PrimOp_Op × String)) (condition t_value f_value : FirrtlPB_Expression)
        (parent_node : Nat) (lhs : String) (s2 : Env),
        Inou_firrtl_module.handle_mux_assign op2firsub s condition t_value f_value
          parent_node lhs = .ok s2 →
        flip_table_inv s2.firmod.var2flip = true ∧
          (s2.firmod.var2flip = s.firmod.var2flip ∨
            ∃ names : List String,
              s2.firmod.var2flip = s.firmod.var2flip.insert_or_assign lhs
                (names.foldl (fun set n => set_insert set (lhs ++ "." ++ n, false))
                  (s.firmod.var2flip.get lhs [])))) := by
  refine ⟨rfl, fun flipped_in id s2 h => flip_table_inv_add_local s s2 flipped_in id hinv h,
    fun op2firsub c t f p lhs s2 h => ?_⟩
  have hf := Inou_firrtl_module.handle_mux_assign_flip op2firsub s s2 c t f p lhs h
  refine ⟨?_, hf⟩
  rcases hf with hf | ⟨names, hf⟩
  · rw [hf]
    exact hinv
  · rw [hf]
    exact flip_table_inv_mux_update _ lhs names hinv

theorem flip_table_invariant_witness :
    flip_table_inv connect_wires_env.firmod.var2flip = true ∧
      (Inou_firrtl_module.add_local_flip_info (Env.fresh "M") true "w.a.b").map
          (fun s2 => (s2.firmod.var2flip, flip_table_inv s2.firmod.var2flip))
        = .ok ([("w", [("w.a.b", true)])], true) ∧
      (Inou_firrtl_module.handle_mux_assign [] connect_wires_env (.kReference "c")
          (.kReference "w") (.kReference "v") 1 "d").map
          (fun s2 => (s2.firmod.var2flip, flip_table_inv s2.firmod.var2flip))
        = .ok ([("w", [("w.a", false), ("w.b", true)]), ("v", [("v.a", false), ("v.b", true)]),
            ("d", [("d.a", false), ("d.b", false)])], true) ∧
      ∀ s2, Inou_firrtl_module.handle_mux_assign [] connect_wires_env (.kReference "c")
          (.kReference "w") (.kReference "v") 1 "d" = .ok s2 →
        flip_table_inv s2.firmod.var2flip = true :=
  ⟨by decide!, by decide!, by decide!,
    fun s2 h => ((flip_table_invariant connect_wires_env (by decide!)).2.2 []
      (.kReference "c") (.kReference "w") (.kReference "v") 1 "d" s2 h).1⟩

namespace Inou_firrtl

theorem foldlM_flip_mem (mod_id key : String) (g : Env → Nat → Except String Env)
    (Q : Nat → String × Bool → Prop) : ∀ (l : List Nat) (s : Env),
    (∀ i ∈ l, ∀ s, ∃ s', g s i = .ok s' ∧
      ∀ e, e ∈ glob_flip_get s' mod_id key ↔ e ∈ glob_flip_get s mod_id key ∨ Q i e) →
    ∃ s', l.foldlM g s = .ok s' ∧
      ∀ e, e ∈ glob_flip_get s' mod_id key ↔
        e ∈ glob_flip_get s mod_id key ∨ ∃ i ∈ l, Q i e
  | [], s, _ => ⟨s, rfl, by simp⟩
  | i :: rest, s, h => by
    obtain ⟨s1, h1, he1⟩ := h i (List.mem_cons_self _ _) s
    obtain ⟨s2, h2, he2⟩ := foldlM_flip_mem mod_id key g Q rest s1
      (fun j hj => h j (List.mem_cons_of_mem _ hj))
    refine ⟨s2, by rw [List.foldlM_cons, h1]; exact h2, fun e => ?_⟩
    rw [he2, he1]
    simp only [List.mem_cons, exists_eq_or_imp, or_assoc]

theorem port_paths_vector_ok (t : FirrtlPB_Type) (n i : Nat) (hi : i < n)
    (h : port_paths_ok (.kVectorType t n) = true) : port_paths_ok t = true := by
  unfold port_paths_ok at h ⊢
  rw [port_leaf_paths] at h
  simp only [List.all_eq_true, List.mem_flatMap, List.mem_range, List.mem_map] at h ⊢
  intro p hp
  exact h ((Str.of_nat i, false) :: p.1, p.2) ⟨i, hi, p, hp, rfl⟩

theorem port_vector_paths (t : FirrtlPB_Type) (n : Nat) (id : String) (f : Bool)
    (e : String × Bool) :
    (∃ i ∈ List.range n, ∃ p ∈ port_leaf_paths t, port_leaf_recorded p.2 = true ∧
        e = (path_name (id ++ "." ++ Str.of_nat i) p.1, xor f (xor_flips p.1))) ↔
      ∃ p ∈ port_leaf_paths (.kVectorType t n), port_leaf_recorded p.2 = true ∧
        e = (path_name id p.1, xor f (xor_flips p.1)) := by
  rw [port_leaf_paths]
  simp only [List.mem_flatMap, List.mem_map]
  constructor
  · rintro ⟨i, hi, p, hp, hr, rfl⟩
    exact ⟨_, ⟨i, hi, p, hp, rfl⟩, hr, by simp [path_name, xor_flips]⟩
  · rintro ⟨_, ⟨i, hi, p, hp, rfl⟩, hr, rfl⟩
    exact ⟨i, hi, p, hp, hr, by simp [path_name, xor_flips]⟩

theorem port_all_scalar_step (s : Env) (mod_id : String) (f : Bool) (id b : String)
    (t : FirrtlPB_Type) (dir bits : Nat) (sign : Bool) (r : Except String Env)
    (hp : port_leaf_paths t = [([], t)])
    (hr : (port_leaf_recorded t = true ∧
            r = .ok (add_global_io_flipness (record_port_dir s mod_id (id ++ "." ++ b) dir bits sign)
                  mod_id f (id ++ "." ++ b))) ∨
          (port_leaf_recorded t = false ∧
            r = .ok (record_port_dir s mod_id (id ++ "." ++ b) dir bits sign))) :
    ∃ s', r = .ok s' ∧
      ∀ e, e ∈ glob_flip_get s' mod_id (Str.head id) ↔ e ∈ glob_flip_get s mod_id (Str.head id) ∨
        ∃ p ∈ port_leaf_paths t, port_leaf_recorded p.2 = true ∧
          e = (path_name (id ++ "." ++ b) p.1, xor f (xor_flips p.1)) := by
  rcases hr with ⟨hrec, rfl⟩ | ⟨hrec, rfl⟩
  · refine ⟨_, rfl, ?_⟩
    intro e
    rw [add_global_io_flipness_dotted, glob_flip_get_record_port_dir, hp]
    simp [path_name, xor_flips, hrec]
  · refine ⟨_, rfl, ?_⟩
    intro e
    rw [glob_flip_get_record_port_dir, hp]
    simp [hrec]

mutual

theorem port_flip_all_dotted : ∀ (t : FirrtlPB_Type) (mod_id : String) (dir : Nat)
    (id b : String) (f : Bool) (s : Env), port_paths_ok t = true → (dir = 1 ∨ dir = 2) →
    ∃ s', add_port_to_map mod_id t dir f (id ++ "." ++ b) s = .ok s' ∧
      ∀ e, e ∈ glob_flip_get s' mod_id (Str.head id) ↔ e ∈ glob_flip_get s mod_id (Str.head id) ∨
        ∃ p ∈ port_leaf_paths t, port_leaf_recorded p.2 = true ∧
          e = (path_name (id ++ "." ++ b) p.1, xor f (xor_flips p.1))
  | .kBundleType fs, mod_id, dir, id, b, f, s, hl, hd => by
    have h := port_flip_all_fields fs mod_id dir (id ++ "." ++ b) f s
      (by simpa [port_paths_ok, port_leaf_paths] using hl) hd
    rw [Str.head_append_dot] at h
    simpa [add_port_to_map, port_leaf_paths] using h
  | .kVectorType t n, mod_id, dir, id, b, f, s, hl, hd => by
    rw [add_port_to_map]
    obtain ⟨s', h1, he⟩ := foldlM_flip_mem mod_id (Str.head id)
      (fun s i => add_port_to_map mod_id t dir f (id ++ "." ++ b ++ "." ++ Str.of_nat i) s)
      (fun i e => ∃ p ∈ port_leaf_paths t, port_leaf_recorded p.2 = true ∧
        e = (path_name (id ++ "." ++ b ++ "." ++ Str.of_nat i) p.1, xor f (xor_flips p.1)))
      (List.range n)
      { s with glob_info := { s.glob_info with
          module_var2vec_size := s.glob_info.module_var2vec_size.insert_or_assign mod_id
            [(id ++ "." ++ b, n % 65536)] } }
      (fun i hi s1 => by
        have h := port_flip_all_dotted t mod_id dir (id ++ "." ++ b) (Str.of_nat i) f s1
          (port_paths_vector_ok t n i (List.mem_range.mp hi) hl) hd
        rw [Str.head_append_dot] at h
        exact h)
    refine ⟨s', h1, fun e => ?_⟩
    rw [he, port_vector_paths]
    rfl
  | .kFixedType, _, _, _, _, _, _, hl, _ => by
    simp [port_paths_ok, port_leaf_paths, port_leaf_ok] at hl
  | .kAnalogType _, _, _, _, _, _, _, hl, _ => by
    simp [port_paths_ok, port_leaf_paths, port_leaf_ok] at hl
  | .TYPE_NOT_SET, _, _, _, _, _, _, hl, _ => by
    simp [port_paths_ok, port_leaf_paths, port_leaf_ok] at hl
  | .kUintType w, mod_id, dir, id, b, f, s, _, _ => by
    apply port_all_scalar_step s mod_id f id b (.kUintType w) dir w false _ (by simp [port_leaf_paths])
    by_cases hw : w = 0
    · exact Or.inr ⟨by simp [port_leaf_recorded, hw], by simp [add_port_to_map, hw]⟩
    · exact Or.inl ⟨by simp [port_leaf_recorded, hw], by simp [add_port_to_map, hw]⟩
  | .kSintType w, mod_id, dir, id, b, f, s, _, _ => by
    apply port_all_scalar_step s mod_id f id b (.kSintType w) dir 0 true _ (by simp [port_leaf_paths])
    by_cases hw : w = 0
    · exact Or.inr ⟨by simp [port_leaf_recorded, hw],
        by simp [add_port_to_map, hw, FirrtlPB_Type.uint_width]⟩
    · exact Or.inl ⟨by simp [port_leaf_recorded, hw],
        by simp [add_port_to_map, hw, FirrtlPB_Type.uint_width]⟩
  | .kClockType, mod_id, dir, id, b, f, s, _, _ => by
    apply port_all_scalar_step s mod_id f id b .kClockType dir 0 false _ (by simp [port_leaf_paths])
    exact Or.inl ⟨rfl, by simp [add_port_to_map, FirrtlPB_Type.uint_width]⟩
  | .kResetType, mod_id, dir, id, b, f, s, _, _ => by
    apply port_all_scalar_step s mod_id f id b .kResetType dir 0 false _ (by simp [port_leaf_paths])
    exact Or.inl ⟨rfl, by simp [add_port_to_map, FirrtlPB_Type.uint_width]⟩
  | .kAsyncResetType, mod_id, dir, id, b, f, s, _, _ => by
    apply port_all_scalar_step s mod_id f id b .kAsyncResetType dir 0 false _
      (by simp [port_leaf_paths])
    exact Or.inl ⟨rfl, by simp [add_port_to_map, FirrtlPB_Type.uint_width]⟩

theorem port_flip_all_fields : ∀ (fs : List (String × Bool × FirrtlPB_Type)) (mod_id : String)
    (dir : Nat) (id : String) (f : Bool) (s : Env),
    (port_leaf_paths.fields fs).all (fun p => port_leaf_ok p.2) = true → (dir = 1 ∨ dir = 2) →
    ∃ s', add_port_to_map.fields mod_id fs dir f id s = .ok s' ∧
      ∀ e, e ∈ glob_flip_get s' mod_id (Str.head id) ↔ e ∈ glob_flip_get s mod_id (Str.head id) ∨
        ∃ p ∈ port_leaf_paths.fields fs, port_leaf_recorded p.2 = true ∧
          e = (path_name id p.1, xor f (xor_flips p.1))
  | [], _, _, _, _, s, _, _ =>
    ⟨s, rfl, by simp [port_leaf_paths.fields]⟩
  | (fid, fl, ft) :: rest, mod_id, dir, id, f, s, hl, hd => by
    simp only [port_leaf_paths.fields, List.all_append, Bool.and_eq_true, List.all_map] at hl
    have hcomb : ∀ (s1 s2 : Env),
        (∀ e, e ∈ glob_flip_get s1 mod_id (Str.head id) ↔
          e ∈ glob_flip_get s mod_id (Str.head id) ∨
          ∃ p ∈ port_leaf_paths ft, port_leaf_recorded p.2 = true ∧
            e = (path_name (id ++ "." ++ fid) p.1, xor (if fl then !f else f) (xor_flips p.1))) →
        (∀ e, e ∈ glob_flip_get s2 mod_id (Str.head id) ↔
          e ∈ glob_flip_get s1 mod_id (Str.head id) ∨
          ∃ p ∈ port_leaf_paths.fields rest, port_leaf_recorded p.2 = true ∧
            e = (path_name id p.1, xor f (xor_flips p.1))) →
        ∀ e, e ∈ glob_flip_get s2 mod_id (Str.head id) ↔
          e ∈ glob_flip_get s mod_id (Str.head id) ∨
          ∃ p ∈ port_leaf_paths.fields ((fid, fl, ft) :: rest), port_leaf_recorded p.2 = true ∧
            e = (path_name id p.1, xor f (xor_flips p.1)) := by
      intro s1 s2 he1 he2 e
      rw [he2, he1]
      simp only [port_leaf_paths.fields, List.mem_append, List.mem_map]
      constructor
      · rintro ((h | ⟨p, hp, hr, rfl⟩) | ⟨p, hp, hr, rfl⟩)
        · exact Or.inl h
        · exact Or.inr ⟨_, Or.inl ⟨p, hp, rfl⟩, hr,
            by simp [path_name, xor_flips, Inou_firrtl_module.xor_flag_step]⟩
        · exact Or.inr ⟨p, Or.inr hp, hr, rfl⟩
      · rintro (h | ⟨p, (⟨q, hq, rfl⟩ | hp), hr, rfl⟩)
        · exact Or.inl (Or.inl h)
        · exact Or.inl (Or.inr ⟨q, hq, hr,
            by simp [path_name, xor_flips, Inou_firrtl_module.xor_flag_step]⟩)
        · exact Or.inr ⟨p, hp, hr, rfl⟩
    cases fl with
    | true =>
      have hd' : (if dir = 1 then 2 else if dir = 2 then 1 else 0) = 1 ∨
          (if dir = 1 then 2 else if dir = 2 then 1 else 0) = 2 := by
        rcases hd with h | h <;> simp [h]
      obtain ⟨s1, h1, he1⟩ := port_flip_all_dotted ft mod_id _ id fid (!f) s
        (by simpa [port_paths_ok, Function.comp] using hl.1) hd'
      obtain ⟨s2, h2, he2⟩ := port_flip_all_fields rest mod_id dir id f s1 hl.2 hd
      have hI : I ((if dir = 1 then 2 else if dir = 2 then 1 else 0) != 0) "new_dir != 0"
          = .ok () := by
        rcases hd with h | h <;> simp [h, I]
      refine ⟨s2, ?_, hcomb s1 s2 (by simpa using he1) he2⟩
      simp [add_port_to_map.fields, hI, h1, h2, bind, Except.bind]
    | false =>
      obtain ⟨s1, h1, he1⟩ := port_flip_all_dotted ft mod_id dir id fid f s
        (by simpa [port_paths_ok, Function.comp] using hl.1) hd
      obtain ⟨s2, h2, he2⟩ := port_flip_all_fields rest mod_id dir id f s1 hl.2 hd
      refine ⟨s2, ?_, hcomb s1 s2 (by simpa using he1) he2⟩
      simp [add_port_to_map.fields, h1, h2, bind, Except.bind]

end

end Inou_firrtl

namespace Inou_firrtl

theorem port_flip_all_fresh (t : FirrtlPB_Type) (id mod_id : String) (dir : Nat) (f : Bool)
    (s : Env) (hp : port_paths_ok t = true) (hd : dir = 1 ∨ dir = 2)
    (hg : glob_flip_get s mod_id (Str.head id) = []) :
    ∃ s', add_port_to_map mod_id t dir f id s = .ok s' ∧
      ∀ e, e ∈ glob_flip_get s' mod_id (Str.head id) ↔
        ∃ p ∈ port_leaf_paths t, port_leaf_recorded p.2 = true ∧
          e = (path_name id p.1, xor f (xor_flips p.1)) := by
  have port_scalar : ∀ (bits : Nat) (sign : Bool), port_leaf_paths t = [([], t)] →
      ∀ r : Except String Env,
      ((port_leaf_recorded t = true ∧
        r = .ok (add_global_io_flipness (record_port_dir s mod_id id dir bits sign) mod_id f id)) ∨
       (port_leaf_recorded t = false ∧ r = .ok (record_port_dir s mod_id id dir bits sign))) →
      ∃ s', r = .ok s' ∧ ∀ e, e ∈ glob_flip_get s' mod_id (Str.head id) ↔
        ∃ p ∈ port_leaf_paths t, port_leaf_recorded p.2 = true ∧
          e = (path_name id p.1, xor f (xor_flips p.1)) := by
    intro bits sign hlp r hr
    rcases hr with ⟨hrec, rfl⟩ | ⟨hrec, rfl⟩
    · refine ⟨_, rfl, ?_⟩
      intro e
      rw [add_global_io_flipness_fresh _ _ _ _
        (by rw [glob_flip_get_record_port_dir]; exact hg), hlp]
      simp [path_name, xor_flips, hrec]
    · refine ⟨_, rfl, ?_⟩
      intro e
      rw [glob_flip_get_record_port_dir, hg, hlp]
      simp [hrec]
  cases t with
  | kBundleType fs =>
    obtain ⟨s', h1, he⟩ := port_flip_all_fields fs mod_id dir id f s
      (by simpa [port_paths_ok, port_leaf_paths] using hp) hd
    refine ⟨s', by simpa [add_port_to_map] using h1, ?_⟩
    intro e
    rw [he, hg]
    simp [port_leaf_paths]
  | kVectorType t n =>
    rw [add_port_to_map]
    obtain ⟨s', h1, he⟩ := foldlM_flip_mem mod_id (Str.head id)
      (fun s i => add_port_to_map mod_id t dir f (id ++ "." ++ Str.of_nat i) s)
      (fun i e => ∃ p ∈ port_leaf_paths t, port_leaf_recorded p.2 = true ∧
        e = (path_name (id ++ "." ++ Str.of_nat i) p.1, xor f (xor_flips p.1)))
      (List.range n)
      { s with glob_info := { s.glob_info with
          module_var2vec_size := s.glob_info.module_var2vec_size.insert_or_assign mod_id
            [(id, n % 65536)] } }
      (fun i hi s1 => port_flip_all_dotted t mod_id dir id (Str.of_nat i) f s1
          (port_paths_vector_ok t n i (List.mem_range.mp hi) hp) hd)
    refine ⟨s', h1, fun e => ?_⟩
    rw [he, port_vector_paths]
    have hg0 : glob_flip_get { s with glob_info := { s.glob_info with
        module_var2vec_size := s.glob_info.module_var2vec_size.insert_or_assign mod_id
          [(id, n % 65536)] } } mod_id (Str.head id) = [] := hg
    rw [hg0]
    simp
  | kFixedType => simp [port_paths_ok, port_leaf_paths, port_leaf_ok] at hp
  | kAnalogType _ => simp [port_paths_ok, port_leaf_paths, port_leaf_ok] at hp
  | TYPE_NOT_SET => simp [port_paths_ok, port_leaf_paths, port_leaf_ok] at hp
  | kUintType w =>
    refine port_scalar w false (by simp [port_leaf_paths]) _ ?_
    by_cases hw0 : w = 0
    · exact Or.inr ⟨by simp [port_leaf_recorded, hw0], by simp [add_port_to_map, hw0]⟩
    · exact Or.inl ⟨by simp [port_leaf_recorded, hw0], by simp [add_port_to_map, hw0]⟩
  | kSintType w =>
    refine port_scalar 0 true (by simp [port_leaf_paths]) _ ?_
    by_cases hw0 : w = 0
    · exact Or.inr ⟨by simp [port_leaf_recorded, hw0],
        by simp [add_port_to_map, hw0, FirrtlPB_Type.uint_width]⟩
    · exact Or.inl ⟨by simp [port_leaf_recorded, hw0],
        by simp [add_port_to_map, hw0, FirrtlPB_Type.uint_width]⟩
  | kAsyncResetType =>
    exact port_scalar 0 false (by simp [port_leaf_paths]) _
      (Or.inl ⟨rfl, by simp [add_port_to_map, FirrtlPB_Type.uint_width]⟩)
  | kClockType =>
    exact port_scalar 0 false (by simp [port_leaf_paths]) _
      (Or.inl ⟨rfl, by simp [add_port_to_map, FirrtlPB_Type.uint_width]⟩)
  | kResetType =>
    exact port_scalar 0 false (by simp [port_leaf_paths]) _
      (Or.inl ⟨rfl, by simp [add_port_to_map, FirrtlPB_Type.uint_width]⟩)

theorem populate_module_io_all_ports (mod_id : String) :
    ∀ (ports : List FirrtlPB_Port) (s : Env),
    (∀ p ∈ ports, port_paths_ok p.type = true ∧
      (p.direction = 1 ∨ p.direction = 2) ∧ Str.head p.id = p.id) →
    (ports.map (fun p => p.id)).Nodup →
    ∃ s', populate_module_io s ⟨mod_id, ports, []⟩ = .ok s' ∧
      (∀ k, k ∉ ports.map (fun p => p.id) → glob_flip_get s' mod_id k = glob_flip_get s mod_id k) ∧
      ∀ p ∈ ports,
        (∀ e, e ∈ glob_flip_get s' mod_id p.id ↔
          ∃ q ∈ port_leaf_paths p.type, port_leaf_recorded q.2 = true ∧
            e = (path_name p.id q.1, xor_flips q.1)) ∧
        (glob_flip_get s' mod_id p.id).Nodup
  | [], s, _, _ => ⟨s, rfl, fun _ _ => rfl, by simp⟩
  | p :: rest, s, hp, hn => by
    obtain ⟨hl, hd, hh⟩ := hp p (List.mem_cons_self _ _)
    simp only [List.map_cons, List.nodup_cons] at hn
    have hreset := glob_flip_get_reset s mod_id p.id
    obtain ⟨s1, h1, he1⟩ := port_flip_all_fresh p.type p.id mod_id p.direction false _ hl hd
      (by rw [hreset, hh]; simp)
    have hn1 := add_port_to_map_nodup mod_id p.type p.direction false p.id p.id _ s1 h1
      (by rw [hreset]; simp)
    obtain ⟨s2, h2, hf2, hr2⟩ := populate_module_io_all_ports mod_id rest s1
      (fun q hq => hp q (List.mem_cons_of_mem _ hq)) hn.2
    refine ⟨s2, ?_, ?_, ?_⟩
    · simp only [populate_module_io, List.foldlM_cons] at h2 ⊢
      rw [h1]
      exact h2
    · intro k hk
      simp only [List.map_cons, List.mem_cons, not_or] at hk
      rw [hf2 k hk.2, add_port_to_map_frame mod_id p.type p.direction false p.id k _ s1
        (by rw [hh]; exact hk.1) h1, hreset, if_neg hk.1]
    · intro q hq
      rcases List.mem_cons.mp hq with rfl | hq
      · rw [hf2 _ hn.1]
        rw [hh] at he1
        exact ⟨by simpa using he1, hn1⟩
      · exact hr2 q hq

end Inou_firrtl

/-- C14 (amended). After the port-population phase of a module whose ports have distinct
dot-free ids and types built from Bundles and Vectors over scalar leaves, the set of the
global flip table stored under a port holds exactly the pairs (dotted leaf path, XOR of the
flip markers on the path) of the leaves of the port, elements of Vectors included, that
are a Clock, a Reset, an AsyncReset or a UInt/SInt of non-zero width, each pair once; a
UInt/SInt leaf of width 0 is not entered. -/
theorem populate_module_io_flip_sets (user_module : FirrtlPB_Module_UserModule) (s : Env)
    (hports : ∀ p ∈ user_module.port, port_paths_ok p.type = true ∧
      (p.direction = 1 ∨ p.direction = 2) ∧ Str.head p.id = p.id)
    (hdistinct : (user_module.port.map (fun p => p.id)).Nodup) :
    ∃ s', Inou_firrtl.populate_module_io s user_module = .ok s' ∧
      ∀ p ∈ user_module.port,
        (∀ e, e ∈ glob_flip_get s' user_module.id p.id ↔
          ∃ q ∈ port_leaf_paths p.type, port_leaf_recorded q.2 = true ∧
            e = (path_name p.id q.1, xor_flips q.1)) ∧
        (glob_flip_get s' user_module.id p.id).Nodup := by
  obtain ⟨s', h, _, hr⟩ :=
    Inou_firrtl.populate_module_io_all_ports user_module.id user_module.port s hports hdistinct
  exact ⟨s', h, hr⟩

/-- Witness of C14 (amended) at the module `populate_vector_example`, whose ports hold
Vectors: the set of `io` is `io.a`, `io.v.0.x` and `io.v.1.x` (the latter two flipped), the
set of `q` is empty. -/
theorem populate_module_io_flip_sets_witness :
    (∃ s', Inou_firrtl.populate_module_io (Env.fresh "M") populate_vector_example = .ok s' ∧
      ∀ p ∈ populate_vector_example.port,
        (∀ e, e ∈ glob_flip_get s' populate_vector_example.id p.id ↔
          ∃ q ∈ port_leaf_paths p.type, port_leaf_recorded q.2 = true ∧
            e = (path_name p.id q.1, xor_flips q.1)) ∧
        (glob_flip_get s' populate_vector_example.id p.id).Nodup) ∧
      (Inou_firrtl.populate_module_io (Env.fresh "M") populate_vector_example).map
          (fun s => (glob_flip_get s "M" "io", glob_flip_get s "M" "q"))
        = .ok ([("io.a", false), ("io.v.0.x", true), ("io.v.1.x", true)], []) :=
  ⟨populate_module_io_flip_sets populate_vector_example (Env.fresh "M")
    (by
      intro p hp
      simp only [populate_vector_example, List.mem_cons, List.mem_singleton, List.not_mem_nil,
        or_false] at hp
      rcases hp with rfl | rfl
      · exact ⟨by decide!, Or.inl rfl, by decide⟩
      · exact ⟨by decide!, Or.inr rfl, by decide⟩)
    (by decide), by decide!⟩

namespace Str

theorem char_at_index (s : String) (h : s.data ≠ []) : char_at s 0 = .ok (index s 0) := by
  unfold char_at index
  cases hd : s.data with
  | nil => exact absurd hd h
  | cons c cs => rfl

end Str

namespace Inou_firrtl_module

theorem no_rhs_counterpart_known (s : Env) (name : String) (h : name.data ≠ []) :
    no_rhs_counterpart s name = .ok (!known_source s.firmod.wire_names name) := by
  unfold no_rhs_counterpart known_source
  by_cases hm : name ∈ s.firmod.wire_names
  · simp [hm]
  · simp only [hm, if_false, Str.char_at_index name h, decide_False, Bool.false_or]
    rfl

theorem attach_expr_str2node_assign (s : Env) (a : String) (p : Nat)
    (hp : (s.lnast.node_at p).map (·.type) = some .assign) :
    attach_expr_str2node s a p = .ok (s.add_leaf p (operand_node a)) := by
  unfold attach_expr_str2node operand_node
  simp only [hp, I]
  by_cases h : Str.starts_numeric a <;> simp [h] <;> rfl

theorem flattened_name_ok (s : Env) (name : String) (is_rhs : Bool) (x : String)
    (h : name_prefix_modifier_flattener s name is_rhs = .ok x) :
    flattened_name s name is_rhs = x := by
  simp [flattened_name, h]

theorem tuple_flattened_connections_leaf (s : Env) (parent_node : Nat) (l r p : String)
    (flag : Bool) (L R : String)
    (hreg : s.firmod.reg2qpin.has l = false ∧ s.firmod.reg2qpin.has r = false)
    (hl : name_prefix_modifier_flattener s ((connect_heads s l r flag).1 ++ "." ++ p) false
      = .ok L)
    (hr : name_prefix_modifier_flattener s ((connect_heads s l r flag).2 ++ "." ++ p) true
      = .ok R)
    (hLne : L.data ≠ []) (hRne : R.data ≠ []) :
    tuple_flattened_connections s parent_node l r (l ++ "." ++ p) flag
      = .ok (connect_step_state s parent_node (connect_leaf_sides s l r (p, flag))) := by
  obtain ⟨hreg1, hreg2⟩ := hreg
  obtain ⟨pos, hp, hs⟩ := Str.find_char_append_dot (connect_heads s l r flag).2 p
  have hc := Str.char_at_index L hLne
  have hsides : connect_leaf_sides s l r (p, flag) =
      (Str.head (connect_heads s l r flag).2,
        (if Str.index L 0 = '$' then (R, L) else (L, R)).1,
        (if Str.index L 0 = '$' then (R, L) else (L, R)).2) := by
    simp only [connect_leaf_sides, flattened_name_ok _ _ _ _ hl, flattened_name_ok _ _ _ _ hr]
    split <;> rfl
  rw [hsides]
  have hds : (if Str.index L 0 = '$' then (R, L) else (L, R)).1.data ≠ [] ∧
      (if Str.index L 0 = '$' then (R, L) else (L, R)).2.data ≠ [] := by
    split
    · exact ⟨hRne, hLne⟩
    · exact ⟨hLne, hRne⟩
  generalize Str.head (connect_heads s l r flag).2 = hd at hs ⊢
  generalize Str.index L 0 = c at hc hds ⊢
  generalize hdsq : (if c = '$' then (R, L) else (L, R)) = ds at hds ⊢
  obtain ⟨hds1, hds2⟩ := hds
  have hnode : ∀ (N : List Lnast_entry) (e1 e2 : Lnast_entry) (nm : String),
      e1.node = Lnast_node.create_assign →
      Option.map (·.type) (Lnast.node_at ⟨nm, N ++ [e1, e2]⟩ N.length) = some .assign := by
    intro N e1 e2 nm h1
    simp only [Lnast.node_at, List.get?_eq_getElem?,
      List.getElem?_append_right (Nat.le_refl N.length), Nat.sub_self]
    simp [h1, Lnast_node.create_assign]
  cases flag
  · simp only [connect_heads, Bool.false_eq_true, if_false] at hl hr hp hs
    by_cases hi : r ∈ s.firmod.input_names <;> by_cases ho : l ∈ s.firmod.output_names <;>
      simp only [hi, ho, if_true, if_false] at hl hr hp hs <;>
      simp only [tuple_flattened_connections, Bool.false_eq_true, if_false, if_true, hi, ho,
        hreg1, hreg2, except_ok_bind, Str.substr_from_dot, Str.append_dot_assoc, hp, hs,
        hl, hr, hc, hdsq] <;>
      by_cases hw : hd ∈ s.firmod.wire_names <;>
      by_cases hk : known_source s.firmod.wire_names ds.2 <;>
      by_cases hn : ds.1 ∈ s.firmod.node_names <;>
      simp only [hw, hk, hn, decide_True, decide_False, if_true, if_false, create_tmp_var,
        Env.add_child, Env.add_leaf, Lnast.add_child, Env.insert_wire_name, List.append_assoc,
        List.cons_append, List.nil_append, List.length_append, List.length_cons,
        List.length_nil, connect_step_state, no_rhs_counterpart_known _ _ hds2,
        Bool.not_true, Bool.not_false, except_ok_bind, Bool.false_eq_true,
        attach_expr_str2node_assign, hnode]
  · simp only [connect_heads, if_true] at hl hr hp hs
    by_cases hi : l ∈ s.firmod.input_names <;> by_cases ho : r ∈ s.firmod.output_names <;>
      simp only [hi, ho, if_true, if_false] at hl hr hp hs <;>
      simp only [tuple_flattened_connections, Bool.false_eq_true, if_false, if_true, hi, ho,
        hreg1, hreg2, except_ok_bind, Str.substr_from_dot, Str.append_dot_assoc, hp, hs,
        hl, hr, hc, hdsq] <;>
      by_cases hw : hd ∈ s.firmod.wire_names <;>
      by_cases hk : known_source s.firmod.wire_names ds.2 <;>
      by_cases hn : ds.1 ∈ s.firmod.node_names <;>
      simp only [hw, hk, hn, decide_True, decide_False, if_true, if_false, create_tmp_var,
        Env.add_child, Env.add_leaf, Lnast.add_child, Env.insert_wire_name, List.append_assoc,
        List.cons_append, List.nil_append, List.length_append, List.length_cons,
        List.length_nil, connect_step_state, no_rhs_counterpart_known _ _ hds2,
        Bool.not_true, Bool.not_false, except_ok_bind, Bool.false_eq_true,
        attach_expr_str2node_assign, hnode]

theorem flattener_nonempty (s : Env) (a b : String) (is_rhs : Bool) (x : String)
    (h : name_prefix_modifier_flattener s (a ++ "." ++ b) is_rhs = .ok x) : x.data ≠ [] := by
  have hrd : (Str.replace_dots (a ++ "." ++ b)).data ≠ [] := by
    simp only [Str.replace_dots, Str.data_dot_append]
    simp
  unfold name_prefix_modifier_flattener at h
  simp only at h
  split at h
  · rw [← Except.ok.inj h]
    simp
  · split at h
    · rw [← Except.ok.inj h]
      simp
    · split at h
      · rename_i qpin _
        simp only [I] at h
        split at h
        · simp only [except_ok_bind] at h
          split at h
          · rw [← Except.ok.inj h]
            rename_i hq _
            intro hd
            have : Str.substr qpin 0 3 = "" := by
              simp [Str.substr, hd]
            rw [this] at hq
            revert hq
            decide
          · rw [← Except.ok.inj h]
            exact hrd
        · cases h
      · rw [← Except.ok.inj h]
        exact hrd

theorem connect_leaf_sides_congr (s s1 : Env) (l r : String)
    (h1 : s1.firmod.output_names = s.firmod.output_names)
    (h2 : s1.firmod.input_names = s.firmod.input_names)
    (h3 : s1.firmod.reg2qpin = s.firmod.reg2qpin) :
    connect_leaf_sides s1 l r = connect_leaf_sides s l r := by
  funext leaf
  simp only [connect_leaf_sides, connect_heads, flattened_name, name_prefix_modifier_flattener,
    h1, h2, h3]

theorem connect_leaf_flat_congr (s s1 : Env) (l r : String) (leaf : String × Bool)
    (h1 : s1.firmod.output_names = s.firmod.output_names)
    (h2 : s1.firmod.input_names = s.firmod.input_names)
    (h3 : s1.firmod.reg2qpin = s.firmod.reg2qpin) :
    connect_leaf_flat s1 l r leaf = connect_leaf_flat s l r leaf := by
  simp only [connect_leaf_flat, connect_heads, name_prefix_modifier_flattener, h1, h2, h3]

theorem connect_step_state_names (s : Env) (parent_node : Nat)
    (sides : String × String × String) :
    (connect_step_state s parent_node sides).firmod.output_names = s.firmod.output_names ∧
    (connect_step_state s parent_node sides).firmod.input_names = s.firmod.input_names ∧
    (connect_step_state s parent_node sides).firmod.reg2qpin = s.firmod.reg2qpin ∧
    (connect_step_state s parent_node sides).firmod.node_names = s.firmod.node_names ∧
    (connect_step_state s parent_node sides).lnast.top_module_name
      = s.lnast.top_module_name := by
  unfold connect_step_state
  split
  · exact ⟨rfl, rfl, rfl, rfl, rfl⟩
  · split
    · exact ⟨rfl, rfl, rfl, rfl, rfl⟩
    · exact ⟨rfl, rfl, rfl, rfl, rfl⟩

theorem connect_step_state_nodes (s : Env) (parent_node : Nat)
    (sides : String × String × String) (rest : List (String × String × String)) :
    (connect_step_state s parent_node sides).lnast.nodes ++
      connect_leaves_nodes parent_node s.firmod.node_names
        (connect_step_state s parent_node sides).lnast.nodes.length
        (connect_step_state s parent_node sides).firmod.tmp_var_cnt
        (connect_step_state s parent_node sides).firmod.wire_names rest
    = s.lnast.nodes ++ connect_leaves_nodes parent_node s.firmod.node_names
        s.lnast.nodes.length s.firmod.tmp_var_cnt s.firmod.wire_names (sides :: rest) := by
  by_cases hw : sides.1 ∈ s.firmod.wire_names
  · simp only [connect_step_state, connect_leaves_nodes, hw, if_true, List.append_assoc,
      List.length_append, List.length_cons, List.length_nil, List.cons_append,
      List.nil_append]
  · by_cases hk : known_source s.firmod.wire_names sides.2.2
    · simp only [connect_step_state, connect_leaves_nodes, hw, hk, if_true, if_false,
        List.append_assoc, List.length_append, List.length_cons, List.length_nil,
        List.cons_append, List.nil_append]
    · simp only [connect_step_state, connect_leaves_nodes, hw, hk, if_false,
        Bool.false_eq_true]

theorem connect_leaf_flat_ok (s : Env) (l r : String) (leaf : String × Bool)
    (h : connect_leaf_flat s l r leaf = true) :
    ∃ L R, name_prefix_modifier_flattener s ((connect_heads s l r leaf.2).1 ++ "." ++ leaf.1)
        false = .ok L ∧
      name_prefix_modifier_flattener s ((connect_heads s l r leaf.2).2 ++ "." ++ leaf.1)
        true = .ok R := by
  simp only [connect_leaf_flat, Bool.and_eq_true] at h
  obtain ⟨h1, h2⟩ := h
  cases e1 : name_prefix_modifier_flattener s ((connect_heads s l r leaf.2).1 ++ "." ++ leaf.1)
      false with
  | error e => rw [e1] at h1; cases h1
  | ok L =>
    cases e2 : name_prefix_modifier_flattener s
        ((connect_heads s l r leaf.2).2 ++ "." ++ leaf.1) true with
    | error e => rw [e2] at h2; cases h2
    | ok R => exact ⟨L, R, rfl, rfl⟩

theorem connections_fold (parent_node : Nat) (l r : String) :
    ∀ (rs : List (String × Bool)) (s : Env),
    s.firmod.reg2qpin.has l = false ∧ s.firmod.reg2qpin.has r = false →
    (∀ leaf ∈ rs, connect_leaf_flat s l r leaf = true) →
    ∃ s', (rs.map (fun leaf => (l ++ "." ++ leaf.1, leaf.2))).foldlM
        (fun s it => do
          let connect ← wire_connection_hit it.1 l
          if connect then tuple_flattened_connections s parent_node l r it.1 it.2
          else .ok s) s = .ok s' ∧
      s'.lnast.nodes = s.lnast.nodes ++
        connect_leaves_nodes parent_node s.firmod.node_names s.lnast.nodes.length
          s.firmod.tmp_var_cnt s.firmod.wire_names (rs.map (connect_leaf_sides s l r)) ∧
      s'.lnast.top_module_name = s.lnast.top_module_name
  | [], s, _, _ => ⟨s, rfl, by simp [connect_leaves_nodes], rfl⟩
  | (p, flag) :: rest, s, hreg, hflat => by
    obtain ⟨L, R, hL, hR⟩ := connect_leaf_flat_ok s l r (p, flag)
      (hflat _ (List.mem_cons_self _ _))
    have hstep := tuple_flattened_connections_leaf s parent_node l r p flag L R hreg hL hR
      (flattener_nonempty s _ _ _ _ hL) (flattener_nonempty s _ _ _ _ hR)
    obtain ⟨ho, hi, hq, hn, ht⟩ := connect_step_state_names s parent_node
      (connect_leaf_sides s l r (p, flag))
    obtain ⟨s', h', hn', ht'⟩ := connections_fold parent_node l r rest
      (connect_step_state s parent_node (connect_leaf_sides s l r (p, flag)))
      (by rw [hq]; exact hreg)
      (fun leaf hl => by
        rw [connect_leaf_flat_congr s _ l r leaf ho hi hq]
        exact hflat leaf (List.mem_cons_of_mem _ hl))
    refine ⟨s', ?_, ?_, ht'.trans ht⟩
    · simp only [List.map_cons, List.foldlM_cons, wire_connection_hit_leaf, except_ok_bind,
        if_true, hstep]
      exact h'
    · rw [hn', connect_leaf_sides_congr s _ l r ho hi hq, hn, connect_step_state_nodes]
      rfl

theorem wire_connection_sets_frame (s : Env) (l : String) :
    (wire_connection_sets s l).2.lnast = s.lnast ∧
    (wire_connection_sets s l).2.firmod.wire_names = s.firmod.wire_names ∧
    (wire_connection_sets s l).2.firmod.node_names = s.firmod.node_names ∧
    (wire_connection_sets s l).2.firmod.tmp_var_cnt = s.firmod.tmp_var_cnt ∧
    (wire_connection_sets s l).2.firmod.output_names = s.firmod.output_names ∧
    (wire_connection_sets s l).2.firmod.input_names = s.firmod.input_names ∧
    (wire_connection_sets s l).2.firmod.reg2qpin = s.firmod.reg2qpin := by
  unfold wire_connection_sets
  simp only
  split
  · exact ⟨rfl, rfl, rfl, rfl, rfl, rfl, rfl⟩
  · exact ⟨rfl, rfl, rfl, rfl, rfl, rfl, rfl⟩

theorem connect_aggregates_nodes (op2firsub : List (PrimOp_Op × String)) (s : Env)
    (parent_node : Nat) (l r : String) (rs : List (String × Bool))
    (hl : connect_head_ok s l = true) (hr : connect_head_ok s r = true)
    (hset : (wire_connection_sets s l).1 = rs.map (fun leaf => (l ++ "." ++ leaf.1, leaf.2)))
    (hflat : ∀ leaf ∈ rs, connect_leaf_flat s l r leaf = true) :
    ∃ s', connect_statement op2firsub s parent_node (.kReference l) (.kReference r) = .ok s' ∧
      s'.lnast.nodes = s.lnast.nodes ++
        connect_leaves_nodes parent_node s.firmod.node_names s.lnast.nodes.length
          s.firmod.tmp_var_cnt s.firmod.wire_names (rs.map (connect_leaf_sides s l r)) := by
  simp only [connect_head_ok, Bool.and_eq_true, Bool.not_eq_true',
    Option.isNone_iff_eq_none] at hl hr
  obtain ⟨⟨⟨⟨hld, _⟩, hlq⟩, hlm⟩, hli⟩ := hl
  obtain ⟨⟨⟨⟨hrd, hre⟩, hrq⟩, hrm⟩, hri⟩ := hr
  have hrne : r ≠ "" := by
    intro h
    rw [h] at hre
    simp at hre
  obtain ⟨hf1, hf2, hf3, hf4, hf5, hf6, hf7⟩ := wire_connection_sets_frame s l
  obtain ⟨s', h', hn', _⟩ := connections_fold parent_node l r rs (wire_connection_sets s l).2
    (by rw [hf7]; exact ⟨hlq, hrq⟩)
    (fun leaf hm => by
      rw [connect_leaf_flat_congr s _ l r leaf hf5 hf6 hf7]
      exact hflat leaf hm)
  refine ⟨s', ?_, ?_⟩
  · simp only [connect_statement, get_expr_hier_name_rt, Bool.false_eq_true, if_false, hrne,
      tup_head_rest_no_dot l hld, tup_head_rest_no_dot r hrd, hlm, hrm, hli, hri,
      handle_normal_cases_wire_connections, hset]
    exact h'
  · rw [hn', connect_leaf_sides_congr s _ l r hf5 hf6 hf7, hf1, hf2, hf3, hf4]

end Inou_firrtl_module

namespace Lnast

theorem seg_assigns_direct_group (parent_node base : Nat) (dst x : String) (n : Lnast_node)
    (hp : parent_node < base) (hn : n.type ≠ .assign) :
    seg_assigns_to base
      [⟨Lnast_node.create_assign, some parent_node⟩,
       ⟨Lnast_node.create_ref dst, some base⟩,
       ⟨n, some base⟩] x = if dst = x then 1 else 0 := by
  have h0 : ∀ k, parent_node ≠ base + k := fun k => by omega
  have h1 : parent_node ≠ base := by omega
  simp [seg_assigns_to, seg_stmts, List.range_succ, List.filter, Lnast_node.create_ref,
    Lnast_node.create_assign, h0, h1, hn]
  split <;> simp_all

theorem operand_type (dst src : String) (nn : List String) :
    (if dst ∈ nn then Lnast_node.create_ref src else operand_node src).type ≠ .assign := by
  unfold operand_node
  split
  · simp [Lnast_node.create_ref]
  · split <;> simp [Lnast_node.create_ref, Lnast_node.create_const]

theorem assigns_to_group (name : String) (parent_node : Nat) (x : String)
    (N G : List Lnast_entry)
    (hc : parents_below N.length N) (hp : parent_node < N.length)
    (hty : (N.get? parent_node).map (·.node.type) ≠ some .assign)
    (hG : ∀ e ∈ G, e.parent = some parent_node ∨
      ∃ j, e.parent = some (N.length + j) ∧ j < G.length) :
    assigns_to ⟨name, N ++ G⟩ x = assigns_to ⟨name, N⟩ x + seg_assigns_to N.length G x ∧
    parents_below (N ++ G).length (N ++ G) ∧
    (N ++ G).get? parent_node = N.get? parent_node := by
  refine ⟨?_, ?_, ?_⟩
  · apply assigns_to_append name N G x hc
    intro e he p hpe
    rcases hG e he with h | ⟨j, h, _⟩
    · rw [h] at hpe
      cases hpe
      exact hty
    · rw [h] at hpe
      cases hpe
      simp [List.getElem?_eq_none (Nat.le_add_right N.length j)]
  · rw [List.length_append]
    apply parents_below_append
    · exact parents_below_mono _ _ _ (Nat.le_add_right _ _) hc
    · intro e he p hpe
      rcases hG e he with h | ⟨j, h, hj⟩
      · rw [h] at hpe
        cases hpe
        omega
      · rw [h] at hpe
        cases hpe
        omega
  · simp [List.getElem?_append_left hp]

theorem assigns_to_connect_leaves (name : String) (parent_node : Nat) (nn : List String)
    (x : String) :
    ∀ (leaves : List (String × String × String)) (N : List Lnast_entry) (cnt : Nat)
      (wn : List String),
    parents_below N.length N → parent_node < N.length →
    (N.get? parent_node).map (·.node.type) ≠ some .assign →
    assigns_to ⟨name, N ++ connect_leaves_nodes parent_node nn N.length cnt wn leaves⟩ x =
      assigns_to ⟨name, N⟩ x + ((connected_leaves cnt wn leaves).map (·.2.1)).count x
  | [], N, cnt, wn, _, _, _ => by simp [connect_leaves_nodes, connected_leaves]
  | sides :: rest, N, cnt, wn, hc, hp, hty => by
    by_cases hw : sides.1 ∈ wn
    · simp only [connect_leaves_nodes, connected_leaves, hw, if_true]
      rw [← List.append_assoc]
      obtain ⟨ha, hc2, hg⟩ := assigns_to_group name parent_node x N
        [⟨Lnast_node.create_attr_get, some parent_node⟩,
         ⟨Lnast_node.create_ref ("___F" ++ Str.of_nat (cnt + 1)), some N.length⟩,
         ⟨Lnast_node.create_ref sides.2.2, some N.length⟩,
         ⟨Lnast_node.create_const "__last_value", some N.length⟩,
         ⟨Lnast_node.create_assign, some parent_node⟩,
         ⟨Lnast_node.create_ref sides.2.1, some (N.length + 4)⟩,
         ⟨Lnast_node.create_ref ("___F" ++ Str.of_nat (cnt + 1)), some (N.length + 4)⟩]
        hc hp hty (by
          intro e he
          simp only [List.mem_cons, List.mem_singleton, List.not_mem_nil, or_false] at he
          rcases he with h | h | h | h | h | h | h <;> subst h
          · exact Or.inl rfl
          · exact Or.inr ⟨0, rfl, by simp⟩
          · exact Or.inr ⟨0, rfl, by simp⟩
          · exact Or.inr ⟨0, rfl, by simp⟩
          · exact Or.inl rfl
          · exact Or.inr ⟨4, rfl, by simp⟩
          · exact Or.inr ⟨4, rfl, by simp⟩)
      have ih := assigns_to_connect_leaves name parent_node nn x rest _ (cnt + 1)
        (set_insert (set_insert wn ("___F" ++ Str.of_nat (cnt + 1))) sides.2.1) hc2
        (by rw [List.length_append]; omega) (by rw [hg]; exact hty)
      simp only [List.length_append, List.length_cons, List.length_nil] at ih
      rw [ih, ha, seg_assigns_wire_group _ _ _ _ _ _ hp]
      simp only [List.map_cons, List.count_cons, beq_iff_eq]
      omega
    · by_cases hk : known_source wn sides.2.2
      · simp only [connect_leaves_nodes, connected_leaves, hw, hk, if_true, if_false]
        rw [← List.append_assoc]
        obtain ⟨ha, hc2, hg⟩ := assigns_to_group name parent_node x N
          [⟨Lnast_node.create_assign, some parent_node⟩,
           ⟨Lnast_node.create_ref sides.2.1, some N.length⟩,
           ⟨if sides.2.1 ∈ nn then Lnast_node.create_ref sides.2.2
            else operand_node sides.2.2, some N.length⟩]
          hc hp hty (by
            intro e he
            simp only [List.mem_cons, List.mem_singleton, List.not_mem_nil, or_false] at he
            rcases he with h | h | h <;> subst h
            · exact Or.inl rfl
            · exact Or.inr ⟨0, rfl, by simp⟩
            · exact Or.inr ⟨0, rfl, by simp⟩)
        have ih := assigns_to_connect_leaves name parent_node nn x rest _ cnt
          (set_insert wn sides.2.1) hc2
          (by rw [List.length_append]; omega) (by rw [hg]; exact hty)
        simp only [List.length_append, List.length_cons, List.length_nil] at ih
        rw [ih, ha, seg_assigns_direct_group _ _ _ _ _ hp (operand_type _ _ _)]
        simp only [List.map_cons, List.count_cons, beq_iff_eq]
        omega
      · simp only [connect_leaves_nodes, connected_leaves, hw, hk, if_false,
          Bool.false_eq_true]
        exact assigns_to_connect_leaves name parent_node nn x rest N cnt wn hc hp hty

end Lnast

theorem known_source_mono (wn wn2 : List String) (x : String)
    (hsub : ∀ y ∈ wn, y ∈ wn2) (h : known_source wn x = true) : known_source wn2 x = true := by
  simp only [known_source, Bool.or_eq_true, decide_eq_true_eq] at h ⊢
  rcases h with h | h
  · exact Or.inl (hsub x h)
  · exact Or.inr h

theorem connected_leaves_all :
    ∀ (leaves : List (String × String × String)) (cnt : Nat) (wn : List String),
    (∀ sides ∈ leaves, sides.1 ∈ wn ∨ known_source wn sides.2.2 = true) →
    connected_leaves cnt wn leaves = leaves
  | [], _, _, _ => rfl
  | sides :: rest, cnt, wn, h => by
    by_cases hw : sides.1 ∈ wn
    · simp only [connected_leaves, hw, if_true]
      rw [connected_leaves_all rest]
      intro sd hsd
      have hsub : ∀ y ∈ wn, y ∈ set_insert (set_insert wn ("___F" ++ Str.of_nat (cnt + 1)))
          sides.2.1 := by
        intro y hy
        rw [mem_set_insert, mem_set_insert]
        exact Or.inl (Or.inl hy)
      rcases h sd (List.mem_cons_of_mem _ hsd) with h1 | h1
      · exact Or.inl (hsub _ h1)
      · exact Or.inr (known_source_mono _ _ _ hsub h1)
    · have hk : known_source wn sides.2.2 = true := by
        rcases h sides (List.mem_cons_self _ _) with h1 | h1
        · exact absurd h1 hw
        · exact h1
      simp only [connected_leaves, hw, hk, if_true, if_false]
      rw [connected_leaves_all rest]
      intro sd hsd
      have hsub : ∀ y ∈ wn, y ∈ set_insert wn sides.2.1 := by
        intro y hy
        rw [mem_set_insert]
        exact Or.inl hy
      rcases h sd (List.mem_cons_of_mem _ hsd) with h1 | h1
      · exact Or.inl (hsub _ h1)
      · exact Or.inr (known_source_mono _ _ _ hsub h1)

theorem connect_leaves_nodes_refs (parent_node : Nat) (nn : List String) :
    ∀ (leaves : List (String × String × String)) (base cnt : Nat) (wn : List String),
    ∀ e ∈ connect_leaves_nodes parent_node nn base cnt wn leaves, e.node.type = .ref →
      (∃ k, e.node.text = "___F" ++ Str.of_nat k) ∨
      ∃ sides ∈ leaves, e.node.text = sides.2.1 ∨ e.node.text = sides.2.2
  | [], _, _, _, e, he, _ => by simp [connect_leaves_nodes] at he
  | sides :: rest, base, cnt, wn, e, he, hr => by
    have hrest : ∀ b c w, e ∈ connect_leaves_nodes parent_node nn b c w rest →
        (∃ k, e.node.text = "___F" ++ Str.of_nat k) ∨
        ∃ sd ∈ sides :: rest, e.node.text = sd.2.1 ∨ e.node.text = sd.2.2 := by
      intro b c w h
      rcases connect_leaves_nodes_refs parent_node nn rest b c w e h hr with h1 | ⟨sd, hsd, h1⟩
      · exact Or.inl h1
      · exact Or.inr ⟨sd, List.mem_cons_of_mem _ hsd, h1⟩
    by_cases hw : sides.1 ∈ wn
    · simp only [connect_leaves_nodes, hw, if_true, List.mem_append] at he
      rcases he with he | he
      · simp only [List.mem_cons, List.mem_singleton, List.not_mem_nil, or_false] at he
        rcases he with h | h | h | h | h | h | h <;> subst h
        · simp [Lnast_node.create_attr_get] at hr
        · exact Or.inl ⟨_, rfl⟩
        · exact Or.inr ⟨sides, List.mem_cons_self _ _, Or.inr rfl⟩
        · simp [Lnast_node.create_const] at hr
        · simp [Lnast_node.create_assign] at hr
        · exact Or.inr ⟨sides, List.mem_cons_self _ _, Or.inl rfl⟩
        · exact Or.inl ⟨_, rfl⟩
      · exact hrest _ _ _ he
    · by_cases hk : known_source wn sides.2.2
      · simp only [connect_leaves_nodes, hw, hk, if_true, if_false, List.mem_append] at he
        rcases he with he | he
        · simp only [List.mem_cons, List.mem_singleton, List.not_mem_nil, or_false] at he
          rcases he with h | h | h <;> subst h
          · simp [Lnast_node.create_assign] at hr
          · exact Or.inr ⟨sides, List.mem_cons_self _ _, Or.inl rfl⟩
          · refine Or.inr ⟨sides, List.mem_cons_self _ _, Or.inr ?_⟩
            simp only [operand_node]
            split
            · rfl
            · split <;> rfl
        · exact hrest _ _ _ he
      · simp only [connect_leaves_nodes, hw, hk, if_false, Bool.false_eq_true] at he
        exact hrest _ _ _ he

/-- C4 (amended): a connect `l <= r` between two declared aggregates (wires, ports or
registers: dot-free heads that are no scalar register, memory port or instance), where the
flip-table set fetched for `l` holds the leaves `l.p` for `(p, is_flipped)` in `rs`, emits
exactly one assign for every leaf whose source is known when the leaf is handled, and
nothing for the other leaves: for each name `x`, the number of assign nodes of the tree with
left side `x` grows by the number of connected leaves whose destination is `x`.  The
destination of a leaf is the flattened leaf of `l` when its accumulated flip is false and
the flattened same-path leaf of `r` when it is true (the two sides are exchanged once more
when that name is a module input).  When the source of every leaf is known in the unit
(the source aggregate is a declared wire, or the source leaf is a port leaf or the q-pin
of a register leaf), every leaf of `rs` is connected. -/
theorem connect_leaf_assigns (op2firsub : List (PrimOp_Op × String)) (s : Env)
    (parent_node : Nat) (l r : String) (rs : List (String × Bool))
    (hl : connect_head_ok s l = true) (hr : connect_head_ok s r = true)
    (hset : (Inou_firrtl_module.wire_connection_sets s l).1
      = rs.map (fun leaf => (l ++ "." ++ leaf.1, leaf.2)))
    (hflat : rs.all (connect_leaf_flat s l r) = true)
    (hclosed : s.lnast.closed = true)
    (hty : s.lnast.node_at parent_node = some Lnast_node.create_stmts) :
    ∃ s', Inou_firrtl_module.list_statement_info op2firsub
        (.kConnect (.kReference l) (.kReference r)) parent_node s = .ok s' ∧
      (∀ x, s'.lnast.assigns_to x = s.lnast.assigns_to x +
        ((connected_leaves s.firmod.tmp_var_cnt s.firmod.wire_names
          (rs.map (connect_leaf_sides s l r))).map (·.2.1)).count x) ∧
      (rs.all (connect_leaf_known s l r) = true →
        ∀ x, s'.lnast.assigns_to x = s.lnast.assigns_to x +
          (rs.map (fun leaf => (connect_leaf_sides s l r leaf).2.1)).count x) := by
  obtain ⟨s', h', hn'⟩ := Inou_firrtl_module.connect_aggregates_nodes op2firsub s parent_node
    l r rs hl hr hset (fun leaf hm => (List.all_eq_true.1 hflat) leaf hm)
  obtain ⟨hlt, hnt⟩ := Lnast.not_assign_of_stmts s.lnast parent_node hty
  have hcount : ∀ x, s'.lnast.assigns_to x = s.lnast.assigns_to x +
      ((connected_leaves s.firmod.tmp_var_cnt s.firmod.wire_names
        (rs.map (connect_leaf_sides s l r))).map (·.2.1)).count x := by
    intro x
    have h1 := Lnast.assigns_to_connect_leaves s.lnast.top_module_name parent_node
      s.firmod.node_names x (rs.map (connect_leaf_sides s l r)) s.lnast.nodes
      s.firmod.tmp_var_cnt s.firmod.wire_names (Lnast.parents_below_of_closed _ hclosed)
      hlt hnt
    rw [Lnast.assigns_to_congr ⟨s.lnast.top_module_name, s.lnast.nodes ++
      connect_leaves_nodes parent_node s.firmod.node_names s.lnast.nodes.length
        s.firmod.tmp_var_cnt s.firmod.wire_names (rs.map (connect_leaf_sides s l r))⟩
      s'.lnast x hn', h1]
  refine ⟨s', h', hcount, fun hk x => ?_⟩
  rw [hcount x, connected_leaves_all, List.map_map]
  · rfl
  · intro sides hs
    obtain ⟨leaf, hleaf, rfl⟩ := List.mem_map.1 hs
    have := (List.all_eq_true.1 hk) leaf hleaf
    simpa only [connect_leaf_known, Bool.or_eq_true, decide_eq_true_eq] using this

/-- C5 (amended): a partial connect `l <- r` between two declared aggregates (wires, ports
or registers), where the flip-table set fetched for `l` holds the leaves `l.p` for
`(p, is_flipped)` in `rs` (the right aggregate may hold more), emits nodes for the leaves
of `l` only: per leaf either an attribute-get and an assign, or one assign, or nothing
when the source is not known.  A leaf whose accumulated flip is false is assigned from the
same-path leaf of `r`; a leaf whose flip is true is read and assigned to the same-path
leaf of `r`.  Every reference emitted is a fresh temporary or the flattened destination or
source on the path of a leaf of `l`, so no leaf that `r` alone has is read or written. -/
theorem partial_connect_leaves (op2firsub : List (PrimOp_Op × String)) (s : Env)
    (parent_node : Nat) (l r : String) (rs : List (String × Bool))
    (hl : connect_head_ok s l = true) (hr : connect_head_ok s r = true)
    (hset : (Inou_firrtl_module.wire_connection_sets s l).1
      = rs.map (fun leaf => (l ++ "." ++ leaf.1, leaf.2)))
    (hflat : rs.all (connect_leaf_flat s l r) = true) :
    ∃ s', Inou_firrtl_module.list_statement_info op2firsub
        (.kPartialConnect (.kReference l) (.kReference r)) parent_node s = .ok s' ∧
      s'.lnast.nodes = s.lnast.nodes ++
        connect_leaves_nodes parent_node s.firmod.node_names s.lnast.nodes.length
          s.firmod.tmp_var_cnt s.firmod.wire_names (rs.map (connect_leaf_sides s l r)) ∧
      ∀ e ∈ s'.lnast.nodes.drop s.lnast.nodes.length, e.node.type = .ref →
        (∃ k, e.node.text = "___F" ++ Str.of_nat k) ∨
        ∃ leaf ∈ rs, e.node.text = (connect_leaf_sides s l r leaf).2.1 ∨
          e.node.text = (connect_leaf_sides s l r leaf).2.2 := by
  obtain ⟨s', h', hn'⟩ := Inou_firrtl_module.connect_aggregates_nodes op2firsub s parent_node
    l r rs hl hr hset (fun leaf hm => (List.all_eq_true.1 hflat) leaf hm)
  refine ⟨s', h', hn', ?_⟩
  rw [hn', List.drop_left]
  intro e he hr
  rcases connect_leaves_nodes_refs parent_node s.firmod.node_names _ _ _ _ e he hr with
    h1 | ⟨sides, hs, h1⟩
  · exact Or.inl h1
  · obtain ⟨leaf, hleaf, rfl⟩ := List.mem_map.1 hs
    exact Or.inr ⟨leaf, hleaf, h1⟩
/-- Witness of C4 in module `M` of `connect_kinds_module`: the connect `out <= w` of an
output port and a wire of type `{a, flip b}` (the destinations are `%out_a` and `w_b`),
and the connect `x <= r` of a wire and a register of type `{a, b}` (the destinations are
`x_a` and `x_b`, assigned from the q-pins of the register). -/
theorem connect_leaf_assigns_witness :
    ([("a", false), ("b", true)].map (connect_leaf_sides connect_kinds_env "out" "w")
        = [("w", "%out_a", "w_a"), ("$out", "w_b", "$out_b")] ∧
      ∃ s', Inou_firrtl_module.list_statement_info []
          (.kConnect (.kReference "out") (.kReference "w")) 1 connect_kinds_env = .ok s' ∧
        ∀ x, s'.lnast.assigns_to x = connect_kinds_env.lnast.assigns_to x +
          ([("a", false), ("b", true)].map
            (fun leaf => (connect_leaf_sides connect_kinds_env "out" "w" leaf).2.1)).count x) ∧
    ([("a", false), ("b", false)].map (connect_leaf_sides connect_kinds_env "x" "r")
        = [("r", "x_a", "_#_r_a_q"), ("r", "x_b", "_#_r_b_q")] ∧
      ∃ s', Inou_firrtl_module.list_statement_info []
          (.kConnect (.kReference "x") (.kReference "r")) 1 connect_kinds_env = .ok s' ∧
        ∀ x, s'.lnast.assigns_to x = connect_kinds_env.lnast.assigns_to x +
          ([("a", false), ("b", false)].map
            (fun leaf => (connect_leaf_sides connect_kinds_env "x" "r" leaf).2.1)).count x) := by
  refine ⟨⟨by decide!, ?_⟩, ⟨by decide!, ?_⟩⟩
  · obtain ⟨s', h1, _, h3⟩ := connect_leaf_assigns [] connect_kinds_env 1 "out" "w"
      [("a", false), ("b", true)] (by decide!) (by decide!) (by decide!) (by decide!)
      (by decide!) (by decide!)
    exact ⟨s', h1, h3 (by decide!)⟩
  · obtain ⟨s', h1, _, h3⟩ := connect_leaf_assigns [] connect_kinds_env 1 "x" "r"
      [("a", false), ("b", false)] (by decide!) (by decide!) (by decide!) (by decide!)
      (by decide!) (by decide!)
    exact ⟨s', h1, h3 (by decide!)⟩
/-- Witness of C5 in module `M` of `connect_kinds_module`, at the partial connect
`out <- v` of the output port `out : {a, flip b}` and the wider wire
`v : {a, flip b, c}`: `%out_a` is assigned the latest value of `v_a`, `v_b` is assigned
`$out_b`, and `v_c` is not named. -/
theorem partial_connect_leaves_witness :
    ∃ s', Inou_firrtl_module.list_statement_info []
        (.kPartialConnect (.kReference "out") (.kReference "v")) 1 connect_kinds_env
          = .ok s' ∧
      s'.lnast.nodes = connect_kinds_env.lnast.nodes ++
        connect_leaves_nodes 1 connect_kinds_env.firmod.node_names
          connect_kinds_env.lnast.nodes.length connect_kinds_env.firmod.tmp_var_cnt
          connect_kinds_env.firmod.wire_names
          ([("a", false), ("b", true)].map (connect_leaf_sides connect_kinds_env "out" "v")) ∧
      connect_leaves_nodes 1 connect_kinds_env.firmod.node_names
          connect_kinds_env.lnast.nodes.length connect_kinds_env.firmod.tmp_var_cnt
          connect_kinds_env.firmod.wire_names
          ([("a", false), ("b", true)].map (connect_leaf_sides connect_kinds_env "out" "v"))
        = [⟨Lnast_node.create_attr_get, some 1⟩, ⟨Lnast_node.create_ref "___F3", some 81⟩,
           ⟨Lnast_node.create_ref "v_a", some 81⟩,
           ⟨Lnast_node.create_const "__last_value", some 81⟩,
           ⟨Lnast_node.create_assign, some 1⟩, ⟨Lnast_node.create_ref "%out_a", some 85⟩,
           ⟨Lnast_node.create_ref "___F3", some 85⟩,
           ⟨Lnast_node.create_assign, some 1⟩, ⟨Lnast_node.create_ref "v_b", some 88⟩,
           ⟨Lnast_node.create_ref "$out_b", some 88⟩] ∧
      ∀ e ∈ s'.lnast.nodes.drop connect_kinds_env.lnast.nodes.length,
        e.node.type = .ref →
        (∃ k, e.node.text = "___F" ++ Str.of_nat k) ∨
        ∃ leaf ∈ [("a", false), ("b", true)],
          e.node.text = (connect_leaf_sides connect_kinds_env "out" "v" leaf).2.1 ∨
          e.node.text = (connect_leaf_sides connect_kinds_env "out" "v" leaf).2.2 := by
  obtain ⟨s', h1, h2, h3⟩ := partial_connect_leaves [] connect_kinds_env 1 "out" "v"
    [("a", false), ("b", true)] (by decide!) (by decide!) (by decide!) (by decide!)
  exact ⟨s', h1, h2, by decide!, h3⟩

/-- In module `M` of `connect_kinds_module`, the connect `w <= out` that reads the output
port `out : {a, flip b}` emits nodes for the flipped leaf only (`%out_b` is assigned the
latest value of `w_b`): the source of the leaf `a` is sought under the name `$out_a`,
which is not a known name, and the leaf is skipped. -/
theorem connect_unknown_source_skipped :
    (Inou_firrtl_module.list_statement_info []
        (.kConnect (.kReference "w") (.kReference "out")) 1 connect_kinds_env).map
      (fun s => s.lnast.nodes.drop connect_kinds_env.lnast.nodes.length)
      = .ok [⟨Lnast_node.create_attr_get, some 1⟩, ⟨Lnast_node.create_ref "___F3", some 81⟩,
             ⟨Lnast_node.create_ref "w_b", some 81⟩,
             ⟨Lnast_node.create_const "__last_value", some 81⟩,
             ⟨Lnast_node.create_assign, some 1⟩, ⟨Lnast_node.create_ref "%out_b", some 85⟩,
             ⟨Lnast_node.create_ref "___F3", some 85⟩] ∧
    [("a", false), ("b", true)].map (connect_leaf_known connect_kinds_env "w" "out")
      = [false, true] := by
  refine ⟨by decide!, by decide!⟩

theorem connect_kinds_env_declared :
    Inou_firrtl.single_module_to_lnast [] connect_kinds_module = .ok connect_kinds_env := by
  decide!
